import Mathlib

/-!
# Teem `nrrd/simple.c`: metadata validation and derived geometry

A shallow embedding of the validation and derivation routines of
`src/nrrd/simple.c` together with machine-checked statements about them.

Conventions of the embedding:

* A C `double` is an IEEE 754 binary64 number and a `Dbl` is its value: NaN,
  one of the two infinities, or the rational number it denotes.  Arithmetic
  rounds the exact result to the nearest binary64 number, ties to even, with
  gradual underflow and overflow to the infinities (`Dbl.round`); every
  operation is rounded to `double` on its own.  `+0.0` and `-0.0` denote the
  same number and are the one value `fin 0`: `simple.c` compares, adds and
  subtracts doubles and divides them only by a converted `size_t` and by the
  constant 2, and none of these tells the two zeros apart in the value of
  its result.
* The array bounds `NRRD_DIM_MAX` and `NRRD_SPACE_DIM_MAX` (declared in
  `nrrdDefines.h`) are the parameters `DM` and `SM`; fixed-size C arrays are
  functions on `Fin DM` / `Fin SM`, and a read at an index computed at run time
  goes through `rd`, which yields `none` outside the array.
* A validator returns a `Res`: `pass` (C return value 0), `fail e` (C return
  value 1, `e` identifying the message handed to the error sink), or `stuck`
  (the C call has no defined return value: an out-of-bounds access or the
  `exit(1)` of `nrrdSpaceDimension`).
* The `useBiff` argument only selects whether the message is recorded; it has
  no influence on any return value and is not a parameter of the embedding.
* Values of type `unsigned int` and `size_t` are natural numbers; where the
  code computes with them modulo the word size (`size-1`, the size product)
  the width `w` of `size_t` is a parameter.
* A function that writes to its argument returns its C return value together
  with the object after the call; an absent result stands for a call that does
  not return.
* The static latch of `nrrdSanity` is an explicit state, and the constants,
  tables and host properties it reads from outside `src/` are the fields of
  the parameter `Build`.
* The error sink of `biff` appears only in `nrrdCheck`, as the list of the
  errors recorded so far; no function of `simple.c` reads it.
-/

namespace Teem

/-! ## Doubles -/

/-- The value of a C `double`: NaN, an infinity, or the rational number that a
finite binary64 number denotes (both zeros denote 0). -/
inductive Dbl where
  | nan : Dbl
  | pinf : Dbl
  | ninf : Dbl
  | fin (q : ℚ) : Dbl
deriving DecidableEq

/-- Modelled from the spec: the constant `AIR_NAN` of `air.h` (not under
`src/`), the not-a-number sentinel. -/
def AIR_NAN : Dbl := Dbl.nan

/-- Modelled from the spec: the macro `AIR_EXISTS` of `air.h` (not under
`src/`): a value "exists" when it is an ordinary finite number, that is neither
the not-a-number sentinel nor an infinity. -/
def AIR_EXISTS : Dbl → Bool
  | Dbl.fin _ => true
  | _ => false

/-- Modelled from the spec: `airIsInf_d` of `air` (not under `src/`): `1` for
`+inf`, `-1` for `-inf`, `0` for everything else. -/
def airIsInf_d : Dbl → Int
  | Dbl.pinf => 1
  | Dbl.ninf => -1
  | _ => 0

/-- Modelled from the spec: `airIsNaN` of `air` (not under `src/`): non-zero
exactly on the not-a-number sentinel. -/
def airIsNaN : Dbl → Int
  | Dbl.nan => 1
  | _ => 0

/-- The integer nearest to `x`; of two nearest integers, the even one. -/
def roundHalfEven (x : ℚ) : ℤ :=
  if x - ⌊x⌋ < 1 / 2 then ⌊x⌋
  else if 1 / 2 < x - ⌊x⌋ then ⌊x⌋ + 1
  else if ⌊x⌋ % 2 = 0 then ⌊x⌋ else ⌊x⌋ + 1

/-- The exponent of the unit in the last place of binary64 at `q`: 52 below the
binary exponent of `q` (53 significant bits), and `-1074` throughout the
subnormal range. -/
def ulpExp (q : ℚ) : ℤ := max (Int.log 2 |q| - 52) (-1074)

namespace Dbl

/-- Rounding of an exact result to binary64, to nearest with ties to even: the
magnitude is rounded to a multiple of the unit in the last place, and a
rounded magnitude of `2^1024` or more is the infinity of the same sign. -/
def round (q : ℚ) : Dbl :=
  if 2 ^ (1024 : ℤ) ≤ (roundHalfEven (|q| / 2 ^ ulpExp q) : ℚ) * 2 ^ ulpExp q then
    (if 0 < q then pinf else ninf)
  else fin (if 0 < q then (roundHalfEven (|q| / 2 ^ ulpExp q) : ℚ) * 2 ^ ulpExp q
    else -((roundHalfEven (|q| / 2 ^ ulpExp q) : ℚ) * 2 ^ ulpExp q))

/-- A `Dbl` that is the value of some `double`: NaN, an infinity, or a rational
that rounding leaves as it is. -/
def IsDouble : Dbl → Prop
  | fin q => round q = fin q
  | _ => True

instance (x : Dbl) : Decidable (IsDouble x) := by
  cases x <;> unfold IsDouble <;> infer_instance

/-- Conversion of an unsigned integer to `double`. -/
def ofNat (n : Nat) : Dbl := round (n : ℚ)

/-- Unary minus. -/
def neg : Dbl → Dbl
  | nan => nan
  | pinf => ninf
  | ninf => pinf
  | fin q => fin (-q)

/-- The C operator `+` on doubles. -/
def add : Dbl → Dbl → Dbl
  | nan, _ => nan
  | _, nan => nan
  | pinf, ninf => nan
  | ninf, pinf => nan
  | pinf, _ => pinf
  | ninf, _ => ninf
  | fin _, pinf => pinf
  | fin _, ninf => ninf
  | fin a, fin b => round (a + b)

/-- The C operator `-` on doubles. -/
def sub (a b : Dbl) : Dbl := add a (neg b)

/-- The C operator `/` with a `double` dividend and a divisor that is a
non-negative integer (`x / size` with `size` a `size_t`, `x / 2`): the divisor
is converted to `double`, so that a divisor 0 is `+0.0`, and a non-zero
dividend over it is the infinity of the dividend's sign. -/
def divNat (a : Dbl) (n : Nat) : Dbl :=
  match a, ofNat n with
  | nan, _ => nan
  | _, nan => nan
  | fin x, fin c =>
    if c = 0 then (if x = 0 then nan else if 0 < x then pinf else ninf)
    else round (x / c)
  | fin _, _ => fin 0
  | pinf, fin _ => pinf
  | ninf, fin _ => ninf
  | _, _ => nan

/-- The C test `0 != x`: true on NaN, on the infinities and on every non-zero
finite value. -/
def neZero : Dbl → Bool
  | fin q => decide (q ≠ 0)
  | _ => true

/-- The C test `0 <= x`: false on NaN. -/
def zeroLe : Dbl → Bool
  | fin q => decide (0 ≤ q)
  | pinf => true
  | _ => false

end Dbl

/-! ## Enumerations (declared in `nrrdEnums.h` and `air.h`) -/

/-- Modelled from the spec: an `airEnum` of `air` (not under `src/`), reduced to
what validation needs: the valid values are `1 .. M`, and `0` is "unknown". -/
structure airEnum where
  M : Nat

/-- Modelled from the spec: `airEnumValCheck` of `air` (not under `src/`):
`0` when the value is a valid one of the enumeration, `1` otherwise. -/
def airEnumValCheck (enm : airEnum) (val : Int) : Int :=
  if 1 ≤ val ∧ val ≤ (enm.M : Int) then 0 else 1

/-! The `nrrdSpace*` enum of `nrrdEnums.h` (not under `src/`): `unknown`, twelve
labels (six pure spatial ones of dimension 3, six with time of dimension 4), and
the `Last` sentinel. -/

/-- Modelled from the spec: `nrrdSpaceUnknown` of the `nrrdSpace*` enum, the label is not set. -/
def nrrdSpaceUnknown : Int := 0

/-- Modelled from the spec: `nrrdSpaceRightAnteriorSuperior` of the `nrrdSpace*` enum, a pure spatial label. -/
def nrrdSpaceRightAnteriorSuperior : Int := 1

/-- Modelled from the spec: `nrrdSpaceLeftAnteriorSuperior` of the `nrrdSpace*` enum, a pure spatial label. -/
def nrrdSpaceLeftAnteriorSuperior : Int := 2

/-- Modelled from the spec: `nrrdSpaceLeftPosteriorSuperior` of the `nrrdSpace*` enum, a pure spatial label. -/
def nrrdSpaceLeftPosteriorSuperior : Int := 3

/-- Modelled from the spec: `nrrdSpaceRightAnteriorSuperiorTime` of the `nrrdSpace*` enum, a label with time. -/
def nrrdSpaceRightAnteriorSuperiorTime : Int := 4

/-- Modelled from the spec: `nrrdSpaceLeftAnteriorSuperiorTime` of the `nrrdSpace*` enum, a label with time. -/
def nrrdSpaceLeftAnteriorSuperiorTime : Int := 5

/-- Modelled from the spec: `nrrdSpaceLeftPosteriorSuperiorTime` of the `nrrdSpace*` enum, a label with time. -/
def nrrdSpaceLeftPosteriorSuperiorTime : Int := 6

/-- Modelled from the spec: `nrrdSpaceScannerXYZ` of the `nrrdSpace*` enum, a pure spatial label. -/
def nrrdSpaceScannerXYZ : Int := 7

/-- Modelled from the spec: `nrrdSpaceScannerXYZTime` of the `nrrdSpace*` enum, a label with time. -/
def nrrdSpaceScannerXYZTime : Int := 8

/-- Modelled from the spec: `nrrdSpace3DRightHanded` of the `nrrdSpace*` enum, a pure spatial label. -/
def nrrdSpace3DRightHanded : Int := 9

/-- Modelled from the spec: `nrrdSpace3DLeftHanded` of the `nrrdSpace*` enum, a pure spatial label. -/
def nrrdSpace3DLeftHanded : Int := 10

/-- Modelled from the spec: `nrrdSpace3DRightHandedTime` of the `nrrdSpace*` enum, a label with time. -/
def nrrdSpace3DRightHandedTime : Int := 11

/-- Modelled from the spec: `nrrdSpace3DLeftHandedTime` of the `nrrdSpace*` enum, a label with time. -/
def nrrdSpace3DLeftHandedTime : Int := 12

/-- Modelled from the spec: `nrrdSpaceLast` of the `nrrdSpace*` enum, one more than the last label. -/
def nrrdSpaceLast : Int := 13

/-- Modelled from the spec: the `airEnum` object `nrrdSpace`. -/
def nrrdSpace : airEnum := ⟨12⟩

/-- Modelled from the spec: `nrrdTypeUnknown` of the `nrrdType*` enum of
`nrrdEnums.h` (not under `src/`). -/
def nrrdTypeUnknown : Int := 0

/-- Modelled from the spec: `nrrdTypeBlock`, the opaque block type; it follows
the ten numeric types `1 .. 10`. -/
def nrrdTypeBlock : Int := 11

/-- Modelled from the spec: `nrrdTypeLast`, one more than the last type. -/
def nrrdTypeLast : Int := 12

/-- Modelled from the spec: the `airEnum` object `nrrdType`. -/
def nrrdType : airEnum := ⟨11⟩

/-- Modelled from the spec: `nrrdCenterUnknown` of the `nrrdCenter*` enum of
`nrrdEnums.h` (not under `src/`): the axis has no centering of its own. -/
def nrrdCenterUnknown : Int := 0

/-- Modelled from the spec: `nrrdCenterNode`, node-centered sampling. -/
def nrrdCenterNode : Int := 1

/-- Modelled from the spec: `nrrdCenterCell`, cell-centered sampling. -/
def nrrdCenterCell : Int := 2

/-- Modelled from the spec: `nrrdCenterLast`, one more than the last
centering. -/
def nrrdCenterLast : Int := 3

/-- Modelled from the spec: the `airEnum` object `nrrdCenter`. -/
def nrrdCenter : airEnum := ⟨2⟩

/-- Modelled from the spec: `nrrdKindUnknown` of `nrrdEnums.h`. -/
def nrrdKindUnknown : Int := 0

/-- Modelled from the spec: `nrrdField_unknown` of the `nrrdField_*` enum of
`nrrdEnums.h` (not under `src/`), the first field identifier. -/
def nrrdField_unknown : Nat := 0

/-- Modelled from the spec: `nrrdField_last` of the `nrrdField_*` enum.  The
dispatch table `_nrrdFieldCheck` has `NRRD_FIELD_MAX+1` entries and its
initialiser lists 33, and `_nrrdCheckEnums` requires
`nrrdField_last-1 == NRRD_FIELD_MAX`. -/
def nrrdField_last : Nat := 33

/-- The tables about axis kinds that `simple.c` uses and that are not under
`src/`, taken as parameters: the `airEnum` object `nrrdKind` and the function
`nrrdKindSize`. -/
structure Tables where
  nrrdKind : airEnum
  nrrdKindSize : Int → Nat

/-- Modelled from the spec: `airStrlen` of `air` (not under `src/`): length of
a string, `0` for the null pointer. -/
def airStrlen : Option String → Nat
  | none => 0
  | some s => s.length

/-! ## Data model (`Nrrd` and `NrrdAxisInfo` of `nrrd.h`) -/

/-- Modelled from the spec: the per-axis record `NrrdAxisInfo` of `nrrd.h` (not
under `src/`), with the fields `simple.c` reads. -/
structure NrrdAxisInfo (SM : Nat) where
  size : Nat
  spacing : Dbl
  thickness : Dbl
  min : Dbl
  max : Dbl
  spaceDirection : Fin SM → Dbl
  center : Int
  kind : Int
  label : Option String
  units : Option String

/-- Modelled from the spec: the array metadata object `Nrrd` of `nrrd.h` (not
under `src/`), with the fields `simple.c` reads or writes; `data` records
whether the data pointer is non-null. -/
structure Nrrd (DM SM : Nat) where
  data : Bool
  type : Int
  dim : Nat
  axis : Fin DM → NrrdAxisInfo SM
  content : Option String
  blockSize : Nat
  oldMin : Dbl
  oldMax : Dbl
  space : Int
  spaceDim : Nat
  spaceUnits : Fin SM → Option String
  spaceOrigin : Fin SM → Dbl
  measurementFrame : Fin SM → Fin SM → Dbl

/-- Read of a fixed-size C array at a run-time index. -/
def rd {α : Type} {N : Nat} (a : Fin N → α) (i : Nat) : Option α :=
  if h : i < N then some (a ⟨i, h⟩) else none

/-- All-or-nothing map: the list of results, or `none` as soon as one element
has no result. -/
def mapOpt {α β : Type} (f : α → Option β) : List α → Option (List β)
  | [] => some []
  | a :: t =>
    match f a with
    | none => none
    | some b => (mapOpt f t).map (fun bs => b :: bs)

/-! ## Outcomes of a check -/

/-- The message a failing check hands to the error sink. -/
inductive NrrdErr where
  | nullPointer
  | nullData
  | spaceInvalid
  | spaceDimRange
  | spaceDimMismatch
  | originExistence (ii : Nat)
  | frameExistence (dd ii : Nat)
  | directionExistence (dd ii : Nat)
  | directionExclusive (dd : Nat)
  | spaceNoDim
  | spaceUnitsNoDim
  | spaceOriginNoDim
  | spaceDirectionsNoDim
  | typeInvalid
  | blockSizeInvalid
  | blockSizeNotBlock
  | dimensionRange
  | sizeZero (ai : Nat)
  | sizeOverflow
  | spacing (ai : Nat)
  | thickness (ai : Nat)
  | axisMin (ai : Nat)
  | axisMax (ai : Nat)
  | center (ai : Nat)
  | kind (ai : Nat)
  | kindSize (ai : Nat)
  | oldMin
  | oldMax
  | field (fi : Nat)
deriving DecidableEq

/-- Outcome of a validator. -/
inductive Res where
  | pass : Res
  | fail (e : NrrdErr) : Res
  | stuck : Res
deriving DecidableEq

namespace Res

/-- The C return value: `0`, `1`, or none. -/
def code : Res → Option Int
  | pass => some 0
  | fail _ => some 1
  | stuck => none

/-- Sequencing of two checks: the second runs only if the first passed. -/
def andThen (r k : Res) : Res :=
  match r with
  | pass => k
  | other => other

/-- Continue with the value of an array read; no value, no defined behaviour. -/
def read {α : Type} (o : Option α) (k : α → Res) : Res :=
  match o with
  | some x => k x
  | none => stuck

/-- A chain of checks, run left to right up to the first that does not pass. -/
def seq : List Res → Res
  | [] => pass
  | r :: rs => andThen r (seq rs)

end Res

/-- A `for` loop whose body may return early: the indices are visited in list
order and the first outcome that is not `pass` ends the loop. -/
def forEach (l : List Nat) (body : Nat → Res) : Res :=
  match l with
  | [] => Res.pass
  | i :: t => Res.andThen (body i) (forEach t body)

/-! ## `nrrdSpaceDimension` (simple.c, lines 40-72) -/

/-- Expected dimension of a space label, `0` if there is none; `none` stands
for the `default:` branch, which prints a PANIC message and calls `exit(1)`. -/
def nrrdSpaceDimension (space : Int) : Option Nat :=
  if ¬ (nrrdSpaceUnknown < space ∧ space < nrrdSpaceLast) then some 0
  else if space = nrrdSpaceRightAnteriorSuperior
      ∨ space = nrrdSpaceLeftAnteriorSuperior
      ∨ space = nrrdSpaceLeftPosteriorSuperior
      ∨ space = nrrdSpaceScannerXYZ
      ∨ space = nrrdSpace3DRightHanded
      ∨ space = nrrdSpace3DLeftHanded then some 3
  else if space = nrrdSpaceRightAnteriorSuperiorTime
      ∨ space = nrrdSpaceLeftAnteriorSuperiorTime
      ∨ space = nrrdSpaceLeftPosteriorSuperiorTime
      ∨ space = nrrdSpaceScannerXYZTime
      ∨ space = nrrdSpace3DRightHandedTime
      ∨ space = nrrdSpace3DLeftHandedTime then some 4
  else none

/-! ## `_nrrdFieldCheckSpaceInfo` (simple.c, lines 564-670) -/

section SpaceInfo

variable {DM SM : Nat}

/-- Lines 581-588: the label, when set, fixes the space dimension. -/
def spaceInfoLabel (nrrd : Nrrd DM SM) : Res :=
  if nrrd.space ≠ 0 then
    Res.read (nrrdSpaceDimension nrrd.space) fun sd =>
      if sd ≠ nrrd.spaceDim then Res.fail NrrdErr.spaceDimMismatch else Res.pass
  else Res.pass

/-- Lines 589-597: every coefficient of `spaceOrigin` below `spaceDim` exists
exactly when coefficient 0 does. -/
def spaceInfoOrigin (nrrd : Nrrd DM SM) : Res :=
  Res.read (rd nrrd.spaceOrigin 0) fun o0 =>
    forEach (List.range nrrd.spaceDim) fun ii =>
      Res.read (rd nrrd.spaceOrigin ii) fun oi =>
        if xor (AIR_EXISTS o0) (AIR_EXISTS oi) = true
        then Res.fail (NrrdErr.originExistence ii) else Res.pass

/-- Lines 598-609: every coefficient of the leading `spaceDim` by `spaceDim`
block of `measurementFrame` exists exactly when coefficient `[0][0]` does. -/
def spaceInfoFrame (nrrd : Nrrd DM SM) : Res :=
  Res.read (rd nrrd.measurementFrame 0) fun row0 =>
  Res.read (rd row0 0) fun m00 =>
    forEach (List.range nrrd.spaceDim) fun dd =>
      forEach (List.range nrrd.spaceDim) fun ii =>
        Res.read (rd nrrd.measurementFrame dd) fun row =>
        Res.read (rd row ii) fun m =>
          if xor (AIR_EXISTS m00) (AIR_EXISTS m) = true
          then Res.fail (NrrdErr.frameExistence dd ii) else Res.pass

/-- Lines 612-630: the body of the loop over the declared axes. -/
def spaceInfoAxis (nrrd : Nrrd DM SM) (dd : Nat) : Res :=
  Res.read (rd nrrd.axis dd) fun ax =>
  Res.read (rd ax.spaceDirection 0) fun d0 =>
    Res.andThen
      (forEach (List.range' 1 (nrrd.spaceDim - 1)) fun ii =>
        Res.read (rd ax.spaceDirection ii) fun di =>
          if xor (AIR_EXISTS d0) (AIR_EXISTS di) = true
          then Res.fail (NrrdErr.directionExistence dd ii) else Res.pass)
      (if AIR_EXISTS d0 = true then
        (if AIR_EXISTS ax.min = true ∨ AIR_EXISTS ax.max = true
            ∨ AIR_EXISTS ax.spacing = true ∨ airStrlen ax.units ≠ 0
         then Res.fail (NrrdErr.directionExclusive dd) else Res.pass)
       else Res.pass)

/-- Lines 610-631: the loop over the declared axes. -/
def spaceInfoDirections (nrrd : Nrrd DM SM) : Res :=
  forEach (List.range nrrd.dim) (spaceInfoAxis nrrd)

/-- Lines 640-647: with `spaceDim` 0, is any space unit set?  The loop
accumulates `exists |= airStrlen(..)`; string lengths are taken to fit `int`, so
the accumulated value is non-zero exactly when some length is. -/
def spaceInfoAnyUnits (nrrd : Nrrd DM SM) : Bool :=
  (List.finRange SM).foldl
    (fun ex dd => ex || decide (airStrlen (nrrd.spaceUnits dd) ≠ 0)) false

/-- Lines 649-656: with `spaceDim` 0, does any origin coefficient exist? -/
def spaceInfoAnyOrigin (nrrd : Nrrd DM SM) : Bool :=
  (List.finRange SM).foldl
    (fun ex dd => ex || AIR_EXISTS (nrrd.spaceOrigin dd)) false

/-- Lines 658-667: with `spaceDim` 0, does any direction coefficient of any of
the `NRRD_DIM_MAX` axis slots exist? -/
def spaceInfoAnyDirection (nrrd : Nrrd DM SM) : Bool :=
  (List.finRange SM).foldl
    (fun ex dd => (List.finRange DM).foldl
      (fun ex2 ii => ex2 || AIR_EXISTS ((nrrd.axis ii).spaceDirection dd)) ex) false

/-- The consistency checker for orientation information. -/
def _nrrdFieldCheckSpaceInfo (nrrd : Nrrd DM SM) : Res :=
  if ¬ (nrrd.space = 0 ∨ airEnumValCheck nrrdSpace nrrd.space = 0) then
    Res.fail NrrdErr.spaceInvalid
  else if ¬ (nrrd.spaceDim ≤ SM) then
    Res.fail NrrdErr.spaceDimRange
  else if nrrd.spaceDim ≠ 0 then
    Res.seq [spaceInfoLabel nrrd, spaceInfoOrigin nrrd, spaceInfoFrame nrrd,
      spaceInfoDirections nrrd]
  else
    if nrrd.space ≠ 0 then Res.fail NrrdErr.spaceNoDim
    else if spaceInfoAnyUnits nrrd = true then Res.fail NrrdErr.spaceUnitsNoDim
    else if spaceInfoAnyOrigin nrrd = true then Res.fail NrrdErr.spaceOriginNoDim
    else if spaceInfoAnyDirection nrrd = true then
      Res.fail NrrdErr.spaceDirectionsNoDim
    else Res.pass

end SpaceInfo

/-! ## Per-field checks (simple.c, lines 683-1008) -/

section FieldChecks

variable {DM SM : Nat}

/-- Lines 683-689. -/
def _nrrdFieldCheck_noop (_nrrd : Nrrd DM SM) : Res := Res.pass

/-- Lines 691-700. -/
def _nrrdFieldCheck_type (nrrd : Nrrd DM SM) : Res :=
  if airEnumValCheck nrrdType nrrd.type ≠ 0 then Res.fail NrrdErr.typeInvalid
  else Res.pass

/-- Lines 702-720. -/
def _nrrdFieldCheck_block_size (nrrd : Nrrd DM SM) : Res :=
  if nrrdTypeBlock = nrrd.type ∧ ¬ (0 < nrrd.blockSize) then
    Res.fail NrrdErr.blockSizeInvalid
  else if nrrdTypeBlock ≠ nrrd.type ∧ 0 < nrrd.blockSize then
    Res.fail NrrdErr.blockSizeNotBlock
  else Res.pass

/-- Lines 722-732; `AIR_IN_CL(1, dim, NRRD_DIM_MAX)` is the closed-interval
test. -/
def _nrrdFieldCheck_dimension (nrrd : Nrrd DM SM) : Res :=
  if ¬ (1 ≤ nrrd.dim ∧ nrrd.dim ≤ DM) then Res.fail NrrdErr.dimensionRange
  else Res.pass

/-- Lines 734-743. -/
def _nrrdFieldCheck_space (nrrd : Nrrd DM SM) : Res :=
  _nrrdFieldCheckSpaceInfo nrrd

/-- Lines 745-754. -/
def _nrrdFieldCheck_space_dimension (nrrd : Nrrd DM SM) : Res :=
  _nrrdFieldCheckSpaceInfo nrrd

/-- Modelled from the spec: `_nrrdSizeCheck` (not under `src/`), the size
validation that "rejects non-positive sizes, overflow in the product": the
sizes are visited in order, a zero size is rejected, and so is a running
product that no longer fits `size_t` (`w` bits).  `pre` is the product of the
sizes already accepted and `ai` the index of the head of the list. -/
def sizeCheckLoop (w : Nat) : List Nat → Nat → Nat → Res
  | [], _, _ => Res.pass
  | s :: t, pre, ai =>
    if s = 0 then Res.fail (NrrdErr.sizeZero ai)
    else if 2 ^ w ≤ pre * s then Res.fail NrrdErr.sizeOverflow
    else sizeCheckLoop w t (pre * s) (ai + 1)

/-- Modelled from the spec: `_nrrdSizeCheck(size, dim, useBiff)` (not under
`src/`) on the list of the first `dim` entries of `size`. -/
def _nrrdSizeCheck (w : Nat) (size : List Nat) : Res := sizeCheckLoop w size 1 0

/-- Modelled from the spec: `nrrdAxisInfoGet_nva` (not under `src/`), as far as
the checks use it: entry `ai < dim` of the filled array is the requested field
of axis `ai`.  The result lists the entries `0 .. dim-1`. -/
def nrrdAxisInfoGet_nva {α : Type} (nrrd : Nrrd DM SM)
    (info : NrrdAxisInfo SM → α) : Option (List α) :=
  mapOpt (fun ai => (rd nrrd.axis ai).map info) (List.range nrrd.dim)

/-- Lines 756-767. -/
def _nrrdFieldCheck_sizes (w : Nat) (nrrd : Nrrd DM SM) : Res :=
  Res.read (nrrdAxisInfoGet_nva nrrd NrrdAxisInfo.size) fun size =>
    _nrrdSizeCheck w size

/-- A loop `for (ai=0; ai<nrrd->dim; ai++)` over the array `val` filled by
`nrrdAxisInfoGet_nva`. -/
def forAxisInfo {α : Type} (nrrd : Nrrd DM SM) (info : NrrdAxisInfo SM → α)
    (body : Nat → α → Res) : Res :=
  forEach (List.range nrrd.dim) fun ai =>
    Res.read ((rd nrrd.axis ai).map info) (body ai)

/-- Lines 769-787. -/
def _nrrdFieldCheck_spacings (nrrd : Nrrd DM SM) : Res :=
  Res.andThen
    (forAxisInfo nrrd NrrdAxisInfo.spacing fun ai v =>
      if ¬ (airIsInf_d v = 0 ∧ (airIsNaN v ≠ 0 ∨ Dbl.neZero v = true))
      then Res.fail (NrrdErr.spacing ai) else Res.pass)
    (_nrrdFieldCheckSpaceInfo nrrd)

/-- Lines 789-805. -/
def _nrrdFieldCheck_thicknesses (nrrd : Nrrd DM SM) : Res :=
  forAxisInfo nrrd NrrdAxisInfo.thickness fun ai v =>
    if ¬ (airIsInf_d v = 0 ∧ (airIsNaN v ≠ 0 ∨ Dbl.zeroLe v = true))
    then Res.fail (NrrdErr.thickness ai) else Res.pass

/-- Lines 807-828. -/
def _nrrdFieldCheck_axis_mins (nrrd : Nrrd DM SM) : Res :=
  Res.andThen
    (forAxisInfo nrrd NrrdAxisInfo.min fun ai v =>
      if airIsInf_d v ≠ 0 then Res.fail (NrrdErr.axisMin ai) else Res.pass)
    (_nrrdFieldCheckSpaceInfo nrrd)

/-- Lines 830-851. -/
def _nrrdFieldCheck_axis_maxs (nrrd : Nrrd DM SM) : Res :=
  Res.andThen
    (forAxisInfo nrrd NrrdAxisInfo.max fun ai v =>
      if airIsInf_d v ≠ 0 then Res.fail (NrrdErr.axisMax ai) else Res.pass)
    (_nrrdFieldCheckSpaceInfo nrrd)

/-- Lines 853-862. -/
def _nrrdFieldCheck_space_directions (nrrd : Nrrd DM SM) : Res :=
  _nrrdFieldCheckSpaceInfo nrrd

/-- Lines 864-879. -/
def _nrrdFieldCheck_centers (nrrd : Nrrd DM SM) : Res :=
  forAxisInfo nrrd NrrdAxisInfo.center fun ai v =>
    if ¬ (nrrdCenterUnknown = v ∨ airEnumValCheck nrrdCenter v = 0)
    then Res.fail (NrrdErr.center ai) else Res.pass

/-- Lines 881-903; the size compared with `wantLen` is read from
`nrrd->axis[ai]` directly. -/
def _nrrdFieldCheck_kinds (T : Tables) (nrrd : Nrrd DM SM) : Res :=
  forAxisInfo nrrd NrrdAxisInfo.kind fun ai v =>
    if ¬ (nrrdKindUnknown = v ∨ airEnumValCheck T.nrrdKind v = 0)
    then Res.fail (NrrdErr.kind ai)
    else
      Res.read (rd nrrd.axis ai) fun ax =>
        if T.nrrdKindSize v ≠ 0 ∧ T.nrrdKindSize v ≠ ax.size
        then Res.fail (NrrdErr.kindSize ai) else Res.pass

/-- Lines 905-917. -/
def _nrrdFieldCheck_labels (_nrrd : Nrrd DM SM) : Res := Res.pass

/-- Lines 919-930. -/
def _nrrdFieldCheck_units (nrrd : Nrrd DM SM) : Res :=
  _nrrdFieldCheckSpaceInfo nrrd

/-- Lines 932-943. -/
def _nrrdFieldCheck_old_min (nrrd : Nrrd DM SM) : Res :=
  if airIsInf_d nrrd.oldMin ≠ 0 then Res.fail NrrdErr.oldMin else Res.pass

/-- Lines 945-956. -/
def _nrrdFieldCheck_old_max (nrrd : Nrrd DM SM) : Res :=
  if airIsInf_d nrrd.oldMax ≠ 0 then Res.fail NrrdErr.oldMax else Res.pass

/-- Lines 958-969. -/
def _nrrdFieldCheck_keyvalue (_nrrd : Nrrd DM SM) : Res := Res.pass

/-- Lines 971-982. -/
def _nrrdFieldCheck_space_units (nrrd : Nrrd DM SM) : Res :=
  _nrrdFieldCheckSpaceInfo nrrd

/-- Lines 984-997. -/
def _nrrdFieldCheck_space_origin (nrrd : Nrrd DM SM) : Res :=
  _nrrdFieldCheckSpaceInfo nrrd

/-- Lines 999-1008. -/
def _nrrdFieldCheck_measurement_frame (nrrd : Nrrd DM SM) : Res :=
  _nrrdFieldCheckSpaceInfo nrrd

/-- Lines 1010-1045: the dispatch table, indexed by field identifier; it has
`NRRD_FIELD_MAX+1 = 33` entries, and a read past its end has no defined
value. -/
def _nrrdFieldCheck (T : Tables) (w : Nat) (fi : Nat) (nrrd : Nrrd DM SM) : Res :=
  match fi with
  | 0 => _nrrdFieldCheck_noop nrrd
  | 1 => _nrrdFieldCheck_noop nrrd
  | 2 => _nrrdFieldCheck_noop nrrd
  | 3 => _nrrdFieldCheck_noop nrrd
  | 4 => _nrrdFieldCheck_type nrrd
  | 5 => _nrrdFieldCheck_block_size nrrd
  | 6 => _nrrdFieldCheck_dimension nrrd
  | 7 => _nrrdFieldCheck_space nrrd
  | 8 => _nrrdFieldCheck_space_dimension nrrd
  | 9 => _nrrdFieldCheck_sizes w nrrd
  | 10 => _nrrdFieldCheck_spacings nrrd
  | 11 => _nrrdFieldCheck_thicknesses nrrd
  | 12 => _nrrdFieldCheck_axis_mins nrrd
  | 13 => _nrrdFieldCheck_axis_maxs nrrd
  | 14 => _nrrdFieldCheck_space_directions nrrd
  | 15 => _nrrdFieldCheck_centers nrrd
  | 16 => _nrrdFieldCheck_kinds T nrrd
  | 17 => _nrrdFieldCheck_labels nrrd
  | 18 => _nrrdFieldCheck_units nrrd
  | 19 => _nrrdFieldCheck_noop nrrd
  | 20 => _nrrdFieldCheck_noop nrrd
  | 21 => _nrrdFieldCheck_old_min nrrd
  | 22 => _nrrdFieldCheck_old_max nrrd
  | 23 => _nrrdFieldCheck_noop nrrd
  | 24 => _nrrdFieldCheck_noop nrrd
  | 25 => _nrrdFieldCheck_noop nrrd
  | 26 => _nrrdFieldCheck_noop nrrd
  | 27 => _nrrdFieldCheck_keyvalue nrrd
  | 28 => _nrrdFieldCheck_noop nrrd
  | 29 => _nrrdFieldCheck_space_units nrrd
  | 30 => _nrrdFieldCheck_space_origin nrrd
  | 31 => _nrrdFieldCheck_measurement_frame nrrd
  | 32 => _nrrdFieldCheck_noop nrrd
  | _ => Res.stuck

/-- Lines 1062-1069: one step of the loop of `_nrrdCheck`; a failing validator
is reported as trouble with field `fi`. -/
def checkField (T : Tables) (w : Nat) (nrrd : Nrrd DM SM) (fi : Nat) : Res :=
  match _nrrdFieldCheck T w fi nrrd with
  | Res.pass => Res.pass
  | Res.fail _ => Res.fail (NrrdErr.field fi)
  | Res.stuck => Res.stuck

/-- Lines 1047-1071: the aggregate check; `none` is the null pointer. -/
def _nrrdCheck (T : Tables) (w : Nat) (nrrd : Option (Nrrd DM SM))
    (checkData : Bool) : Res :=
  match nrrd with
  | none => Res.fail NrrdErr.nullPointer
  | some n =>
    if checkData = true ∧ n.data = false then Res.fail NrrdErr.nullData
    else
      forEach
        (List.range' (nrrdField_unknown + 1) (nrrdField_last - (nrrdField_unknown + 1)))
        (checkField T w n)

end FieldChecks

/-! ## `nrrdOriginCalculate` (simple.c, lines 222-302) -/

/-- Modelled from the spec: the `nrrdOriginStatus*` enum of `nrrdEnums.h` (not
under `src/`), the outcomes of `nrrdOriginCalculate`. -/
inductive nrrdOriginStatus where
  | Unknown
  | Direction
  | NoMin
  | NoMaxOrSpacing
  | Okay
deriving DecidableEq

section Origin

variable {DM SM : Nat}

/-- Lines 231-236, the macro `ERROR`: a non-null output receives NaN in each of
its first `axisIdxNum` entries. -/
def originERROR (axisIdxNum : Nat) (origin : Bool) : Option (List Dbl) :=
  if origin = true then some (List.replicate axisIdxNum AIR_NAN) else none

/-- Lines 289-299: the origin coordinate of one requested axis; `size` is a
`size_t` of `w` bits, so `size-1` wraps at `size = 0`. -/
def originOfAxis (w : Nat) (defaultCenter : Int) (a : NrrdAxisInfo SM) : Dbl :=
  let size := a.size
  let min := a.min
  let center := if nrrdCenterUnknown ≠ a.center then a.center else defaultCenter
  let spacing :=
    if AIR_EXISTS a.spacing = true then a.spacing
    else Dbl.divNat (Dbl.sub a.max min)
      (if nrrdCenterCell = center then size else (size + 2 ^ w - 1) % 2 ^ w)
  Dbl.add min (if nrrdCenterCell = center then Dbl.divNat spacing 2 else Dbl.fin 0)

/-- The derived-origin calculation.  The pair `(axisIdx, axisIdxNum)` is the
list `axisIdx` of requested axis indices; `origin` tells whether the output
pointer is non-null.  The result is the returned status together with the
first `axisIdxNum` entries of the output after the call (`none` for a null
output); `none` as a whole means the call has no defined behaviour (the local
array `axis[NRRD_SPACE_DIM_MAX]` overflows, or an axis slot or coefficient
outside its array is read). -/
def nrrdOriginCalculate (w : Nat) (nrrd : Option (Nrrd DM SM)) (axisIdx : List Nat)
    (defaultCenter : Int) (origin : Bool) :
    Option (nrrdOriginStatus × Option (List Dbl)) :=
  match nrrd with
  | none => some (nrrdOriginStatus.Unknown, originERROR axisIdx.length origin)
  | some n =>
    if ¬ ((nrrdCenterCell = defaultCenter ∨ nrrdCenterNode = defaultCenter)
        ∧ origin = true) then
      some (nrrdOriginStatus.Unknown, originERROR axisIdx.length origin)
    else if axisIdx.foldl (fun okay idx => okay && decide (idx < n.dim)) true = false then
      some (nrrdOriginStatus.Unknown, originERROR axisIdx.length origin)
    else if SM < axisIdx.length then none
    else
      (mapOpt (rd n.axis) axisIdx).bind fun axis =>
      (mapOpt (fun a => rd a.spaceDirection 0) axis).bind fun dir0 =>
      if 0 < n.spaceDim ∧ dir0.foldl (fun gotSpace d => gotSpace || AIR_EXISTS d) false = true then
        some (nrrdOriginStatus.Direction, originERROR axisIdx.length origin)
      else if axis.foldl (fun gotMin _ =>
          gotMin && (axis.head?.map fun a0 => AIR_EXISTS a0.min).getD false) true = false then
        some (nrrdOriginStatus.NoMin, originERROR axisIdx.length origin)
      else if axis.foldl (fun got a =>
          got && (AIR_EXISTS a.max || AIR_EXISTS a.spacing)) true = false then
        some (nrrdOriginStatus.NoMaxOrSpacing, originERROR axisIdx.length origin)
      else
        some (nrrdOriginStatus.Okay, some (axis.map (originOfAxis w defaultCenter)))

end Origin

/-! ## Array-shape utilities (simple.c, lines 1094-1193) -/

section Shape

variable {DM SM : Nat}

/-- Lines 1119-1127: the loop of `nrrdSameSize` over the declared axes of `n1`;
the first pair of differing sizes returns 0, the end of the loop returns 1.
`none`: an axis slot outside the array is read. -/
def sameSizeLoop (n1 n2 : Nrrd DM SM) : List Nat → Option Int
  | [] => some 1
  | ai :: t =>
    match rd n1.axis ai, rd n2.axis ai with
    | some a1, some a2 =>
      if a1.size ≠ a2.size then some 0 else sameSizeLoop n1 n2 t
    | _, _ => none

/-- Lines 1104-1129: `nrrdSameSize`; `none` as an argument is the null
pointer. -/
def nrrdSameSize (n1 n2 : Option (Nrrd DM SM)) : Option Int :=
  match n1, n2 with
  | some a, some b =>
    if a.dim ≠ b.dim then some 0 else sameSizeLoop a b (List.range a.dim)
  | _, _ => some 0

/-- Lines 1146-1162: `nrrdElementSize`.  The table `nrrdTypeSize` is not under
`src/` and is a parameter.  The result pairs the returned size with the object
after the call: the function writes nothing (the assignment
`nrrd->blockSize = 0` of line 1160 is commented out). -/
def nrrdElementSize (nrrdTypeSize : Int → Nat) (nrrd : Option (Nrrd DM SM)) :
    Nat × Option (Nrrd DM SM) :=
  match nrrd with
  | none => (0, none)
  | some n =>
    if ¬ (airEnumValCheck nrrdType n.type = 0) then (0, some n)
    else if nrrdTypeBlock ≠ n.type then (nrrdTypeSize n.type, some n)
    else if 0 < n.blockSize then (n.blockSize, some n)
    else (0, some n)

/-- Lines 1173-1193: `nrrdElementNumber`; the product is accumulated in a
`size_t` of `w` bits.  `none`: an axis slot outside the array is read. -/
def nrrdElementNumber (w : Nat) (nrrd : Option (Nrrd DM SM)) : Option Nat :=
  match nrrd with
  | none => some 0
  | some n =>
    match nrrdAxisInfoGet_nva n NrrdAxisInfo.size with
    | none => none
    | some size =>
      match _nrrdSizeCheck w size with
      | Res.pass => some (size.foldl (fun num s => (num * s) % 2 ^ w) 1)
      | Res.fail _ => some 0
      | Res.stuck => none

end Shape

/-! ## Example objects (with Teem's bounds `NRRD_DIM_MAX = 16`, `NRRD_SPACE_DIM_MAX = 8`) -/

/-- An axis slot with nothing set. -/
def axisUnset : NrrdAxisInfo 8 :=
  { size := 0, spacing := Dbl.nan, thickness := Dbl.nan, min := Dbl.nan, max := Dbl.nan,
    spaceDirection := fun _ => Dbl.nan, center := nrrdCenterUnknown, kind := nrrdKindUnknown,
    label := none, units := none }

/-- A 2 x 3 x 4 array of floats without orientation; every declared axis runs
from 0 to 10. -/
def nrrdPlain : Nrrd 16 8 :=
  { data := true, type := 9, dim := 3,
    axis := fun i =>
      if i.val < 3 then
        { axisUnset with size := i.val + 2, min := Dbl.fin 0, max := Dbl.fin 10 }
      else axisUnset,
    content := none, blockSize := 0, oldMin := Dbl.nan, oldMax := Dbl.nan,
    space := nrrdSpaceUnknown, spaceDim := 0, spaceUnits := fun _ => none,
    spaceOrigin := fun _ => Dbl.nan, measurementFrame := fun _ _ => Dbl.nan }

/-- A 2 x 3 x 4 array of floats in right-anterior-superior space, with the
origin at 0 and the unit vectors as axis directions. -/
def nrrdOriented : Nrrd 16 8 :=
  { data := true, type := 9, dim := 3,
    axis := fun i =>
      if i.val < 3 then
        { axisUnset with
          size := i.val + 2,
          spaceDirection := fun j =>
            if j.val < 3 then Dbl.fin (if i.val = j.val then 1 else 0) else Dbl.nan }
      else axisUnset,
    content := none, blockSize := 0, oldMin := Dbl.nan, oldMax := Dbl.nan,
    space := nrrdSpaceRightAnteriorSuperior, spaceDim := 3, spaceUnits := fun _ => none,
    spaceOrigin := fun j => if j.val < 3 then Dbl.fin 0 else Dbl.nan,
    measurementFrame := fun _ _ => Dbl.nan }

/-- A kind table for the examples: 31 axis kinds, none of which prescribes a
size. -/
def exampleTables : Tables :=
  { nrrdKind := ⟨31⟩, nrrdKindSize := fun _ => 0 }

/-- The plain example with `dim` set to 0. -/
def nrrdNoDim : Nrrd 16 8 :=
  { nrrdPlain with dim := 0 }

/-- A single axis with `min = 0`, `max = 10`, `size = 5`, no spacing and no
centering of its own. -/
def nrrdSingleAxis : Nrrd 16 8 :=
  { nrrdPlain with
    dim := 1,
    axis := fun i =>
      if i.val = 0 then { axisUnset with size := 5, min := Dbl.fin 0, max := Dbl.fin 10 }
      else axisUnset }

/-- The single-axis example with every direction coefficient of axis 0 set,
`spaceDim` still 0. -/
def nrrdDirectionNoSpaceDim : Nrrd 16 8 :=
  { nrrdSingleAxis with
    axis := fun i =>
      if i.val = 0 then
        { axisUnset with
          size := 5, min := Dbl.fin 0, max := Dbl.fin 10,
          spaceDirection := fun _ => Dbl.fin 1 }
      else axisUnset }

/-- Replace one axis slot. -/
def setAxis {DM SM : Nat} (nrrd : Nrrd DM SM) (a : Fin DM) (ax : NrrdAxisInfo SM) :
    Nrrd DM SM :=
  { nrrd with axis := fun i => if i = a then ax else nrrd.axis i }

/-- The oriented example with `min` set on axis 1. -/
def nrrdOrientedWithMin : Nrrd 16 8 :=
  setAxis nrrdOriented 1 { nrrdOriented.axis 1 with min := Dbl.fin 0 }

/-- The plain example with a unit string on space dimension 2. -/
def nrrdPlainWithSpaceUnits : Nrrd 16 8 :=
  { nrrdPlain with spaceUnits := fun j => if j.val = 2 then some "mm" else none }

/-- The oriented example whose origin has only coefficient 0. -/
def nrrdPartialOrigin : Nrrd 16 8 :=
  { nrrdOriented with spaceOrigin := fun j => if j.val = 0 then Dbl.fin 0 else Dbl.nan }

/-- The oriented example with coefficient 2 of the direction of axis 1 unset. -/
def nrrdPartialDirection : Nrrd 16 8 :=
  setAxis nrrdOriented 1
    { nrrdOriented.axis 1 with
      spaceDirection := fun j => if j.val < 2 then Dbl.fin 1 else Dbl.nan }

/-- The oriented example with a measurement frame whose row 0 is fully set and
whose other rows are fully unset. -/
def nrrdRowFrame : Nrrd 16 8 :=
  { nrrdOriented with
    measurementFrame := fun dd ii =>
      if dd.val = 0 ∧ ii.val < 3 then Dbl.fin 1 else Dbl.nan }

/-- The oriented example with the identity as measurement frame. -/
def nrrdFramed : Nrrd 16 8 :=
  { nrrdOriented with
    measurementFrame := fun dd ii =>
      if dd.val < 3 ∧ ii.val < 3 then Dbl.fin (if dd.val = ii.val then 1 else 0)
      else Dbl.nan }

/-- The plain example carrying the label of the oriented one, `spaceDim`
still 0. -/
def nrrdLabelNoDim : Nrrd 16 8 :=
  { nrrdPlain with space := nrrdSpaceRightAnteriorSuperior }

/-- Two declared axes of size 5 with `max = 10`; axis 0 has `min = 0`, axis 1
has no `min`. -/
def nrrdSecondNoMin : Nrrd 16 8 :=
  { nrrdPlain with
    dim := 2,
    axis := fun i =>
      if i.val = 0 then { axisUnset with size := 5, min := Dbl.fin 0, max := Dbl.fin 10 }
      else if i.val = 1 then { axisUnset with size := 5, max := Dbl.fin 10 }
      else axisUnset }

/-- The single-axis example without `max` (and without spacing). -/
def nrrdNoMax : Nrrd 16 8 :=
  { nrrdSingleAxis with
    axis := fun i =>
      if i.val = 0 then { axisUnset with size := 5, min := Dbl.fin 0 } else axisUnset }

/-- The plain example with the size of axis 1 set to 0. -/
def nrrdZeroSize : Nrrd 16 8 :=
  setAxis nrrdPlain 1 { nrrdPlain.axis 1 with size := 0 }

/-- The plain example as a 2 x 3 x 4 array of 7-byte blocks. -/
def nrrdBlock : Nrrd 16 8 :=
  { nrrdPlain with type := nrrdTypeBlock, blockSize := 7 }

/-- The plain example with another element type and with other sizes in the
undeclared axis slots. -/
def nrrdPlainOtherType : Nrrd 16 8 :=
  { nrrdPlain with
    type := 5,
    axis := fun i => if i.val < 3 then nrrdPlain.axis i else { axisUnset with size := 9 } }

/-- A type-size table for the examples: one byte for every type. -/
def exampleTypeSize : Int → Nat := fun _ => 1

/-! ## Properties named by the specification -/

section SpecProps

variable {DM SM : Nat}

/-- Row-wise reading of I4 for the measurement frame: in each of the first
`spaceDim` rows, every coefficient below `spaceDim` exists exactly when the
row's coefficient 0 does. -/
def FrameRowsConsistent (nrrd : Nrrd DM SM) : Prop :=
  ∀ dd ii z : Fin SM, dd.val < nrrd.spaceDim → ii.val < nrrd.spaceDim → z.val = 0 →
    AIR_EXISTS (nrrd.measurementFrame dd ii) = AIR_EXISTS (nrrd.measurementFrame dd z)

/-- Block-wise consistency of the measurement frame: every coefficient of the
leading `spaceDim` by `spaceDim` block exists exactly when coefficient `[0][0]`
does. -/
def FrameBlockConsistent (nrrd : Nrrd DM SM) : Prop :=
  ∀ dd ii z : Fin SM, dd.val < nrrd.spaceDim → ii.val < nrrd.spaceDim → z.val = 0 →
    AIR_EXISTS (nrrd.measurementFrame dd ii) = AIR_EXISTS (nrrd.measurementFrame z z)

/-- Everything the checker looks at except the measurement frame is
consistent: the label is unset or recognised, `spaceDim` is in range and
agrees with the label, and the origin and the declared axes pass their
tests. -/
def SpaceInfoOtherwiseConsistent (nrrd : Nrrd DM SM) : Prop :=
  (nrrd.space = 0 ∨ airEnumValCheck nrrdSpace nrrd.space = 0)
  ∧ nrrd.spaceDim ≤ SM
  ∧ spaceInfoLabel nrrd = Res.pass
  ∧ spaceInfoOrigin nrrd = Res.pass
  ∧ spaceInfoDirections nrrd = Res.pass

/-- Invariant I4 for one vector: over the coefficients `0 .. sd-1` the vector is
not partially existent, that is any two of them agree in existence. -/
def VecConsistent (sd : Nat) (v : Fin SM → Dbl) : Prop :=
  ∀ i j : Fin SM, i.val < sd → j.val < sd → AIR_EXISTS (v i) = AIR_EXISTS (v j)

/-- An axis has an existent direction vector: coefficient 0 of
`spaceDirection` exists (the test of lines 262 and 612). -/
def HasDirection (ax : NrrdAxisInfo SM) : Prop :=
  ∃ z : Fin SM, z.val = 0 ∧ AIR_EXISTS (ax.spaceDirection z) = true

/-- The data-model invariants I1 to I10 of the specification. -/
structure Invariants (nrrd : Nrrd DM SM) : Prop where
  I1 : 1 ≤ nrrd.dim ∧ nrrd.dim ≤ DM
  I2 : nrrd.spaceDim ≤ SM
  I3 : nrrd.space ≠ nrrdSpaceUnknown →
    nrrdSpaceDimension nrrd.space = some nrrd.spaceDim
  I4_origin : VecConsistent nrrd.spaceDim nrrd.spaceOrigin
  I4_frame : ∀ dd : Fin SM, dd.val < nrrd.spaceDim →
    VecConsistent nrrd.spaceDim (nrrd.measurementFrame dd)
  I4_direction : ∀ a : Fin DM, a.val < nrrd.dim →
    VecConsistent nrrd.spaceDim (nrrd.axis a).spaceDirection
  I5 : ∀ a : Fin DM, a.val < nrrd.dim → HasDirection (nrrd.axis a) →
    AIR_EXISTS (nrrd.axis a).min = false ∧ AIR_EXISTS (nrrd.axis a).max = false
      ∧ AIR_EXISTS (nrrd.axis a).spacing = false ∧ airStrlen (nrrd.axis a).units = 0
  I6 : nrrd.spaceDim = 0 →
    (∀ j : Fin SM, airStrlen (nrrd.spaceUnits j) = 0)
      ∧ (∀ j : Fin SM, AIR_EXISTS (nrrd.spaceOrigin j) = false)
      ∧ (∀ (a : Fin DM) (j : Fin SM), AIR_EXISTS ((nrrd.axis a).spaceDirection j) = false)
  I7 : nrrd.type = nrrdTypeBlock ↔ 0 < nrrd.blockSize
  I8 : ∀ a : Fin DM, a.val < nrrd.dim →
    (nrrd.axis a).spacing = Dbl.nan ∨ ∃ q : ℚ, (nrrd.axis a).spacing = Dbl.fin q ∧ q ≠ 0
  I9 : ∀ a : Fin DM, a.val < nrrd.dim →
    (nrrd.axis a).thickness = Dbl.nan
      ∨ ∃ q : ℚ, (nrrd.axis a).thickness = Dbl.fin q ∧ 0 ≤ q
  I10 : ∀ a : Fin DM, a.val < nrrd.dim →
    ((nrrd.axis a).min ≠ Dbl.pinf ∧ (nrrd.axis a).min ≠ Dbl.ninf)
      ∧ ((nrrd.axis a).max ≠ Dbl.pinf ∧ (nrrd.axis a).max ≠ Dbl.ninf)

/-- The resolved centering of an axis: its own `center` if that is not unknown,
otherwise the supplied default. -/
def resolvedCenter (defaultCenter : Int) (a : NrrdAxisInfo SM) : Int :=
  if a.center ≠ nrrdCenterUnknown then a.center else defaultCenter

/-- The test of line 262 on one axis record: coefficient 0 of `spaceDirection`
exists. -/
def dir0Exists (a : NrrdAxisInfo SM) : Bool :=
  match rd a.spaceDirection 0 with
  | some d => AIR_EXISTS d
  | none => false

/-- The size of axis `ai`, for `ai` inside the axis array. -/
def sizeAt (nrrd : Nrrd DM SM) (ai : Nat) : Nat :=
  match rd nrrd.axis ai with
  | some a => a.size
  | none => 0

/-- The sizes of the first `dim` axes, in order. -/
def declaredSizes (nrrd : Nrrd DM SM) : List Nat :=
  (List.range nrrd.dim).map (sizeAt nrrd)

instance (nrrd : Nrrd DM SM) : Decidable (FrameRowsConsistent nrrd) := by
  unfold FrameRowsConsistent
  infer_instance

instance (nrrd : Nrrd DM SM) : Decidable (FrameBlockConsistent nrrd) := by
  unfold FrameBlockConsistent
  infer_instance

instance (nrrd : Nrrd DM SM) : Decidable (SpaceInfoOtherwiseConsistent nrrd) := by
  unfold SpaceInfoOtherwiseConsistent
  infer_instance

end SpecProps

/-! ## Objects and predicates for the per-field validators -/

/-- The block example with `blockSize` 0. -/
def nrrdBlockNoSize : Nrrd 16 8 := { nrrdBlock with blockSize := 0 }

/-- The plain example (type 9, not block) with `blockSize` 4. -/
def nrrdPlainWithBlockSize : Nrrd 16 8 := { nrrdPlain with blockSize := 4 }

/-- The plain example with spacing 0 on axis 1. -/
def nrrdZeroSpacing : Nrrd 16 8 :=
  setAxis nrrdPlain 1 { nrrdPlain.axis 1 with spacing := Dbl.fin 0 }

/-- The plain example with thickness -1 on axis 1. -/
def nrrdNegativeThickness : Nrrd 16 8 :=
  setAxis nrrdPlain 1 { nrrdPlain.axis 1 with thickness := Dbl.fin (-1) }

/-- An axis the kind validator accepts: its kind is unknown or a valid kind
value, and if the kind prescribes a sample count the axis size equals it. -/
def KindAccepted {SM : Nat} (T : Tables) (ax : NrrdAxisInfo SM) : Prop :=
  (ax.kind = nrrdKindUnknown ∨ airEnumValCheck T.nrrdKind ax.kind = 0)
    ∧ (T.nrrdKindSize ax.kind ≠ 0 → ax.size = T.nrrdKindSize ax.kind)

instance {SM : Nat} (T : Tables) (ax : NrrdAxisInfo SM) : Decidable (KindAccepted T ax) := by
  unfold KindAccepted
  infer_instance

/-- The two tests that the loop body of `_nrrdFieldCheck_kinds` (lines 889-901)
makes on the record of axis `ai`. -/
def kindsAxis {SM : Nat} (T : Tables) (ai : Nat) (ax : NrrdAxisInfo SM) : Res :=
  if ¬ (nrrdKindUnknown = ax.kind ∨ airEnumValCheck T.nrrdKind ax.kind = 0)
  then Res.fail (NrrdErr.kind ai)
  else if T.nrrdKindSize ax.kind ≠ 0 ∧ T.nrrdKindSize ax.kind ≠ ax.size
    then Res.fail (NrrdErr.kindSize ai) else Res.pass

/-- A kind table with 31 kinds in which kind 5 prescribes 3 samples. -/
def tablesWithKindSize : Tables :=
  { nrrdKind := ⟨31⟩, nrrdKindSize := fun k => if k = 5 then 3 else 0 }

/-- The plain example with the kind 40 on axis 1 and the kind 5 on every other
axis slot (axis 0 has size 2). -/
def nrrdBadKinds : Nrrd 16 8 :=
  { nrrdPlain with
    axis := fun i =>
      if i.val = 1 then { nrrdPlain.axis i with kind := 40 }
      else { nrrdPlain.axis i with kind := 5 } }

/-! ## The space setters (simple.c, lines 74-190 and 367-375) -/

section Setters

variable {DM SM : Nat}

/-- Lines 367-375: each of the `NRRD_SPACE_DIM_MAX` coefficients is set to NaN,
in index order. -/
def nrrdSpaceVecSetNaN (vec : Fin SM → Dbl) : Fin SM → Dbl :=
  (List.finRange SM).foldl (fun v di => Function.update v di AIR_NAN) vec

/-- Lines 80-109.  The result is the return value together with the object
after the call (none for the null pointer); there is no result when the call
does not return, which is the `exit` inside `nrrdSpaceDimension`. -/
def nrrdSpaceSet (nrrd : Option (Nrrd DM SM)) (space : Int) :
    Option (Int × Option (Nrrd DM SM)) :=
  match nrrd with
  | none => some (1, none)
  | some n =>
    if nrrdSpaceUnknown = space then
      some (0, some
        { n with
          space := nrrdSpaceUnknown
          spaceDim := 0
          axis := (List.finRange DM).foldl
            (fun ax axi => Function.update ax axi
              { ax axi with spaceDirection := nrrdSpaceVecSetNaN (ax axi).spaceDirection })
            n.axis
          spaceUnits := (List.finRange SM).foldl
            (fun u saxi => Function.update u saxi none) n.spaceUnits
          spaceOrigin := nrrdSpaceVecSetNaN n.spaceOrigin })
    else if airEnumValCheck nrrdSpace space ≠ 0 then some (1, some n)
    else
      (nrrdSpaceDimension space).map fun sd =>
        (0, some { n with space := space, spaceDim := sd })

/-- Lines 117-132: the return value and the object after the call. -/
def nrrdSpaceDimensionSet (nrrd : Option (Nrrd DM SM)) (spaceDim : Nat) :
    Int × Option (Nrrd DM SM) :=
  match nrrd with
  | none => (1, none)
  | some n =>
    if ¬ (spaceDim ≤ SM) then (1, some n)
    else (0, some { n with space := nrrdSpaceUnknown, spaceDim := spaceDim })

/-- Write to a fixed-size C array at a run-time index; no result outside the
array. -/
def wr {α : Type} {N : Nat} (a : Fin N → α) (i : Nat) (x : α) : Option (Fin N → α) :=
  if h : i < N then some (Function.update a ⟨i, h⟩ x) else none

/-- The loop `dst[sdi] = src[sdi]` over the given indices (lines 146-148 and
183-185). -/
def copyLoop (src : Fin SM → Dbl) : List Nat → (Fin SM → Dbl) → Option (Fin SM → Dbl)
  | [], dst => some dst
  | sdi :: t, dst => (rd src sdi).bind fun x => (wr dst sdi x).bind (copyLoop src t)

/-- The loop `dst[sdi] = AIR_NAN` over the given indices (lines 149-151 and
186-188). -/
def nanLoop : List Nat → (Fin SM → Dbl) → Option (Fin SM → Dbl)
  | [], dst => some dst
  | sdi :: t, dst => (wr dst sdi AIR_NAN).bind (nanLoop t)

/-- Lines 141-158.  The result is the return value together with the caller's
vector after the call (none for the null pointer); there is no result when a
loop leaves the arrays. -/
def nrrdSpaceOriginGet (nrrd : Option (Nrrd DM SM)) (vector : Option (Fin SM → Dbl)) :
    Option (Nat × Option (Fin SM → Dbl)) :=
  match nrrd, vector with
  | some n, some v =>
    (copyLoop n.spaceOrigin (List.range n.spaceDim) v).bind fun v1 =>
      (nanLoop (List.range' n.spaceDim (SM - n.spaceDim)) v1).map fun v2 =>
        (n.spaceDim, some v2)
  | _, _ => some (0, vector)

/-- Lines 168-190.  The result is the return value together with the object
after the call; there is no result when a loop leaves the arrays. -/
def nrrdSpaceOriginSet (nrrd : Option (Nrrd DM SM)) (vector : Option (Fin SM → Dbl)) :
    Option (Int × Option (Nrrd DM SM)) :=
  match nrrd, vector with
  | some n, some v =>
    if ¬ (0 < n.spaceDim ∧ n.spaceDim ≤ SM) then some (1, some n)
    else
      (copyLoop v (List.range n.spaceDim) n.spaceOrigin).bind fun o1 =>
        (nanLoop (List.range' n.spaceDim (SM - n.spaceDim)) o1).map fun o2 =>
          (0, some { n with spaceOrigin := o2 })
  | _, _ => some (1, nrrd)

/-- The data-model statement on the origin: every coefficient of `spaceOrigin`
at an index from `spaceDim` on is NaN. -/
def OriginTailNaN (nrrd : Nrrd DM SM) : Prop :=
  ∀ j : Fin SM, nrrd.spaceDim ≤ j.val → nrrd.spaceOrigin j = Dbl.nan

instance (nrrd : Nrrd DM SM) : Decidable (OriginTailNaN nrrd) := by
  unfold OriginTailNaN
  infer_instance

end Setters

/-- The oriented example with a label with time: `spaceDim` 4 and four origin
coefficients. -/
def nrrdOrientedTime : Nrrd 16 8 :=
  { nrrdOriented with
    space := nrrdSpaceRightAnteriorSuperiorTime, spaceDim := 4,
    spaceOrigin := fun j => if j.val < 4 then Dbl.fin 0 else Dbl.nan }

/-- A vector for the examples: 1, 2, 3, 4, ... -/
def exampleVector : Fin 8 → Dbl := fun j => Dbl.fin (j.val + 1)

/-! ## The sanity self-test (simple.c, lines 1265-1499) -/

/-- Modelled from the spec: `nrrdTypeChar` of the `nrrdType*` enum of
`nrrdEnums.h` (not under `src/`), the first of the ten numeric types. -/
def nrrdTypeChar : Int := 1

/-- Modelled from the spec: `nrrdTypeUChar` of the `nrrdType*` enum. -/
def nrrdTypeUChar : Int := 2

/-- Modelled from the spec: `nrrdTypeShort` of the `nrrdType*` enum. -/
def nrrdTypeShort : Int := 3

/-- Modelled from the spec: `nrrdTypeUShort` of the `nrrdType*` enum. -/
def nrrdTypeUShort : Int := 4

/-- Modelled from the spec: `nrrdTypeInt` of the `nrrdType*` enum. -/
def nrrdTypeInt : Int := 5

/-- Modelled from the spec: `nrrdTypeUInt` of the `nrrdType*` enum. -/
def nrrdTypeUInt : Int := 6

/-- Modelled from the spec: `nrrdTypeLLong` of the `nrrdType*` enum. -/
def nrrdTypeLLong : Int := 7

/-- Modelled from the spec: `nrrdTypeULLong` of the `nrrdType*` enum. -/
def nrrdTypeULLong : Int := 8

/-- Modelled from the spec: `nrrdTypeFloat` of the `nrrdType*` enum. -/
def nrrdTypeFloat : Int := 9

/-- Modelled from the spec: `nrrdTypeDouble` of the `nrrdType*` enum, the last
of the ten numeric types. -/
def nrrdTypeDouble : Int := 10

/-- Modelled from the spec: `NRRD_LLONG_MAX` of `nrrdDefines.h` (not under
`src/`), the signed 64-bit maximum. -/
def NRRD_LLONG_MAX : Int := 2 ^ 63 - 1

/-- Modelled from the spec: `NRRD_LLONG_MIN` of `nrrdDefines.h` (not under
`src/`), the signed 64-bit minimum. -/
def NRRD_LLONG_MIN : Int := -(2 ^ 63)

/-- Modelled from the spec: `NRRD_ULLONG_MAX` of `nrrdDefines.h` (not under
`src/`), the unsigned 64-bit maximum. -/
def NRRD_ULLONG_MAX : Int := 2 ^ 64 - 1

/-- What `nrrdSanity` and `_nrrdCheckEnums` read and `src/` does not hold,
taken as parameters: the outcome of `airSanity()` and the constant
`airInsane_not` of `air`; the global defaults and state variables of `nrrd`;
the `airEnum` objects `nrrdEncodingType` and `nrrdBoundary`; the tables
`nrrdTypeSize` and `nrrdTypeIsIntegral`; the result of `sizeof` for the host
types; the widths in bits of the host types `airLLong` and `airULLong`; and for
the enumerations of `nrrdEnums.h` their `Last` sentinel and the constant
`NRRD_*_MAX` of `nrrdDefines.h`. -/
structure Build where
  airSanity : Int
  airInsane_not : Int
  nrrdEncodingType : airEnum
  nrrdDefaultWriteEncodingType : Int
  nrrdDefaultCenter : Int
  nrrdTypeDefault : Int
  nrrdDefaultResampleType : Int
  nrrdBoundary : airEnum
  nrrdDefaultResampleBoundary : Int
  nrrdStateMeasureType : Int
  nrrdStateMeasureHistoType : Int
  nrrdTypeSize : Int → Nat
  nrrdTypeIsIntegral : Int → Int
  sizeofChar : Nat
  sizeofUChar : Nat
  sizeofShort : Nat
  sizeofUShort : Nat
  sizeofInt : Nat
  sizeofUInt : Nat
  sizeofLLong : Nat
  sizeofULLong : Nat
  sizeofFloat : Nat
  sizeofDouble : Nat
  sizeofBiggest : Nat
  NRRD_TYPE_SIZE_MAX : Nat
  llongBits : Nat
  ullongBits : Nat
  nrrdFormatTypeLast : Int
  NRRD_FORMAT_TYPE_MAX : Int
  NRRD_TYPE_MAX : Int
  nrrdEncodingTypeLast : Int
  NRRD_ENCODING_TYPE_MAX : Int
  NRRD_CENTER_MAX : Int
  nrrdAxisInfoLast : Int
  NRRD_AXIS_INFO_MAX : Int
  NRRD_FIELD_MAX : Int
  nrrdHasNonExistLast : Int
  NRRD_HAS_NON_EXIST_MAX : Int
  nrrdBoundaryLast : Int
  NRRD_BOUNDARY_MAX : Int
  nrrdMeasureLast : Int
  NRRD_MEASURE_MAX : Int
  nrrdUnaryOpLast : Int
  NRRD_UNARY_OP_MAX : Int
  nrrdBinaryOpLast : Int
  NRRD_BINARY_OP_MAX : Int
  nrrdTernaryOpLast : Int
  NRRD_TERNARY_OP_MAX : Int

/-- Conversion to a signed two's complement integer type of `w` bits (`w` at
least 1); the same wrap is taken for `+= 1` on such a type, as the test of
lines 1462-1468 expects. -/
def wrapS (w : Nat) (x : Int) : Int :=
  (x + 2 ^ (w - 1)) % 2 ^ w - 2 ^ (w - 1)

/-- Conversion to an unsigned integer type of `w` bits. -/
def wrapU (w : Nat) (x : Int) : Int := x % 2 ^ w

/-- Lines 1265-1316: 1 if for one of the twelve enumerations `Last - 1` differs
from the declared maximum, otherwise 0 (the message naming the enumeration is
left out). -/
def _nrrdCheckEnums (b : Build) : Int :=
  if b.nrrdFormatTypeLast - 1 ≠ b.NRRD_FORMAT_TYPE_MAX then 1
  else if nrrdTypeLast - 1 ≠ b.NRRD_TYPE_MAX then 1
  else if b.nrrdEncodingTypeLast - 1 ≠ b.NRRD_ENCODING_TYPE_MAX then 1
  else if nrrdCenterLast - 1 ≠ b.NRRD_CENTER_MAX then 1
  else if b.nrrdAxisInfoLast - 1 ≠ b.NRRD_AXIS_INFO_MAX then 1
  else if (nrrdField_last : Int) - 1 ≠ b.NRRD_FIELD_MAX then 1
  else if b.nrrdHasNonExistLast - 1 ≠ b.NRRD_HAS_NON_EXIST_MAX then 1
  else if b.nrrdBoundaryLast - 1 ≠ b.NRRD_BOUNDARY_MAX then 1
  else if b.nrrdMeasureLast - 1 ≠ b.NRRD_MEASURE_MAX then 1
  else if b.nrrdUnaryOpLast - 1 ≠ b.NRRD_UNARY_OP_MAX then 1
  else if b.nrrdBinaryOpLast - 1 ≠ b.NRRD_BINARY_OP_MAX then 1
  else if b.nrrdTernaryOpLast - 1 ≠ b.NRRD_TERNARY_OP_MAX then 1
  else 0

/-- The reasons for which `nrrdSanity` returns 0, in the order of its tests. -/
inductive SanityErr where
  | airSanity
  | writeEncodingType
  | center
  | resampleType
  | resampleBoundary
  | measureType
  | measureHistoType
  | typeSizes
  | typeSizeMax
  | typeBiggest
  | llongHold
  | llongWrap
  | ullongHold
  | ullongWrap
  | enums
  | dimMax
  | blockIntegral
deriving DecidableEq

/-- The values of `type` in the loop of lines 1442-1444: from
`nrrdTypeUnknown+1` up to `nrrdTypeLast-2`. -/
def sanityTypeLoop : List Int :=
  (List.range (nrrdTypeLast - 2 - nrrdTypeUnknown).toNat).map fun k =>
    nrrdTypeUnknown + 1 + (k : Int)

/-- Lines 1441-1444: the largest entry of `nrrdTypeSize` over the types of the
loop, with `AIR_MAX(a,b)` being `a > b ? a : b`. -/
def sanityMaxSize (b : Build) : Nat :=
  sanityTypeLoop.foldl
    (fun maxsize type => if maxsize > b.nrrdTypeSize type then maxsize else b.nrrdTypeSize type) 0

/-- Lines 1344-1493 of `nrrdSanity`, the tests made when the latch is clear:
the first test that fails, or none when all of them hold. -/
def sanityChecks (DM : Nat) (b : Build) : Option SanityErr :=
  if b.airSanity ≠ b.airInsane_not then some SanityErr.airSanity
  else if airEnumValCheck b.nrrdEncodingType b.nrrdDefaultWriteEncodingType ≠ 0 then
    some SanityErr.writeEncodingType
  else if airEnumValCheck nrrdCenter b.nrrdDefaultCenter ≠ 0 then some SanityErr.center
  else if ¬ (b.nrrdTypeDefault = b.nrrdDefaultResampleType
      ∨ ¬ (airEnumValCheck nrrdType b.nrrdDefaultResampleType ≠ 0)) then
    some SanityErr.resampleType
  else if airEnumValCheck b.nrrdBoundary b.nrrdDefaultResampleBoundary ≠ 0 then
    some SanityErr.resampleBoundary
  else if airEnumValCheck nrrdType b.nrrdStateMeasureType ≠ 0 then
    some SanityErr.measureType
  else if airEnumValCheck nrrdType b.nrrdStateMeasureHistoType ≠ 0 then
    some SanityErr.measureHistoType
  else if ¬ (b.nrrdTypeSize nrrdTypeChar = b.sizeofChar
      ∧ b.nrrdTypeSize nrrdTypeUChar = b.sizeofUChar
      ∧ b.nrrdTypeSize nrrdTypeShort = b.sizeofShort
      ∧ b.nrrdTypeSize nrrdTypeUShort = b.sizeofUShort
      ∧ b.nrrdTypeSize nrrdTypeInt = b.sizeofInt
      ∧ b.nrrdTypeSize nrrdTypeUInt = b.sizeofUInt
      ∧ b.nrrdTypeSize nrrdTypeLLong = b.sizeofLLong
      ∧ b.nrrdTypeSize nrrdTypeULLong = b.sizeofULLong
      ∧ b.nrrdTypeSize nrrdTypeFloat = b.sizeofFloat
      ∧ b.nrrdTypeSize nrrdTypeDouble = b.sizeofDouble) then
    some SanityErr.typeSizes
  else if sanityMaxSize b ≠ b.NRRD_TYPE_SIZE_MAX then some SanityErr.typeSizeMax
  else if sanityMaxSize b ≠ b.sizeofBiggest then some SanityErr.typeBiggest
  else if wrapS b.llongBits NRRD_LLONG_MAX ≠ NRRD_LLONG_MAX then some SanityErr.llongHold
  else if NRRD_LLONG_MIN ≠ wrapS b.llongBits (wrapS b.llongBits NRRD_LLONG_MAX + 1) then
    some SanityErr.llongWrap
  else if wrapU b.ullongBits NRRD_ULLONG_MAX ≠ NRRD_ULLONG_MAX then
    some SanityErr.ullongHold
  else if wrapU b.ullongBits (wrapU b.ullongBits NRRD_ULLONG_MAX + 1) ≠ 0 then
    some SanityErr.ullongWrap
  else if _nrrdCheckEnums b ≠ 0 then some SanityErr.enums
  else if ¬ (DM ≥ 3) then some SanityErr.dimMax
  else if b.nrrdTypeIsIntegral nrrdTypeBlock = 0 then some SanityErr.blockIntegral
  else none

/-- The state that `nrrdSanity` keeps between calls: the static variable
`_nrrdSanity` (line 1333), and a counter, not in the source, of how many times
the tests of lines 1344-1493 have been started. -/
structure SanityState where
  _nrrdSanity : Int
  runs : Nat

/-- Lines 1326-1499: the return value and the state after the call.  With the
latch set the function returns 1 at once; otherwise it makes the tests, and
sets the latch only when all of them hold. -/
def nrrdSanity (DM : Nat) (b : Build) (st : SanityState) : Int × SanityState :=
  if st._nrrdSanity ≠ 0 then (1, st)
  else
    match sanityChecks DM b with
    | some _ => (0, { st with runs := st.runs + 1 })
    | none => (1, { _nrrdSanity := 1, runs := st.runs + 1 })

/-- The state after `k` successive calls of `nrrdSanity`. -/
def sanityCalls (DM : Nat) (b : Build) : Nat → SanityState → SanityState
  | 0, st => st
  | k + 1, st => sanityCalls DM b k (nrrdSanity DM b st).2

/-- The ten numeric types, that is the types other than block. -/
def numericTypes : List Int :=
  [nrrdTypeChar, nrrdTypeUChar, nrrdTypeShort, nrrdTypeUShort, nrrdTypeInt, nrrdTypeUInt,
    nrrdTypeLLong, nrrdTypeULLong, nrrdTypeFloat, nrrdTypeDouble]

/-- The number `m` is the maximum declared width over the non-block types. -/
def IsMaxWidth (b : Build) (m : Nat) : Prop :=
  (∀ t ∈ numericTypes, b.nrrdTypeSize t ≤ m) ∧ ∃ t ∈ numericTypes, b.nrrdTypeSize t = m

/-- The conditions listed for `nrrdSanity`: the base-library sanity check
passes; the default write-encoding, centering and resampling values are in
their valid ranges (for the resampling type the range begins at
`nrrdTypeDefault`); every declared type width equals the host's; the maximum
declared width over the non-block types equals `NRRD_TYPE_SIZE_MAX` and
`sizeof(NRRD_TYPE_BIGGEST)`; the signed and unsigned 64-bit maxima, held in the
host's `airLLong` and `airULLong`, plus one wrap to the signed minimum and to
0; for each enumeration that `_nrrdCheckEnums` looks at, `Last` is the declared
maximum plus one; `NRRD_DIM_MAX >= 3`; the block type is registered as
integral. -/
def SanityListed (DM : Nat) (b : Build) : Prop :=
  b.airSanity = b.airInsane_not
  ∧ airEnumValCheck b.nrrdEncodingType b.nrrdDefaultWriteEncodingType = 0
  ∧ airEnumValCheck nrrdCenter b.nrrdDefaultCenter = 0
  ∧ (b.nrrdDefaultResampleType = b.nrrdTypeDefault
      ∨ airEnumValCheck nrrdType b.nrrdDefaultResampleType = 0)
  ∧ airEnumValCheck b.nrrdBoundary b.nrrdDefaultResampleBoundary = 0
  ∧ (b.nrrdTypeSize nrrdTypeChar = b.sizeofChar
      ∧ b.nrrdTypeSize nrrdTypeUChar = b.sizeofUChar
      ∧ b.nrrdTypeSize nrrdTypeShort = b.sizeofShort
      ∧ b.nrrdTypeSize nrrdTypeUShort = b.sizeofUShort
      ∧ b.nrrdTypeSize nrrdTypeInt = b.sizeofInt
      ∧ b.nrrdTypeSize nrrdTypeUInt = b.sizeofUInt
      ∧ b.nrrdTypeSize nrrdTypeLLong = b.sizeofLLong
      ∧ b.nrrdTypeSize nrrdTypeULLong = b.sizeofULLong
      ∧ b.nrrdTypeSize nrrdTypeFloat = b.sizeofFloat
      ∧ b.nrrdTypeSize nrrdTypeDouble = b.sizeofDouble)
  ∧ (IsMaxWidth b b.NRRD_TYPE_SIZE_MAX ∧ IsMaxWidth b b.sizeofBiggest)
  ∧ (wrapS b.llongBits NRRD_LLONG_MAX = NRRD_LLONG_MAX
      ∧ wrapS b.llongBits (NRRD_LLONG_MAX + 1) = NRRD_LLONG_MIN
      ∧ wrapU b.ullongBits NRRD_ULLONG_MAX = NRRD_ULLONG_MAX
      ∧ wrapU b.ullongBits (NRRD_ULLONG_MAX + 1) = 0)
  ∧ (b.nrrdFormatTypeLast = b.NRRD_FORMAT_TYPE_MAX + 1
      ∧ nrrdTypeLast = b.NRRD_TYPE_MAX + 1
      ∧ b.nrrdEncodingTypeLast = b.NRRD_ENCODING_TYPE_MAX + 1
      ∧ nrrdCenterLast = b.NRRD_CENTER_MAX + 1
      ∧ b.nrrdAxisInfoLast = b.NRRD_AXIS_INFO_MAX + 1
      ∧ (nrrdField_last : Int) = b.NRRD_FIELD_MAX + 1
      ∧ b.nrrdHasNonExistLast = b.NRRD_HAS_NON_EXIST_MAX + 1
      ∧ b.nrrdBoundaryLast = b.NRRD_BOUNDARY_MAX + 1
      ∧ b.nrrdMeasureLast = b.NRRD_MEASURE_MAX + 1
      ∧ b.nrrdUnaryOpLast = b.NRRD_UNARY_OP_MAX + 1
      ∧ b.nrrdBinaryOpLast = b.NRRD_BINARY_OP_MAX + 1
      ∧ b.nrrdTernaryOpLast = b.NRRD_TERNARY_OP_MAX + 1)
  ∧ 3 ≤ DM
  ∧ b.nrrdTypeIsIntegral nrrdTypeBlock ≠ 0

/-- The listed conditions together with the two further ones that
`nrrdSanity` tests: `nrrdStateMeasureType` and `nrrdStateMeasureHistoType` are
valid types. -/
def SanityChecked (DM : Nat) (b : Build) : Prop :=
  SanityListed DM b
  ∧ airEnumValCheck nrrdType b.nrrdStateMeasureType = 0
  ∧ airEnumValCheck nrrdType b.nrrdStateMeasureHistoType = 0

instance (b : Build) (m : Nat) : Decidable (IsMaxWidth b m) := by
  unfold IsMaxWidth
  infer_instance

instance (DM : Nat) (b : Build) : Decidable (SanityListed DM b) := by
  unfold SanityListed
  infer_instance

instance (DM : Nat) (b : Build) : Decidable (SanityChecked DM b) := by
  unfold SanityChecked
  infer_instance

/-- A conforming build, for the examples: a host with 8-bit bytes, 64-bit
`long long`, and enumerations that agree with their declared maxima. -/
def conformingBuild : Build :=
  { airSanity := 0, airInsane_not := 0,
    nrrdEncodingType := ⟨5⟩, nrrdDefaultWriteEncodingType := 1,
    nrrdDefaultCenter := nrrdCenterCell,
    nrrdTypeDefault := 0, nrrdDefaultResampleType := 0,
    nrrdBoundary := ⟨4⟩, nrrdDefaultResampleBoundary := 1,
    nrrdStateMeasureType := nrrdTypeFloat, nrrdStateMeasureHistoType := nrrdTypeFloat,
    nrrdTypeSize := fun t =>
      if t = 1 ∨ t = 2 then 1 else if t = 3 ∨ t = 4 then 2
      else if t = 5 ∨ t = 6 ∨ t = 9 then 4 else if t = 7 ∨ t = 8 ∨ t = 10 then 8 else 0,
    nrrdTypeIsIntegral := fun t => if t = 0 ∨ t = 9 ∨ t = 10 then 0 else 1,
    sizeofChar := 1, sizeofUChar := 1, sizeofShort := 2, sizeofUShort := 2,
    sizeofInt := 4, sizeofUInt := 4, sizeofLLong := 8, sizeofULLong := 8,
    sizeofFloat := 4, sizeofDouble := 8, sizeofBiggest := 8, NRRD_TYPE_SIZE_MAX := 8,
    llongBits := 64, ullongBits := 64,
    nrrdFormatTypeLast := 7, NRRD_FORMAT_TYPE_MAX := 6,
    NRRD_TYPE_MAX := 11,
    nrrdEncodingTypeLast := 6, NRRD_ENCODING_TYPE_MAX := 5,
    NRRD_CENTER_MAX := 2,
    nrrdAxisInfoLast := 11, NRRD_AXIS_INFO_MAX := 10,
    NRRD_FIELD_MAX := 32,
    nrrdHasNonExistLast := 4, NRRD_HAS_NON_EXIST_MAX := 3,
    nrrdBoundaryLast := 5, NRRD_BOUNDARY_MAX := 4,
    nrrdMeasureLast := 28, NRRD_MEASURE_MAX := 27,
    nrrdUnaryOpLast := 30, NRRD_UNARY_OP_MAX := 29,
    nrrdBinaryOpLast := 24, NRRD_BINARY_OP_MAX := 23,
    nrrdTernaryOpLast := 12, NRRD_TERNARY_OP_MAX := 11 }

/-- The conforming build with `nrrdStateMeasureType` set to 0, which is not a
valid type. -/
def buildBadMeasureType : Build :=
  { conformingBuild with nrrdStateMeasureType := 0 }

/-- The state of a process that has not yet called `nrrdSanity`. -/
def sanityInit : SanityState := { _nrrdSanity := 0, runs := 0 }

/-! ## The aggregate check `nrrdCheck` and `_nrrdSplitSizes` (simple.c, lines 1073-1092 and 1195-1214) -/

section Aggregate

variable {DM SM : Nat}

/-- Lines 1083-1092.  The error sink of `biff` (not under `src/`) is the list of
the errors recorded so far; a failing run adds to it, and its messages are
represented by the error of `_nrrdCheck`.  The result is the outcome, the sink
after the call and the object after the call. -/
def nrrdCheck (T : Tables) (w : Nat) (biff : List NrrdErr) (nrrd : Option (Nrrd DM SM)) :
    Res × List NrrdErr × Option (Nrrd DM SM) :=
  match _nrrdCheck T w nrrd true with
  | Res.pass => (Res.pass, biff, nrrd)
  | Res.fail e => (Res.fail e, biff ++ [e], nrrd)
  | Res.stuck => (Res.stuck, biff, nrrd)

/-- The loops of lines 1203-1206 and 1207-1210: `acc *= size[ai]` in `size_t`
(`w` bits) over the given indices.  The array `size` holds the `dim` entries
written by `nrrdAxisInfoGet_nva`; a read of another entry has no defined
value. -/
def splitLoop (w : Nat) (size : List Nat) : List Nat → Nat → Option Nat
  | [], acc => some acc
  | ai :: t, acc => (size[ai]?).bind fun s => splitLoop w size t ((acc * s) % 2 ^ w)

/-- Lines 1198-1214, for a non-null object and non-null result pointers: the
values left in `*pieceSize` and `*pieceNum`. -/
def _nrrdSplitSizes (w : Nat) (nrrd : Nrrd DM SM) (split : Nat) : Option (Nat × Nat) :=
  (nrrdAxisInfoGet_nva nrrd NrrdAxisInfo.size).bind fun size =>
    (splitLoop w size (List.range split) 1).bind fun pieceSize =>
      (splitLoop w size (List.range' split (nrrd.dim - split)) 1).map fun pieceNum =>
        (pieceSize, pieceNum)

end Aggregate

/-- The plain example (dim 3, no orientation) with coefficient 0 of the
direction of axis slot 15 set. -/
def nrrdStrayDirection : Nrrd 16 8 :=
  setAxis nrrdPlain 15
    { nrrdPlain.axis 15 with
      spaceDirection := fun j => if j.val = 0 then Dbl.fin 1 else Dbl.nan }

/-! ## What the consistency checker has established when it reaches an axis -/

section OrderProps

variable {DM SM : Nat}

/-- The state of the fields tested on lines 570-609, before the loop over the
axes: the label is unset or recognised, `spaceDim` is positive, at most
`NRRD_SPACE_DIM_MAX` and the dimension of a set label, `spaceOrigin` is not
partially existent, and every coefficient of the leading block of
`measurementFrame` exists exactly when coefficient `[0][0]` does. -/
def SpaceHeaderConsistent (nrrd : Nrrd DM SM) : Prop :=
  (nrrd.space = 0 ∨ airEnumValCheck nrrdSpace nrrd.space = 0)
  ∧ 0 < nrrd.spaceDim ∧ nrrd.spaceDim ≤ SM
  ∧ (nrrd.space ≠ 0 → nrrdSpaceDimension nrrd.space = some nrrd.spaceDim)
  ∧ VecConsistent nrrd.spaceDim nrrd.spaceOrigin
  ∧ FrameBlockConsistent nrrd

/-- Invariants I4 and I5 for one axis: its direction vector is not partially
existent over the coefficients below `sd`, and if it has a direction vector
then `min`, `max` and `spacing` do not exist and `units` is empty. -/
def AxisSpaceConsistent (sd : Nat) (ax : NrrdAxisInfo SM) : Prop :=
  VecConsistent sd ax.spaceDirection
  ∧ (HasDirection ax →
      AIR_EXISTS ax.min = false ∧ AIR_EXISTS ax.max = false
        ∧ AIR_EXISTS ax.spacing = false ∧ airStrlen ax.units = 0)

/-- Coefficient `ii` is the first one of `v` that differs in existence from
coefficient 0: `1 ≤ ii < sd`, the coefficients below `ii` agree in existence,
and coefficient `ii` does not agree with coefficient 0. -/
def FirstDisagreement (sd : Nat) (v : Fin SM → Dbl) (ii : Nat) : Prop :=
  1 ≤ ii ∧ ii < sd ∧ VecConsistent ii v
  ∧ ∃ (hi : ii < SM) (hz : 0 < SM), AIR_EXISTS (v ⟨ii, hi⟩) ≠ AIR_EXISTS (v ⟨0, hz⟩)

instance (sd : Nat) (v : Fin SM → Dbl) : Decidable (VecConsistent sd v) := by
  unfold VecConsistent
  infer_instance

instance (nrrd : Nrrd DM SM) : Decidable (SpaceHeaderConsistent nrrd) := by
  unfold SpaceHeaderConsistent
  infer_instance

end OrderProps

/-- The example with a partial direction on axis 1, carrying in addition the
measurement frame whose row 0 alone is set. -/
def nrrdRowFramePartialDirection : Nrrd 16 8 :=
  { nrrdPartialDirection with measurementFrame := nrrdRowFrame.measurementFrame }

/-- Nine declared axes of size 2 with `min = 0`, without `max`, spacing or
direction; no orientation. -/
def nrrdNineAxes : Nrrd 16 8 :=
  { nrrdPlain with
    dim := 9,
    axis := fun i =>
      if i.val < 9 then { axisUnset with size := 2, min := Dbl.fin 0 } else axisUnset }

/-- A single axis with `min = 2`, `max = 10`, `size = 4`, no spacing and no
centering of its own. -/
def nrrdOffsetAxis : Nrrd 16 8 :=
  { nrrdPlain with
    dim := 1,
    axis := fun i =>
      if i.val = 0 then { axisUnset with size := 4, min := Dbl.fin 2, max := Dbl.fin 10 }
      else axisUnset }

/-- A single axis of size 3 whose `min` and `max` are the binary64 numbers
nearest to 0.1 and 0.7. -/
def nrrdTenthsAxis : Nrrd 16 8 :=
  { nrrdPlain with
    dim := 1,
    axis := fun i =>
      if i.val = 0 then
        { axisUnset with
          size := 3,
          min := Dbl.fin (3602879701896397 / 36028797018963968),
          max := Dbl.fin (3152519739159347 / 4503599627370496) }
      else axisUnset }

/-- A single axis of size 2 whose `max` is the binary64 number nearest to
`1e308` and whose `min` is its negative. -/
def nrrdHugeAxis : Nrrd 16 8 :=
  { nrrdPlain with
    dim := 1,
    axis := fun i =>
      if i.val = 0 then
        { axisUnset with
          size := 2,
          min := Dbl.fin (-(5010420900022432 * 2 ^ 971)),
          max := Dbl.fin (5010420900022432 * 2 ^ 971) }
      else axisUnset }

/-! # Theorems -/

/-! ## Outcomes and loops -/

theorem Res.code_eq_zero {r : Res} : r.code = some 0 ↔ r = Res.pass := by
  cases r <;> simp [Res.code]

theorem Res.code_eq_one {r : Res} : r.code = some 1 ↔ ∃ e, r = Res.fail e := by
  cases r <;> simp [Res.code]

theorem Res.andThen_pass (k : Res) : Res.andThen Res.pass k = k := rfl

theorem Res.andThen_eq_pass {r k : Res} :
    Res.andThen r k = Res.pass ↔ r = Res.pass ∧ k = Res.pass := by
  cases r <;> simp [Res.andThen]

theorem Res.andThen_ne_stuck {r k : Res} (hr : r ≠ Res.stuck) (hk : k ≠ Res.stuck) :
    Res.andThen r k ≠ Res.stuck := by
  cases r <;> simp_all [Res.andThen]

theorem Res.andThen_code_one_left {r k : Res} (hr : r.code = some 1) :
    (Res.andThen r k).code = some 1 := by
  cases r <;> simp_all [Res.andThen, Res.code]

theorem Res.andThen_code_one_right {r k : Res} (hr : r ≠ Res.stuck)
    (hk : k.code = some 1) : (Res.andThen r k).code = some 1 := by
  cases r <;> simp_all [Res.andThen, Res.code]

theorem Res.read_some {α : Type} (x : α) (k : α → Res) : Res.read (some x) k = k x := rfl

theorem rd_lt {α : Type} {N : Nat} (a : Fin N → α) {i : Nat} (h : i < N) :
    rd a i = some (a ⟨i, h⟩) := by
  simp [rd, h]

theorem rd_ge {α : Type} {N : Nat} (a : Fin N → α) {i : Nat} (h : N ≤ i) :
    rd a i = none := by
  simp [rd, Nat.not_lt.mpr h]

theorem forEach_eq_pass {l : List Nat} {body : Nat → Res} :
    forEach l body = Res.pass ↔ ∀ i ∈ l, body i = Res.pass := by
  induction l with
  | nil => simp [forEach]
  | cons a t ih => simp [forEach, Res.andThen_eq_pass, ih]

theorem forEach_ne_stuck {l : List Nat} {body : Nat → Res}
    (h : ∀ i ∈ l, body i ≠ Res.stuck) : forEach l body ≠ Res.stuck := by
  induction l with
  | nil => simp [forEach]
  | cons a t ih =>
    simp only [forEach]
    exact Res.andThen_ne_stuck (h a (List.mem_cons_self a t))
      (ih fun i hi => h i (List.mem_cons_of_mem a hi))

theorem forEach_congr {l : List Nat} {f g : Nat → Res}
    (h : ∀ i ∈ l, f i = g i) : forEach l f = forEach l g := by
  induction l with
  | nil => rfl
  | cons a t ih =>
    simp only [forEach]
    rw [h a (List.mem_cons_self a t), ih fun i hi => h i (List.mem_cons_of_mem a hi)]

/-- In a loop over `s, s+1, ..`, a failing index whose predecessors all return
makes the loop return 1. -/
theorem forEach_range'_code_one (body : Nat → Res) (n : Nat) :
    ∀ (s i : Nat), s ≤ i → i < s + n →
      (∀ j, s ≤ j → j < i → body j ≠ Res.stuck) →
      (body i).code = some 1 →
      (forEach (List.range' s n) body).code = some 1 := by
  induction n with
  | zero => intro s i hs hi; omega
  | succ n ih =>
    intro s i hs hi hpre hfail
    simp only [List.range'_succ, forEach]
    rcases Nat.eq_or_lt_of_le hs with heq | hlt
    · subst heq
      exact Res.andThen_code_one_left hfail
    · refine Res.andThen_code_one_right (hpre s (Nat.le_refl s) hlt) ?_
      exact ih (s + 1) i hlt (by omega) (fun j hj hji => hpre j (by omega) hji) hfail

/-- A loop over `s, s+1, ..` fails with message `e` exactly when some index
produces `e` and every earlier index passes. -/
theorem forEach_range'_eq_fail (body : Nat → Res) (e : NrrdErr) (n : Nat) :
    ∀ s : Nat, forEach (List.range' s n) body = Res.fail e ↔
      ∃ i, s ≤ i ∧ i < s + n ∧ body i = Res.fail e ∧
        ∀ j, s ≤ j → j < i → body j = Res.pass := by
  induction n with
  | zero =>
    intro s
    simp only [List.range'_zero, forEach]
    constructor
    · intro h; cases h
    · rintro ⟨i, h1, h2, _⟩; omega
  | succ n ih =>
    intro s
    simp only [List.range'_succ, forEach]
    constructor
    · intro h
      cases hb : body s with
      | pass =>
        rw [hb, Res.andThen_pass] at h
        obtain ⟨i, h1, h2, h3, h4⟩ := (ih (s + 1)).mp h
        refine ⟨i, by omega, by omega, h3, fun j hj hji => ?_⟩
        rcases Nat.eq_or_lt_of_le hj with heq | hlt
        · rw [← heq]; exact hb
        · exact h4 j hlt hji
      | fail e2 =>
        rw [hb] at h
        simp only [Res.andThen] at h
        exact ⟨s, Nat.le_refl s, by omega, by rw [hb, h], fun j hj hjs => by omega⟩
      | stuck =>
        rw [hb] at h
        simp [Res.andThen] at h
    · rintro ⟨i, h1, h2, h3, h4⟩
      rcases Nat.eq_or_lt_of_le h1 with heq | hlt
      · subst heq
        rw [h3]; rfl
      · rw [h4 s (Nat.le_refl s) hlt, Res.andThen_pass]
        exact (ih (s + 1)).mpr ⟨i, hlt, by omega, h3, fun j hj hji => h4 j (by omega) hji⟩

theorem foldl_or_eq_any {α : Type} (p : α → Bool) (l : List α) :
    ∀ b : Bool, l.foldl (fun ex x => ex || p x) b = (b || l.any p) := by
  induction l with
  | nil => intro b; simp
  | cons a t ih => intro b; simp [List.foldl, ih, Bool.or_assoc]

theorem foldl_and_eq_all {α : Type} (p : α → Bool) (l : List α) :
    ∀ b : Bool, l.foldl (fun ok x => ok && p x) b = (b && l.all p) := by
  induction l with
  | nil => intro b; simp
  | cons a t ih => intro b; simp [List.foldl, ih, Bool.and_assoc]

/-! ## The existence loops of the consistency checker -/

/-- One existence comparison never gets stuck inside the array and passes
exactly when the coefficient has the expected existence. -/
theorem existStep {N : Nat} (v : Fin N → Dbl) (b : Bool) (e : NrrdErr) {ii : Nat}
    (h : ii < N) :
    (Res.read (rd v ii) fun x =>
      if xor b (AIR_EXISTS x) = true then Res.fail e else Res.pass)
      = if AIR_EXISTS (v ⟨ii, h⟩) = b then Res.pass else Res.fail e := by
  rw [rd_lt v h, Res.read_some]
  cases b <;> cases AIR_EXISTS (v ⟨ii, h⟩) <;> simp

theorem existLoop_eq_pass {N : Nat} (v : Fin N → Dbl) (b : Bool) (mk : Nat → NrrdErr)
    (l : List Nat) (hl : ∀ ii ∈ l, ii < N) :
    forEach l (fun ii => Res.read (rd v ii) fun x =>
      if xor b (AIR_EXISTS x) = true then Res.fail (mk ii) else Res.pass) = Res.pass
    ↔ ∀ i : Fin N, i.val ∈ l → AIR_EXISTS (v i) = b := by
  rw [forEach_eq_pass]
  constructor
  · intro h i hi
    have := h i.val hi
    rw [existStep v b (mk i.val) i.isLt] at this
    by_contra hne
    simp [hne] at this
  · intro h ii hii
    rw [existStep v b (mk ii) (hl ii hii)]
    simp [h ⟨ii, hl ii hii⟩ hii]

theorem existLoop_ne_stuck {N : Nat} (v : Fin N → Dbl) (b : Bool) (mk : Nat → NrrdErr)
    (l : List Nat) (hl : ∀ ii ∈ l, ii < N) :
    forEach l (fun ii => Res.read (rd v ii) fun x =>
      if xor b (AIR_EXISTS x) = true then Res.fail (mk ii) else Res.pass) ≠ Res.stuck := by
  apply forEach_ne_stuck
  intro ii hii
  rw [existStep v b (mk ii) (hl ii hii)]
  split <;> simp

/-- A loop that does not pass and is not stuck returns 1. -/
theorem Res.code_one_of_ne {r : Res} (h1 : r ≠ Res.pass) (h2 : r ≠ Res.stuck) :
    r.code = some 1 := by
  cases r <;> simp_all [Res.code]

theorem nrrdSpaceDimension_valid {space : Int} (h : airEnumValCheck nrrdSpace space = 0) :
    nrrdSpaceDimension space = some 3 ∨ nrrdSpaceDimension space = some 4 := by
  have hr : 1 ≤ space ∧ space ≤ 12 := by
    by_contra hc
    simp [airEnumValCheck, nrrdSpace, hc] at h
  obtain ⟨h1, h2⟩ := hr
  interval_cases space <;> simp [nrrdSpaceDimension, nrrdSpaceUnknown, nrrdSpaceLast,
    nrrdSpaceRightAnteriorSuperior, nrrdSpaceLeftAnteriorSuperior,
    nrrdSpaceLeftPosteriorSuperior, nrrdSpaceScannerXYZ, nrrdSpace3DRightHanded,
    nrrdSpace3DLeftHanded, nrrdSpaceRightAnteriorSuperiorTime,
    nrrdSpaceLeftAnteriorSuperiorTime, nrrdSpaceLeftPosteriorSuperiorTime,
    nrrdSpaceScannerXYZTime, nrrdSpace3DRightHandedTime, nrrdSpace3DLeftHandedTime]

section SpaceInfoLemmas

variable {DM SM : Nat}

theorem spaceInfoLabel_ne_stuck (nrrd : Nrrd DM SM)
    (hv : nrrd.space = 0 ∨ airEnumValCheck nrrdSpace nrrd.space = 0) :
    spaceInfoLabel nrrd ≠ Res.stuck := by
  unfold spaceInfoLabel
  split
  · rename_i hs
    have hv2 : airEnumValCheck nrrdSpace nrrd.space = 0 := by
      rcases hv with h | h
      · exact absurd h hs
      · exact h
    rcases nrrdSpaceDimension_valid hv2 with h | h <;> rw [h, Res.read_some] <;> split <;> simp
  · simp

theorem spaceInfoLabel_eq_pass (nrrd : Nrrd DM SM) :
    spaceInfoLabel nrrd = Res.pass ↔
      (nrrd.space ≠ 0 → nrrdSpaceDimension nrrd.space = some nrrd.spaceDim) := by
  unfold spaceInfoLabel
  split
  · rename_i hs
    cases hd : nrrdSpaceDimension nrrd.space with
    | none => simp [Res.read, hs]
    | some sd =>
      rw [Res.read_some]
      by_cases hsd : sd = nrrd.spaceDim <;> simp [hsd, hs]
  · rename_i hs
    simp only [ne_eq, not_not] at hs
    simp [hs]

theorem spaceInfoOrigin_ne_stuck (nrrd : Nrrd DM SM) (h0 : 0 < nrrd.spaceDim)
    (hS : nrrd.spaceDim ≤ SM) : spaceInfoOrigin nrrd ≠ Res.stuck := by
  unfold spaceInfoOrigin
  rw [rd_lt nrrd.spaceOrigin (Nat.lt_of_lt_of_le h0 hS), Res.read_some]
  exact existLoop_ne_stuck _ _ _ _ fun ii hii => by
    have := List.mem_range.mp hii
    omega

theorem spaceInfoOrigin_eq_pass (nrrd : Nrrd DM SM) (h0 : 0 < nrrd.spaceDim)
    (hS : nrrd.spaceDim ≤ SM) :
    spaceInfoOrigin nrrd = Res.pass ↔
      ∀ i : Fin SM, i.val < nrrd.spaceDim →
        AIR_EXISTS (nrrd.spaceOrigin i)
          = AIR_EXISTS (nrrd.spaceOrigin ⟨0, Nat.lt_of_lt_of_le h0 hS⟩) := by
  unfold spaceInfoOrigin
  rw [rd_lt nrrd.spaceOrigin (Nat.lt_of_lt_of_le h0 hS), Res.read_some,
    existLoop_eq_pass _ _ _ _ fun ii hii => by
      have := List.mem_range.mp hii
      omega]
  simp only [List.mem_range]

theorem spaceInfoFrame_eq (nrrd : Nrrd DM SM) (h0 : 0 < nrrd.spaceDim)
    (hS : nrrd.spaceDim ≤ SM) :
    spaceInfoFrame nrrd =
      forEach (List.range nrrd.spaceDim) fun dd =>
        forEach (List.range nrrd.spaceDim) fun ii =>
          Res.read (rd nrrd.measurementFrame dd) fun row =>
          Res.read (rd row ii) fun m =>
            if xor (AIR_EXISTS (nrrd.measurementFrame ⟨0, Nat.lt_of_lt_of_le h0 hS⟩
                ⟨0, Nat.lt_of_lt_of_le h0 hS⟩)) (AIR_EXISTS m) = true
            then Res.fail (NrrdErr.frameExistence dd ii) else Res.pass := by
  unfold spaceInfoFrame
  rw [rd_lt nrrd.measurementFrame (Nat.lt_of_lt_of_le h0 hS), Res.read_some,
    rd_lt _ (Nat.lt_of_lt_of_le h0 hS), Res.read_some]

theorem spaceInfoFrame_row (nrrd : Nrrd DM SM) (b : Bool) {dd : Nat} (hdd : dd < SM)
    (l : List Nat) :
    (forEach l fun ii =>
      Res.read (rd nrrd.measurementFrame dd) fun row =>
      Res.read (rd row ii) fun m =>
        if xor b (AIR_EXISTS m) = true
        then Res.fail (NrrdErr.frameExistence dd ii) else Res.pass)
    = forEach l fun ii =>
      Res.read (rd (nrrd.measurementFrame ⟨dd, hdd⟩) ii) fun m =>
        if xor b (AIR_EXISTS m) = true
        then Res.fail (NrrdErr.frameExistence dd ii) else Res.pass := by
  simp only [rd_lt nrrd.measurementFrame hdd, Res.read_some]

theorem spaceInfoFrame_ne_stuck (nrrd : Nrrd DM SM) (h0 : 0 < nrrd.spaceDim)
    (hS : nrrd.spaceDim ≤ SM) : spaceInfoFrame nrrd ≠ Res.stuck := by
  rw [spaceInfoFrame_eq nrrd h0 hS]
  apply forEach_ne_stuck
  intro dd hdd
  have hdd2 : dd < SM := by
    have := List.mem_range.mp hdd
    omega
  rw [spaceInfoFrame_row nrrd _ hdd2]
  exact existLoop_ne_stuck _ _ _ _ fun ii hii => by
    have := List.mem_range.mp hii
    omega

theorem spaceInfoFrame_eq_pass (nrrd : Nrrd DM SM) (h0 : 0 < nrrd.spaceDim)
    (hS : nrrd.spaceDim ≤ SM) :
    spaceInfoFrame nrrd = Res.pass ↔
      ∀ dd ii : Fin SM, dd.val < nrrd.spaceDim → ii.val < nrrd.spaceDim →
        AIR_EXISTS (nrrd.measurementFrame dd ii)
          = AIR_EXISTS (nrrd.measurementFrame ⟨0, Nat.lt_of_lt_of_le h0 hS⟩
              ⟨0, Nat.lt_of_lt_of_le h0 hS⟩) := by
  rw [spaceInfoFrame_eq nrrd h0 hS, forEach_eq_pass]
  constructor
  · intro h dd ii hdd hii
    have h1 := h dd.val (List.mem_range.mpr hdd)
    rw [spaceInfoFrame_row nrrd _ dd.isLt, existLoop_eq_pass _ _ _ _ fun ii hii => by
      have := List.mem_range.mp hii
      omega] at h1
    exact h1 ii (List.mem_range.mpr hii)
  · intro h dd hdd
    have hdd1 := List.mem_range.mp hdd
    have hdd2 : dd < SM := by omega
    rw [spaceInfoFrame_row nrrd _ hdd2, existLoop_eq_pass _ _ _ _ fun ii hii => by
      have := List.mem_range.mp hii
      omega]
    intro ii hii
    exact h ⟨dd, hdd2⟩ ii hdd1 (List.mem_range.mp hii)

/-- The mutual-exclusion test of lines 621-630 for one axis. -/
theorem spaceInfoAxis_eq (nrrd : Nrrd DM SM) (dd : Fin DM) (hSM : 0 < SM) :
    spaceInfoAxis nrrd dd.val =
      Res.andThen
        (forEach (List.range' 1 (nrrd.spaceDim - 1)) fun ii =>
          Res.read (rd (nrrd.axis dd).spaceDirection ii) fun di =>
            if xor (AIR_EXISTS ((nrrd.axis dd).spaceDirection ⟨0, hSM⟩)) (AIR_EXISTS di) = true
            then Res.fail (NrrdErr.directionExistence dd.val ii) else Res.pass)
        (if AIR_EXISTS ((nrrd.axis dd).spaceDirection ⟨0, hSM⟩) = true then
          (if AIR_EXISTS (nrrd.axis dd).min = true ∨ AIR_EXISTS (nrrd.axis dd).max = true
              ∨ AIR_EXISTS (nrrd.axis dd).spacing = true
              ∨ airStrlen (nrrd.axis dd).units ≠ 0
           then Res.fail (NrrdErr.directionExclusive dd.val) else Res.pass)
         else Res.pass) := by
  unfold spaceInfoAxis
  rw [rd_lt nrrd.axis dd.isLt, Res.read_some, rd_lt _ hSM, Res.read_some]

theorem mem_range'_one {sd ii : Nat} (h : ii ∈ List.range' 1 (sd - 1)) :
    1 ≤ ii ∧ ii < sd := by
  have := List.mem_range'_1.mp h
  omega

theorem spaceInfoAxis_ne_stuck (nrrd : Nrrd DM SM) (dd : Fin DM)
    (h0 : 0 < nrrd.spaceDim) (hS : nrrd.spaceDim ≤ SM) :
    spaceInfoAxis nrrd dd.val ≠ Res.stuck := by
  rw [spaceInfoAxis_eq nrrd dd (Nat.lt_of_lt_of_le h0 hS)]
  apply Res.andThen_ne_stuck
  · exact existLoop_ne_stuck _ _ _ _ fun ii hii => by
      have := mem_range'_one hii
      omega
  · split_ifs <;> simp

theorem spaceInfoAxis_eq_pass (nrrd : Nrrd DM SM) (dd : Fin DM)
    (h0 : 0 < nrrd.spaceDim) (hS : nrrd.spaceDim ≤ SM) :
    spaceInfoAxis nrrd dd.val = Res.pass ↔
      (∀ i : Fin SM, i.val < nrrd.spaceDim →
        AIR_EXISTS ((nrrd.axis dd).spaceDirection i)
          = AIR_EXISTS ((nrrd.axis dd).spaceDirection ⟨0, Nat.lt_of_lt_of_le h0 hS⟩))
      ∧ (AIR_EXISTS ((nrrd.axis dd).spaceDirection ⟨0, Nat.lt_of_lt_of_le h0 hS⟩) = true →
          ¬ (AIR_EXISTS (nrrd.axis dd).min = true ∨ AIR_EXISTS (nrrd.axis dd).max = true
              ∨ AIR_EXISTS (nrrd.axis dd).spacing = true
              ∨ airStrlen (nrrd.axis dd).units ≠ 0)) := by
  rw [spaceInfoAxis_eq nrrd dd (Nat.lt_of_lt_of_le h0 hS), Res.andThen_eq_pass,
    existLoop_eq_pass _ _ _ _ fun ii hii => by
      have := mem_range'_one hii
      omega]
  constructor
  · rintro ⟨h1, h2⟩
    refine ⟨fun i hi => ?_, fun hd hset => ?_⟩
    · by_cases hz : i.val = 0
      · have : i = ⟨0, Nat.lt_of_lt_of_le h0 hS⟩ := Fin.ext hz
        rw [this]
      · exact h1 i (List.mem_range'_1.mpr (by omega))
    · rw [if_pos hd, if_pos hset] at h2
      cases h2
  · rintro ⟨h1, h2⟩
    refine ⟨fun i hi => h1 i (mem_range'_one hi).2, ?_⟩
    by_cases hd : AIR_EXISTS ((nrrd.axis dd).spaceDirection ⟨0, Nat.lt_of_lt_of_le h0 hS⟩) = true
    · rw [if_pos hd, if_neg (h2 hd)]
    · rw [if_neg hd]

/-- The loop over the declared axes returns 1 as soon as one declared axis
fails its test. -/
theorem spaceInfoDirections_code_one (nrrd : Nrrd DM SM) (a : Fin DM)
    (h0 : 0 < nrrd.spaceDim) (hS : nrrd.spaceDim ≤ SM) (ha : a.val < nrrd.dim)
    (hfail : spaceInfoAxis nrrd a.val ≠ Res.pass) :
    (spaceInfoDirections nrrd).code = some 1 := by
  unfold spaceInfoDirections
  rw [List.range_eq_range']
  refine forEach_range'_code_one _ _ 0 a.val (Nat.zero_le _) (by omega) ?_ ?_
  · intro j _ hj
    exact spaceInfoAxis_ne_stuck nrrd ⟨j, Nat.lt_trans hj a.isLt⟩ h0 hS
  · exact Res.code_one_of_ne hfail (spaceInfoAxis_ne_stuck nrrd a h0 hS)

theorem spaceInfoDirections_eq_pass (nrrd : Nrrd DM SM) :
    spaceInfoDirections nrrd = Res.pass ↔
      ∀ dd, dd < nrrd.dim → spaceInfoAxis nrrd dd = Res.pass := by
  unfold spaceInfoDirections
  rw [forEach_eq_pass]
  simp only [List.mem_range]

theorem spaceInfoAxis_pass_lt (nrrd : Nrrd DM SM) {dd : Nat}
    (h : spaceInfoAxis nrrd dd = Res.pass) : dd < DM := by
  by_contra hc
  unfold spaceInfoAxis at h
  rw [rd_ge nrrd.axis (Nat.not_lt.mp hc)] at h
  simp [Res.read] at h

/-- With a positive space dimension in range and a valid label, the checker is
the chain of its four blocks. -/
theorem spaceInfo_pos (nrrd : Nrrd DM SM) (h0 : 0 < nrrd.spaceDim)
    (hS : nrrd.spaceDim ≤ SM)
    (hv : nrrd.space = 0 ∨ airEnumValCheck nrrdSpace nrrd.space = 0) :
    _nrrdFieldCheckSpaceInfo nrrd =
      Res.andThen (spaceInfoLabel nrrd) (Res.andThen (spaceInfoOrigin nrrd)
        (Res.andThen (spaceInfoFrame nrrd) (spaceInfoDirections nrrd))) := by
  unfold _nrrdFieldCheckSpaceInfo
  rw [if_neg (not_not.mpr hv), if_neg (not_not.mpr hS), if_pos (Nat.pos_iff_ne_zero.mp h0)]
  cases spaceInfoLabel nrrd <;> cases spaceInfoOrigin nrrd <;> cases spaceInfoFrame nrrd <;>
    cases spaceInfoDirections nrrd <;> rfl

/-- With a positive space dimension, the checker returns 1 whenever one of its
blocks does not pass and the axis loop, if reached, returns 1 or passes. -/
theorem spaceInfo_code_one (nrrd : Nrrd DM SM) (h0 : 0 < nrrd.spaceDim)
    (h : nrrd.spaceDim ≤ SM →
      spaceInfoLabel nrrd ≠ Res.pass ∨ spaceInfoOrigin nrrd ≠ Res.pass
        ∨ spaceInfoFrame nrrd ≠ Res.pass ∨ (spaceInfoDirections nrrd).code = some 1) :
    (_nrrdFieldCheckSpaceInfo nrrd).code = some 1 := by
  by_cases hv : nrrd.space = 0 ∨ airEnumValCheck nrrdSpace nrrd.space = 0
  · by_cases hS : nrrd.spaceDim ≤ SM
    · rw [spaceInfo_pos nrrd h0 hS hv]
      have hl := spaceInfoLabel_ne_stuck nrrd hv
      have ho := spaceInfoOrigin_ne_stuck nrrd h0 hS
      have hf := spaceInfoFrame_ne_stuck nrrd h0 hS
      by_cases h1 : spaceInfoLabel nrrd = Res.pass
      · rw [h1, Res.andThen_pass]
        by_cases h2 : spaceInfoOrigin nrrd = Res.pass
        · rw [h2, Res.andThen_pass]
          by_cases h3 : spaceInfoFrame nrrd = Res.pass
          · rw [h3, Res.andThen_pass]
            rcases h hS with h4 | h4 | h4 | h4
            · exact absurd h1 h4
            · exact absurd h2 h4
            · exact absurd h3 h4
            · exact h4
          · exact Res.andThen_code_one_left (Res.code_one_of_ne h3 hf)
        · exact Res.andThen_code_one_left (Res.code_one_of_ne h2 ho)
      · exact Res.andThen_code_one_left (Res.code_one_of_ne h1 hl)
    · unfold _nrrdFieldCheckSpaceInfo
      rw [if_neg (not_not.mpr hv), if_pos hS]
      rfl
  · unfold _nrrdFieldCheckSpaceInfo
    rw [if_pos hv]
    rfl

end SpaceInfoLemmas

/-! ## The consistency checker: rejected objects -/

section SpaceInfoClaims

variable {DM SM : Nat}

/-- C2: with a positive space dimension, a declared axis whose direction
coefficients `0 .. spaceDim-1` all exist and whose `min`, `max` or `spacing`
exists, or whose units string is non-empty, makes `_nrrdFieldCheckSpaceInfo`
return 1. -/
theorem spaceInfo_rejects_scalars_with_direction (nrrd : Nrrd DM SM) (a : Fin DM)
    (h0 : 0 < nrrd.spaceDim) (ha : a.val < nrrd.dim)
    (hdir : ∀ i : Fin SM, i.val < nrrd.spaceDim →
      AIR_EXISTS ((nrrd.axis a).spaceDirection i) = true)
    (hset : AIR_EXISTS (nrrd.axis a).min = true ∨ AIR_EXISTS (nrrd.axis a).max = true
      ∨ AIR_EXISTS (nrrd.axis a).spacing = true ∨ airStrlen (nrrd.axis a).units ≠ 0) :
    (_nrrdFieldCheckSpaceInfo nrrd).code = some 1 := by
  refine spaceInfo_code_one nrrd h0 fun hS => Or.inr (Or.inr (Or.inr ?_))
  refine spaceInfoDirections_code_one nrrd a h0 hS ha fun hp => ?_
  rw [spaceInfoAxis_eq_pass nrrd a h0 hS] at hp
  exact hp.2 (hdir _ h0) hset

theorem spaceInfo_rejects_scalars_with_direction_witness :
    (0 < nrrdOrientedWithMin.spaceDim ∧ (1 : Fin 16).val < nrrdOrientedWithMin.dim
      ∧ AIR_EXISTS (nrrdOrientedWithMin.axis 1).min = true)
    ∧ (_nrrdFieldCheckSpaceInfo nrrdOrientedWithMin).code = some 1 :=
  ⟨by decide,
    spaceInfo_rejects_scalars_with_direction nrrdOrientedWithMin 1 (by decide) (by decide)
      (by decide) (Or.inl (by decide))⟩

theorem spaceInfoAnyUnits_iff (nrrd : Nrrd DM SM) :
    spaceInfoAnyUnits nrrd = true ↔ ∃ dd : Fin SM, airStrlen (nrrd.spaceUnits dd) ≠ 0 := by
  unfold spaceInfoAnyUnits
  rw [foldl_or_eq_any]
  simp [List.any_eq_true]

theorem spaceInfoAnyOrigin_iff (nrrd : Nrrd DM SM) :
    spaceInfoAnyOrigin nrrd = true ↔ ∃ dd : Fin SM, AIR_EXISTS (nrrd.spaceOrigin dd) = true := by
  unfold spaceInfoAnyOrigin
  rw [foldl_or_eq_any]
  simp [List.any_eq_true]

theorem spaceInfoAnyDirection_iff (nrrd : Nrrd DM SM) :
    spaceInfoAnyDirection nrrd = true ↔
      ∃ (ii : Fin DM) (dd : Fin SM), AIR_EXISTS ((nrrd.axis ii).spaceDirection dd) = true := by
  unfold spaceInfoAnyDirection
  simp only [foldl_or_eq_any]
  simp only [Bool.false_or, List.any_eq_true, List.mem_finRange, true_and]
  constructor
  · rintro ⟨dd, ii, h⟩
    exact ⟨ii, dd, h⟩
  · rintro ⟨ii, dd, h⟩
    exact ⟨dd, ii, h⟩

/-- The checker on an object without space dimension. -/
theorem spaceInfo_zero (nrrd : Nrrd DM SM) (hsd : nrrd.spaceDim = 0) :
    _nrrdFieldCheckSpaceInfo nrrd =
      if ¬ (nrrd.space = 0 ∨ airEnumValCheck nrrdSpace nrrd.space = 0) then
        Res.fail NrrdErr.spaceInvalid
      else if nrrd.space ≠ 0 then Res.fail NrrdErr.spaceNoDim
      else if spaceInfoAnyUnits nrrd = true then Res.fail NrrdErr.spaceUnitsNoDim
      else if spaceInfoAnyOrigin nrrd = true then Res.fail NrrdErr.spaceOriginNoDim
      else if spaceInfoAnyDirection nrrd = true then Res.fail NrrdErr.spaceDirectionsNoDim
      else Res.pass := by
  unfold _nrrdFieldCheckSpaceInfo
  simp [hsd]

/-- C3: with `spaceDim = 0`, a non-empty space unit, an existent origin
coefficient, or an existent direction coefficient of any of the
`NRRD_DIM_MAX` axis slots makes `_nrrdFieldCheckSpaceInfo` return 1. -/
theorem spaceInfo_rejects_space_fields_without_dim (nrrd : Nrrd DM SM)
    (hsd : nrrd.spaceDim = 0)
    (h : (∃ dd : Fin SM, airStrlen (nrrd.spaceUnits dd) ≠ 0)
      ∨ (∃ dd : Fin SM, AIR_EXISTS (nrrd.spaceOrigin dd) = true)
      ∨ (∃ (ii : Fin DM) (dd : Fin SM),
          AIR_EXISTS ((nrrd.axis ii).spaceDirection dd) = true)) :
    (_nrrdFieldCheckSpaceInfo nrrd).code = some 1 := by
  rw [← spaceInfoAnyUnits_iff, ← spaceInfoAnyOrigin_iff, ← spaceInfoAnyDirection_iff] at h
  rw [spaceInfo_zero nrrd hsd]
  split_ifs <;> first | rfl | simp_all

theorem spaceInfo_rejects_space_fields_without_dim_witness :
    (nrrdPlainWithSpaceUnits.spaceDim = 0
      ∧ airStrlen (nrrdPlainWithSpaceUnits.spaceUnits 2) ≠ 0)
    ∧ (_nrrdFieldCheckSpaceInfo nrrdPlainWithSpaceUnits).code = some 1 :=
  ⟨by decide,
    spaceInfo_rejects_space_fields_without_dim nrrdPlainWithSpaceUnits (by decide)
      (Or.inl ⟨2, by decide⟩)⟩

/-- C4: with `spaceDim > 1`, an origin whose coefficient 0 exists while the
coefficients `1 .. spaceDim-1` are NaN makes `_nrrdFieldCheckSpaceInfo` return
1; more generally, with `spaceDim > 0`, so does any origin coefficient below
`spaceDim` whose existence differs from that of coefficient 0. -/
theorem spaceInfo_rejects_partial_origin (nrrd : Nrrd DM SM)
    (h : (1 < nrrd.spaceDim
          ∧ (∀ z : Fin SM, z.val = 0 → AIR_EXISTS (nrrd.spaceOrigin z) = true)
          ∧ (∀ i : Fin SM, 1 ≤ i.val → i.val < nrrd.spaceDim →
              nrrd.spaceOrigin i = Dbl.nan))
      ∨ (0 < nrrd.spaceDim
          ∧ ∃ i z : Fin SM, i.val < nrrd.spaceDim ∧ z.val = 0
              ∧ AIR_EXISTS (nrrd.spaceOrigin i) ≠ AIR_EXISTS (nrrd.spaceOrigin z))) :
    (_nrrdFieldCheckSpaceInfo nrrd).code = some 1 := by
  have h0 : 0 < nrrd.spaceDim := by
    rcases h with h | h <;> omega
  refine spaceInfo_code_one nrrd h0 fun hS => Or.inr (Or.inl fun hp => ?_)
  rw [spaceInfoOrigin_eq_pass nrrd h0 hS] at hp
  rcases h with ⟨h1, hz, hn⟩ | ⟨_, i, z, hi, hz, hne⟩
  · have e1 := hp ⟨1, by omega⟩ h1
    rw [hn ⟨1, by omega⟩ (Nat.le_refl 1) h1, hz ⟨0, by omega⟩ rfl] at e1
    simp [AIR_EXISTS] at e1
  · have : z = ⟨0, by omega⟩ := Fin.ext hz
    rw [this] at hne
    exact hne (hp i hi)

theorem spaceInfo_rejects_partial_origin_witness :
    (1 < nrrdPartialOrigin.spaceDim
      ∧ AIR_EXISTS (nrrdPartialOrigin.spaceOrigin 0) = true
      ∧ nrrdPartialOrigin.spaceOrigin 1 = Dbl.nan ∧ nrrdPartialOrigin.spaceOrigin 2 = Dbl.nan)
    ∧ (_nrrdFieldCheckSpaceInfo nrrdPartialOrigin).code = some 1 :=
  ⟨by decide,
    spaceInfo_rejects_partial_origin nrrdPartialOrigin
      (Or.inl ⟨by decide, by decide, by decide⟩)⟩

/-- C5 as stated fails: a frame whose row 0 is fully set and whose rows 1 and 2
are fully unset is consistent row by row, everything else in the object is
consistent, and the checker still rejects it at `[1][0]`. -/
theorem spaceInfo_frame_rowwise_counterexample :
    0 < nrrdRowFrame.spaceDim ∧ SpaceInfoOtherwiseConsistent nrrdRowFrame
      ∧ FrameRowsConsistent nrrdRowFrame
      ∧ _nrrdFieldCheckSpaceInfo nrrdRowFrame = Res.fail (NrrdErr.frameExistence 1 0)
      ∧ ¬ (_nrrdFieldCheckSpaceInfo nrrdRowFrame = Res.pass
            ↔ FrameRowsConsistent nrrdRowFrame) := by
  refine ⟨by decide, by decide, by decide, by decide, ?_⟩
  intro h
  have h1 : _nrrdFieldCheckSpaceInfo nrrdRowFrame = Res.pass := h.mpr (by decide)
  revert h1
  decide

/-- C5 (amended): for an object with `spaceDim > 0` whose label, `spaceDim`,
origin and axes are consistent, `_nrrdFieldCheckSpaceInfo` passes if and only
if every coefficient `measurementFrame[dd][ii]` with `dd, ii < spaceDim` has
the same existence as `measurementFrame[0][0]`. -/
theorem spaceInfo_frame_blockwise (nrrd : Nrrd DM SM) (h0 : 0 < nrrd.spaceDim)
    (hoc : SpaceInfoOtherwiseConsistent nrrd) :
    _nrrdFieldCheckSpaceInfo nrrd = Res.pass ↔ FrameBlockConsistent nrrd := by
  obtain ⟨hv, hS, hl, ho, hd⟩ := hoc
  rw [spaceInfo_pos nrrd h0 hS hv, hl, ho, hd, Res.andThen_pass, Res.andThen_pass,
    Res.andThen_eq_pass, spaceInfoFrame_eq_pass nrrd h0 hS]
  unfold FrameBlockConsistent
  constructor
  · rintro ⟨h, _⟩ dd ii z hdd hii hz
    have : z = ⟨0, Nat.lt_of_lt_of_le h0 hS⟩ := Fin.ext hz
    rw [this]
    exact h dd ii hdd hii
  · intro h
    exact ⟨fun dd ii hdd hii => h dd ii _ hdd hii rfl, rfl⟩

theorem spaceInfo_frame_blockwise_witness :
    (0 < nrrdFramed.spaceDim ∧ SpaceInfoOtherwiseConsistent nrrdFramed
      ∧ FrameBlockConsistent nrrdFramed)
    ∧ (_nrrdFieldCheckSpaceInfo nrrdFramed = Res.pass ↔ FrameBlockConsistent nrrdFramed) :=
  ⟨by decide, spaceInfo_frame_blockwise nrrdFramed (by decide) (by decide)⟩

/-- With a positive space dimension the checker does not look at axis slots at
index `>= dim` nor at direction coefficients at index `>= spaceDim`. -/
theorem spaceInfo_declared_only (nrrd : Nrrd DM SM) (h0 : 0 < nrrd.spaceDim)
    (ax : Fin DM → NrrdAxisInfo SM)
    (hax : ∀ dd : Fin DM, dd.val < nrrd.dim →
      ∃ dir : Fin SM → Dbl, ax dd = { nrrd.axis dd with spaceDirection := dir }
        ∧ ∀ ii : Fin SM, ii.val < nrrd.spaceDim → dir ii = (nrrd.axis dd).spaceDirection ii) :
    _nrrdFieldCheckSpaceInfo { nrrd with axis := ax } = _nrrdFieldCheckSpaceInfo nrrd := by
  by_cases hv : nrrd.space = 0 ∨ airEnumValCheck nrrdSpace nrrd.space = 0
  · by_cases hS : nrrd.spaceDim ≤ SM
    · rw [spaceInfo_pos nrrd h0 hS hv, spaceInfo_pos { nrrd with axis := ax } h0 hS hv]
      have hdirs : spaceInfoDirections { nrrd with axis := ax } = spaceInfoDirections nrrd := by
        unfold spaceInfoDirections
        apply forEach_congr
        intro dd hdd
        have hdd1 : dd < nrrd.dim := List.mem_range.mp hdd
        by_cases hDM : dd < DM
        · have hSM : 0 < SM := Nat.lt_of_lt_of_le h0 hS
          obtain ⟨dir, hdir, hsame⟩ := hax ⟨dd, hDM⟩ hdd1
          have e1 := spaceInfoAxis_eq { nrrd with axis := ax } ⟨dd, hDM⟩ hSM
          have e2 := spaceInfoAxis_eq nrrd ⟨dd, hDM⟩ hSM
          simp only at e1 e2
          rw [e1, e2, hdir]
          simp only [hsame ⟨0, hSM⟩ h0]
          congr 1
          apply forEach_congr
          intro ii hii
          have hii1 := mem_range'_one hii
          rw [rd_lt _ (show ii < SM by omega), rd_lt _ (show ii < SM by omega),
            hsame ⟨ii, by omega⟩ hii1.2]
        · unfold spaceInfoAxis
          rw [rd_ge _ (Nat.not_lt.mp hDM), rd_ge _ (Nat.not_lt.mp hDM)]
      rw [hdirs]
      rfl
    · unfold _nrrdFieldCheckSpaceInfo
      rw [if_neg (not_not.mpr hv), if_pos hS, if_neg (not_not.mpr hv), if_pos hS]
  · unfold _nrrdFieldCheckSpaceInfo
    rw [if_pos hv, if_pos hv]

/-- C6: with a positive space dimension, a declared axis `d` one of whose
direction coefficients at an index `i < spaceDim` (necessarily `i >= 1`)
differs in existence from its coefficient 0 makes `_nrrdFieldCheckSpaceInfo`
return 1; and the outcome is the same for every object that differs only in
axis slots at index `>= dim` and in direction coefficients at index
`>= spaceDim`. -/
theorem spaceInfo_rejects_partial_direction (nrrd : Nrrd DM SM) (d : Fin DM)
    (i z : Fin SM) (h0 : 0 < nrrd.spaceDim) (hd : d.val < nrrd.dim)
    (hi : i.val < nrrd.spaceDim) (hz : z.val = 0)
    (hne : AIR_EXISTS ((nrrd.axis d).spaceDirection i)
      ≠ AIR_EXISTS ((nrrd.axis d).spaceDirection z)) :
    (_nrrdFieldCheckSpaceInfo nrrd).code = some 1
    ∧ ∀ ax : Fin DM → NrrdAxisInfo SM,
        (∀ dd : Fin DM, dd.val < nrrd.dim →
          ∃ dir : Fin SM → Dbl, ax dd = { nrrd.axis dd with spaceDirection := dir }
            ∧ ∀ ii : Fin SM, ii.val < nrrd.spaceDim →
                dir ii = (nrrd.axis dd).spaceDirection ii) →
        _nrrdFieldCheckSpaceInfo { nrrd with axis := ax } = _nrrdFieldCheckSpaceInfo nrrd := by
  refine ⟨?_, fun ax hax => spaceInfo_declared_only nrrd h0 ax hax⟩
  refine spaceInfo_code_one nrrd h0 fun hS => Or.inr (Or.inr (Or.inr ?_))
  refine spaceInfoDirections_code_one nrrd d h0 hS hd fun hp => ?_
  rw [spaceInfoAxis_eq_pass nrrd d h0 hS] at hp
  have : z = ⟨0, Nat.lt_of_lt_of_le h0 hS⟩ := Fin.ext hz
  rw [this] at hne
  exact hne (hp.1 i hi)

theorem spaceInfo_rejects_partial_direction_witness :
    (0 < nrrdPartialDirection.spaceDim ∧ (1 : Fin 16).val < nrrdPartialDirection.dim
      ∧ (2 : Fin 8).val < nrrdPartialDirection.spaceDim
      ∧ AIR_EXISTS ((nrrdPartialDirection.axis 1).spaceDirection 2)
          ≠ AIR_EXISTS ((nrrdPartialDirection.axis 1).spaceDirection 0))
    ∧ (_nrrdFieldCheckSpaceInfo nrrdPartialDirection).code = some 1 :=
  ⟨by decide,
    (spaceInfo_rejects_partial_direction nrrdPartialDirection 1 2 0 (by decide) (by decide)
      (by decide) (by decide) (by decide)).1⟩

/-- C7: `_nrrdFieldCheckSpaceInfo` returns 1 when the space label is set to an
unrecognised value, returns 1 when `spaceDim > NRRD_SPACE_DIM_MAX`, and, for a
recognised label, passes only if `spaceDim` equals
`nrrdSpaceDimension(space)`, which is 3 or 4; a recognised label with
`spaceDim = 0` is rejected. -/
theorem spaceInfo_label_and_dimension (nrrd : Nrrd DM SM) :
    ((nrrd.space ≠ 0 ∧ airEnumValCheck nrrdSpace nrrd.space ≠ 0) →
        (_nrrdFieldCheckSpaceInfo nrrd).code = some 1)
    ∧ (SM < nrrd.spaceDim → (_nrrdFieldCheckSpaceInfo nrrd).code = some 1)
    ∧ (airEnumValCheck nrrdSpace nrrd.space = 0 →
        _nrrdFieldCheckSpaceInfo nrrd = Res.pass →
        nrrdSpaceDimension nrrd.space = some nrrd.spaceDim
          ∧ (nrrd.spaceDim = 3 ∨ nrrd.spaceDim = 4))
    ∧ (airEnumValCheck nrrdSpace nrrd.space = 0 → nrrd.spaceDim = 0 →
        (_nrrdFieldCheckSpaceInfo nrrd).code = some 1) := by
  have hne : airEnumValCheck nrrdSpace nrrd.space = 0 → nrrd.space ≠ 0 := by
    intro h hs
    rw [hs] at h
    simp [airEnumValCheck] at h
  have hzero : airEnumValCheck nrrdSpace nrrd.space = 0 → nrrd.spaceDim = 0 →
      (_nrrdFieldCheckSpaceInfo nrrd).code = some 1 := by
    intro hv hsd
    rw [spaceInfo_zero nrrd hsd, if_neg (not_not.mpr (Or.inr hv)), if_pos (hne hv)]
    rfl
  refine ⟨?_, ?_, ?_, hzero⟩
  · rintro ⟨h1, h2⟩
    unfold _nrrdFieldCheckSpaceInfo
    rw [if_pos (by simp [h1, h2])]
    rfl
  · intro hS
    exact spaceInfo_code_one nrrd (by omega) fun hle => absurd hle (by omega)
  · intro hv hp
    have h0 : 0 < nrrd.spaceDim := by
      by_contra hc
      have := hzero hv (by omega)
      rw [hp] at this
      simp [Res.code] at this
    have hS : nrrd.spaceDim ≤ SM := by
      by_contra hc
      have := spaceInfo_code_one nrrd h0 fun hle => absurd hle hc
      rw [hp] at this
      simp [Res.code] at this
    rw [spaceInfo_pos nrrd h0 hS (Or.inr hv), Res.andThen_eq_pass,
      spaceInfoLabel_eq_pass] at hp
    have hdim := hp.1 (hne hv)
    refine ⟨hdim, ?_⟩
    rcases nrrdSpaceDimension_valid hv with h | h <;> rw [h] at hdim <;>
      simp only [Option.some.injEq] at hdim <;> omega

theorem spaceInfo_label_and_dimension_witness :
    (airEnumValCheck nrrdSpace nrrdOriented.space = 0
      ∧ _nrrdFieldCheckSpaceInfo nrrdOriented = Res.pass
      ∧ airEnumValCheck nrrdSpace nrrdLabelNoDim.space = 0 ∧ nrrdLabelNoDim.spaceDim = 0)
    ∧ (nrrdSpaceDimension nrrdOriented.space = some nrrdOriented.spaceDim
        ∧ (nrrdOriented.spaceDim = 3 ∨ nrrdOriented.spaceDim = 4))
    ∧ (_nrrdFieldCheckSpaceInfo nrrdLabelNoDim).code = some 1 :=
  ⟨by decide,
    (spaceInfo_label_and_dimension nrrdOriented).2.2.1 (by decide) (by decide),
    (spaceInfo_label_and_dimension nrrdLabelNoDim).2.2.2 (by decide) (by decide)⟩

end SpaceInfoClaims

/-! ## The aggregate check -/

section CheckClaims

variable {DM SM : Nat}

theorem checkField_eq_pass (T : Tables) (w : Nat) (nrrd : Nrrd DM SM) (fi : Nat) :
    checkField T w nrrd fi = Res.pass ↔ _nrrdFieldCheck T w fi nrrd = Res.pass := by
  unfold checkField
  cases _nrrdFieldCheck T w fi nrrd <;> simp

theorem checkField_eq_fail (T : Tables) (w : Nat) (nrrd : Nrrd DM SM) (fi fj : Nat) :
    checkField T w nrrd fj = Res.fail (NrrdErr.field fi) ↔
      fj = fi ∧ (_nrrdFieldCheck T w fj nrrd).code = some 1 := by
  unfold checkField
  cases _nrrdFieldCheck T w fj nrrd <;> simp [Res.code]

theorem nrrdCheck_some (T : Tables) (w : Nat) (n : Nrrd DM SM) (checkData : Bool)
    (hdata : checkData = true → n.data = true) :
    _nrrdCheck T w (some n) checkData =
      forEach (List.range' (nrrdField_unknown + 1)
        (nrrdField_last - (nrrdField_unknown + 1))) (checkField T w n) := by
  unfold _nrrdCheck
  simp only
  rw [if_neg]
  rintro ⟨h1, h2⟩
  rw [hdata h1] at h2
  cases h2

theorem mem_fieldRange {fi : Nat} :
    fi ∈ List.range' (nrrdField_unknown + 1) (nrrdField_last - (nrrdField_unknown + 1))
      ↔ nrrdField_unknown < fi ∧ fi < nrrdField_last := by
  rw [List.mem_range'_1]
  simp only [nrrdField_unknown, nrrdField_last]
  omega

/-- C8: `_nrrdCheck` returns 0 exactly when the object is non-null, the data
pointer is non-null if `checkData` asks for it, and every validator of the
dispatch table at a field identifier in `nrrdField_unknown+1 ..
nrrdField_last-1` returns 0; the validators are tried in increasing order and
the check stops at the first that fails: it reports trouble with field `fi`
exactly when validator `fi` returns 1 and all validators before it return
0. -/
theorem nrrdCheck_dispatch (T : Tables) (w : Nat) (nrrd : Option (Nrrd DM SM))
    (checkData : Bool) :
    ((_nrrdCheck T w nrrd checkData).code = some 0 ↔
      ∃ n, nrrd = some n ∧ (checkData = true → n.data = true)
        ∧ ∀ fi, nrrdField_unknown < fi → fi < nrrdField_last →
            (_nrrdFieldCheck T w fi n).code = some 0)
    ∧ ∀ fi, (_nrrdCheck T w nrrd checkData = Res.fail (NrrdErr.field fi) ↔
      ∃ n, nrrd = some n ∧ (checkData = true → n.data = true)
        ∧ nrrdField_unknown < fi ∧ fi < nrrdField_last
        ∧ (_nrrdFieldCheck T w fi n).code = some 1
        ∧ ∀ fj, nrrdField_unknown < fj → fj < fi →
            (_nrrdFieldCheck T w fj n).code = some 0) := by
  cases nrrd with
  | none =>
    refine ⟨?_, fun fi => ?_⟩ <;> simp [_nrrdCheck, Res.code]
  | some n =>
    by_cases hdata : checkData = true → n.data = true
    · rw [nrrdCheck_some T w n checkData hdata]
      refine ⟨⟨fun h => ?_, ?_⟩, fun fi => ⟨fun h => ?_, ?_⟩⟩
      · rw [Res.code_eq_zero, forEach_eq_pass] at h
        exact ⟨n, rfl, hdata, fun fi h1 h2 => Res.code_eq_zero.mpr
          ((checkField_eq_pass T w n fi).mp (h fi (mem_fieldRange.mpr ⟨h1, h2⟩)))⟩
      · rintro ⟨n2, hn, _, h⟩
        cases hn
        rw [Res.code_eq_zero, forEach_eq_pass]
        intro fi hfi
        have hr := mem_fieldRange.mp hfi
        exact (checkField_eq_pass T w n fi).mpr (Res.code_eq_zero.mp (h fi hr.1 hr.2))
      · obtain ⟨i, h1, h2, h3, h4⟩ := (forEach_range'_eq_fail _ _ _ _).mp h
        obtain ⟨hi, h5⟩ := (checkField_eq_fail T w n fi i).mp h3
        subst hi
        have hr : nrrdField_unknown < i ∧ i < nrrdField_last :=
          mem_fieldRange.mp (List.mem_range'_1.mpr ⟨h1, h2⟩)
        exact ⟨n, rfl, hdata, hr.1, hr.2, h5, fun fj hj1 hj2 => Res.code_eq_zero.mpr
          ((checkField_eq_pass T w n fj).mp (h4 fj hj1 hj2))⟩
      · rintro ⟨n2, hn, _, h1, h2, h3, h4⟩
        cases hn
        have hr := List.mem_range'_1.mp (mem_fieldRange.mpr ⟨h1, h2⟩)
        exact (forEach_range'_eq_fail _ _ _ _).mpr ⟨fi, hr.1, hr.2,
          (checkField_eq_fail T w n fi fi).mpr ⟨rfl, h3⟩,
          fun fj hj1 hj2 => (checkField_eq_pass T w n fj).mpr
            (Res.code_eq_zero.mp (h4 fj hj1 hj2))⟩
    · have hd : checkData = true ∧ n.data = false := by
        cases checkData <;> cases hn : n.data <;> simp_all
      refine ⟨?_, fun fi => ?_⟩
      · simp only [_nrrdCheck, if_pos hd, Res.code, Option.some.injEq, exists_eq_left']
        constructor
        · intro h; cases h
        · rintro ⟨h, _⟩
          exact absurd h hdata
      · simp only [_nrrdCheck, if_pos hd, Option.some.injEq, exists_eq_left']
        constructor
        · intro h; cases h
        · rintro ⟨h, _⟩
          exact absurd h hdata

set_option maxRecDepth 100000 in
theorem nrrdCheck_dispatch_witness :
    ((_nrrdCheck exampleTables 64 (some nrrdPlain) true).code = some 0
      ∧ _nrrdCheck exampleTables 64 (some nrrdNoDim) true = Res.fail (NrrdErr.field 6))
    ∧ ((∀ fi, nrrdField_unknown < fi → fi < nrrdField_last →
          (_nrrdFieldCheck exampleTables 64 fi nrrdPlain).code = some 0)
      ∧ (_nrrdFieldCheck exampleTables 64 6 nrrdNoDim).code = some 1) := by
  have h1 : (_nrrdCheck exampleTables 64 (some nrrdPlain) true).code = some 0 := by decide
  have h2 : _nrrdCheck exampleTables 64 (some nrrdNoDim) true = Res.fail (NrrdErr.field 6) := by
    decide
  refine ⟨⟨h1, h2⟩, ?_, ?_⟩
  · obtain ⟨n, hn, _, h⟩ := (nrrdCheck_dispatch exampleTables 64 (some nrrdPlain) true).1.mp h1
    cases hn
    exact h
  · obtain ⟨n, hn, _, _, _, h, _⟩ :=
      ((nrrdCheck_dispatch exampleTables 64 (some nrrdNoDim) true).2 6).mp h2
    cases hn
    exact h

theorem nrrdCheck_pass_field (T : Tables) (w : Nat) (n : Nrrd DM SM) (checkData : Bool)
    (h : (_nrrdCheck T w (some n) checkData).code = some 0) (fi : Nat)
    (h1 : nrrdField_unknown < fi) (h2 : fi < nrrdField_last) :
    _nrrdFieldCheck T w fi n = Res.pass := by
  rw [Res.code_eq_zero] at h
  unfold _nrrdCheck at h
  simp only at h
  split at h
  · cases h
  · rw [forEach_eq_pass] at h
    exact (checkField_eq_pass T w n fi).mp (h fi (mem_fieldRange.mpr ⟨h1, h2⟩))

theorem forAxisInfo_eq_pass {α : Type} (nrrd : Nrrd DM SM) (info : NrrdAxisInfo SM → α)
    (body : Nat → α → Res) :
    forAxisInfo nrrd info body = Res.pass ↔
      ∀ ai, ai < nrrd.dim → ∃ h : ai < DM, body ai (info (nrrd.axis ⟨ai, h⟩)) = Res.pass := by
  unfold forAxisInfo
  rw [forEach_eq_pass]
  simp only [List.mem_range]
  constructor
  · intro h ai hai
    have h1 := h ai hai
    by_cases hlt : ai < DM
    · rw [rd_lt nrrd.axis hlt] at h1
      exact ⟨hlt, h1⟩
    · rw [rd_ge nrrd.axis (Nat.not_lt.mp hlt)] at h1
      cases h1
  · intro h ai hai
    obtain ⟨hlt, h1⟩ := h ai hai
    rw [rd_lt nrrd.axis hlt]
    exact h1

/-- What a passing consistency check establishes, block by block. -/
theorem spaceInfo_pass_parts (nrrd : Nrrd DM SM)
    (hp : _nrrdFieldCheckSpaceInfo nrrd = Res.pass) :
    (nrrd.space = 0 ∨ airEnumValCheck nrrdSpace nrrd.space = 0)
    ∧ nrrd.spaceDim ≤ SM
    ∧ (0 < nrrd.spaceDim →
        spaceInfoLabel nrrd = Res.pass ∧ spaceInfoOrigin nrrd = Res.pass
          ∧ spaceInfoFrame nrrd = Res.pass ∧ spaceInfoDirections nrrd = Res.pass)
    ∧ (nrrd.spaceDim = 0 →
        nrrd.space = 0 ∧ spaceInfoAnyUnits nrrd = false ∧ spaceInfoAnyOrigin nrrd = false
          ∧ spaceInfoAnyDirection nrrd = false) := by
  have hv : nrrd.space = 0 ∨ airEnumValCheck nrrdSpace nrrd.space = 0 := by
    by_contra hc
    unfold _nrrdFieldCheckSpaceInfo at hp
    rw [if_pos hc] at hp
    cases hp
  have hS : nrrd.spaceDim ≤ SM := by
    by_contra hc
    unfold _nrrdFieldCheckSpaceInfo at hp
    rw [if_neg (not_not.mpr hv), if_pos hc] at hp
    cases hp
  refine ⟨hv, hS, fun h0 => ?_, fun hz => ?_⟩
  · rw [spaceInfo_pos nrrd h0 hS hv] at hp
    simp only [Res.andThen_eq_pass] at hp
    exact hp
  · rw [spaceInfo_zero nrrd hz, if_neg (not_not.mpr hv)] at hp
    split_ifs at hp with h1 h2 h3 h4
    simp only [ne_eq, not_not] at h1
    simp only [Bool.not_eq_true] at h2 h3 h4
    exact ⟨h1, h2, h3, h4⟩

theorem spacing_ok {v : Dbl}
    (h : airIsInf_d v = 0 ∧ (airIsNaN v ≠ 0 ∨ Dbl.neZero v = true)) :
    v = Dbl.nan ∨ ∃ q : ℚ, v = Dbl.fin q ∧ q ≠ 0 := by
  cases v with
  | nan => exact Or.inl rfl
  | pinf => simp [airIsInf_d] at h
  | ninf => simp [airIsInf_d] at h
  | fin q =>
    refine Or.inr ⟨q, rfl, ?_⟩
    simpa [airIsNaN, Dbl.neZero] using h.2

theorem thickness_ok {v : Dbl}
    (h : airIsInf_d v = 0 ∧ (airIsNaN v ≠ 0 ∨ Dbl.zeroLe v = true)) :
    v = Dbl.nan ∨ ∃ q : ℚ, v = Dbl.fin q ∧ 0 ≤ q := by
  cases v with
  | nan => exact Or.inl rfl
  | pinf => simp [airIsInf_d] at h
  | ninf => simp [airIsInf_d] at h
  | fin q =>
    refine Or.inr ⟨q, rfl, ?_⟩
    simpa [airIsNaN, Dbl.zeroLe] using h.2

theorem not_inf_ok {v : Dbl} (h : airIsInf_d v = 0) : v ≠ Dbl.pinf ∧ v ≠ Dbl.ninf := by
  cases v <;> simp [airIsInf_d] at h ⊢

/-- C1: on every non-null object on which `_nrrdCheck` returns 0, with or
without requiring data, the invariants I1 to I10 hold. -/
theorem nrrdCheck_invariants (T : Tables) (w : Nat) (nrrd : Nrrd DM SM)
    (checkData : Bool)
    (h : (_nrrdCheck T w (some nrrd) checkData).code = some 0) : Invariants nrrd := by
  have hfield := nrrdCheck_pass_field T w nrrd checkData h
  have hblock : _nrrdFieldCheck_block_size nrrd = Res.pass :=
    hfield 5 (by decide) (by decide)
  have hdim : _nrrdFieldCheck_dimension nrrd = Res.pass :=
    hfield 6 (by decide) (by decide)
  have hspace : _nrrdFieldCheckSpaceInfo nrrd = Res.pass :=
    hfield 7 (by decide) (by decide)
  have hspacing : _nrrdFieldCheck_spacings nrrd = Res.pass :=
    hfield 10 (by decide) (by decide)
  have hthick : _nrrdFieldCheck_thicknesses nrrd = Res.pass :=
    hfield 11 (by decide) (by decide)
  have hmin : _nrrdFieldCheck_axis_mins nrrd = Res.pass :=
    hfield 12 (by decide) (by decide)
  have hmax : _nrrdFieldCheck_axis_maxs nrrd = Res.pass :=
    hfield 13 (by decide) (by decide)
  obtain ⟨hv, hS, hpos, hzero⟩ := spaceInfo_pass_parts nrrd hspace
  have hI1 : 1 ≤ nrrd.dim ∧ nrrd.dim ≤ DM := by
    by_contra hc
    unfold _nrrdFieldCheck_dimension at hdim
    rw [if_pos hc] at hdim
    cases hdim
  have hcases : nrrd.spaceDim = 0 ∨ 0 < nrrd.spaceDim := Nat.eq_zero_or_pos nrrd.spaceDim
  refine
    { I1 := hI1, I2 := hS, I3 := ?_, I4_origin := ?_, I4_frame := ?_, I4_direction := ?_,
      I5 := ?_, I6 := ?_, I7 := ?_, I8 := ?_, I9 := ?_, I10 := ?_ }
  · intro hset
    rcases hcases with hz | h0
    · exact absurd (hzero hz).1 hset
    · exact (spaceInfoLabel_eq_pass nrrd).mp (hpos h0).1 hset
  · intro i j hi hj
    have h0 : 0 < nrrd.spaceDim := by omega
    have ho := (spaceInfoOrigin_eq_pass nrrd h0 hS).mp (hpos h0).2.1
    rw [ho i hi, ho j hj]
  · intro dd hdd i j hi hj
    have h0 : 0 < nrrd.spaceDim := by omega
    have hf := (spaceInfoFrame_eq_pass nrrd h0 hS).mp (hpos h0).2.2.1
    rw [hf dd i hdd hi, hf dd j hdd hj]
  · intro a ha i j hi hj
    have h0 : 0 < nrrd.spaceDim := by omega
    have hd := (spaceInfoDirections_eq_pass nrrd).mp (hpos h0).2.2.2 a.val ha
    have hax := ((spaceInfoAxis_eq_pass nrrd a h0 hS).mp hd).1
    rw [hax i hi, hax j hj]
  · rintro a ha ⟨z, hz, hex⟩
    rcases hcases with hsd | h0
    · have hnone := (hzero hsd).2.2.2
      have : spaceInfoAnyDirection nrrd = true :=
        (spaceInfoAnyDirection_iff nrrd).mpr ⟨a, z, hex⟩
      rw [hnone] at this
      cases this
    · have hd := (spaceInfoDirections_eq_pass nrrd).mp (hpos h0).2.2.2 a.val ha
      have hax := ((spaceInfoAxis_eq_pass nrrd a h0 hS).mp hd).2
      have hz2 : z = ⟨0, Nat.lt_of_lt_of_le h0 hS⟩ := Fin.ext hz
      rw [hz2] at hex
      have hnot := hax hex
      simp only [not_or, Bool.not_eq_true, ne_eq, not_not] at hnot
      exact hnot
  · intro hsd
    obtain ⟨_, hu, ho, hd⟩ := hzero hsd
    refine ⟨fun j => ?_, fun j => ?_, fun a j => ?_⟩
    · by_contra hc
      have := (spaceInfoAnyUnits_iff nrrd).mpr ⟨j, hc⟩
      rw [hu] at this
      cases this
    · by_contra hc
      have := (spaceInfoAnyOrigin_iff nrrd).mpr ⟨j, by simpa using hc⟩
      rw [ho] at this
      cases this
    · by_contra hc
      have := (spaceInfoAnyDirection_iff nrrd).mpr ⟨a, j, by simpa using hc⟩
      rw [hd] at this
      cases this
  · unfold _nrrdFieldCheck_block_size at hblock
    split_ifs at hblock with h1 h2
    constructor
    · intro ht
      by_contra hb
      exact h1 ⟨ht.symm, hb⟩
    · intro hb
      by_contra ht
      exact h2 ⟨fun e => ht e.symm, hb⟩
  · intro a ha
    unfold _nrrdFieldCheck_spacings at hspacing
    obtain ⟨_, hb⟩ := (forAxisInfo_eq_pass nrrd _ _).mp (Res.andThen_eq_pass.mp hspacing).1 a.val ha
    split_ifs at hb with hc
    exact spacing_ok hc
  · intro a ha
    unfold _nrrdFieldCheck_thicknesses at hthick
    obtain ⟨_, hb⟩ := (forAxisInfo_eq_pass nrrd _ _).mp hthick a.val ha
    split_ifs at hb with hc
    exact thickness_ok hc
  · intro a ha
    unfold _nrrdFieldCheck_axis_mins at hmin
    unfold _nrrdFieldCheck_axis_maxs at hmax
    obtain ⟨_, hb1⟩ := (forAxisInfo_eq_pass nrrd _ _).mp (Res.andThen_eq_pass.mp hmin).1 a.val ha
    obtain ⟨_, hb2⟩ := (forAxisInfo_eq_pass nrrd _ _).mp (Res.andThen_eq_pass.mp hmax).1 a.val ha
    split_ifs at hb1 with hc1
    split_ifs at hb2 with hc2
    exact ⟨not_inf_ok (not_not.mp hc1), not_inf_ok (not_not.mp hc2)⟩

set_option maxRecDepth 100000 in
theorem nrrdCheck_invariants_witness :
    ((_nrrdCheck exampleTables 64 (some nrrdOriented) false).code = some 0
      ∧ (_nrrdCheck exampleTables 64 (some nrrdFramed) true).code = some 0)
    ∧ Invariants nrrdOriented ∧ Invariants nrrdFramed :=
  ⟨by decide,
    nrrdCheck_invariants exampleTables 64 nrrdOriented false (by decide),
    nrrdCheck_invariants exampleTables 64 nrrdFramed true (by decide)⟩

end CheckClaims

/-! ## The derived origin -/

theorem mapOpt_length {α β : Type} (f : α → Option β) :
    ∀ (l : List α) (r : List β), mapOpt f l = some r → r.length = l.length := by
  intro l
  induction l with
  | nil =>
    intro r h
    simp only [mapOpt, Option.some.injEq] at h
    subst h
    rfl
  | cons a t ih =>
    intro r h
    simp only [mapOpt] at h
    cases hfa : f a with
    | none => rw [hfa] at h; cases h
    | some b =>
      rw [hfa] at h
      cases ht : mapOpt f t with
      | none => rw [ht] at h; cases h
      | some r2 =>
        rw [ht] at h
        simp only [Option.map_some', Option.some.injEq] at h
        rw [← h, List.length_cons, List.length_cons, ih r2 ht]

theorem mapOpt_getElem? {α β : Type} (f : α → Option β) :
    ∀ (l : List α) (r : List β), mapOpt f l = some r →
      ∀ (i : Nat) (x : α), l[i]? = some x → ∃ y, f x = some y ∧ r[i]? = some y := by
  intro l
  induction l with
  | nil =>
    intro r _ i x hx
    simp at hx
  | cons a t ih =>
    intro r h i x hx
    simp only [mapOpt] at h
    cases hfa : f a with
    | none => rw [hfa] at h; cases h
    | some b =>
      rw [hfa] at h
      cases ht : mapOpt f t with
      | none => rw [ht] at h; cases h
      | some r2 =>
        rw [ht] at h
        simp only [Option.map_some', Option.some.injEq] at h
        rw [← h]
        cases i with
        | zero =>
          simp only [List.getElem?_cons_zero, Option.some.injEq] at hx
          rw [← hx]
          exact ⟨b, hfa, by simp⟩
        | succ k =>
          simp only [List.getElem?_cons_succ] at hx
          obtain ⟨y, hy1, hy2⟩ := ih r2 ht k x hx
          exact ⟨y, hy1, by simpa using hy2⟩

theorem mapOpt_mem {α β : Type} (f : α → Option β) (l : List α) (r : List β)
    (h : mapOpt f l = some r) (x : α) (hx : x ∈ l) : ∃ y ∈ r, f x = some y := by
  obtain ⟨i, hi⟩ := List.getElem?_of_mem hx
  obtain ⟨y, hy1, hy2⟩ := mapOpt_getElem? f l r h i x hi
  exact ⟨y, List.mem_iff_getElem?.mpr ⟨i, hy2⟩, hy1⟩

theorem mapOpt_total {α β : Type} (f : α → Option β) :
    ∀ l : List α, (∀ x ∈ l, ∃ y, f x = some y) → ∃ r, mapOpt f l = some r := by
  intro l
  induction l with
  | nil => intro _; exact ⟨[], rfl⟩
  | cons a t ih =>
    intro h
    obtain ⟨b, hb⟩ := h a (List.mem_cons_self a t)
    obtain ⟨r, hr⟩ := ih fun x hx => h x (List.mem_cons_of_mem a hx)
    exact ⟨b :: r, by simp [mapOpt, hb, hr]⟩

/-! ## Rounding to binary64 -/

section Rounding

theorem roundHalfEven_of_lt {x : ℚ} {k : ℤ} (h1 : (k : ℚ) - 1 / 2 < x)
    (h2 : x < (k : ℚ) + 1 / 2) : roundHalfEven x = k := by
  unfold roundHalfEven
  by_cases hk : (k : ℚ) ≤ x
  · have hf : ⌊x⌋ = k := by
      rw [Int.floor_eq_iff]
      constructor
      · exact hk
      · linarith
    rw [hf, if_pos (by linarith)]
  · have hf : ⌊x⌋ = k - 1 := by
      rw [Int.floor_eq_iff]
      push_cast
      constructor
      · linarith
      · linarith
    rw [hf]
    push_cast
    rw [if_neg (by linarith), if_pos (by linarith)]
    ring

theorem roundHalfEven_intCast (k : ℤ) : roundHalfEven (k : ℚ) = k :=
  roundHalfEven_of_lt (by linarith) (by linarith)

/-- A tie goes to the even neighbour. -/
theorem roundHalfEven_tie (k : ℤ) :
    roundHalfEven ((k : ℚ) + 1 / 2) = if k % 2 = 0 then k else k + 1 := by
  unfold roundHalfEven
  have hf : ⌊(k : ℚ) + 1 / 2⌋ = k := by
    rw [Int.floor_eq_iff]
    constructor <;> linarith
  rw [hf, if_neg (by linarith), if_neg (by linarith)]

theorem ulpExp_eq {q : ℚ} {e : ℤ} (h1 : (2 : ℚ) ^ e ≤ |q|) (h2 : |q| < (2 : ℚ) ^ (e + 1)) :
    ulpExp q = max (e - 52) (-1074) := by
  have hpos : 0 < |q| := lt_of_lt_of_le (by positivity) h1
  have hlog : Int.log 2 |q| = e := by
    apply le_antisymm
    · have := (Int.lt_zpow_iff_log_lt (b := 2) (by norm_num) hpos (x := e + 1)).mp
        (by exact_mod_cast h2)
      omega
    · exact (Int.zpow_le_iff_le_log (b := 2) (by norm_num) hpos).mp (by exact_mod_cast h1)
  unfold ulpExp
  rw [hlog]

theorem Dbl.round_eq {q : ℚ} {u k : ℤ} (hu : ulpExp q = u)
    (hk : roundHalfEven (|q| / 2 ^ u) = k) :
    Dbl.round q =
      if (2 : ℚ) ^ (1024 : ℤ) ≤ (k : ℚ) * 2 ^ u then (if 0 < q then Dbl.pinf else Dbl.ninf)
      else Dbl.fin (if 0 < q then (k : ℚ) * 2 ^ u else -((k : ℚ) * 2 ^ u)) := by
  unfold Dbl.round
  rw [hu, hk]

theorem ulpExp_le_of_dyadic {m e : ℤ} (hm0 : m ≠ 0) (hm : |m| < 2 ^ 53) (he : -1074 ≤ e) :
    ulpExp ((m : ℚ) * 2 ^ e) ≤ e := by
  have habs : |(m : ℚ) * 2 ^ e| = |(m : ℚ)| * 2 ^ e := by
    rw [abs_mul, abs_of_pos (show (0 : ℚ) < 2 ^ e by positivity)]
  have hmq : |(m : ℚ)| < 2 ^ (53 : ℤ) := by
    have : ((|m| : ℤ) : ℚ) < ((2 ^ 53 : ℤ) : ℚ) := by exact_mod_cast hm
    rw [Int.cast_abs] at this
    rw [show ((2 : ℚ) ^ (53 : ℤ)) = ((2 ^ 53 : ℤ) : ℚ) by norm_num]
    exact this
  have hpos : 0 < |(m : ℚ) * 2 ^ e| := by
    rw [habs]
    have : (0 : ℚ) < |(m : ℚ)| := abs_pos.mpr (by exact_mod_cast hm0)
    positivity
  have hlt : |(m : ℚ) * 2 ^ e| < (2 : ℚ) ^ (53 + e) := by
    rw [habs, zpow_add₀ (by norm_num : (2 : ℚ) ≠ 0)]
    exact mul_lt_mul_of_pos_right hmq (by positivity)
  have hlog : Int.log 2 |(m : ℚ) * 2 ^ e| < 53 + e :=
    (Int.lt_zpow_iff_log_lt (b := 2) (by norm_num) hpos).mp (by exact_mod_cast hlt)
  unfold ulpExp
  exact max_le (by omega) he

/-- A value `m * 2^e` with `|m| < 2^53` and `-1074 <= e <= 971` is a binary64
value: rounding leaves it as it is. -/
theorem Dbl.round_dyadic (m e : ℤ) (hm : |m| < 2 ^ 53) (he1 : -1074 ≤ e) (he2 : e ≤ 971) :
    Dbl.round ((m : ℚ) * 2 ^ e) = Dbl.fin ((m : ℚ) * 2 ^ e) := by
  by_cases hm0 : m = 0
  · subst hm0
    have hk : roundHalfEven (|((0 : ℤ) : ℚ) * 2 ^ e| / 2 ^ ulpExp (((0 : ℤ) : ℚ) * 2 ^ e)) = 0 := by
      have : |((0 : ℤ) : ℚ) * 2 ^ e| / 2 ^ ulpExp (((0 : ℤ) : ℚ) * 2 ^ e) = ((0 : ℤ) : ℚ) := by
        simp
      rw [this]
      exact roundHalfEven_intCast 0
    rw [Dbl.round_eq rfl hk]
    have hno : ¬ ((2 : ℚ) ^ (1024 : ℤ) ≤ ((0 : ℤ) : ℚ) * 2 ^ ulpExp (((0 : ℤ) : ℚ) * 2 ^ e)) := by
      rw [Int.cast_zero, zero_mul]
      exact not_le.mpr (by positivity)
    rw [if_neg hno]
    simp
  · obtain ⟨u, hue⟩ : ∃ u, ulpExp ((m : ℚ) * 2 ^ e) = u := ⟨_, rfl⟩
    have hu : u ≤ e := by
      rw [← hue]
      exact ulpExp_le_of_dyadic hm0 hm he1
    have habs : |(m : ℚ) * 2 ^ e| = |(m : ℚ)| * 2 ^ e := by
      rw [abs_mul, abs_of_pos (show (0 : ℚ) < 2 ^ e by positivity)]
    obtain ⟨t, ht⟩ : ∃ t : ℕ, e - u = (t : ℤ) := ⟨(e - u).toNat, (Int.toNat_of_nonneg (by omega)).symm⟩
    have hsplit : (2 : ℚ) ^ e = 2 ^ (t : ℤ) * 2 ^ u := by
      rw [← zpow_add₀ (by norm_num : (2 : ℚ) ≠ 0), ← ht]
      congr 1
      omega
    have hquot : |(m : ℚ) * 2 ^ e| / 2 ^ u = ((|m| * 2 ^ t : ℤ) : ℚ) := by
      rw [habs, hsplit]
      push_cast
      rw [zpow_natCast]
      field_simp
      ring
    have hk : roundHalfEven (|(m : ℚ) * 2 ^ e| / 2 ^ u) = |m| * 2 ^ t := by
      rw [hquot]
      exact roundHalfEven_intCast _
    have hback : ((|m| * 2 ^ t : ℤ) : ℚ) * 2 ^ u = |(m : ℚ) * 2 ^ e| := by
      rw [habs, hsplit]
      push_cast
      rw [zpow_natCast]
      ring
    have hmq : |(m : ℚ)| < 2 ^ (53 : ℤ) := by
      have : ((|m| : ℤ) : ℚ) < ((2 ^ 53 : ℤ) : ℚ) := by exact_mod_cast hm
      rw [Int.cast_abs] at this
      rw [show ((2 : ℚ) ^ (53 : ℤ)) = ((2 ^ 53 : ℤ) : ℚ) by norm_num]
      exact this
    have hsmall : |(m : ℚ) * 2 ^ e| < (2 : ℚ) ^ (1024 : ℤ) := by
      rw [habs]
      calc |(m : ℚ)| * 2 ^ e < 2 ^ (53 : ℤ) * 2 ^ e :=
            mul_lt_mul_of_pos_right hmq (by positivity)
        _ = 2 ^ (53 + e) := (zpow_add₀ (by norm_num : (2 : ℚ) ≠ 0) _ _).symm
        _ ≤ 2 ^ (1024 : ℤ) :=
          zpow_le_zpow_right₀ (by norm_num : (1 : ℚ) ≤ 2) (by omega : 53 + e ≤ 1024)
    rw [Dbl.round_eq hue hk, hback, if_neg (not_le.mpr hsmall)]
    congr 1
    by_cases hq : (0 : ℚ) < (m : ℚ) * 2 ^ e
    · rw [if_pos hq, abs_of_pos hq]
    · rw [if_neg hq, abs_of_nonpos (not_lt.mp hq), neg_neg]

theorem Dbl.round_intCast (m : ℤ) (hm : |m| < 2 ^ 53) : Dbl.round (m : ℚ) = Dbl.fin (m : ℚ) := by
  have h := Dbl.round_dyadic m 0 hm (by norm_num) (by norm_num)
  simpa using h

theorem Dbl.round_natCast (n : ℕ) (hn : n < 2 ^ 53) : Dbl.round (n : ℚ) = Dbl.fin (n : ℚ) := by
  have h := Dbl.round_intCast (n : ℤ) (by
    rw [abs_of_nonneg (Int.natCast_nonneg n)]
    exact_mod_cast hn)
  simpa using h

/-- Rounding of a positive value located in its binade: the result is the
multiple `k * 2^u` of the unit in the last place nearest to it, or an infinity
when that reaches `2^1024`. -/
theorem Dbl.round_of_bounds {q : ℚ} (e u k : ℤ) (h1 : (2 : ℚ) ^ e ≤ q)
    (h2 : q < (2 : ℚ) ^ (e + 1)) (hu : u = max (e - 52) (-1074))
    (hk1 : (k : ℚ) - 1 / 2 < q / 2 ^ u) (hk2 : q / 2 ^ u < (k : ℚ) + 1 / 2) :
    Dbl.round q =
      if (2 : ℚ) ^ (1024 : ℤ) ≤ (k : ℚ) * 2 ^ u then Dbl.pinf else Dbl.fin ((k : ℚ) * 2 ^ u) := by
  have hpos : 0 < q := lt_of_lt_of_le (by positivity) h1
  have habs : |q| = q := abs_of_pos hpos
  have hue : ulpExp q = u := by
    rw [hu]
    exact ulpExp_eq (by rw [habs]; exact h1) (by rw [habs]; exact h2)
  have hk : roundHalfEven (|q| / 2 ^ u) = k := by
    rw [habs]
    exact roundHalfEven_of_lt hk1 hk2
  rw [Dbl.round_eq hue hk, if_pos hpos, if_pos hpos]

theorem ulpExp_neg (q : ℚ) : ulpExp (-q) = ulpExp q := by
  unfold ulpExp
  rw [abs_neg]

theorem Dbl.round_zero : Dbl.round 0 = Dbl.fin 0 := by
  have h := Dbl.round_intCast 0 (by norm_num)
  simpa using h

/-- Rounding is symmetric. -/
theorem Dbl.round_neg (q : ℚ) : Dbl.round (-q) = Dbl.neg (Dbl.round q) := by
  by_cases h0 : q = 0
  · subst h0
    rw [neg_zero, Dbl.round_zero]
    simp [Dbl.neg]
  · unfold Dbl.round
    rw [ulpExp_neg, abs_neg]
    rcases lt_or_gt_of_ne h0 with hq | hq
    · have hn : (0 : ℚ) < -q := by linarith
      have hq2 : ¬ ((0 : ℚ) < q) := by linarith
      simp only [if_pos hn, if_neg hq2]
      split_ifs <;> simp [Dbl.neg]
    · have hn : ¬ ((0 : ℚ) < -q) := by linarith
      simp only [if_neg hn, if_pos hq]
      split_ifs <;> simp [Dbl.neg]

/-- Rounding of a positive value half way between two neighbours: the one with
the even multiplier. -/
theorem Dbl.round_of_tie {q : ℚ} (e u k : ℤ) (h1 : (2 : ℚ) ^ e ≤ q)
    (h2 : q < (2 : ℚ) ^ (e + 1)) (hu : u = max (e - 52) (-1074))
    (hk : q / 2 ^ u = (k : ℚ) + 1 / 2) :
    Dbl.round q =
      if (2 : ℚ) ^ (1024 : ℤ) ≤ ((if k % 2 = 0 then k else k + 1 : ℤ) : ℚ) * 2 ^ u
      then Dbl.pinf
      else Dbl.fin (((if k % 2 = 0 then k else k + 1 : ℤ) : ℚ) * 2 ^ u) := by
  have hpos : 0 < q := lt_of_lt_of_le (by positivity) h1
  have habs : |q| = q := abs_of_pos hpos
  have hue : ulpExp q = u := by
    rw [hu]
    exact ulpExp_eq (by rw [habs]; exact h1) (by rw [habs]; exact h2)
  have hk2 : roundHalfEven (|q| / 2 ^ u) = if k % 2 = 0 then k else k + 1 := by
    rw [habs, hk]
    exact roundHalfEven_tie k
  rw [Dbl.round_eq hue hk2, if_pos hpos, if_pos hpos]

theorem roundHalfEven_abs_sub_le (x : ℚ) : |(roundHalfEven x : ℚ) - x| ≤ 1 / 2 := by
  have h1 : (⌊x⌋ : ℚ) ≤ x := Int.floor_le x
  have h2 : x < (⌊x⌋ : ℚ) + 1 := Int.lt_floor_add_one x
  unfold roundHalfEven
  rw [abs_le]
  split_ifs <;> push_cast <;> constructor <;> linarith

/-- What rounding returns: a multiple of the unit in the last place at `q`, at
most half a unit away from `q`. -/
theorem Dbl.round_nearest {q r : ℚ} (h : Dbl.round q = Dbl.fin r) :
    (∃ k : ℤ, r = (k : ℚ) * 2 ^ ulpExp q) ∧ |r - q| ≤ 2 ^ ulpExp q / 2 := by
  have hp : (0 : ℚ) < 2 ^ ulpExp q := by positivity
  have hk := roundHalfEven_abs_sub_le (|q| / 2 ^ ulpExp q)
  unfold Dbl.round at h
  obtain ⟨K, hK⟩ : ∃ K : ℤ, roundHalfEven (|q| / 2 ^ ulpExp q) = K := ⟨_, rfl⟩
  rw [hK] at h hk
  have hk2 : abs ((K : ℚ) * 2 ^ ulpExp q - abs q) ≤ 2 ^ ulpExp q / 2 := by
    have e : (K : ℚ) * 2 ^ ulpExp q - |q| = ((K : ℚ) - |q| / 2 ^ ulpExp q) * 2 ^ ulpExp q := by
      field_simp
    rw [e, abs_mul, abs_of_pos hp]
    calc |(K : ℚ) - |q| / 2 ^ ulpExp q| * 2 ^ ulpExp q
        ≤ 1 / 2 * 2 ^ ulpExp q := mul_le_mul_of_nonneg_right hk hp.le
      _ = 2 ^ ulpExp q / 2 := by ring
  by_cases ho : (2 : ℚ) ^ (1024 : ℤ) ≤ (K : ℚ) * 2 ^ ulpExp q
  · rw [if_pos ho] at h
    split_ifs at h
  · rw [if_neg ho] at h
    injection h with h
    by_cases hq : 0 < q
    · rw [if_pos hq] at h
      subst h
      rw [abs_of_pos hq] at hk2
      exact ⟨⟨K, rfl⟩, hk2⟩
    · rw [if_neg hq] at h
      subst h
      rw [abs_of_nonpos (not_lt.mp hq)] at hk2
      refine ⟨⟨-K, by push_cast; ring⟩, ?_⟩
      rw [show -((K : ℚ) * 2 ^ ulpExp q) - q = -((K : ℚ) * 2 ^ ulpExp q - -q) by ring, abs_neg]
      exact hk2

/-- Rounding at characteristic inputs: the double nearest to 1/10; two ties above
`2^53`, both resolved to the even multiplier; the largest finite double and the
first value that overflows; the smallest subnormal, and a tie below it that
underflows to zero; the conversion of the largest 64-bit `size_t`. -/
theorem Dbl.round_examples :
    Dbl.round (1 / 10) = Dbl.fin (3602879701896397 / 36028797018963968)
    ∧ Dbl.round (2 ^ 53 + 1) = Dbl.fin (2 ^ 53)
    ∧ Dbl.round (2 ^ 53 + 3) = Dbl.fin (2 ^ 53 + 4)
    ∧ Dbl.round (2 ^ 1024 - 2 ^ 971) = Dbl.fin (2 ^ 1024 - 2 ^ 971)
    ∧ Dbl.round (2 ^ 1024 - 2 ^ 970) = Dbl.pinf
    ∧ Dbl.round (1 / 2 ^ 1074) = Dbl.fin (1 / 2 ^ 1074)
    ∧ Dbl.round (1 / 2 ^ 1075) = Dbl.fin 0
    ∧ Dbl.ofNat (2 ^ 64 - 1) = Dbl.fin (2 ^ 64) := by
  refine ⟨?_, ?_, ?_, ?_, ?_, ?_, ?_, ?_⟩
  · rw [Dbl.round_of_bounds (-4) (-56) 7205759403792794 (by norm_num) (by norm_num) (by decide)
      (by norm_num) (by norm_num)]
    norm_num
  · rw [Dbl.round_of_tie 53 1 (2 ^ 52) (by norm_num) (by norm_num) (by decide) (by norm_num)]
    norm_num
  · rw [Dbl.round_of_tie 53 1 (2 ^ 52 + 1) (by norm_num) (by norm_num) (by decide)
      (by norm_num)]
    norm_num
  · have h := Dbl.round_dyadic (2 ^ 53 - 1) 971 (by norm_num) (by norm_num) (by norm_num)
    norm_num at h ⊢
    exact h
  · rw [Dbl.round_of_tie 1023 971 (2 ^ 53 - 1) (by norm_num) (by norm_num) (by decide)
      (by norm_num)]
    norm_num
  · have h := Dbl.round_dyadic 1 (-1074) (by norm_num) (by norm_num) (by norm_num)
    norm_num at h ⊢
    exact h
  · rw [Dbl.round_of_tie (-1075) (-1074) 0 (by norm_num) (by norm_num) (by decide)
      (by norm_num)]
    norm_num
  · unfold Dbl.ofNat
    rw [Dbl.round_of_bounds 63 11 (2 ^ 53) (by norm_num) (by norm_num) (by decide)
      (by norm_num) (by norm_num)]
    norm_num

theorem le_roundHalfEven {n : ℤ} {x : ℚ} (h : (n : ℚ) ≤ x) : n ≤ roundHalfEven x := by
  have hf : n ≤ ⌊x⌋ := Int.le_floor.mpr h
  unfold roundHalfEven
  split_ifs <;> omega

theorem roundHalfEven_le {n : ℤ} {x : ℚ} (h : x ≤ (n : ℚ)) : roundHalfEven x ≤ n := by
  have h1 : (⌊x⌋ : ℚ) ≤ x := Int.floor_le x
  have hf : ⌊x⌋ ≤ n := by exact_mod_cast h1.trans h
  unfold roundHalfEven
  by_cases hx : x - ⌊x⌋ < 1 / 2
  · rw [if_pos hx]
    exact hf
  · have hlt : ⌊x⌋ < n := by
      have : (⌊x⌋ : ℚ) < n := by linarith
      exact_mod_cast this
    rw [if_neg hx]
    split_ifs <;> omega

theorem ulpExp_bounds {q : ℚ} (hq : q ≠ 0) :
    (2 : ℚ) ^ (Int.log 2 |q|) ≤ |q| ∧ |q| < (2 : ℚ) ^ (Int.log 2 |q| + 1) := by
  have hpos : 0 < |q| := abs_pos.mpr hq
  constructor
  · exact_mod_cast Int.zpow_log_le_self (b := 2) (by norm_num) hpos
  · exact_mod_cast Int.lt_zpow_succ_log_self (b := 2) (by norm_num) |q|

/-- Rounding returns the value of a double: the result, if finite, is again
left as it is by rounding. -/
theorem Dbl.round_isDouble (q : ℚ) : (Dbl.round q).IsDouble := by
  by_cases hq0 : q = 0
  · subst hq0
    rw [Dbl.round_zero]
    exact Dbl.round_zero
  obtain ⟨hlo, hhi⟩ := ulpExp_bounds hq0
  obtain ⟨e0, he0⟩ : ∃ e0, Int.log 2 |q| = e0 := ⟨_, rfl⟩
  rw [he0] at hlo hhi
  obtain ⟨u, hu⟩ : ∃ u, ulpExp q = u := ⟨_, rfl⟩
  have hu1 : -1074 ≤ u := by
    rw [← hu]
    exact le_max_right _ _
  have hu2 : e0 - 52 ≤ u := by
    rw [← hu, ← he0]
    exact le_max_left _ _
  have hu3 : u = e0 - 52 ∨ u = -1074 := by
    rw [← hu, ← he0]
    unfold ulpExp
    rcases max_cases (Int.log 2 |q| - 52) (-1074) with h | h
    · exact Or.inl h.1
    · exact Or.inr h.1
  obtain ⟨K, hK⟩ : ∃ K : ℤ, roundHalfEven (|q| / 2 ^ u) = K := ⟨_, rfl⟩
  have hp : (0 : ℚ) < 2 ^ u := by positivity
  have hK0 : 0 ≤ K := by
    rw [← hK]
    exact le_roundHalfEven (by
      rw [Int.cast_zero]
      exact div_nonneg (abs_nonneg q) hp.le)
  have hK53 : K ≤ 2 ^ 53 := by
    rw [← hK]
    apply roundHalfEven_le
    rw [div_le_iff₀ hp]
    have : |q| < (2 : ℚ) ^ (53 + u) := lt_of_lt_of_le hhi
      (zpow_le_zpow_right₀ (by norm_num : (1 : ℚ) ≤ 2) (by omega : e0 + 1 ≤ 53 + u))
    rw [zpow_add₀ (by norm_num : (2 : ℚ) ≠ 0)] at this
    rw [show (((2 : ℤ) ^ 53 : ℤ) : ℚ) = (2 : ℚ) ^ (53 : ℤ) by norm_num]
    exact this.le
  have hKlow : u ≠ -1074 → 2 ^ 52 ≤ K := by
    intro hne
    have hue : u = e0 - 52 := by
      rcases hu3 with h | h
      · exact h
      · exact absurd h hne
    rw [← hK]
    apply le_roundHalfEven
    rw [le_div_iff₀ hp]
    have : (2 : ℚ) ^ (52 : ℤ) * 2 ^ u = 2 ^ e0 := by
      rw [← zpow_add₀ (by norm_num : (2 : ℚ) ≠ 0), hue]
      congr 1
      omega
    rw [show (((2 : ℤ) ^ 52 : ℤ) : ℚ) = (2 : ℚ) ^ (52 : ℤ) by norm_num, this]
    exact hlo
  rw [Dbl.round_eq hu hK]
  by_cases ho : (2 : ℚ) ^ (1024 : ℤ) ≤ (K : ℚ) * 2 ^ u
  · rw [if_pos ho]
    split_ifs <;> exact True.intro
  · rw [if_neg ho]
    have hlt : (K : ℚ) * 2 ^ u < 2 ^ (1024 : ℤ) := not_le.mp ho
    have hu971 : K ≠ 0 → u ≤ 971 := by
      intro hK0'
      by_contra hc
      have hu972 : 972 ≤ u := by omega
      have h52 : 2 ^ 52 ≤ K := hKlow (by omega)
      have : (2 : ℚ) ^ (1024 : ℤ) ≤ (K : ℚ) * 2 ^ u := by
        calc (2 : ℚ) ^ (1024 : ℤ) = 2 ^ (52 : ℤ) * 2 ^ (972 : ℤ) := by
              rw [← zpow_add₀ (by norm_num : (2 : ℚ) ≠ 0)]
              norm_num
          _ ≤ (K : ℚ) * 2 ^ u := by
              apply mul_le_mul
              · have : ((2 ^ 52 : ℤ) : ℚ) ≤ (K : ℚ) := by exact_mod_cast h52
                rw [show ((2 : ℚ) ^ (52 : ℤ)) = ((2 ^ 52 : ℤ) : ℚ) by norm_num]
                exact this
              · exact zpow_le_zpow_right₀ (by norm_num : (1 : ℚ) ≤ 2) hu972
              · positivity
              · exact_mod_cast hK0
      exact ho this
    have key : ∀ s : ℤ, (s = 1 ∨ s = -1) →
        Dbl.round ((s : ℚ) * ((K : ℚ) * 2 ^ u)) = Dbl.fin ((s : ℚ) * ((K : ℚ) * 2 ^ u)) := by
      intro s hs
      by_cases hKz : K = 0
      · rw [hKz]
        simp only [Int.cast_zero, zero_mul, mul_zero]
        exact Dbl.round_zero
      by_cases hK53' : K = 2 ^ 53
      · have hu970 : u + 1 ≤ 971 := by
          by_contra hc
          have hu971' : 971 ≤ u := by omega
          apply ho
          rw [hK53']
          calc (2 : ℚ) ^ (1024 : ℤ) = 2 ^ (53 : ℤ) * 2 ^ (971 : ℤ) := by
                rw [← zpow_add₀ (by norm_num : (2 : ℚ) ≠ 0)]
                norm_num
            _ ≤ ((2 ^ 53 : ℤ) : ℚ) * 2 ^ u := by
                rw [show (((2 : ℤ) ^ 53 : ℤ) : ℚ) = (2 : ℚ) ^ (53 : ℤ) by norm_num]
                exact mul_le_mul_of_nonneg_left
                  (zpow_le_zpow_right₀ (by norm_num : (1 : ℚ) ≤ 2) hu971') (by positivity)
        have h := Dbl.round_dyadic (s * 2 ^ 52) (u + 1) (by
          rcases hs with h | h <;> rw [h] <;> norm_num) (by omega) hu970
        have e : ((s * 2 ^ 52 : ℤ) : ℚ) * 2 ^ (u + 1) = (s : ℚ) * ((K : ℚ) * 2 ^ u) := by
          rw [hK53', zpow_add₀ (by norm_num : (2 : ℚ) ≠ 0)]
          push_cast
          ring
        rw [e] at h
        exact h
      · have hKlt : K < 2 ^ 53 := lt_of_le_of_ne hK53 hK53'
        have h := Dbl.round_dyadic (s * K) u (by
          rcases hs with h | h <;> rw [h]
          · rw [one_mul, abs_of_nonneg hK0]
            exact hKlt
          · rw [neg_one_mul, abs_neg, abs_of_nonneg hK0]
            exact hKlt) hu1 (hu971 hKz)
        have e : ((s * K : ℤ) : ℚ) * 2 ^ u = (s : ℚ) * ((K : ℚ) * 2 ^ u) := by
          push_cast
          ring
        rw [e] at h
        exact h
    by_cases hq : 0 < q
    · rw [if_pos hq]
      have h := key 1 (Or.inl rfl)
      simp only [Int.cast_one, one_mul] at h
      exact h
    · rw [if_neg hq]
      have h := key (-1) (Or.inr rfl)
      simp only [Int.cast_neg, Int.cast_one, neg_one_mul] at h
      exact h

end Rounding

theorem Dbl.add_fin (x y : ℚ) : Dbl.add (Dbl.fin x) (Dbl.fin y) = Dbl.round (x + y) := rfl

theorem Dbl.sub_fin (x y : ℚ) : Dbl.sub (Dbl.fin x) (Dbl.fin y) = Dbl.round (x - y) := by
  rw [sub_eq_add_neg]
  rfl

theorem Dbl.divNat_fin {x c : ℚ} {n : Nat} (hn : Dbl.round (n : ℚ) = Dbl.fin c) (hc : c ≠ 0) :
    Dbl.divNat (Dbl.fin x) n = Dbl.round (x / c) := by
  unfold Dbl.divNat Dbl.ofNat
  rw [hn]
  simp only
  rw [if_neg hc]

theorem Dbl.round_two : Dbl.round ((2 : Nat) : ℚ) = Dbl.fin 2 := by
  have h := Dbl.round_natCast 2 (by norm_num)
  simpa using h

theorem Dbl.divNat_two (x : ℚ) : Dbl.divNat (Dbl.fin x) 2 = Dbl.round (x / 2) :=
  Dbl.divNat_fin Dbl.round_two (by norm_num)

/-- Adding zero leaves the value of a `double` as it is. -/
theorem Dbl.add_fin_zero (x : Dbl) (hx : x.IsDouble) : Dbl.add x (Dbl.fin 0) = x := by
  cases x with
  | nan => rfl
  | pinf => rfl
  | ninf => rfl
  | fin q =>
    rw [Dbl.add_fin, show q + 0 = q by ring]
    exact hx

section OriginClaims

variable {DM SM : Nat}

theorem resolvedCenter_eq (defaultCenter : Int) (a : NrrdAxisInfo SM) :
    (if nrrdCenterUnknown ≠ a.center then a.center else defaultCenter)
      = resolvedCenter defaultCenter a := by
  unfold resolvedCenter
  by_cases h : a.center = nrrdCenterUnknown
  · rw [if_neg (not_not.mpr h.symm), if_neg (not_not.mpr h)]
  · rw [if_pos (fun e => h e.symm), if_pos h]

/-- The value written for a cell-centered axis (lines 292-299). -/
theorem originOfAxis_cell (w : Nat) (defaultCenter : Int) (a : NrrdAxisInfo SM)
    (hc : resolvedCenter defaultCenter a = nrrdCenterCell) :
    originOfAxis w defaultCenter a
      = Dbl.add a.min (Dbl.divNat
          (if AIR_EXISTS a.spacing = true then a.spacing
            else Dbl.divNat (Dbl.sub a.max a.min) a.size) 2) := by
  unfold originOfAxis
  simp only [resolvedCenter_eq, hc, if_true]

/-- The value written for an axis that is not cell-centered (lines 292-299). -/
theorem originOfAxis_not_cell (w : Nat) (defaultCenter : Int) (a : NrrdAxisInfo SM)
    (hc : resolvedCenter defaultCenter a ≠ nrrdCenterCell) :
    originOfAxis w defaultCenter a = Dbl.add a.min (Dbl.fin 0) := by
  unfold originOfAxis
  simp only [resolvedCenter_eq]
  rw [if_neg (fun e => hc e.symm)]

/-- Cell centering without an existent spacing, every intermediate result
finite: the four rounded steps of lines 295-299. -/
theorem originOfAxis_cell_chain (w : Nat) (defaultCenter : Int)
    (a : NrrdAxisInfo SM) (hc : resolvedCenter defaultCenter a = nrrdCenterCell)
    {m M d c q hf : ℚ} (hmin : a.min = Dbl.fin m) (hs : AIR_EXISTS a.spacing = false)
    (hmax : a.max = Dbl.fin M) (hd : Dbl.round (M - m) = Dbl.fin d)
    (hcn : Dbl.round (a.size : ℚ) = Dbl.fin c) (hc0 : c ≠ 0)
    (hq : Dbl.round (d / c) = Dbl.fin q) (hhalf : Dbl.round (q / 2) = Dbl.fin hf) :
    originOfAxis w defaultCenter a = Dbl.round (m + hf) := by
  rw [originOfAxis_cell w defaultCenter a hc, if_neg (by rw [hs]; decide), hmin, hmax,
    Dbl.sub_fin, hd, Dbl.divNat_fin hcn hc0, hq, Dbl.divNat_two, hhalf, Dbl.add_fin]

/-- What an `Okay` outcome says about the call: the object is non-null, every
requested axis slot was read inside the array, and the output holds the value
computed for each requested axis. -/
theorem originCalculate_okay_inv (w : Nat) (nrrd : Option (Nrrd DM SM))
    (axisIdx : List Nat) (defaultCenter : Int) (origin : Bool) (out : Option (List Dbl))
    (h : nrrdOriginCalculate w nrrd axisIdx defaultCenter origin
      = some (nrrdOriginStatus.Okay, out)) :
    ∃ n axis, nrrd = some n ∧ mapOpt (rd n.axis) axisIdx = some axis
      ∧ out = some (axis.map (originOfAxis w defaultCenter)) := by
  cases nrrd with
  | none => simp [nrrdOriginCalculate] at h
  | some n =>
    unfold nrrdOriginCalculate at h
    simp only at h
    by_cases h1 : ¬ ((nrrdCenterCell = defaultCenter ∨ nrrdCenterNode = defaultCenter)
        ∧ origin = true)
    · rw [if_pos h1] at h
      cases h
    · rw [if_neg h1] at h
      by_cases h2 : axisIdx.foldl (fun okay idx => okay && decide (idx < n.dim)) true = false
      · rw [if_pos h2] at h
        cases h
      · rw [if_neg h2] at h
        by_cases h3 : SM < axisIdx.length
        · rw [if_pos h3] at h
          cases h
        · rw [if_neg h3] at h
          cases hm : mapOpt (rd n.axis) axisIdx with
          | none => rw [hm] at h; cases h
          | some axis =>
            rw [hm] at h
            simp only [Option.some_bind] at h
            cases hd : mapOpt (fun a => rd a.spaceDirection 0) axis with
            | none => rw [hd] at h; cases h
            | some dir0 =>
              rw [hd] at h
              simp only [Option.some_bind] at h
              split_ifs at h
              · cases h
              · cases h
              · cases h
              · simp only [Option.some.injEq, Prod.mk.injEq, true_and] at h
                exact ⟨n, axis, rfl, hm, h.symm⟩

/-- C9: whenever `nrrdOriginCalculate` returns `nrrdOriginStatusOkay`, the
output has one entry per requested axis, determined by the resolved centering
of the axis (its own unless unknown, then `defaultCenter`).  For node
centering the entry is `min` (`min` being the value of a double, as every
field of type `double` is).  For cell centering it is `min + spacing/2` in
`double` arithmetic, `spacing` being the axis's spacing if existent and
`(max - min)/size` otherwise: this is stated in the C operators for all
values, NaN and the infinities included, and for finite values in the
rationals, where the difference `max - min`, its quotient by `size`, the half
of the spacing and the sum with `min` are each the exact result rounded to
binary64.  (For node centering the spacing does not enter the output.) -/
theorem originCalculate_okay_values (w : Nat) (nrrd : Option (Nrrd DM SM))
    (axisIdx : List Nat) (defaultCenter : Int) (origin : Bool) (out : Option (List Dbl))
    (h : nrrdOriginCalculate w nrrd axisIdx defaultCenter origin
      = some (nrrdOriginStatus.Okay, out)) :
    ∃ (n : Nrrd DM SM) (l : List Dbl), nrrd = some n ∧ out = some l
      ∧ l.length = axisIdx.length
      ∧ ∀ (ai idx : Nat), axisIdx[ai]? = some idx →
          ∃ (hlt : idx < DM) (o : Dbl), l[ai]? = some o
            ∧ (resolvedCenter defaultCenter (n.axis ⟨idx, hlt⟩) = nrrdCenterNode →
                (n.axis ⟨idx, hlt⟩).min.IsDouble → o = (n.axis ⟨idx, hlt⟩).min)
            ∧ (resolvedCenter defaultCenter (n.axis ⟨idx, hlt⟩) = nrrdCenterCell →
                (AIR_EXISTS (n.axis ⟨idx, hlt⟩).spacing = true →
                  o = Dbl.add (n.axis ⟨idx, hlt⟩).min
                    (Dbl.divNat (n.axis ⟨idx, hlt⟩).spacing 2))
                ∧ (AIR_EXISTS (n.axis ⟨idx, hlt⟩).spacing = false →
                  o = Dbl.add (n.axis ⟨idx, hlt⟩).min
                    (Dbl.divNat (Dbl.divNat
                      (Dbl.sub (n.axis ⟨idx, hlt⟩).max (n.axis ⟨idx, hlt⟩).min)
                      (n.axis ⟨idx, hlt⟩).size) 2))
                ∧ (∀ m s hf : ℚ, (n.axis ⟨idx, hlt⟩).min = Dbl.fin m →
                    (n.axis ⟨idx, hlt⟩).spacing = Dbl.fin s →
                    Dbl.round (s / 2) = Dbl.fin hf → o = Dbl.round (m + hf))
                ∧ (∀ m M d c q hf : ℚ, (n.axis ⟨idx, hlt⟩).min = Dbl.fin m →
                    AIR_EXISTS (n.axis ⟨idx, hlt⟩).spacing = false →
                    (n.axis ⟨idx, hlt⟩).max = Dbl.fin M →
                    Dbl.round (M - m) = Dbl.fin d →
                    Dbl.round ((n.axis ⟨idx, hlt⟩).size : ℚ) = Dbl.fin c → c ≠ 0 →
                    Dbl.round (d / c) = Dbl.fin q →
                    Dbl.round (q / 2) = Dbl.fin hf → o = Dbl.round (m + hf))) := by
  obtain ⟨n, axis, hn, hm, hout⟩ := originCalculate_okay_inv w nrrd axisIdx defaultCenter origin out h
  refine ⟨n, _, hn, hout, ?_, ?_⟩
  · rw [List.length_map]
    exact mapOpt_length _ _ _ hm
  · intro ai idx hai
    obtain ⟨a, ha1, ha2⟩ := mapOpt_getElem? _ _ _ hm ai idx hai
    have hlt : idx < DM := by
      by_contra hc
      rw [rd_ge n.axis (Nat.not_lt.mp hc)] at ha1
      cases ha1
    rw [rd_lt n.axis hlt, Option.some.injEq] at ha1
    refine ⟨hlt, originOfAxis w defaultCenter (n.axis ⟨idx, hlt⟩), ?_, ?_, ?_⟩
    · rw [List.getElem?_map, ha2, ha1.symm, Option.map_some']
    · intro hc hd
      have hne : resolvedCenter defaultCenter (n.axis ⟨idx, hlt⟩) ≠ nrrdCenterCell := by
        rw [hc]
        decide
      rw [originOfAxis_not_cell w defaultCenter _ hne]
      exact Dbl.add_fin_zero _ hd
    · intro hc
      have hcell := originOfAxis_cell w defaultCenter (n.axis ⟨idx, hlt⟩) hc
      refine ⟨fun hs => ?_, fun hs => ?_, ?_, ?_⟩
      · rw [hcell, if_pos hs]
      · rw [hcell, if_neg (by rw [hs]; decide)]
      · intro m s hf hmin hsp hhalf
        rw [hcell, hmin, hsp]
        have hex : AIR_EXISTS (Dbl.fin s) = true := rfl
        rw [if_pos hex, Dbl.divNat_two, hhalf, Dbl.add_fin]
      · intro m M d c q hf hmin hs hmax hd hcn hc0 hq hhalf
        exact originOfAxis_cell_chain w defaultCenter _ hc hmin hs hmax hd hcn hc0 hq hhalf

theorem originCalculate_single_call (n : Nrrd 16 8) (dc : Int)
    (hdc : dc = nrrdCenterCell ∨ dc = nrrdCenterNode) (hdim : 0 < n.dim)
    (hsd : n.spaceDim = 0) (hmin : AIR_EXISTS (n.axis 0).min = true)
    (hmax : AIR_EXISTS (n.axis 0).max = true) :
    nrrdOriginCalculate 64 (some n) [0] dc true
      = some (nrrdOriginStatus.Okay, some [originOfAxis 64 dc (n.axis 0)]) := by
  have h0 : rd n.axis 0 = some (n.axis 0) := rfl
  have h1 : rd (n.axis 0).spaceDirection 0 = some ((n.axis 0).spaceDirection 0) := rfl
  rcases hdc with hdc | hdc <;> subst hdc <;>
    simp [nrrdOriginCalculate, mapOpt, h0, h1, hdim, hsd, hmin, hmax, nrrdCenterCell,
      nrrdCenterNode]

theorem originOfAxis_single_cell :
    originOfAxis 64 nrrdCenterCell (nrrdSingleAxis.axis 0) = Dbl.fin 1 := by
  have hc : resolvedCenter nrrdCenterCell (nrrdSingleAxis.axis 0) = nrrdCenterCell := by decide
  have hmin : (nrrdSingleAxis.axis 0).min = Dbl.fin 0 := rfl
  have hs : AIR_EXISTS (nrrdSingleAxis.axis 0).spacing = false := rfl
  have hmax : (nrrdSingleAxis.axis 0).max = Dbl.fin 10 := rfl
  have h10 : Dbl.round (10 - 0) = Dbl.fin 10 := by
    simpa using Dbl.round_natCast 10 (by norm_num)
  have h5 : Dbl.round ((nrrdSingleAxis.axis 0).size : ℚ) = Dbl.fin 5 := by
    have hsz : (nrrdSingleAxis.axis 0).size = 5 := rfl
    rw [hsz]
    simpa using Dbl.round_natCast 5 (by norm_num)
  have h2 : Dbl.round (10 / 5) = Dbl.fin 2 := by
    have := Dbl.round_natCast 2 (by norm_num)
    norm_num at this ⊢
    exact this
  have h1 : Dbl.round (2 / 2) = Dbl.fin 1 := by
    have := Dbl.round_natCast 1 (by norm_num)
    norm_num at this ⊢
    exact this
  have h01 : Dbl.round (0 + 1) = Dbl.fin 1 := by
    have := Dbl.round_natCast 1 (by norm_num)
    norm_num at this ⊢
    exact this
  rw [originOfAxis_cell_chain 64 nrrdCenterCell (nrrdSingleAxis.axis 0) hc hmin hs hmax h10 h5
    (by norm_num) h2 h1, h01]

theorem originOfAxis_single_node :
    originOfAxis 64 nrrdCenterNode (nrrdSingleAxis.axis 0) = Dbl.fin 0 := by
  have hc : resolvedCenter nrrdCenterNode (nrrdSingleAxis.axis 0) ≠ nrrdCenterCell := by decide
  have hmin : (nrrdSingleAxis.axis 0).min = Dbl.fin 0 := rfl
  rw [originOfAxis_not_cell 64 nrrdCenterNode _ hc, hmin]
  exact Dbl.add_fin_zero _ Dbl.round_zero

theorem originCalculate_single_cell :
    nrrdOriginCalculate 64 (some nrrdSingleAxis) [0] nrrdCenterCell true
      = some (nrrdOriginStatus.Okay, some [Dbl.fin 1]) := by
  rw [originCalculate_single_call nrrdSingleAxis nrrdCenterCell (Or.inl rfl) (by decide) rfl
    rfl rfl, originOfAxis_single_cell]

theorem originCalculate_single_node :
    nrrdOriginCalculate 64 (some nrrdSingleAxis) [0] nrrdCenterNode true
      = some (nrrdOriginStatus.Okay, some [Dbl.fin 0]) := by
  rw [originCalculate_single_call nrrdSingleAxis nrrdCenterNode (Or.inr rfl) (by decide) rfl
    rfl rfl, originOfAxis_single_node]

theorem originCalculate_offset_cell :
    nrrdOriginCalculate 64 (some nrrdOffsetAxis) [0] nrrdCenterCell true
      = some (nrrdOriginStatus.Okay, some [Dbl.fin 3]) := by
  have hc : resolvedCenter nrrdCenterCell (nrrdOffsetAxis.axis 0) = nrrdCenterCell := by decide
  have hmin : (nrrdOffsetAxis.axis 0).min = Dbl.fin 2 := rfl
  have hs : AIR_EXISTS (nrrdOffsetAxis.axis 0).spacing = false := rfl
  have hmax : (nrrdOffsetAxis.axis 0).max = Dbl.fin 10 := rfl
  have h8 : Dbl.round (10 - 2) = Dbl.fin 8 := by
    have := Dbl.round_natCast 8 (by norm_num)
    norm_num at this ⊢
    exact this
  have h4 : Dbl.round ((nrrdOffsetAxis.axis 0).size : ℚ) = Dbl.fin 4 := by
    have hsz : (nrrdOffsetAxis.axis 0).size = 4 := rfl
    rw [hsz]
    simpa using Dbl.round_natCast 4 (by norm_num)
  have h2 : Dbl.round (8 / 4) = Dbl.fin 2 := by
    have := Dbl.round_natCast 2 (by norm_num)
    norm_num at this ⊢
    exact this
  have h1 : Dbl.round (2 / 2) = Dbl.fin 1 := by
    have := Dbl.round_natCast 1 (by norm_num)
    norm_num at this ⊢
    exact this
  have h3 : Dbl.round (2 + 1) = Dbl.fin 3 := by
    have := Dbl.round_natCast 3 (by norm_num)
    norm_num at this ⊢
    exact this
  rw [originCalculate_single_call nrrdOffsetAxis nrrdCenterCell (Or.inl rfl) (by decide) rfl
    rfl rfl,
    originOfAxis_cell_chain 64 nrrdCenterCell (nrrdOffsetAxis.axis 0) hc hmin hs hmax h8 h4
      (by norm_num) h2 h1, h3]

theorem originCalculate_offset_node :
    nrrdOriginCalculate 64 (some nrrdOffsetAxis) [0] nrrdCenterNode true
      = some (nrrdOriginStatus.Okay, some [Dbl.fin 2]) := by
  have hc : resolvedCenter nrrdCenterNode (nrrdOffsetAxis.axis 0) ≠ nrrdCenterCell := by decide
  have hmin : (nrrdOffsetAxis.axis 0).min = Dbl.fin 2 := rfl
  have h2 : Dbl.round 2 = Dbl.fin 2 := by
    simpa using Dbl.round_natCast 2 (by norm_num)
  rw [originCalculate_single_call nrrdOffsetAxis nrrdCenterNode (Or.inr rfl) (by decide) rfl
    rfl rfl, originOfAxis_not_cell 64 nrrdCenterNode _ hc, hmin, Dbl.add_fin_zero (Dbl.fin 2) h2]

/-- The four roundings of the example with `min = 0.1` and `max = 0.7`. -/
theorem tenths_roundings :
    Dbl.round ((3152519739159347 : ℚ) / 4503599627370496
        - 3602879701896397 / 36028797018963968)
      = Dbl.fin (5404319552844595 / 9007199254740992)
    ∧ Dbl.round ((5404319552844595 : ℚ) / 9007199254740992 / 3)
      = Dbl.fin (7205759403792793 / 36028797018963968)
    ∧ Dbl.round ((7205759403792793 : ℚ) / 36028797018963968 / 2)
      = Dbl.fin (7205759403792793 / 72057594037927936)
    ∧ Dbl.round ((3602879701896397 : ℚ) / 36028797018963968
        + 7205759403792793 / 72057594037927936)
      = Dbl.fin (3602879701896397 / 18014398509481984) := by
  refine ⟨?_, ?_, ?_, ?_⟩
  · rw [Dbl.round_of_bounds (-1) (-53) 5404319552844595 (by norm_num) (by norm_num) (by decide)
      (by norm_num) (by norm_num)]
    norm_num
  · rw [Dbl.round_of_bounds (-3) (-55) 7205759403792793 (by norm_num) (by norm_num) (by decide)
      (by norm_num) (by norm_num)]
    norm_num
  · rw [Dbl.round_of_bounds (-4) (-56) 7205759403792793 (by norm_num) (by norm_num) (by decide)
      (by norm_num) (by norm_num)]
    norm_num
  · rw [Dbl.round_of_tie (-3) (-55) 7205759403792793 (by norm_num) (by norm_num) (by decide)
      (by norm_num)]
    norm_num

theorem originCalculate_tenths_cell :
    nrrdOriginCalculate 64 (some nrrdTenthsAxis) [0] nrrdCenterCell true
      = some (nrrdOriginStatus.Okay,
          some [Dbl.fin (3602879701896397 / 18014398509481984)]) := by
  have hc : resolvedCenter nrrdCenterCell (nrrdTenthsAxis.axis 0) = nrrdCenterCell := by decide
  have hmin : (nrrdTenthsAxis.axis 0).min
      = Dbl.fin (3602879701896397 / 36028797018963968) := rfl
  have hs : AIR_EXISTS (nrrdTenthsAxis.axis 0).spacing = false := rfl
  have hmax : (nrrdTenthsAxis.axis 0).max
      = Dbl.fin (3152519739159347 / 4503599627370496) := rfl
  have h3 : Dbl.round ((nrrdTenthsAxis.axis 0).size : ℚ) = Dbl.fin 3 := by
    have hsz : (nrrdTenthsAxis.axis 0).size = 3 := rfl
    rw [hsz]
    simpa using Dbl.round_natCast 3 (by norm_num)
  obtain ⟨r1, r2, r3, r4⟩ := tenths_roundings
  rw [originCalculate_single_call nrrdTenthsAxis nrrdCenterCell (Or.inl rfl) (by decide) rfl
    rfl rfl,
    originOfAxis_cell_chain 64 nrrdCenterCell (nrrdTenthsAxis.axis 0) hc hmin hs hmax r1 h3
      (by norm_num) r2 r3, r4]

theorem huge_rounding :
    Dbl.round ((5010420900022432 : ℚ) * 2 ^ 971 - -(5010420900022432 * 2 ^ 971)) = Dbl.pinf := by
  rw [Dbl.round_of_bounds 1024 972 5010420900022432 (by norm_num) (by norm_num) (by decide)
    (by norm_num) (by norm_num)]
  norm_num

theorem originCalculate_huge_cell :
    nrrdOriginCalculate 64 (some nrrdHugeAxis) [0] nrrdCenterCell true
      = some (nrrdOriginStatus.Okay, some [Dbl.pinf]) := by
  have hc : resolvedCenter nrrdCenterCell (nrrdHugeAxis.axis 0) = nrrdCenterCell := by decide
  have hmin : (nrrdHugeAxis.axis 0).min = Dbl.fin (-(5010420900022432 * 2 ^ 971)) := rfl
  have hs : AIR_EXISTS (nrrdHugeAxis.axis 0).spacing = false := rfl
  have hmax : (nrrdHugeAxis.axis 0).max = Dbl.fin (5010420900022432 * 2 ^ 971) := rfl
  have hsz : (nrrdHugeAxis.axis 0).size = 2 := rfl
  have hdiv : ∀ k : Nat, Dbl.round (k : ℚ) = Dbl.fin 2 → Dbl.divNat Dbl.pinf k = Dbl.pinf := by
    intro k hk
    unfold Dbl.divNat Dbl.ofNat
    rw [hk]
  rw [originCalculate_single_call nrrdHugeAxis nrrdCenterCell (Or.inl rfl) (by decide) rfl
    rfl rfl, originOfAxis_cell 64 nrrdCenterCell _ hc, if_neg (by rw [hs]; decide), hmin, hmax,
    Dbl.sub_fin, huge_rounding, hsz, hdiv 2 Dbl.round_two, hdiv 2 Dbl.round_two]
  rfl

/-- C9, at concrete axes.  The axis of the claim (`min = 0`, `max = 10`,
`size = 5`) gives 1 for cell and 0 for node centering; `min = 2`, `max = 10`,
`size = 4` gives 3 and 2; with `min` and `max` the doubles nearest to 0.1 and
0.7 and `size = 3` every step rounds and the result is the double nearest to
0.2; with `min = -1e308` and `max = 1e308` the difference overflows and the
result is `+inf`.  The theorem, applied to the third call, gives the value of
`min + ((max - min)/size)/2` in `double` arithmetic. -/
theorem originCalculate_okay_values_witness :
    (nrrdOriginCalculate 64 (some nrrdSingleAxis) [0] nrrdCenterCell true
        = some (nrrdOriginStatus.Okay, some [Dbl.fin 1])
      ∧ nrrdOriginCalculate 64 (some nrrdSingleAxis) [0] nrrdCenterNode true
        = some (nrrdOriginStatus.Okay, some [Dbl.fin 0]))
    ∧ (nrrdOriginCalculate 64 (some nrrdOffsetAxis) [0] nrrdCenterCell true
        = some (nrrdOriginStatus.Okay, some [Dbl.fin 3])
      ∧ nrrdOriginCalculate 64 (some nrrdOffsetAxis) [0] nrrdCenterNode true
        = some (nrrdOriginStatus.Okay, some [Dbl.fin 2]))
    ∧ nrrdOriginCalculate 64 (some nrrdTenthsAxis) [0] nrrdCenterCell true
        = some (nrrdOriginStatus.Okay, some [Dbl.fin (3602879701896397 / 18014398509481984)])
    ∧ nrrdOriginCalculate 64 (some nrrdHugeAxis) [0] nrrdCenterCell true
        = some (nrrdOriginStatus.Okay, some [Dbl.pinf])
    ∧ Dbl.add (Dbl.fin (3602879701896397 / 36028797018963968))
        (Dbl.divNat (Dbl.divNat
          (Dbl.sub (Dbl.fin (3152519739159347 / 4503599627370496))
            (Dbl.fin (3602879701896397 / 36028797018963968))) 3) 2)
        = Dbl.fin (3602879701896397 / 18014398509481984) := by
  refine ⟨⟨originCalculate_single_cell, originCalculate_single_node⟩,
    ⟨originCalculate_offset_cell, originCalculate_offset_node⟩,
    originCalculate_tenths_cell, originCalculate_huge_cell, ?_⟩
  · obtain ⟨n, l, hn, hl, _, hval⟩ :=
      originCalculate_okay_values 64 (some nrrdTenthsAxis) [0] nrrdCenterCell true _
        originCalculate_tenths_cell
    cases hn
    cases hl
    obtain ⟨_, o, ho, _, hc⟩ := hval 0 0 rfl
    simp only [List.getElem?_cons_zero, Option.some.injEq] at ho
    have h1 := (hc rfl).2.1 rfl
    rw [← ho] at h1
    exact h1.symm

theorem Dbl.nan_add (x : Dbl) : Dbl.add Dbl.nan x = Dbl.nan := by
  cases x <;> rfl

/-- The call of C11 and C34: axes 0 and 1 of the example whose axis 1 has no
`min`. -/
theorem originCalculate_secondNoMin :
    nrrdOriginCalculate 64 (some nrrdSecondNoMin) [0, 1] nrrdCenterCell true
      = some (nrrdOriginStatus.Okay, some [Dbl.fin 1, Dbl.nan]) := by
  have h0 : rd nrrdSecondNoMin.axis 0 = some (nrrdSecondNoMin.axis 0) := rfl
  have h1 : rd nrrdSecondNoMin.axis 1 = some (nrrdSecondNoMin.axis 1) := rfl
  have hd0 : rd (nrrdSecondNoMin.axis 0).spaceDirection 0 = some Dbl.nan := rfl
  have hd1 : rd (nrrdSecondNoMin.axis 1).spaceDirection 0 = some Dbl.nan := rfl
  have hmin0 : (nrrdSecondNoMin.axis 0).min = Dbl.fin 0 := rfl
  have hmax0 : (nrrdSecondNoMin.axis 0).max = Dbl.fin 10 := rfl
  have hmax1 : (nrrdSecondNoMin.axis 1).max = Dbl.fin 10 := rfl
  have hmin1 : (nrrdSecondNoMin.axis 1).min = Dbl.nan := rfl
  have hs0 : AIR_EXISTS (nrrdSecondNoMin.axis 0).spacing = false := rfl
  have hc0 : resolvedCenter nrrdCenterCell (nrrdSecondNoMin.axis 0) = nrrdCenterCell := by
    decide
  have hc1 : resolvedCenter nrrdCenterCell (nrrdSecondNoMin.axis 1) = nrrdCenterCell := by
    decide
  have hcall : nrrdOriginCalculate 64 (some nrrdSecondNoMin) [0, 1] nrrdCenterCell true
      = some (nrrdOriginStatus.Okay,
          some [originOfAxis 64 nrrdCenterCell (nrrdSecondNoMin.axis 0),
            originOfAxis 64 nrrdCenterCell (nrrdSecondNoMin.axis 1)]) := by
    have hdim : nrrdSecondNoMin.dim = 2 := rfl
    have hsd : nrrdSecondNoMin.spaceDim = 0 := rfl
    simp [nrrdOriginCalculate, mapOpt, h0, h1, hd0, hd1, hdim, hsd, hmin0, hmax0, hmax1,
      AIR_EXISTS, nrrdCenterCell, nrrdCenterNode]
  have h10 : Dbl.round (10 - 0) = Dbl.fin 10 := by
    simpa using Dbl.round_natCast 10 (by norm_num)
  have h5 : Dbl.round ((nrrdSecondNoMin.axis 0).size : ℚ) = Dbl.fin 5 := by
    have hsz : (nrrdSecondNoMin.axis 0).size = 5 := rfl
    rw [hsz]
    simpa using Dbl.round_natCast 5 (by norm_num)
  have h2 : Dbl.round (10 / 5) = Dbl.fin 2 := by
    have := Dbl.round_natCast 2 (by norm_num)
    norm_num at this ⊢
    exact this
  have h1r : Dbl.round (2 / 2) = Dbl.fin 1 := by
    have := Dbl.round_natCast 1 (by norm_num)
    norm_num at this ⊢
    exact this
  have h01 : Dbl.round (0 + 1) = Dbl.fin 1 := by
    have := Dbl.round_natCast 1 (by norm_num)
    norm_num at this ⊢
    exact this
  rw [hcall,
    originOfAxis_cell_chain 64 nrrdCenterCell (nrrdSecondNoMin.axis 0) hc0 hmin0 hs0 hmax0 h10
      h5 (by norm_num) h2 h1r, h01,
    originOfAxis_cell 64 nrrdCenterCell (nrrdSecondNoMin.axis 1) hc1, hmin1, Dbl.nan_add]

theorem mapOpt_eq_map {α β : Type} (f : α → Option β) (g : α → β)
    (hfg : ∀ x, f x = some (g x)) : ∀ l : List α, mapOpt f l = some (l.map g) := by
  intro l
  induction l with
  | nil => rfl
  | cons a t ih => simp [mapOpt, hfg a, ih]

/-- C10 as stated fails: with `spaceDim = 0`, a requested axis all of whose
direction coefficients exist does not make the result
`nrrdOriginStatusDirection`; here the arguments are well-formed and the result
is `nrrdOriginStatusOkay`. -/
theorem originCalculate_direction_counterexample :
    nrrdDirectionNoSpaceDim.dim = 1
      ∧ (∀ j : Fin 8, AIR_EXISTS
          ((nrrdDirectionNoSpaceDim.axis ⟨0, by decide⟩).spaceDirection j) = true)
      ∧ (nrrdOriginCalculate 64 (some nrrdDirectionNoSpaceDim) [0] nrrdCenterCell true).map
          Prod.fst = some nrrdOriginStatus.Okay
      ∧ (nrrdOriginCalculate 64 (some nrrdDirectionNoSpaceDim) [0] nrrdCenterCell true).map
          Prod.fst ≠ some nrrdOriginStatus.Direction := by
  have h : (nrrdOriginCalculate 64 (some nrrdDirectionNoSpaceDim) [0] nrrdCenterCell true).map
      Prod.fst = some nrrdOriginStatus.Okay := by decide
  refine ⟨rfl, by decide, h, ?_⟩
  rw [h]
  decide

/-- C10 (amended): on well-formed arguments (non-null object and output,
`defaultCenter` cell or node, every requested axis index below
`dim <= NRRD_DIM_MAX`, at most `NRRD_SPACE_DIM_MAX` requested axes), if
`spaceDim > 0` and a requested axis has an existent direction vector, the
result is `nrrdOriginStatusDirection` and the output is all NaN, whatever
`min`, `max` and `spacing` are. -/
theorem originCalculate_direction (w : Nat) (n : Nrrd DM SM) (axisIdx : List Nat)
    (defaultCenter : Int)
    (hdc : defaultCenter = nrrdCenterCell ∨ defaultCenter = nrrdCenterNode)
    (hidx : ∀ idx ∈ axisIdx, idx < n.dim) (hdim : n.dim ≤ DM)
    (hnum : axisIdx.length ≤ SM) (hsd : 0 < n.spaceDim)
    (hdir : ∃ idx ∈ axisIdx, ∃ h : idx < DM, HasDirection (n.axis ⟨idx, h⟩)) :
    nrrdOriginCalculate w (some n) axisIdx defaultCenter true
      = some (nrrdOriginStatus.Direction, some (List.replicate axisIdx.length AIR_NAN)) := by
  obtain ⟨idx, hmem, hlt, z, hz, hex⟩ := hdir
  have hSM : 0 < SM := Fin.pos z
  have h1 : (nrrdCenterCell = defaultCenter ∨ nrrdCenterNode = defaultCenter)
      ∧ true = true := by
    rcases hdc with h | h
    · exact ⟨Or.inl h.symm, rfl⟩
    · exact ⟨Or.inr h.symm, rfl⟩
  have h2 : ¬ (axisIdx.foldl (fun okay idx => okay && decide (idx < n.dim)) true = false) := by
    rw [foldl_and_eq_all (fun idx => decide (idx < n.dim))]
    simp only [Bool.true_and, Bool.not_eq_false, List.all_eq_true, decide_eq_true_eq]
    exact hidx
  obtain ⟨axis, hm⟩ := mapOpt_total (rd n.axis) axisIdx fun x hx =>
    ⟨_, rd_lt n.axis (Nat.lt_of_lt_of_le (hidx x hx) hdim)⟩
  have hd := mapOpt_eq_map (fun a : NrrdAxisInfo SM => rd a.spaceDirection 0)
    (fun a => a.spaceDirection ⟨0, hSM⟩) (fun a => rd_lt a.spaceDirection hSM) axis
  have hgot : (axis.map fun a => a.spaceDirection ⟨0, hSM⟩).foldl
      (fun gotSpace d => gotSpace || AIR_EXISTS d) false = true := by
    rw [foldl_or_eq_any AIR_EXISTS]
    simp only [Bool.false_or, List.any_eq_true, List.mem_map]
    obtain ⟨a, ha1, ha2⟩ := mapOpt_mem _ _ _ hm idx hmem
    rw [rd_lt n.axis hlt, Option.some.injEq] at ha2
    refine ⟨_, ⟨a, ha1, rfl⟩, ?_⟩
    have hz2 : z = ⟨0, hSM⟩ := Fin.ext hz
    rw [← ha2, ← hz2]
    exact hex
  unfold nrrdOriginCalculate
  dsimp only
  rw [if_neg (not_not.mpr h1), if_neg h2, if_neg (Nat.not_lt.mpr hnum), hm]
  simp only [Option.some_bind]
  rw [hd]
  simp only [Option.some_bind]
  rw [if_pos ⟨hsd, hgot⟩]
  rfl

theorem originCalculate_direction_witness :
    ((∀ idx ∈ [0, 1, 2], idx < nrrdOrientedWithMin.dim) ∧ 0 < nrrdOrientedWithMin.spaceDim
      ∧ AIR_EXISTS (nrrdOrientedWithMin.axis ⟨1, by decide⟩).min = true)
    ∧ nrrdOriginCalculate 64 (some nrrdOrientedWithMin) [0, 1, 2] nrrdCenterCell true
      = some (nrrdOriginStatus.Direction, some [Dbl.nan, Dbl.nan, Dbl.nan]) :=
  ⟨by decide,
    originCalculate_direction 64 nrrdOrientedWithMin [0, 1, 2] nrrdCenterCell (Or.inl rfl)
      (by decide) (by decide) (by decide) (by decide)
      ⟨1, by decide, by decide, ⟨0, by decide⟩, rfl, by decide⟩⟩

end OriginClaims

/-! ## The derived origin: outcomes -/

theorem mapOpt_mem_right {α β : Type} (f : α → Option β) :
    ∀ (l : List α) (r : List β), mapOpt f l = some r →
      ∀ y ∈ r, ∃ x ∈ l, f x = some y := by
  intro l
  induction l with
  | nil =>
    intro r h y hy
    simp only [mapOpt, Option.some.injEq] at h
    subst h
    cases hy
  | cons a t ih =>
    intro r h y hy
    simp only [mapOpt] at h
    cases hfa : f a with
    | none => rw [hfa] at h; cases h
    | some b =>
      rw [hfa] at h
      cases ht : mapOpt f t with
      | none => rw [ht] at h; cases h
      | some r2 =>
        rw [ht] at h
        simp only [Option.map_some', Option.some.injEq] at h
        subst h
        rcases List.mem_cons.mp hy with hyb | hyr
        · exact ⟨a, List.mem_cons_self a t, by rw [hfa, hyb]⟩
        · obtain ⟨x, hx, hfx⟩ := ih r2 ht y hyr
          exact ⟨x, List.mem_cons_of_mem a hx, hfx⟩

theorem all_const_eq_false {α : Type} (c : Bool) (l : List α) :
    l.all (fun _ => c) = false ↔ l ≠ [] ∧ c = false := by
  cases l with
  | nil => simp
  | cons a t => cases c <;> simp

section OriginOutcomes

variable {DM SM : Nat}

theorem dir0Exists_iff (a : NrrdAxisInfo SM) : dir0Exists a = true ↔ HasDirection a := by
  unfold dir0Exists HasDirection
  by_cases h : 0 < SM
  · rw [rd_lt a.spaceDirection h]
    constructor
    · intro he
      exact ⟨⟨0, h⟩, rfl, he⟩
    · rintro ⟨z, hz, he⟩
      have hz2 : z = ⟨0, h⟩ := Fin.ext hz
      rw [hz2] at he
      exact he
  · rw [rd_ge a.spaceDirection (Nat.not_lt.mp h)]
    constructor
    · intro he
      cases he
    · rintro ⟨z, _, _⟩
      exact absurd (Fin.pos z) h

/-- The reads of coefficient 0 of line 262 succeed for at most
`NRRD_SPACE_DIM_MAX` axes, and `gotSpace` is the disjunction of the tests. -/
theorem dir0_read (axis : List (NrrdAxisInfo SM)) (hlen : axis.length ≤ SM) :
    ∃ dir0, mapOpt (fun a : NrrdAxisInfo SM => rd a.spaceDirection 0) axis = some dir0
      ∧ dir0.foldl (fun gotSpace d => gotSpace || AIR_EXISTS d) false
          = axis.any dir0Exists := by
  by_cases h : 0 < SM
  · refine ⟨axis.map fun a => a.spaceDirection ⟨0, h⟩,
      mapOpt_eq_map _ _ (fun a => rd_lt a.spaceDirection h) axis, ?_⟩
    rw [foldl_or_eq_any AIR_EXISTS, Bool.false_or]
    induction axis with
    | nil => rfl
    | cons a t ih =>
      have ha : dir0Exists a = AIR_EXISTS (a.spaceDirection ⟨0, h⟩) := by
        simp [dir0Exists, rd_lt a.spaceDirection h]
      have ht : t.length ≤ SM := by
        simp only [List.length_cons] at hlen
        omega
      simp only [List.map_cons, List.any_cons, ha, ih ht]
  · have hnil : axis = [] := by
      apply List.eq_nil_of_length_eq_zero
      omega
    subst hnil
    exact ⟨[], rfl, rfl⟩

/-- On well-formed arguments the call reads the requested axis records and
returns according to the three tests of lines 260-286. -/
theorem originCalculate_normal (w : Nat) (n : Nrrd DM SM) (axisIdx : List Nat)
    (defaultCenter : Int)
    (hdc : defaultCenter = nrrdCenterCell ∨ defaultCenter = nrrdCenterNode)
    (hidx : ∀ idx ∈ axisIdx, idx < n.dim) (hdim : n.dim ≤ DM)
    (hnum : axisIdx.length ≤ SM) :
    ∃ axis : List (NrrdAxisInfo SM), mapOpt (rd n.axis) axisIdx = some axis
      ∧ nrrdOriginCalculate w (some n) axisIdx defaultCenter true =
        some (
          if 0 < n.spaceDim ∧ axis.any dir0Exists = true then
            (nrrdOriginStatus.Direction, some (List.replicate axisIdx.length AIR_NAN))
          else if axis.all (fun _ =>
              (axis.head?.map fun a0 => AIR_EXISTS a0.min).getD false) = false then
            (nrrdOriginStatus.NoMin, some (List.replicate axisIdx.length AIR_NAN))
          else if axis.all (fun a => AIR_EXISTS a.max || AIR_EXISTS a.spacing) = false then
            (nrrdOriginStatus.NoMaxOrSpacing, some (List.replicate axisIdx.length AIR_NAN))
          else (nrrdOriginStatus.Okay, some (axis.map (originOfAxis w defaultCenter)))) := by
  have h1 : (nrrdCenterCell = defaultCenter ∨ nrrdCenterNode = defaultCenter)
      ∧ true = true := by
    rcases hdc with h | h
    · exact ⟨Or.inl h.symm, rfl⟩
    · exact ⟨Or.inr h.symm, rfl⟩
  have h2 : ¬ (axisIdx.foldl (fun okay idx => okay && decide (idx < n.dim)) true = false) := by
    rw [foldl_and_eq_all (fun idx => decide (idx < n.dim))]
    simp only [Bool.true_and, Bool.not_eq_false, List.all_eq_true, decide_eq_true_eq]
    exact hidx
  obtain ⟨axis, hm⟩ := mapOpt_total (rd n.axis) axisIdx fun x hx =>
    ⟨_, rd_lt n.axis (Nat.lt_of_lt_of_le (hidx x hx) hdim)⟩
  have hlen : axis.length ≤ SM := by
    rw [mapOpt_length _ _ _ hm]
    exact hnum
  obtain ⟨dir0, hd, hgot⟩ := dir0_read axis hlen
  refine ⟨axis, hm, ?_⟩
  unfold nrrdOriginCalculate
  dsimp only
  rw [if_neg (not_not.mpr h1), if_neg h2, if_neg (Nat.not_lt.mpr hnum), hm]
  simp only [Option.some_bind]
  rw [hd]
  simp only [Option.some_bind]
  rw [hgot, foldl_and_eq_all (fun _ => (axis.head?.map fun a0 => AIR_EXISTS a0.min).getD false),
    foldl_and_eq_all (fun a : NrrdAxisInfo SM => AIR_EXISTS a.max || AIR_EXISTS a.spacing)]
  simp only [Bool.true_and]
  split_ifs <;> rfl

/-- Every outcome of the call: no defined behaviour, an outcome other than
`Okay` with the output the macro `ERROR` leaves, or `Okay` with a computed
output. -/
theorem originCalculate_cases (w : Nat) (nrrd : Option (Nrrd DM SM)) (axisIdx : List Nat)
    (defaultCenter : Int) (origin : Bool) :
    nrrdOriginCalculate w nrrd axisIdx defaultCenter origin = none
    ∨ (∃ st, st ≠ nrrdOriginStatus.Okay
        ∧ nrrdOriginCalculate w nrrd axisIdx defaultCenter origin
          = some (st, originERROR axisIdx.length origin))
    ∨ ∃ l, nrrdOriginCalculate w nrrd axisIdx defaultCenter origin
        = some (nrrdOriginStatus.Okay, some l) := by
  cases nrrd with
  | none =>
    exact Or.inr (Or.inl ⟨nrrdOriginStatus.Unknown, by decide, rfl⟩)
  | some n =>
    unfold nrrdOriginCalculate
    dsimp only
    by_cases h1 : ¬ ((nrrdCenterCell = defaultCenter ∨ nrrdCenterNode = defaultCenter)
        ∧ origin = true)
    · rw [if_pos h1]
      exact Or.inr (Or.inl ⟨nrrdOriginStatus.Unknown, by decide, rfl⟩)
    · rw [if_neg h1]
      by_cases h2 : axisIdx.foldl (fun okay idx => okay && decide (idx < n.dim)) true = false
      · rw [if_pos h2]
        exact Or.inr (Or.inl ⟨nrrdOriginStatus.Unknown, by decide, rfl⟩)
      · rw [if_neg h2]
        by_cases h3 : SM < axisIdx.length
        · rw [if_pos h3]
          exact Or.inl rfl
        · rw [if_neg h3]
          cases hm : mapOpt (rd n.axis) axisIdx with
          | none => exact Or.inl rfl
          | some axis =>
            simp only [Option.some_bind]
            cases hd : mapOpt (fun a : NrrdAxisInfo SM => rd a.spaceDirection 0) axis with
            | none => exact Or.inl rfl
            | some dir0 =>
              simp only [Option.some_bind]
              split_ifs
              · exact Or.inr (Or.inl ⟨nrrdOriginStatus.Direction, by decide, rfl⟩)
              · exact Or.inr (Or.inl ⟨nrrdOriginStatus.NoMin, by decide, rfl⟩)
              · exact Or.inr (Or.inl ⟨nrrdOriginStatus.NoMaxOrSpacing, by decide, rfl⟩)
              · exact Or.inr (Or.inr ⟨_, rfl⟩)

/-- The axis records the call reads are exactly those of the requested
axes. -/
theorem requested_axes (n : Nrrd DM SM) (axisIdx : List Nat)
    (axis : List (NrrdAxisInfo SM)) (hm : mapOpt (rd n.axis) axisIdx = some axis) :
    (∀ a ∈ axis, ∃ idx ∈ axisIdx, ∃ h : idx < DM, a = n.axis ⟨idx, h⟩)
    ∧ (∀ idx ∈ axisIdx, ∀ h : idx < DM, n.axis ⟨idx, h⟩ ∈ axis) := by
  constructor
  · intro a ha
    obtain ⟨idx, hidx, hr⟩ := mapOpt_mem_right _ _ _ hm a ha
    have hlt : idx < DM := by
      by_contra hc
      rw [rd_ge n.axis (Nat.not_lt.mp hc)] at hr
      cases hr
    rw [rd_lt n.axis hlt, Option.some.injEq] at hr
    exact ⟨idx, hidx, hlt, hr.symm⟩
  · intro idx hidx hlt
    obtain ⟨a, ha, hr⟩ := mapOpt_mem _ _ _ hm idx hidx
    rw [rd_lt n.axis hlt, Option.some.injEq] at hr
    rw [hr]
    exact ha

/-- C11 (the code at a failing input): axes 0 and 1 are requested, neither has
a direction vector, axis 1 has no `min`, and the call returns
`nrrdOriginStatusOkay` with a NaN coordinate for axis 1 instead of
`nrrdOriginStatusNoMin`: the loop of lines 270-272 tests `axis[0]->min` at
every iteration. -/
theorem originCalculate_second_axis_without_min :
    AIR_EXISTS (nrrdSecondNoMin.axis ⟨1, by decide⟩).min = false
    ∧ (∀ (a : Fin 16) (j : Fin 8),
        AIR_EXISTS ((nrrdSecondNoMin.axis a).spaceDirection j) = false)
    ∧ nrrdOriginCalculate 64 (some nrrdSecondNoMin) [0, 1] nrrdCenterCell true
        = some (nrrdOriginStatus.Okay, some [Dbl.fin 1, Dbl.nan]) := by
  exact ⟨by decide, by decide, originCalculate_secondNoMin⟩

set_option maxRecDepth 100000 in
/-- C12 as stated fails: nine axes of a nine-dimensional object are requested,
the object and the output are non-null, `defaultCenter` is cell, every index is
below `dim <= NRRD_DIM_MAX`, no axis has a direction vector, every axis has a
`min` and none has a `max` or a `spacing`; the loop of lines 256-258 then
writes `axis[8]`, past the end of the local array of `NRRD_SPACE_DIM_MAX = 8`
pointers, and the call has no defined result, in particular not
`nrrdOriginStatusNoMaxOrSpacing`. -/
theorem originCalculate_nine_axes_counterexample :
    (∀ idx ∈ [0, 1, 2, 3, 4, 5, 6, 7, 8], idx < nrrdNineAxes.dim)
      ∧ nrrdNineAxes.dim ≤ 16
      ∧ (∀ a : Fin 16, ∀ j : Fin 8, AIR_EXISTS ((nrrdNineAxes.axis a).spaceDirection j) = false)
      ∧ (∀ a : Fin 16, a.val < nrrdNineAxes.dim → AIR_EXISTS (nrrdNineAxes.axis a).min = true)
      ∧ (∀ a : Fin 16, AIR_EXISTS (nrrdNineAxes.axis a).max = false
          ∧ AIR_EXISTS (nrrdNineAxes.axis a).spacing = false)
      ∧ nrrdOriginCalculate 64 (some nrrdNineAxes) [0, 1, 2, 3, 4, 5, 6, 7, 8]
          nrrdCenterCell true = none
      ∧ (nrrdOriginCalculate 64 (some nrrdNineAxes) [0, 1, 2, 3, 4, 5, 6, 7, 8]
          nrrdCenterCell true).map Prod.fst ≠ some nrrdOriginStatus.NoMaxOrSpacing := by
  have h : nrrdOriginCalculate 64 (some nrrdNineAxes) [0, 1, 2, 3, 4, 5, 6, 7, 8]
      nrrdCenterCell true = none := by decide
  refine ⟨by decide, by decide, by decide, by decide, by decide, h, ?_⟩
  rw [h]
  decide

/-- C12 (amended): on well-formed arguments (non-null object and output,
`defaultCenter` cell or node, every requested index below
`dim <= NRRD_DIM_MAX`, at most `NRRD_SPACE_DIM_MAX` requested axes), if no
requested axis has a direction vector and every requested axis has an existent
`min`, the call returns, and its result is `nrrdOriginStatusNoMaxOrSpacing` if
and only if some requested axis has neither an existent `max` nor an existent
`spacing`. -/
theorem originCalculate_noMaxOrSpacing (w : Nat) (n : Nrrd DM SM) (axisIdx : List Nat)
    (defaultCenter : Int)
    (hdc : defaultCenter = nrrdCenterCell ∨ defaultCenter = nrrdCenterNode)
    (hidx : ∀ idx ∈ axisIdx, idx < n.dim) (hdim : n.dim ≤ DM)
    (hnum : axisIdx.length ≤ SM)
    (hnodir : ∀ idx ∈ axisIdx, ∀ h : idx < DM, ¬ HasDirection (n.axis ⟨idx, h⟩))
    (hmin : ∀ idx ∈ axisIdx, ∀ h : idx < DM, AIR_EXISTS (n.axis ⟨idx, h⟩).min = true) :
    ∃ st out, nrrdOriginCalculate w (some n) axisIdx defaultCenter true = some (st, out)
      ∧ (st = nrrdOriginStatus.NoMaxOrSpacing ↔
          ∃ idx ∈ axisIdx, ∃ h : idx < DM,
            AIR_EXISTS (n.axis ⟨idx, h⟩).max = false
              ∧ AIR_EXISTS (n.axis ⟨idx, h⟩).spacing = false) := by
  obtain ⟨axis, hm, hres⟩ :=
    originCalculate_normal w n axisIdx defaultCenter hdc hidx hdim hnum
  obtain ⟨hfrom, hto⟩ := requested_axes n axisIdx axis hm
  have hA : ¬ (0 < n.spaceDim ∧ axis.any dir0Exists = true) := by
    rintro ⟨_, hany⟩
    obtain ⟨a, ha, hd⟩ := List.any_eq_true.mp hany
    obtain ⟨idx, hi, hlt, rfl⟩ := hfrom a ha
    exact hnodir idx hi hlt ((dir0Exists_iff _).mp hd)
  have hB : ¬ (axis.all (fun _ =>
      (axis.head?.map fun a0 => AIR_EXISTS a0.min).getD false) = false) := by
    rw [all_const_eq_false]
    rintro ⟨hne, hc⟩
    cases axis with
    | nil => exact hne rfl
    | cons a0 t =>
      obtain ⟨idx, hi, hlt, h0⟩ := hfrom a0 (List.mem_cons_self a0 t)
      simp only [List.head?_cons, Option.map_some', Option.getD_some] at hc
      rw [h0, hmin idx hi hlt] at hc
      cases hc
  rw [if_neg hA, if_neg hB] at hres
  by_cases hC : axis.all (fun a => AIR_EXISTS a.max || AIR_EXISTS a.spacing) = false
  · rw [if_pos hC] at hres
    refine ⟨_, _, hres, fun _ => ?_, fun _ => rfl⟩
    have hex : ∃ a ∈ axis, (AIR_EXISTS a.max || AIR_EXISTS a.spacing) = false := by
      by_contra hcon
      have hall : axis.all (fun a => AIR_EXISTS a.max || AIR_EXISTS a.spacing) = true := by
        rw [List.all_eq_true]
        intro a ha
        by_contra hf
        exact hcon ⟨a, ha, by simpa using hf⟩
      rw [hall] at hC
      cases hC
    obtain ⟨a, ha, hf⟩ := hex
    obtain ⟨idx, hi, hlt, rfl⟩ := hfrom a ha
    rw [Bool.or_eq_false_iff] at hf
    exact ⟨idx, hi, hlt, hf⟩
  · rw [if_neg hC] at hres
    refine ⟨_, _, hres, ?_, ?_⟩
    · intro h
      cases h
    rintro ⟨idx, hi, hlt, hmax, hsp⟩
    exfalso
    apply hC
    by_contra hcon
    have hall : axis.all (fun a => AIR_EXISTS a.max || AIR_EXISTS a.spacing) = true :=
      eq_true_of_ne_false hcon
    have := List.all_eq_true.mp hall _ (hto idx hi hlt)
    rw [hmax, hsp] at this
    cases this

theorem originCalculate_noMaxOrSpacing_witness :
    ((∀ idx ∈ [0], idx < nrrdNoMax.dim) ∧ nrrdNoMax.dim ≤ 16
      ∧ AIR_EXISTS (nrrdNoMax.axis ⟨0, by decide⟩).min = true
      ∧ (nrrdOriginCalculate 64 (some nrrdNoMax) [0] nrrdCenterCell true).map Prod.fst
          = some nrrdOriginStatus.NoMaxOrSpacing)
    ∧ ∃ st out, nrrdOriginCalculate 64 (some nrrdNoMax) [0] nrrdCenterCell true
          = some (st, out)
        ∧ (st = nrrdOriginStatus.NoMaxOrSpacing ↔
            ∃ idx ∈ [0], ∃ h : idx < 16,
              AIR_EXISTS (nrrdNoMax.axis ⟨idx, h⟩).max = false
                ∧ AIR_EXISTS (nrrdNoMax.axis ⟨idx, h⟩).spacing = false) :=
  ⟨by decide,
    originCalculate_noMaxOrSpacing 64 nrrdNoMax [0] nrrdCenterCell (Or.inl rfl) (by decide)
      (by decide) (by decide)
      (fun idx hi h => by
        have h0 : idx = 0 := by simpa using hi
        subst h0
        rintro ⟨z, _, hz⟩
        have hz2 : false = true := hz
        cases hz2)
      (fun idx hi h => by
        have h0 : idx = 0 := by simpa using hi
        subst h0
        rfl)⟩

/-- C13: `nrrdOriginCalculate` returns `nrrdOriginStatusUnknown` if and only if
its arguments are malformed: the object is null, or `defaultCenter` is neither
cell nor node, or the output is null, or some requested axis index is not less
than `dim`. -/
theorem originCalculate_unknown_iff (w : Nat) (nrrd : Option (Nrrd DM SM))
    (axisIdx : List Nat) (defaultCenter : Int) (origin : Bool) :
    (∃ out, nrrdOriginCalculate w nrrd axisIdx defaultCenter origin
        = some (nrrdOriginStatus.Unknown, out))
    ↔ (nrrd = none
        ∨ ¬ (defaultCenter = nrrdCenterCell ∨ defaultCenter = nrrdCenterNode)
        ∨ origin = false
        ∨ ∃ n, nrrd = some n ∧ ∃ idx ∈ axisIdx, ¬ idx < n.dim) := by
  cases nrrd with
  | none => exact ⟨fun _ => Or.inl rfl, fun _ => ⟨_, rfl⟩⟩
  | some n =>
    unfold nrrdOriginCalculate
    dsimp only
    by_cases h1 : ¬ ((nrrdCenterCell = defaultCenter ∨ nrrdCenterNode = defaultCenter)
        ∧ origin = true)
    · rw [if_pos h1]
      refine ⟨fun _ => ?_, fun _ => ⟨_, rfl⟩⟩
      by_cases ho : origin = true
      · refine Or.inr (Or.inl fun hc => h1 ⟨?_, ho⟩)
        rcases hc with hc | hc
        · exact Or.inl hc.symm
        · exact Or.inr hc.symm
      · exact Or.inr (Or.inr (Or.inl (by simpa using ho)))
    · rw [if_neg h1]
      have h1p := not_not.mp h1
      by_cases h2 : axisIdx.foldl (fun okay idx => okay && decide (idx < n.dim)) true = false
      · rw [if_pos h2]
        refine ⟨fun _ => ?_, fun _ => ⟨_, rfl⟩⟩
        rw [foldl_and_eq_all (fun idx => decide (idx < n.dim)), Bool.true_and] at h2
        refine Or.inr (Or.inr (Or.inr ⟨n, rfl, ?_⟩))
        by_contra hcon
        have hall : axisIdx.all (fun idx => decide (idx < n.dim)) = true := by
          rw [List.all_eq_true]
          intro idx hi
          by_contra hf
          exact hcon ⟨idx, hi, by simpa using hf⟩
        rw [hall] at h2
        cases h2
      · rw [if_neg h2]
        constructor
        · rintro ⟨out, h⟩
          exfalso
          by_cases h3 : SM < axisIdx.length
          · rw [if_pos h3] at h
            cases h
          · rw [if_neg h3] at h
            cases hm : mapOpt (rd n.axis) axisIdx with
            | none => rw [hm] at h; cases h
            | some axis =>
              rw [hm] at h
              simp only [Option.some_bind] at h
              cases hd : mapOpt (fun a : NrrdAxisInfo SM => rd a.spaceDirection 0) axis with
              | none => rw [hd] at h; cases h
              | some dir0 =>
                rw [hd] at h
                simp only [Option.some_bind] at h
                split_ifs at h <;> cases h
        · rintro (hn | hc | ho | ⟨n2, hn2, idx, hi, hlt⟩)
          · cases hn
          · exfalso
            apply hc
            rcases h1p.1 with hc1 | hc1
            · exact Or.inl hc1.symm
            · exact Or.inr hc1.symm
          · rw [h1p.2] at ho
            cases ho
          · exfalso
            cases hn2
            rw [foldl_and_eq_all (fun idx => decide (idx < n.dim)), Bool.true_and] at h2
            have hall : axisIdx.all (fun idx => decide (idx < n.dim)) = true :=
              eq_true_of_ne_false h2
            have := List.all_eq_true.mp hall idx hi
            exact hlt (by simpa using this)

/-- C14: whenever a call with a non-null output returns a status other than
`nrrdOriginStatusOkay`, every output coordinate `origin[ai]`,
`ai < axisIdxNum`, is NaN after the call. -/
theorem originCalculate_error_output (w : Nat) (nrrd : Option (Nrrd DM SM))
    (axisIdx : List Nat) (defaultCenter : Int) (st : nrrdOriginStatus)
    (out : Option (List Dbl))
    (h : nrrdOriginCalculate w nrrd axisIdx defaultCenter true = some (st, out))
    (hst : st ≠ nrrdOriginStatus.Okay) :
    ∃ l : List Dbl, out = some l ∧ l.length = axisIdx.length
      ∧ ∀ ai, ai < axisIdx.length → l[ai]? = some AIR_NAN := by
  rcases originCalculate_cases w nrrd axisIdx defaultCenter true with h0 | ⟨st2, _, h1⟩ | ⟨l, h2⟩
  · rw [h0] at h
    cases h
  · rw [h1] at h
    simp only [Option.some.injEq, Prod.mk.injEq] at h
    refine ⟨List.replicate axisIdx.length AIR_NAN, ?_, List.length_replicate _ _, ?_⟩
    · rw [← h.2]
      rfl
    · intro ai hai
      simp [hai]
  · rw [h2] at h
    simp only [Option.some.injEq, Prod.mk.injEq] at h
    exact absurd h.1.symm hst

theorem originCalculate_error_output_witness :
    (nrrdOriginCalculate 64 (some nrrdNoMax) [0] nrrdCenterCell true
        = some (nrrdOriginStatus.NoMaxOrSpacing, some [Dbl.nan])
      ∧ nrrdOriginStatus.NoMaxOrSpacing ≠ nrrdOriginStatus.Okay)
    ∧ ∃ l : List Dbl, some [Dbl.nan] = some l ∧ l.length = [0].length
        ∧ ∀ ai, ai < [0].length → l[ai]? = some AIR_NAN :=
  ⟨by decide,
    originCalculate_error_output 64 (some nrrdNoMax) [0] nrrdCenterCell
      nrrdOriginStatus.NoMaxOrSpacing (some [Dbl.nan]) (by decide) (by decide)⟩

end OriginOutcomes

/-! ## Array-shape utilities -/

section ShapeClaims

variable {DM SM : Nat}

theorem sameSizeLoop_cons_lt (n1 n2 : Nrrd DM SM) (ai : Nat) (t : List Nat) (h : ai < DM) :
    sameSizeLoop n1 n2 (ai :: t) =
      if (n1.axis ⟨ai, h⟩).size ≠ (n2.axis ⟨ai, h⟩).size then some 0
      else sameSizeLoop n1 n2 t := by
  simp only [sameSizeLoop, rd_lt n1.axis h, rd_lt n2.axis h]

theorem sameSizeLoop_cons_ge (n1 n2 : Nrrd DM SM) (ai : Nat) (t : List Nat) (h : DM ≤ ai) :
    sameSizeLoop n1 n2 (ai :: t) = none := by
  simp only [sameSizeLoop, rd_ge n1.axis h]

/-- The loop returns 1 exactly when every visited axis slot lies inside the
array and has the same size in both objects. -/
theorem sameSizeLoop_eq_one (n1 n2 : Nrrd DM SM) (l : List Nat) :
    sameSizeLoop n1 n2 l = some 1 ↔
      ∀ i ∈ l, ∃ h : i < DM, (n1.axis ⟨i, h⟩).size = (n2.axis ⟨i, h⟩).size := by
  induction l with
  | nil => simp [sameSizeLoop]
  | cons ai t ih =>
    by_cases h : ai < DM
    · rw [sameSizeLoop_cons_lt n1 n2 ai t h]
      by_cases hs : (n1.axis ⟨ai, h⟩).size = (n2.axis ⟨ai, h⟩).size
      · rw [if_neg (not_not.mpr hs), ih]
        constructor
        · intro ht i hi
          rcases List.mem_cons.mp hi with rfl | hi2
          · exact ⟨h, hs⟩
          · exact ht i hi2
        · intro hall i hi
          exact hall i (List.mem_cons_of_mem ai hi)
      · rw [if_pos hs]
        constructor
        · intro hc
          cases hc
        · intro hall
          obtain ⟨_, he⟩ := hall ai (List.mem_cons_self ai t)
          exact absurd he hs
    · rw [sameSizeLoop_cons_ge n1 n2 ai t (Nat.not_lt.mp h)]
      constructor
      · intro hc
        cases hc
      · intro hall
        obtain ⟨hlt, _⟩ := hall ai (List.mem_cons_self ai t)
        exact absurd hlt h

/-- Inside the axis array the loop returns 0 or 1. -/
theorem sameSizeLoop_total (n1 n2 : Nrrd DM SM) (l : List Nat) (hl : ∀ i ∈ l, i < DM) :
    sameSizeLoop n1 n2 l = some 1 ∨ sameSizeLoop n1 n2 l = some 0 := by
  induction l with
  | nil => exact Or.inl rfl
  | cons ai t ih =>
    rw [sameSizeLoop_cons_lt n1 n2 ai t (hl ai (List.mem_cons_self ai t))]
    split_ifs
    · exact Or.inr rfl
    · exact ih fun i hi => hl i (List.mem_cons_of_mem ai hi)

/-- The loop reads nothing but the sizes of the visited axis slots. -/
theorem sameSizeLoop_congr (n1 n2 m1 m2 : Nrrd DM SM) (l : List Nat)
    (h1 : ∀ i : Fin DM, i.val ∈ l → (m1.axis i).size = (n1.axis i).size)
    (h2 : ∀ i : Fin DM, i.val ∈ l → (m2.axis i).size = (n2.axis i).size) :
    sameSizeLoop m1 m2 l = sameSizeLoop n1 n2 l := by
  induction l with
  | nil => rfl
  | cons ai t ih =>
    have iht := ih (fun i hi => h1 i (List.mem_cons_of_mem ai hi))
      (fun i hi => h2 i (List.mem_cons_of_mem ai hi))
    by_cases h : ai < DM
    · rw [sameSizeLoop_cons_lt m1 m2 ai t h, sameSizeLoop_cons_lt n1 n2 ai t h, iht,
        h1 ⟨ai, h⟩ (List.mem_cons_self ai t), h2 ⟨ai, h⟩ (List.mem_cons_self ai t)]
    · rw [sameSizeLoop_cons_ge m1 m2 ai t (Nat.not_lt.mp h),
        sameSizeLoop_cons_ge n1 n2 ai t (Nat.not_lt.mp h)]

/-- C17: for non-null `n1`, `n2`, `nrrdSameSize` returns 1 if and only if
`n1.dim = n2.dim` and, for every `i < dim`, axis `i` (a slot of the axis array)
has the same size in both; with `dim <= NRRD_DIM_MAX` or with differing `dim`
it returns 0 or 1; it returns 0 if either object is null; and the result is the
same for any two objects with the same `dim` and the same sizes of the declared
axes, whatever their element type, `blockSize`, sizes of undeclared axis slots
or other fields. -/
theorem nrrdSameSize_spec (n1 n2 : Nrrd DM SM) :
    (nrrdSameSize (some n1) (some n2) = some 1 ↔
      n1.dim = n2.dim
        ∧ ∀ i, i < n1.dim → ∃ h : i < DM, (n1.axis ⟨i, h⟩).size = (n2.axis ⟨i, h⟩).size)
    ∧ (n1.dim ≤ DM ∨ n1.dim ≠ n2.dim →
        nrrdSameSize (some n1) (some n2) = some 1
          ∨ nrrdSameSize (some n1) (some n2) = some 0)
    ∧ (nrrdSameSize none (some n2) = some 0 ∧ nrrdSameSize (some n1) none = some 0
        ∧ nrrdSameSize (none : Option (Nrrd DM SM)) none = some 0)
    ∧ ∀ m1 m2 : Nrrd DM SM, m1.dim = n1.dim → m2.dim = n2.dim →
        (∀ i : Fin DM, i.val < n1.dim → (m1.axis i).size = (n1.axis i).size) →
        (∀ i : Fin DM, i.val < n2.dim → (m2.axis i).size = (n2.axis i).size) →
        nrrdSameSize (some m1) (some m2) = nrrdSameSize (some n1) (some n2) := by
  refine ⟨?_, ?_, ⟨rfl, rfl, rfl⟩, ?_⟩
  · unfold nrrdSameSize
    dsimp only
    by_cases hd : n1.dim = n2.dim
    · rw [if_neg (not_not.mpr hd), sameSizeLoop_eq_one]
      simp only [List.mem_range, hd, true_and]
    · rw [if_pos hd]
      constructor
      · intro hc
        cases hc
      · rintro ⟨hc, _⟩
        exact absurd hc hd
  · intro h
    unfold nrrdSameSize
    dsimp only
    by_cases hd : n1.dim = n2.dim
    · rw [if_neg (not_not.mpr hd)]
      rcases h with h | h
      · exact sameSizeLoop_total n1 n2 _ fun i hi =>
          Nat.lt_of_lt_of_le (List.mem_range.mp hi) h
      · exact absurd hd h
    · rw [if_pos hd]
      exact Or.inr rfl
  · intro m1 m2 hd1 hd2 hs1 hs2
    unfold nrrdSameSize
    dsimp only
    rw [hd1, hd2]
    by_cases hd : n1.dim = n2.dim
    · rw [if_neg (not_not.mpr hd), if_neg (not_not.mpr hd)]
      exact sameSizeLoop_congr n1 n2 m1 m2 _
        (fun i hi => hs1 i (List.mem_range.mp hi))
        (fun i hi => hs2 i (by rw [← hd]; exact List.mem_range.mp hi))
    · rw [if_pos hd, if_pos hd]

theorem nrrdSameSize_spec_witness :
    (nrrdPlainOtherType.dim = nrrdPlain.dim ∧ nrrdPlain.dim ≤ 16
      ∧ nrrdPlainOtherType.type ≠ nrrdPlain.type
      ∧ (nrrdPlainOtherType.axis 5).size ≠ (nrrdPlain.axis 5).size)
    ∧ nrrdSameSize (some nrrdPlainOtherType) (some nrrdPlainOtherType)
        = nrrdSameSize (some nrrdPlain) (some nrrdPlain)
    ∧ (nrrdSameSize (some nrrdPlain) (some nrrdZeroSize) = some 1
        ∨ nrrdSameSize (some nrrdPlain) (some nrrdZeroSize) = some 0) :=
  ⟨by decide,
    (nrrdSameSize_spec nrrdPlain nrrdPlain).2.2.2 nrrdPlainOtherType nrrdPlainOtherType
      (by decide) (by decide) (by decide) (by decide),
    (nrrdSameSize_spec nrrdPlain nrrdZeroSize).2.1 (Or.inl (by decide))⟩

theorem sameSizeLoop_self_ne_zero (a : Nrrd DM SM) (l : List Nat) :
    sameSizeLoop a a l ≠ some 0 := by
  induction l with
  | nil => simp [sameSizeLoop]
  | cons ai t ih =>
    by_cases h : ai < DM
    · rw [sameSizeLoop_cons_lt a a ai t h, if_neg (not_not.mpr rfl)]
      exact ih
    · rw [sameSizeLoop_cons_ge a a ai t (Nat.not_lt.mp h)]
      simp

/-- C18: `nrrdSameSize(a, a)` returns 1 for every non-null object `a` whose
`dim` does not exceed `NRRD_DIM_MAX` (so that the loop stays inside the axis
array), in particular for every valid `a`; and for no object does it
return 0. -/
theorem nrrdSameSize_self (a : Nrrd DM SM) :
    (a.dim ≤ DM → nrrdSameSize (some a) (some a) = some 1)
    ∧ nrrdSameSize (some a) (some a) ≠ some 0 := by
  constructor
  · intro hdim
    unfold nrrdSameSize
    dsimp only
    rw [if_neg (not_not.mpr rfl), sameSizeLoop_eq_one]
    intro i hi
    exact ⟨Nat.lt_of_lt_of_le (List.mem_range.mp hi) hdim, rfl⟩
  · unfold nrrdSameSize
    dsimp only
    rw [if_neg (not_not.mpr rfl)]
    exact sameSizeLoop_self_ne_zero a _

theorem nrrdSameSize_self_witness :
    nrrdOriented.dim ≤ 16 ∧ nrrdSameSize (some nrrdOriented) (some nrrdOriented) = some 1 :=
  ⟨by decide, (nrrdSameSize_self nrrdOriented).1 (by decide)⟩

/-- C16: `nrrdElementSize` returns `nrrdTypeSize[type]` for a valid non-block
type, `blockSize` for the block type with `blockSize > 0`, and 0 for a null
object, an invalid type, or the block type with `blockSize` 0; if every valid
non-block type has non-zero width, the result is 0 exactly in those invalid
cases; and the object after the call is the object before it. -/
theorem nrrdElementSize_spec (nrrdTypeSize : Int → Nat) (nrrd : Option (Nrrd DM SM)) :
    (∀ n, nrrd = some n → airEnumValCheck nrrdType n.type = 0 → n.type ≠ nrrdTypeBlock →
        (nrrdElementSize nrrdTypeSize nrrd).1 = nrrdTypeSize n.type)
    ∧ (∀ n, nrrd = some n → n.type = nrrdTypeBlock → 0 < n.blockSize →
        (nrrdElementSize nrrdTypeSize nrrd).1 = n.blockSize)
    ∧ (nrrd = none → (nrrdElementSize nrrdTypeSize nrrd).1 = 0)
    ∧ (∀ n, nrrd = some n → airEnumValCheck nrrdType n.type ≠ 0 →
        (nrrdElementSize nrrdTypeSize nrrd).1 = 0)
    ∧ (∀ n, nrrd = some n → n.type = nrrdTypeBlock → n.blockSize = 0 →
        (nrrdElementSize nrrdTypeSize nrrd).1 = 0)
    ∧ ((∀ t, airEnumValCheck nrrdType t = 0 → t ≠ nrrdTypeBlock → nrrdTypeSize t ≠ 0) →
        ((nrrdElementSize nrrdTypeSize nrrd).1 = 0 ↔
          (nrrd = none ∨ ∃ n, nrrd = some n ∧
            (airEnumValCheck nrrdType n.type ≠ 0
              ∨ (n.type = nrrdTypeBlock ∧ n.blockSize = 0)))))
    ∧ (nrrdElementSize nrrdTypeSize nrrd).2 = nrrd := by
  have hblock : airEnumValCheck nrrdType nrrdTypeBlock = 0 := by decide
  cases nrrd with
  | none => simp [nrrdElementSize]
  | some n =>
    unfold nrrdElementSize
    dsimp only
    by_cases hv : airEnumValCheck nrrdType n.type = 0
    · rw [if_neg (not_not.mpr hv)]
      by_cases hb : nrrdTypeBlock = n.type
      · rw [if_neg (not_not.mpr hb)]
        by_cases hz : 0 < n.blockSize
        · rw [if_pos hz]
          refine ⟨?_, ?_, ?_, ?_, ?_, ?_, rfl⟩
          · intro m hm _ hne
            cases hm
            exact absurd hb.symm hne
          · intro m hm _ _
            cases hm
            rfl
          · intro hc
            cases hc
          · intro m hm hne
            cases hm
            exact absurd hv hne
          · intro m hm _ hzero
            cases hm
            omega
          · intro _
            constructor
            · intro h0
              dsimp only at h0
              omega
            · rintro (hc | ⟨m, hm, hinv | ⟨_, hzero⟩⟩)
              · cases hc
              · cases hm
                exact absurd hv hinv
              · cases hm
                omega
        · rw [if_neg hz]
          refine ⟨?_, ?_, ?_, ?_, ?_, ?_, rfl⟩
          · intro m hm _ hne
            cases hm
            exact absurd hb.symm hne
          · intro m hm _ hpos
            cases hm
            exact absurd hpos hz
          · intro hc
            cases hc
          · intro m hm _
            rfl
          · intro m hm _ _
            rfl
          · intro _
            refine ⟨fun _ => Or.inr ⟨n, rfl, Or.inr ⟨hb.symm, by omega⟩⟩, fun _ => rfl⟩
      · rw [if_pos hb]
        refine ⟨?_, ?_, ?_, ?_, ?_, ?_, rfl⟩
        · intro m hm _ _
          cases hm
          rfl
        · intro m hm hbl _
          cases hm
          exact absurd hbl.symm hb
        · intro hc
          cases hc
        · intro m hm hne
          cases hm
          exact absurd hv hne
        · intro m hm hbl _
          cases hm
          exact absurd hbl.symm hb
        · intro hts
          constructor
          · intro h0
            exact absurd h0 (hts n.type hv fun e => hb e.symm)
          · rintro (hc | ⟨m, hm, hinv | ⟨hbl, _⟩⟩)
            · cases hc
            · cases hm
              exact absurd hv hinv
            · cases hm
              exact absurd hbl.symm hb
    · rw [if_pos hv]
      refine ⟨?_, ?_, ?_, ?_, ?_, ?_, rfl⟩
      · intro m hm hval _
        cases hm
        exact absurd hval hv
      · intro m hm hbl _
        cases hm
        rw [hbl] at hv
        exact absurd hblock hv
      · intro hc
        cases hc
      · intro m hm _
        rfl
      · intro m hm _ _
        rfl
      · intro _
        exact ⟨fun _ => Or.inr ⟨n, rfl, Or.inl hv⟩, fun _ => rfl⟩

theorem nrrdElementSize_spec_witness :
    (nrrdBlock.type = nrrdTypeBlock ∧ 0 < nrrdBlock.blockSize
      ∧ airEnumValCheck nrrdType nrrdPlain.type = 0 ∧ nrrdPlain.type ≠ nrrdTypeBlock)
    ∧ (nrrdElementSize exampleTypeSize (some nrrdBlock)).1 = 7
    ∧ (nrrdElementSize exampleTypeSize (some nrrdPlain)).1 = exampleTypeSize nrrdPlain.type :=
  ⟨by decide,
    (nrrdElementSize_spec exampleTypeSize (some nrrdBlock)).2.1 nrrdBlock rfl (by decide)
      (by decide),
    (nrrdElementSize_spec exampleTypeSize (some nrrdPlain)).1 nrrdPlain rfl (by decide)
      (by decide)⟩

theorem mapOpt_eq_map_of_mem {α β : Type} (f : α → Option β) (g : α → β) :
    ∀ l : List α, (∀ x ∈ l, f x = some (g x)) → mapOpt f l = some (l.map g) := by
  intro l
  induction l with
  | nil => intro _; rfl
  | cons a t ih =>
    intro h
    simp [mapOpt, h a (List.mem_cons_self a t),
      ih fun x hx => h x (List.mem_cons_of_mem a hx)]

theorem sizeAt_lt (n : Nrrd DM SM) {ai : Nat} (h : ai < DM) :
    sizeAt n ai = (n.axis ⟨ai, h⟩).size := by
  simp [sizeAt, rd_lt n.axis h]

/-- With `dim` inside the axis array, the size array filled for the size check
holds the sizes of the declared axes. -/
theorem nrrdAxisInfoGet_nva_size (n : Nrrd DM SM) (hdim : n.dim ≤ DM) :
    nrrdAxisInfoGet_nva n NrrdAxisInfo.size = some (declaredSizes n) := by
  unfold nrrdAxisInfoGet_nva declaredSizes
  apply mapOpt_eq_map_of_mem
  intro ai hai
  have hlt : ai < DM := Nat.lt_of_lt_of_le (List.mem_range.mp hai) hdim
  rw [rd_lt n.axis hlt, sizeAt_lt n hlt]
  rfl

theorem declaredSizes_zero_iff (n : Nrrd DM SM) (hdim : n.dim ≤ DM) :
    (∃ s ∈ declaredSizes n, s = 0) ↔ ∃ a : Fin DM, a.val < n.dim ∧ (n.axis a).size = 0 := by
  unfold declaredSizes
  constructor
  · rintro ⟨s, hs, rfl⟩
    obtain ⟨ai, hai, he⟩ := List.mem_map.mp hs
    have hlt : ai < n.dim := List.mem_range.mp hai
    have hDM : ai < DM := Nat.lt_of_lt_of_le hlt hdim
    rw [sizeAt_lt n hDM] at he
    exact ⟨⟨ai, hDM⟩, hlt, he⟩
  · rintro ⟨a, ha, hz⟩
    refine ⟨0, List.mem_map.mpr ⟨a.val, List.mem_range.mpr ha, ?_⟩, rfl⟩
    rw [sizeAt_lt n a.isLt]
    exact hz

/-- The modelled size check passes exactly when no size is zero and the
product of the sizes, times the product already accumulated, fits `size_t`. -/
theorem sizeCheckLoop_eq_pass (w : Nat) :
    ∀ (l : List Nat) (pre ai : Nat),
      sizeCheckLoop w l pre ai = Res.pass ↔
        (∀ s ∈ l, s ≠ 0) ∧ (l ≠ [] → pre * l.prod < 2 ^ w) := by
  intro l
  induction l with
  | nil => intro pre ai; simp [sizeCheckLoop]
  | cons s t ih =>
    intro pre ai
    simp only [sizeCheckLoop]
    by_cases hs : s = 0
    · rw [if_pos hs]
      constructor
      · intro hc
        cases hc
      · rintro ⟨hall, _⟩
        exact absurd hs (hall s (List.mem_cons_self s t))
    · rw [if_neg hs]
      by_cases ho : 2 ^ w ≤ pre * s
      · rw [if_pos ho]
        constructor
        · intro hc
          cases hc
        · rintro ⟨hall, hprod⟩
          exfalso
          have hp := hprod (List.cons_ne_nil s t)
          rw [List.prod_cons] at hp
          have htpos : 0 < t.prod := by
            apply Nat.pos_of_ne_zero
            intro hz
            obtain hmem := List.prod_eq_zero_iff.mp hz
            exact hall 0 (List.mem_cons_of_mem s hmem) rfl
          have : pre * s ≤ pre * (s * t.prod) := by
            rw [← Nat.mul_assoc]
            exact Nat.le_mul_of_pos_right _ htpos
          omega
      · rw [if_neg ho, ih]
        constructor
        · rintro ⟨hall, hprod⟩
          refine ⟨fun x hx => ?_, fun _ => ?_⟩
          · rcases List.mem_cons.mp hx with rfl | hx2
            · exact hs
            · exact hall x hx2
          · rw [List.prod_cons, ← Nat.mul_assoc]
            by_cases ht : t = []
            · subst ht
              simp only [List.prod_nil, Nat.mul_one]
              omega
            · exact hprod ht
        · rintro ⟨hall, hprod⟩
          refine ⟨fun x hx => hall x (List.mem_cons_of_mem s hx), fun _ => ?_⟩
          have hp := hprod (List.cons_ne_nil s t)
          rw [List.prod_cons, ← Nat.mul_assoc] at hp
          exact hp

theorem sizeCheckLoop_ne_stuck (w : Nat) :
    ∀ (l : List Nat) (pre ai : Nat), sizeCheckLoop w l pre ai ≠ Res.stuck := by
  intro l
  induction l with
  | nil => intro pre ai; simp [sizeCheckLoop]
  | cons s t ih =>
    intro pre ai
    simp only [sizeCheckLoop]
    split_ifs
    · simp
    · simp
    · exact ih _ _

/-- Once the size check has passed, the product accumulated in `size_t` never
wraps. -/
theorem foldl_mod_eq_prod (w : Nat) :
    ∀ (l : List Nat) (pre ai : Nat), sizeCheckLoop w l pre ai = Res.pass →
      l.foldl (fun num s => (num * s) % 2 ^ w) pre = pre * l.prod := by
  intro l
  induction l with
  | nil => intro pre ai _; simp
  | cons s t ih =>
    intro pre ai h
    simp only [sizeCheckLoop] at h
    split_ifs at h with hs ho
    rw [List.foldl_cons, Nat.mod_eq_of_lt (Nat.lt_of_not_le ho), ih (pre * s) (ai + 1) h,
      List.prod_cons, Nat.mul_assoc]

/-- C15 as stated fails for `dim = 0`, which is out of the range
`1 .. NRRD_DIM_MAX`: the size check has no axis to reject and
`nrrdElementNumber` returns the empty product 1, not 0. -/
theorem nrrdElementNumber_dim_zero_counterexample :
    ¬ (1 ≤ nrrdNoDim.dim ∧ nrrdNoDim.dim ≤ 16)
      ∧ nrrdElementNumber 64 (some nrrdNoDim) = some 1
      ∧ nrrdElementNumber 64 (some nrrdNoDim) ≠ some 0 := by
  decide

/-- C15 (amended): `nrrdElementNumber` returns 0 for a null object and, for an
object with `dim <= NRRD_DIM_MAX`, whenever the size check rejects its sizes (a
declared axis of size 0, or a product of the declared sizes that overflows
`size_t`); otherwise it returns exactly the product of the sizes of the first
`dim` axes, which fits `size_t`. -/
theorem nrrdElementNumber_spec (w : Nat) (hw : 0 < w) (n : Nrrd DM SM)
    (hdim : n.dim ≤ DM) :
    nrrdElementNumber w (none : Option (Nrrd DM SM)) = some 0
    ∧ (((∃ a : Fin DM, a.val < n.dim ∧ (n.axis a).size = 0)
          ∨ 2 ^ w ≤ (declaredSizes n).prod) →
        nrrdElementNumber w (some n) = some 0)
    ∧ (¬ ((∃ a : Fin DM, a.val < n.dim ∧ (n.axis a).size = 0)
          ∨ 2 ^ w ≤ (declaredSizes n).prod) →
        nrrdElementNumber w (some n) = some (declaredSizes n).prod
          ∧ (declaredSizes n).prod < 2 ^ w) := by
  have hone : 1 < 2 ^ w := Nat.one_lt_two_pow (Nat.pos_iff_ne_zero.mp hw)
  have hget := nrrdAxisInfoGet_nva_size n hdim
  have hpass := sizeCheckLoop_eq_pass w (declaredSizes n) 1 0
  have hns := sizeCheckLoop_ne_stuck w (declaredSizes n) 1 0
  refine ⟨rfl, fun hrej => ?_, fun hacc => ?_⟩
  · have hnp : sizeCheckLoop w (declaredSizes n) 1 0 ≠ Res.pass := by
      intro hp
      obtain ⟨hall, hprod⟩ := hpass.mp hp
      rcases hrej with hz | ho
      · obtain ⟨s, hs, hs0⟩ := (declaredSizes_zero_iff n hdim).mpr hz
        exact hall s hs hs0
      · by_cases hnil : declaredSizes n = []
        · rw [hnil, List.prod_nil] at ho
          omega
        · have := hprod hnil
          omega
    unfold nrrdElementNumber
    dsimp only
    rw [hget]
    dsimp only
    unfold _nrrdSizeCheck
    cases hc : sizeCheckLoop w (declaredSizes n) 1 0 with
    | pass => exact absurd hc hnp
    | fail e => rfl
    | stuck => exact absurd hc hns
  · have hlt : (declaredSizes n).prod < 2 ^ w := by
      by_contra hc
      exact hacc (Or.inr (Nat.le_of_not_lt hc))
    have hp : sizeCheckLoop w (declaredSizes n) 1 0 = Res.pass := by
      refine hpass.mpr ⟨fun s hs hs0 => ?_, fun _ => by omega⟩
      exact hacc (Or.inl ((declaredSizes_zero_iff n hdim).mp ⟨s, hs, hs0⟩))
    refine ⟨?_, hlt⟩
    unfold nrrdElementNumber
    dsimp only
    rw [hget]
    dsimp only
    unfold _nrrdSizeCheck
    rw [hp]
    dsimp only
    rw [foldl_mod_eq_prod w (declaredSizes n) 1 0 hp, Nat.one_mul]

theorem nrrdElementNumber_spec_witness :
    (nrrdPlain.dim ≤ 16 ∧ declaredSizes nrrdPlain = [2, 3, 4]
      ∧ nrrdZeroSize.dim = 3 ∧ (nrrdZeroSize.axis 1).size = 0)
    ∧ nrrdElementNumber 64 (some nrrdPlain) = some 24
    ∧ nrrdElementNumber 64 (some nrrdZeroSize) = some 0 := by
  refine ⟨by decide, ?_, ?_⟩
  · have h := ((nrrdElementNumber_spec 64 (by decide) nrrdPlain (by decide)).2.2
      (by decide)).1
    have hp : (declaredSizes nrrdPlain).prod = 24 := by decide
    rw [hp] at h
    exact h
  · exact (nrrdElementNumber_spec 64 (by decide) nrrdZeroSize (by decide)).2.1
      (Or.inl ⟨1, by decide, by decide⟩)

end ShapeClaims

/-! ## `nrrdSpaceDimension` -/

/-- C19: for every integer input, `nrrdSpaceDimension` returns 3 for each of
the six pure spatial labels, 4 for each of the six labels with time, and 0 for
`nrrdSpaceUnknown` and for every value outside the open range
(`nrrdSpaceUnknown`, `nrrdSpaceLast`); it returns on every input. -/
theorem nrrdSpaceDimension_spec (space : Int) :
    ((space = nrrdSpaceRightAnteriorSuperior ∨ space = nrrdSpaceLeftAnteriorSuperior
        ∨ space = nrrdSpaceLeftPosteriorSuperior ∨ space = nrrdSpaceScannerXYZ
        ∨ space = nrrdSpace3DRightHanded ∨ space = nrrdSpace3DLeftHanded) →
      nrrdSpaceDimension space = some 3)
    ∧ ((space = nrrdSpaceRightAnteriorSuperiorTime ∨ space = nrrdSpaceLeftAnteriorSuperiorTime
        ∨ space = nrrdSpaceLeftPosteriorSuperiorTime ∨ space = nrrdSpaceScannerXYZTime
        ∨ space = nrrdSpace3DRightHandedTime ∨ space = nrrdSpace3DLeftHandedTime) →
      nrrdSpaceDimension space = some 4)
    ∧ ((space = nrrdSpaceUnknown ∨ ¬ (nrrdSpaceUnknown < space ∧ space < nrrdSpaceLast)) →
      nrrdSpaceDimension space = some 0)
    ∧ (nrrdSpaceDimension space = some 0 ∨ nrrdSpaceDimension space = some 3
        ∨ nrrdSpaceDimension space = some 4) := by
  refine ⟨?_, ?_, ?_, ?_⟩
  · rintro (h | h | h | h | h | h) <;> subst h <;> decide
  · rintro (h | h | h | h | h | h) <;> subst h <;> decide
  · rintro (h | h)
    · subst h
      decide
    · unfold nrrdSpaceDimension
      rw [if_pos h]
  · by_cases h : nrrdSpaceUnknown < space ∧ space < nrrdSpaceLast
    · have hv : airEnumValCheck nrrdSpace space = 0 := by
        obtain ⟨h1, h2⟩ := h
        simp only [nrrdSpaceUnknown, nrrdSpaceLast] at h1 h2
        unfold airEnumValCheck nrrdSpace
        rw [if_pos]
        constructor
        · omega
        · simp only [Nat.cast_ofNat]
          omega
      rcases nrrdSpaceDimension_valid hv with h3 | h4
      · exact Or.inr (Or.inl h3)
      · exact Or.inr (Or.inr h4)
    · left
      unfold nrrdSpaceDimension
      rw [if_pos h]

theorem nrrdSpaceDimension_spec_witness :
    nrrdSpaceDimension nrrdSpaceScannerXYZ = some 3
      ∧ nrrdSpaceDimension nrrdSpace3DLeftHandedTime = some 4
      ∧ nrrdSpaceDimension (-5) = some 0 ∧ nrrdSpaceDimension nrrdSpaceLast = some 0 :=
  ⟨(nrrdSpaceDimension_spec nrrdSpaceScannerXYZ).1 (by decide),
    (nrrdSpaceDimension_spec nrrdSpace3DLeftHandedTime).2.1 (by decide),
    (nrrdSpaceDimension_spec (-5)).2.2.1 (Or.inr (by decide)),
    (nrrdSpaceDimension_spec nrrdSpaceLast).2.2.1 (Or.inr (by decide))⟩

/-! ## Setting a scalar field and clearing a direction -/

section SetClear

variable {DM SM : Nat}

theorem setAxis_axis_self (N : Nrrd DM SM) (a : Fin DM) (ax : NrrdAxisInfo SM) :
    (setAxis N a ax).axis a = ax := by
  simp [setAxis]

theorem setAxis_axis_ne (N : Nrrd DM SM) (a : Fin DM) (ax : NrrdAxisInfo SM) {dd : Fin DM}
    (h : dd ≠ a) : (setAxis N a ax).axis dd = N.axis dd := by
  simp [setAxis, h]

/-- Replacing the record of a declared axis by one that passes the axis test
keeps a passing object passing. -/
theorem spaceInfo_setAxis_pass (N : Nrrd DM SM) (a : Fin DM) (ax : NrrdAxisInfo SM)
    (hpass : _nrrdFieldCheckSpaceInfo N = Res.pass) (h0 : 0 < N.spaceDim)
    (hax : ∀ hS : N.spaceDim ≤ SM,
      (∀ i : Fin SM, i.val < N.spaceDim →
        AIR_EXISTS (ax.spaceDirection i)
          = AIR_EXISTS (ax.spaceDirection ⟨0, Nat.lt_of_lt_of_le h0 hS⟩))
      ∧ (AIR_EXISTS (ax.spaceDirection ⟨0, Nat.lt_of_lt_of_le h0 hS⟩) = true →
          ¬ (AIR_EXISTS ax.min = true ∨ AIR_EXISTS ax.max = true
              ∨ AIR_EXISTS ax.spacing = true ∨ airStrlen ax.units ≠ 0))) :
    _nrrdFieldCheckSpaceInfo (setAxis N a ax) = Res.pass := by
  obtain ⟨hv, hS, hpos, _⟩ := spaceInfo_pass_parts N hpass
  obtain ⟨hl, ho, hf, hd⟩ := hpos h0
  have h0' : 0 < (setAxis N a ax).spaceDim := h0
  have hS' : (setAxis N a ax).spaceDim ≤ SM := hS
  rw [spaceInfo_pos (setAxis N a ax) h0' hS' hv]
  have hl' : spaceInfoLabel (setAxis N a ax) = Res.pass := hl
  have ho' : spaceInfoOrigin (setAxis N a ax) = Res.pass := ho
  have hf' : spaceInfoFrame (setAxis N a ax) = Res.pass := hf
  rw [hl', ho', hf', Res.andThen_pass, Res.andThen_pass, Res.andThen_pass,
    spaceInfoDirections_eq_pass]
  intro dd hdd
  have hN := (spaceInfoDirections_eq_pass N).mp hd dd hdd
  have hlt : dd < DM := spaceInfoAxis_pass_lt N hN
  by_cases hda : (⟨dd, hlt⟩ : Fin DM) = a
  · subst hda
    have h := (spaceInfoAxis_eq_pass (setAxis N ⟨dd, hlt⟩ ax) ⟨dd, hlt⟩ h0' hS').mpr
    rw [setAxis_axis_self] at h
    exact h (hax hS)
  · have h := (spaceInfoAxis_eq_pass (setAxis N a ax) ⟨dd, hlt⟩ h0' hS').mpr
    rw [setAxis_axis_ne N a ax hda] at h
    exact h ((spaceInfoAxis_eq_pass N ⟨dd, hlt⟩ h0 hS).mp hN)

/-- C20: let `N` pass the consistency checker with `spaceDim > 0` and let `a` be
a declared axis whose direction coefficients `0 .. spaceDim-1` all exist.
After setting `min`, `max`, `spacing` or `units` of axis `a` so that at least
one of them is an existent number or a non-empty string, the checker returns 1;
after then setting every direction coefficient of axis `a` to NaN, the checker
passes again. -/
theorem spaceInfo_set_then_clear (N : Nrrd DM SM) (a : Fin DM) (m M s : Dbl)
    (u : Option String)
    (hpass : _nrrdFieldCheckSpaceInfo N = Res.pass) (h0 : 0 < N.spaceDim)
    (ha : a.val < N.dim)
    (hdir : ∀ i : Fin SM, i.val < N.spaceDim →
      AIR_EXISTS ((N.axis a).spaceDirection i) = true)
    (hset : AIR_EXISTS m = true ∨ AIR_EXISTS M = true ∨ AIR_EXISTS s = true
      ∨ airStrlen u ≠ 0) :
    (_nrrdFieldCheckSpaceInfo
        (setAxis N a { N.axis a with min := m, max := M, spacing := s, units := u })).code
      = some 1
    ∧ _nrrdFieldCheckSpaceInfo
        (setAxis N a
          { N.axis a with
            min := m, max := M, spacing := s, units := u,
            spaceDirection := fun _ => Dbl.nan })
      = Res.pass := by
  constructor
  · have h0' : 0 < (setAxis N a
        { N.axis a with min := m, max := M, spacing := s, units := u }).spaceDim := h0
    refine spaceInfo_code_one _ h0' fun hS => Or.inr (Or.inr (Or.inr ?_))
    refine spaceInfoDirections_code_one _ a h0' hS ha fun hp => ?_
    rw [spaceInfoAxis_eq_pass _ a h0' hS, setAxis_axis_self] at hp
    exact hp.2 (hdir _ h0) hset
  · refine spaceInfo_setAxis_pass N a _ hpass h0 fun hS => ⟨fun i _ => rfl, fun hex => ?_⟩
    simp [AIR_EXISTS] at hex

theorem spaceInfo_set_then_clear_witness :
    (_nrrdFieldCheckSpaceInfo nrrdOriented = Res.pass ∧ 0 < nrrdOriented.spaceDim
      ∧ (1 : Fin 16).val < nrrdOriented.dim ∧ AIR_EXISTS (Dbl.fin 0) = true)
    ∧ (_nrrdFieldCheckSpaceInfo
          (setAxis nrrdOriented 1
            { nrrdOriented.axis 1 with
              min := Dbl.fin 0, max := Dbl.nan, spacing := Dbl.nan, units := none })).code
        = some 1
    ∧ _nrrdFieldCheckSpaceInfo
        (setAxis nrrdOriented 1
          { nrrdOriented.axis 1 with
            min := Dbl.fin 0, max := Dbl.nan, spacing := Dbl.nan, units := none,
            spaceDirection := fun _ => Dbl.nan })
      = Res.pass :=
  ⟨by decide,
    spaceInfo_set_then_clear nrrdOriented 1 (Dbl.fin 0) Dbl.nan Dbl.nan none (by decide)
      (by decide) (by decide) (by decide) (Or.inl rfl)⟩

end SetClear

/-! ## The per-field validators for block size, spacings, thicknesses and kinds -/

section AxisValidators
variable {DM SM : Nat}

theorem Res.fail_ne_stuck (e : NrrdErr) : Res.fail e ≠ Res.stuck := by
  intro h; cases h

theorem Res.pass_ne_stuck : Res.pass ≠ Res.stuck := by
  intro h; cases h

theorem Res.code_total {r : Res} (h : r ≠ Res.stuck) : r.code = some 0 ∨ r.code = some 1 := by
  cases r with
  | pass => exact Or.inl rfl
  | fail e => exact Or.inr rfl
  | stuck => exact absurd rfl h

theorem spaceInfo_ne_stuck (nrrd : Nrrd DM SM) (hd : nrrd.dim ≤ DM) :
    _nrrdFieldCheckSpaceInfo nrrd ≠ Res.stuck := by
  by_cases hv : nrrd.space = 0 ∨ airEnumValCheck nrrdSpace nrrd.space = 0
  · by_cases hS : nrrd.spaceDim ≤ SM
    · by_cases h0 : nrrd.spaceDim = 0
      · rw [spaceInfo_zero nrrd h0]
        split_ifs <;> first | exact Res.fail_ne_stuck _ | exact Res.pass_ne_stuck
      · have hp : 0 < nrrd.spaceDim := Nat.pos_of_ne_zero h0
        rw [spaceInfo_pos nrrd hp hS hv]
        refine Res.andThen_ne_stuck (spaceInfoLabel_ne_stuck nrrd hv)
          (Res.andThen_ne_stuck (spaceInfoOrigin_ne_stuck nrrd hp hS)
            (Res.andThen_ne_stuck (spaceInfoFrame_ne_stuck nrrd hp hS) ?_))
        unfold spaceInfoDirections
        refine forEach_ne_stuck ?_
        intro i hi
        have hi2 : i < DM := lt_of_lt_of_le (List.mem_range.mp hi) hd
        exact spaceInfoAxis_ne_stuck nrrd ⟨i, hi2⟩ hp hS
    · unfold _nrrdFieldCheckSpaceInfo
      rw [if_neg (not_not.mpr hv), if_pos hS]
      exact Res.fail_ne_stuck _
  · unfold _nrrdFieldCheckSpaceInfo
    rw [if_pos hv]
    exact Res.fail_ne_stuck _

theorem forAxisInfo_ne_stuck {α : Type} (nrrd : Nrrd DM SM) (info : NrrdAxisInfo SM → α)
    (body : Nat → α → Res) (hd : nrrd.dim ≤ DM)
    (hb : ∀ (a : Fin DM), body a.val (info (nrrd.axis a)) ≠ Res.stuck) :
    forAxisInfo nrrd info body ≠ Res.stuck := by
  unfold forAxisInfo
  refine forEach_ne_stuck ?_
  intro i hi
  have hi2 : i < DM := lt_of_lt_of_le (List.mem_range.mp hi) hd
  rw [rd_lt nrrd.axis hi2]
  exact hb ⟨i, hi2⟩

theorem spacing_test_iff (v : Dbl) :
    (airIsInf_d v = 0 ∧ (airIsNaN v ≠ 0 ∨ Dbl.neZero v = true)) ↔
      (v = Dbl.nan ∨ ∃ q : ℚ, v = Dbl.fin q ∧ q ≠ 0) := by
  constructor
  · exact spacing_ok
  · rintro (h | ⟨q, h, hq⟩)
    · subst h; simp [airIsInf_d, airIsNaN]
    · subst h; simp [airIsInf_d, airIsNaN, Dbl.neZero, hq]

theorem thickness_test_iff (v : Dbl) :
    (airIsInf_d v = 0 ∧ (airIsNaN v ≠ 0 ∨ Dbl.zeroLe v = true)) ↔
      (v = Dbl.nan ∨ ∃ q : ℚ, v = Dbl.fin q ∧ 0 ≤ q) := by
  constructor
  · exact thickness_ok
  · rintro (h | ⟨q, h, hq⟩)
    · subst h; simp [airIsInf_d, airIsNaN]
    · subst h; simp [airIsInf_d, airIsNaN, Dbl.zeroLe, hq]

theorem ite_fail_eq_pass (c : Prop) [Decidable c] (e : NrrdErr) :
    (if ¬ c then Res.fail e else Res.pass) = Res.pass ↔ c := by
  by_cases h : c
  · simp [h]
  · simp [h]

/-- C21: the block-size validator returns 0 exactly when "the type is block" and
"blockSize > 0" are equivalent; it always returns 0 or 1, and it returns 1 for
the block type with blockSize 0 and for a type other than block with a
positive blockSize. -/
theorem fieldCheck_block_size_spec (nrrd : Nrrd DM SM) :
    ((_nrrdFieldCheck_block_size nrrd).code = some 0 ↔
        (nrrd.type = nrrdTypeBlock ↔ 0 < nrrd.blockSize))
      ∧ ((_nrrdFieldCheck_block_size nrrd).code = some 0
          ∨ (_nrrdFieldCheck_block_size nrrd).code = some 1)
      ∧ (nrrd.type = nrrdTypeBlock → nrrd.blockSize = 0 →
          (_nrrdFieldCheck_block_size nrrd).code = some 1)
      ∧ (nrrd.type ≠ nrrdTypeBlock → 0 < nrrd.blockSize →
          (_nrrdFieldCheck_block_size nrrd).code = some 1) := by
  unfold _nrrdFieldCheck_block_size
  by_cases ht : nrrdTypeBlock = nrrd.type
  · by_cases hb : 0 < nrrd.blockSize
    · rw [if_neg (by tauto), if_neg (by tauto)]
      refine ⟨?_, Or.inl rfl, ?_, ?_⟩
      · simp [Res.code, ht.symm, hb]
      · intro _ h0; omega
      · intro h; exact absurd ht.symm h
    · rw [if_pos ⟨ht, hb⟩]
      refine ⟨?_, Or.inr rfl, fun _ _ => rfl, fun _ _ => rfl⟩
      simp [Res.code, ht.symm, hb]
  · have ht2 : ¬ nrrd.type = nrrdTypeBlock := fun h => ht h.symm
    by_cases hb : 0 < nrrd.blockSize
    · rw [if_neg (by tauto), if_pos ⟨ht, hb⟩]
      refine ⟨?_, Or.inr rfl, fun _ _ => rfl, fun _ _ => rfl⟩
      simp [Res.code, ht2, hb]
    · rw [if_neg (by tauto), if_neg (by tauto)]
      refine ⟨?_, Or.inl rfl, ?_, ?_⟩
      · simp [Res.code, ht2, hb]
      · intro h; exact absurd h ht2
      · intro _ h; exact absurd h hb

/-- C21, at concrete objects: the block type with blockSize 0 and a non-block
type with blockSize 4 are both rejected. -/
theorem fieldCheck_block_size_spec_witness :
    (_nrrdFieldCheck_block_size nrrdBlockNoSize).code = some 1
      ∧ (_nrrdFieldCheck_block_size nrrdPlainWithBlockSize).code = some 1 :=
  ⟨(fieldCheck_block_size_spec nrrdBlockNoSize).2.2.1 rfl rfl,
   (fieldCheck_block_size_spec nrrdPlainWithBlockSize).2.2.2 (by decide) (by decide)⟩

/-- C22: the spacing validator returns 0 exactly when every declared axis
(index below dim) has a spacing that is NaN or a finite number other than 0
(so a negative spacing is accepted), and the consistency checker returns 0;
with dim within the axis array it returns 0 or 1, and 1 when a declared axis
has spacing 0, +inf or -inf. -/
theorem fieldCheck_spacings_spec (nrrd : Nrrd DM SM) :
    ((_nrrdFieldCheck_spacings nrrd).code = some 0 ↔
        (∀ ai, ai < nrrd.dim → ∃ h : ai < DM,
            (nrrd.axis ⟨ai, h⟩).spacing = Dbl.nan
              ∨ ∃ q : ℚ, (nrrd.axis ⟨ai, h⟩).spacing = Dbl.fin q ∧ q ≠ 0)
          ∧ (_nrrdFieldCheckSpaceInfo nrrd).code = some 0)
      ∧ (nrrd.dim ≤ DM → (_nrrdFieldCheck_spacings nrrd).code = some 0
          ∨ (_nrrdFieldCheck_spacings nrrd).code = some 1)
      ∧ (nrrd.dim ≤ DM → ∀ a : Fin DM, a.val < nrrd.dim →
          ((nrrd.axis a).spacing = Dbl.fin 0 ∨ (nrrd.axis a).spacing = Dbl.pinf
            ∨ (nrrd.axis a).spacing = Dbl.ninf) →
          (_nrrdFieldCheck_spacings nrrd).code = some 1) := by
  have hiff : (_nrrdFieldCheck_spacings nrrd).code = some 0 ↔
      (∀ ai, ai < nrrd.dim → ∃ h : ai < DM,
          (nrrd.axis ⟨ai, h⟩).spacing = Dbl.nan
            ∨ ∃ q : ℚ, (nrrd.axis ⟨ai, h⟩).spacing = Dbl.fin q ∧ q ≠ 0)
        ∧ (_nrrdFieldCheckSpaceInfo nrrd).code = some 0 := by
    unfold _nrrdFieldCheck_spacings
    rw [Res.code_eq_zero, Res.code_eq_zero, Res.andThen_eq_pass, forAxisInfo_eq_pass]
    refine and_congr_left fun _ => forall_congr' fun ai => imp_congr_right fun _ =>
      exists_congr fun h => ?_
    rw [ite_fail_eq_pass]
    exact spacing_test_iff _
  have htot : nrrd.dim ≤ DM → (_nrrdFieldCheck_spacings nrrd).code = some 0
      ∨ (_nrrdFieldCheck_spacings nrrd).code = some 1 := by
    intro hd
    refine Res.code_total ?_
    unfold _nrrdFieldCheck_spacings
    refine Res.andThen_ne_stuck (forAxisInfo_ne_stuck nrrd _ _ hd ?_) (spaceInfo_ne_stuck nrrd hd)
    intro a
    dsimp only
    split_ifs <;> first | exact Res.fail_ne_stuck _ | exact Res.pass_ne_stuck
  refine ⟨hiff, htot, ?_⟩
  intro hd a ha hbad
  rcases htot hd with h0 | h1
  · exfalso
    obtain ⟨_, hok⟩ := (hiff.mp h0).1 a.val ha
    rcases hok with hn | ⟨q, hq, hq0⟩
    · rcases hbad with hb | hb | hb <;> rw [hb] at hn <;> cases hn
    · rcases hbad with hb | hb | hb
      · rw [hb] at hq
        exact hq0 (Dbl.fin.inj hq).symm
      · rw [hb] at hq; cases hq
      · rw [hb] at hq; cases hq
  · exact h1

/-- C22, at a concrete object: an object whose axis 1 has spacing 0 is
rejected. -/
theorem fieldCheck_spacings_spec_witness :
    (_nrrdFieldCheck_spacings nrrdZeroSpacing).code = some 1 :=
  (fieldCheck_spacings_spec nrrdZeroSpacing).2.2 (by decide) 1 (by decide) (Or.inl rfl)

/-- C23: the thickness validator returns 0 exactly when every declared axis
(index below dim) has a thickness that is NaN or a finite number at least 0
(so thickness 0 is accepted); with dim within the axis array it returns 0 or
1, and 1 when a declared axis has a negative or infinite thickness; and its
result is the same on any two objects that agree on dim and on the thickness
of every declared axis, whatever their space-related fields. -/
theorem fieldCheck_thicknesses_spec (nrrd : Nrrd DM SM) :
    ((_nrrdFieldCheck_thicknesses nrrd).code = some 0 ↔
        ∀ ai, ai < nrrd.dim → ∃ h : ai < DM,
          (nrrd.axis ⟨ai, h⟩).thickness = Dbl.nan
            ∨ ∃ q : ℚ, (nrrd.axis ⟨ai, h⟩).thickness = Dbl.fin q ∧ 0 ≤ q)
      ∧ (nrrd.dim ≤ DM → (_nrrdFieldCheck_thicknesses nrrd).code = some 0
          ∨ (_nrrdFieldCheck_thicknesses nrrd).code = some 1)
      ∧ (nrrd.dim ≤ DM → ∀ a : Fin DM, a.val < nrrd.dim →
          ((∃ q : ℚ, (nrrd.axis a).thickness = Dbl.fin q ∧ q < 0)
            ∨ (nrrd.axis a).thickness = Dbl.pinf
            ∨ (nrrd.axis a).thickness = Dbl.ninf) →
          (_nrrdFieldCheck_thicknesses nrrd).code = some 1)
      ∧ (∀ other : Nrrd DM SM, other.dim = nrrd.dim →
          (∀ a : Fin DM, a.val < nrrd.dim →
            (other.axis a).thickness = (nrrd.axis a).thickness) →
          _nrrdFieldCheck_thicknesses other = _nrrdFieldCheck_thicknesses nrrd) := by
  have hiff : (_nrrdFieldCheck_thicknesses nrrd).code = some 0 ↔
      ∀ ai, ai < nrrd.dim → ∃ h : ai < DM,
        (nrrd.axis ⟨ai, h⟩).thickness = Dbl.nan
          ∨ ∃ q : ℚ, (nrrd.axis ⟨ai, h⟩).thickness = Dbl.fin q ∧ 0 ≤ q := by
    unfold _nrrdFieldCheck_thicknesses
    rw [Res.code_eq_zero, forAxisInfo_eq_pass]
    refine forall_congr' fun ai => imp_congr_right fun _ => exists_congr fun h => ?_
    rw [ite_fail_eq_pass]
    exact thickness_test_iff _
  have htot : nrrd.dim ≤ DM → (_nrrdFieldCheck_thicknesses nrrd).code = some 0
      ∨ (_nrrdFieldCheck_thicknesses nrrd).code = some 1 := by
    intro hd
    refine Res.code_total ?_
    unfold _nrrdFieldCheck_thicknesses
    refine forAxisInfo_ne_stuck nrrd _ _ hd ?_
    intro a
    dsimp only
    split_ifs <;> first | exact Res.fail_ne_stuck _ | exact Res.pass_ne_stuck
  refine ⟨hiff, htot, ?_, ?_⟩
  · intro hd a ha hbad
    rcases htot hd with h0 | h1
    · exfalso
      obtain ⟨_, hok⟩ := hiff.mp h0 a.val ha
      rcases hok with hn | ⟨q, hq, hq0⟩
      · rcases hbad with ⟨r, hb, _⟩ | hb | hb <;> rw [hb] at hn <;> cases hn
      · rcases hbad with ⟨r, hb, hr⟩ | hb | hb
        · rw [hb] at hq
          have : r = q := Dbl.fin.inj hq
          subst this
          exact absurd hq0 (not_le.mpr hr)
        · rw [hb] at hq; cases hq
        · rw [hb] at hq; cases hq
    · exact h1
  · intro other hdim hth
    unfold _nrrdFieldCheck_thicknesses forAxisInfo
    rw [hdim]
    refine forEach_congr ?_
    intro i hi
    have hi1 : i < nrrd.dim := List.mem_range.mp hi
    by_cases hi2 : i < DM
    · rw [rd_lt other.axis hi2, rd_lt nrrd.axis hi2]
      simp only [Option.map_some', Res.read_some]
      rw [hth ⟨i, hi2⟩ hi1]
    · rw [rd_ge other.axis (not_lt.mp hi2), rd_ge nrrd.axis (not_lt.mp hi2)]

/-- C23, at concrete objects: an object whose axis 1 has thickness -1 is
rejected, and the oriented example object gets the result of the plain one. -/
theorem fieldCheck_thicknesses_spec_witness :
    (_nrrdFieldCheck_thicknesses nrrdNegativeThickness).code = some 1
      ∧ _nrrdFieldCheck_thicknesses nrrdOriented = _nrrdFieldCheck_thicknesses nrrdPlain :=
  ⟨(fieldCheck_thicknesses_spec nrrdNegativeThickness).2.2.1 (by decide) 1 (by decide)
      (Or.inl ⟨-1, rfl, by norm_num⟩),
   (fieldCheck_thicknesses_spec nrrdPlain).2.2.2 nrrdOriented rfl (fun a ha => by
      have h3 : a.val < 3 := ha
      simp [nrrdOriented, nrrdPlain, h3, axisUnset])⟩

theorem kinds_body (T : Tables) (nrrd : Nrrd DM SM) (a : Fin DM) :
    Res.read ((rd nrrd.axis a.val).map NrrdAxisInfo.kind) (fun v =>
        if ¬ (nrrdKindUnknown = v ∨ airEnumValCheck T.nrrdKind v = 0)
        then Res.fail (NrrdErr.kind a.val)
        else
          Res.read (rd nrrd.axis a.val) fun ax =>
            if T.nrrdKindSize v ≠ 0 ∧ T.nrrdKindSize v ≠ ax.size
            then Res.fail (NrrdErr.kindSize a.val) else Res.pass) =
      kindsAxis T a.val (nrrd.axis a) := by
  rw [rd_lt nrrd.axis a.isLt]
  rfl

theorem kindsAxis_pass (T : Tables) (ai : Nat) (ax : NrrdAxisInfo SM) :
    kindsAxis T ai ax = Res.pass ↔ KindAccepted T ax := by
  unfold KindAccepted kindsAxis
  by_cases h1 : nrrdKindUnknown = ax.kind ∨ airEnumValCheck T.nrrdKind ax.kind = 0
  · have h1b : ax.kind = nrrdKindUnknown ∨ airEnumValCheck T.nrrdKind ax.kind = 0 :=
      h1.imp Eq.symm id
    rw [if_neg (not_not.mpr h1)]
    by_cases h2 : T.nrrdKindSize ax.kind ≠ 0 ∧ T.nrrdKindSize ax.kind ≠ ax.size
    · rw [if_pos h2]
      constructor
      · intro h; cases h
      · intro h; exact absurd (h.2 h2.1).symm h2.2
    · rw [if_neg h2]
      refine ⟨fun _ => ⟨h1b, fun h0 => ?_⟩, fun _ => rfl⟩
      by_contra hne
      exact h2 ⟨h0, fun h => hne h.symm⟩
  · rw [if_pos h1]
    constructor
    · intro h; cases h
    · intro h; exact absurd (h.1.imp Eq.symm id) h1

theorem kindsAxis_fail (T : Tables) (ai i : Nat) (ax : NrrdAxisInfo SM) :
    (kindsAxis T ai ax = Res.fail (NrrdErr.kind i)
        ∨ kindsAxis T ai ax = Res.fail (NrrdErr.kindSize i))
      ↔ ai = i ∧ ¬ KindAccepted T ax := by
  rw [← kindsAxis_pass T ai ax]
  unfold kindsAxis
  by_cases h1 : nrrdKindUnknown = ax.kind ∨ airEnumValCheck T.nrrdKind ax.kind = 0
  · rw [if_neg (not_not.mpr h1)]
    by_cases h2 : T.nrrdKindSize ax.kind ≠ 0 ∧ T.nrrdKindSize ax.kind ≠ ax.size
    · rw [if_pos h2]
      constructor
      · rintro (h | h)
        · cases h
        · refine ⟨?_, fun h => by cases h⟩
          injection h with h
          injection h
      · rintro ⟨h, _⟩
        exact Or.inr (by rw [h])
    · rw [if_neg h2]
      constructor
      · rintro (h | h) <;> cases h
      · rintro ⟨_, h⟩
        exact absurd rfl h
  · rw [if_pos h1]
    constructor
    · rintro (h | h)
      · refine ⟨?_, fun h => by cases h⟩
        injection h with h
        injection h
      · cases h
    · rintro ⟨h, _⟩
      exact Or.inl (by rw [h])

theorem kindsAxis_ne_stuck (T : Tables) (ai : Nat) (ax : NrrdAxisInfo SM) :
    kindsAxis T ai ax ≠ Res.stuck := by
  unfold kindsAxis
  split_ifs <;> first | exact Res.fail_ne_stuck _ | exact Res.pass_ne_stuck

theorem kinds_eq (T : Tables) (nrrd : Nrrd DM SM) (hd : nrrd.dim ≤ DM) :
    _nrrdFieldCheck_kinds T nrrd =
      forEach (List.range' 0 nrrd.dim) fun ai =>
        if h : ai < DM then kindsAxis T ai (nrrd.axis ⟨ai, h⟩) else Res.stuck := by
  unfold _nrrdFieldCheck_kinds forAxisInfo
  rw [List.range_eq_range']
  refine forEach_congr ?_
  intro i hi
  have hi2 : i < DM := by have := List.mem_range'_1.mp hi; omega
  rw [dif_pos hi2]
  exact kinds_body T nrrd ⟨i, hi2⟩

theorem kinds_eq_fail (T : Tables) (nrrd : Nrrd DM SM) (hd : nrrd.dim ≤ DM) (e : NrrdErr) :
    _nrrdFieldCheck_kinds T nrrd = Res.fail e ↔
      ∃ a : Fin DM, a.val < nrrd.dim ∧ kindsAxis T a.val (nrrd.axis a) = Res.fail e
        ∧ ∀ b : Fin DM, b.val < a.val → KindAccepted T (nrrd.axis b) := by
  rw [kinds_eq T nrrd hd, forEach_range'_eq_fail]
  constructor
  · rintro ⟨i, _, hi, hf, hp⟩
    have hi1 : i < nrrd.dim := by omega
    have hi2 : i < DM := lt_of_lt_of_le hi1 hd
    rw [dif_pos hi2] at hf
    refine ⟨⟨i, hi2⟩, hi1, hf, fun b hb => ?_⟩
    have hpb := hp b.val (Nat.zero_le _) hb
    rw [dif_pos b.isLt] at hpb
    exact (kindsAxis_pass T b.val _).mp hpb
  · rintro ⟨a, ha, hf, hp⟩
    refine ⟨a.val, Nat.zero_le _, by omega, ?_, fun j _ hj => ?_⟩
    · rw [dif_pos a.isLt]
      exact hf
    · have hj2 : j < DM := lt_trans hj a.isLt
      rw [dif_pos hj2]
      exact (kindsAxis_pass T j _).mpr (hp ⟨j, hj2⟩ hj)

/-- C24: the kind validator returns 0 exactly when every declared axis (index
below dim) is accepted: its kind is unknown or valid, and if nrrdKindSize of the
kind is not 0 the axis size equals it.  With dim within the axis array the
result is 0 or 1, and the failure reported is the one of axis a (invalid kind
or size mismatch) exactly when a is the first declared axis that is not
accepted. -/
theorem fieldCheck_kinds_spec (T : Tables) (nrrd : Nrrd DM SM) :
    ((_nrrdFieldCheck_kinds T nrrd).code = some 0 ↔
        ∀ ai, ai < nrrd.dim → ∃ h : ai < DM, KindAccepted T (nrrd.axis ⟨ai, h⟩))
      ∧ (nrrd.dim ≤ DM → (_nrrdFieldCheck_kinds T nrrd).code = some 0
          ∨ (_nrrdFieldCheck_kinds T nrrd).code = some 1)
      ∧ (nrrd.dim ≤ DM → ∀ a : Fin DM,
          ((_nrrdFieldCheck_kinds T nrrd = Res.fail (NrrdErr.kind a.val)
              ∨ _nrrdFieldCheck_kinds T nrrd = Res.fail (NrrdErr.kindSize a.val))
            ↔ (a.val < nrrd.dim ∧ ¬ KindAccepted T (nrrd.axis a)
                ∧ ∀ b : Fin DM, b.val < a.val → KindAccepted T (nrrd.axis b)))) := by
  refine ⟨?_, ?_, ?_⟩
  · unfold _nrrdFieldCheck_kinds
    rw [Res.code_eq_zero, forAxisInfo_eq_pass]
    refine forall_congr' fun ai => imp_congr_right fun _ => exists_congr fun h => ?_
    dsimp only
    rw [rd_lt nrrd.axis h, Res.read_some]
    exact kindsAxis_pass T ai (nrrd.axis ⟨ai, h⟩)
  · intro hd
    refine Res.code_total ?_
    rw [kinds_eq T nrrd hd]
    refine forEach_ne_stuck ?_
    intro i hi
    have hi2 : i < DM := by have := List.mem_range'_1.mp hi; omega
    rw [dif_pos hi2]
    exact kindsAxis_ne_stuck T i _
  · intro hd a
    rw [kinds_eq_fail T nrrd hd, kinds_eq_fail T nrrd hd]
    constructor
    · rintro (⟨c, hc, hf, hp⟩ | ⟨c, hc, hf, hp⟩)
      · have h := (kindsAxis_fail T c.val a.val (nrrd.axis c)).mp (Or.inl hf)
        have hca : c = a := Fin.ext h.1
        subst hca
        exact ⟨hc, h.2, hp⟩
      · have h := (kindsAxis_fail T c.val a.val (nrrd.axis c)).mp (Or.inr hf)
        have hca : c = a := Fin.ext h.1
        subst hca
        exact ⟨hc, h.2, hp⟩
    · rintro ⟨ha, hna, hp⟩
      rcases (kindsAxis_fail T a.val a.val (nrrd.axis a)).mpr ⟨rfl, hna⟩ with h | h
      · exact Or.inl ⟨a, ha, h, hp⟩
      · exact Or.inr ⟨a, ha, h, hp⟩

/-- C24, at a concrete object: with kind 5 prescribing 3 samples, an object
with kind 5 on axis 0 (size 2) and the invalid kind 40 on axis 1 fails on
axis 0, the first of the two. -/
theorem fieldCheck_kinds_spec_witness :
    _nrrdFieldCheck_kinds tablesWithKindSize nrrdBadKinds = Res.fail (NrrdErr.kind 0)
      ∨ _nrrdFieldCheck_kinds tablesWithKindSize nrrdBadKinds
          = Res.fail (NrrdErr.kindSize 0) :=
  ((fieldCheck_kinds_spec tablesWithKindSize nrrdBadKinds).2.2 (by decide) 0).mpr
    ⟨by decide, by decide, fun b hb => absurd hb (Nat.not_lt_zero _)⟩

end AxisValidators

/-! ## The space setters -/

section SetterLemmas

variable {DM SM : Nat}

theorem foldl_update_list {α : Type} {N : Nat} (f : α → α) :
    ∀ (l : List (Fin N)) (a : Fin N → α), l.Nodup →
      l.foldl (fun v i => Function.update v i (f (v i))) a =
        fun j => if j ∈ l then f (a j) else a j := by
  intro l
  induction l with
  | nil => intro a _; funext j; simp
  | cons i t ih =>
    intro a hnd
    have hi : i ∉ t := (List.nodup_cons.mp hnd).1
    rw [List.foldl_cons, ih _ (List.nodup_cons.mp hnd).2]
    funext j
    by_cases hji : j = i
    · subst hji
      simp [hi]
    · by_cases hjt : j ∈ t
      · simp [hjt, hji, Function.update_noteq hji]
      · simp [hjt, hji, Function.update_noteq hji]

theorem foldl_update_finRange {α : Type} {N : Nat} (f : α → α) (a : Fin N → α) :
    (List.finRange N).foldl (fun v i => Function.update v i (f (v i))) a =
      fun j => f (a j) := by
  rw [foldl_update_list f _ a (List.nodup_finRange N)]
  funext j
  simp

theorem nrrdSpaceVecSetNaN_eq (vec : Fin SM → Dbl) :
    nrrdSpaceVecSetNaN vec = fun _ => Dbl.nan := by
  unfold nrrdSpaceVecSetNaN
  exact foldl_update_finRange (fun _ => AIR_NAN) vec

theorem nrrdSpaceSet_unknown (n : Nrrd DM SM) :
    nrrdSpaceSet (some n) nrrdSpaceUnknown =
      some (0, some
        { n with
          space := nrrdSpaceUnknown
          spaceDim := 0
          axis := fun a => { n.axis a with spaceDirection := fun _ => Dbl.nan }
          spaceUnits := fun _ => none
          spaceOrigin := fun _ => Dbl.nan }) := by
  unfold nrrdSpaceSet
  dsimp only
  rw [if_pos rfl]
  have h1 := foldl_update_finRange
    (fun ax : NrrdAxisInfo SM => { ax with spaceDirection := nrrdSpaceVecSetNaN ax.spaceDirection })
    n.axis
  have h2 := foldl_update_finRange (fun _ : Option String => none) n.spaceUnits
  rw [h1, h2, nrrdSpaceVecSetNaN_eq]
  simp only [nrrdSpaceVecSetNaN_eq]

theorem wr_lt {α : Type} {N : Nat} (a : Fin N → α) {i : Nat} (h : i < N) (x : α) :
    wr a i x = some (Function.update a ⟨i, h⟩ x) := by
  unfold wr
  rw [dif_pos h]

theorem copyLoop_range' (src : Fin SM → Dbl) (n : Nat) :
    ∀ (s : Nat) (dst : Fin SM → Dbl), s + n ≤ SM →
      copyLoop src (List.range' s n) dst =
        some (fun j => if s ≤ j.val ∧ j.val < s + n then src j else dst j) := by
  induction n with
  | zero =>
    intro s dst _
    have : (fun j : Fin SM => if s ≤ j.val ∧ j.val < s + 0 then src j else dst j) = dst := by
      funext j
      rw [if_neg (by omega)]
    rw [this]
    rfl
  | succ n ih =>
    intro s dst hs
    have hlt : s < SM := by omega
    rw [List.range'_succ, copyLoop, rd_lt src hlt, Option.some_bind, wr_lt dst hlt,
      Option.some_bind, ih (s + 1) _ (by omega)]
    congr 1
    funext j
    by_cases hj : j = ⟨s, hlt⟩
    · subst hj
      rw [if_neg (by simp), if_pos (by simp)]
      simp
    · have hjs : j.val ≠ s := fun h => hj (Fin.ext h)
      rw [Function.update_noteq hj]
      by_cases hc : s ≤ j.val ∧ j.val < s + (n + 1)
      · rw [if_pos hc, if_pos (by omega)]
      · rw [if_neg hc, if_neg (by omega)]

theorem nanLoop_range' (n : Nat) :
    ∀ (s : Nat) (dst : Fin SM → Dbl), s + n ≤ SM →
      nanLoop (List.range' s n) dst =
        some (fun j => if s ≤ j.val ∧ j.val < s + n then Dbl.nan else dst j) := by
  induction n with
  | zero =>
    intro s dst _
    have : (fun j : Fin SM => if s ≤ j.val ∧ j.val < s + 0 then Dbl.nan else dst j) = dst := by
      funext j
      rw [if_neg (by omega)]
    rw [this]
    rfl
  | succ n ih =>
    intro s dst hs
    have hlt : s < SM := by omega
    rw [List.range'_succ, nanLoop, wr_lt dst hlt, Option.some_bind, ih (s + 1) _ (by omega)]
    congr 1
    funext j
    by_cases hj : j = ⟨s, hlt⟩
    · subst hj
      rw [if_neg (by simp), if_pos (by simp)]
      simp [AIR_NAN]
    · have hjs : j.val ≠ s := fun h => hj (Fin.ext h)
      rw [Function.update_noteq hj]
      by_cases hc : s ≤ j.val ∧ j.val < s + (n + 1)
      · rw [if_pos hc, if_pos (by omega)]
      · rw [if_neg hc, if_neg (by omega)]

theorem origin_loops (src dst : Fin SM → Dbl) (sd : Nat) (hS : sd ≤ SM) :
    ((copyLoop src (List.range sd) dst).bind fun v1 =>
        nanLoop (List.range' sd (SM - sd)) v1) =
      some (fun j => if j.val < sd then src j else Dbl.nan) := by
  rw [List.range_eq_range', copyLoop_range' src sd 0 dst (by omega), Option.some_bind,
    nanLoop_range' (SM - sd) sd _ (by omega)]
  congr 1
  funext j
  have hj := j.isLt
  by_cases hc : j.val < sd
  · rw [if_neg (by omega), if_pos (by omega), if_pos hc]
  · rw [if_pos (by omega), if_neg hc]

theorem nrrdSpaceOriginSet_ok (n : Nrrd DM SM) (v : Fin SM → Dbl)
    (h0 : 0 < n.spaceDim) (hS : n.spaceDim ≤ SM) :
    nrrdSpaceOriginSet (some n) (some v) =
      some (0, some
        { n with spaceOrigin := fun j => if j.val < n.spaceDim then v j else Dbl.nan }) := by
  have h := origin_loops v n.spaceOrigin n.spaceDim hS
  unfold nrrdSpaceOriginSet
  dsimp only
  rw [if_neg (not_not.mpr ⟨h0, hS⟩)]
  cases hc : copyLoop v (List.range n.spaceDim) n.spaceOrigin with
  | none => rw [hc] at h; cases h
  | some o1 =>
    rw [hc, Option.some_bind] at h
    rw [Option.some_bind, h]
    rfl

theorem nrrdSpaceOriginGet_ok (n : Nrrd DM SM) (out : Fin SM → Dbl) (hS : n.spaceDim ≤ SM) :
    nrrdSpaceOriginGet (some n) (some out) =
      some (n.spaceDim,
        some (fun j => if j.val < n.spaceDim then n.spaceOrigin j else Dbl.nan)) := by
  have h := origin_loops n.spaceOrigin out n.spaceDim hS
  unfold nrrdSpaceOriginGet
  dsimp only
  cases hc : copyLoop n.spaceOrigin (List.range n.spaceDim) out with
  | none => rw [hc] at h; cases h
  | some o1 =>
    rw [hc, Option.some_bind] at h
    rw [Option.some_bind, h]
    rfl

end SetterLemmas

section SetterClaims

variable {DM SM : Nat}

/-- C25: at the framed example, `nrrdSpaceSet` with `nrrdSpaceUnknown` returns
0 and leaves space unknown, spaceDim 0, every unit string absent and every
coefficient of the origin and of all axis directions NaN, but the measurement
frame is the one from before the call: its coefficient `[0][0]` is still an
existent number. -/
theorem spaceSet_unknown_keeps_frame :
    ∃ after : Nrrd 16 8,
      nrrdSpaceSet (some nrrdFramed) nrrdSpaceUnknown = some (0, some after)
        ∧ after.space = nrrdSpaceUnknown ∧ after.spaceDim = 0
        ∧ (∀ j, after.spaceUnits j = none)
        ∧ (∀ j, after.spaceOrigin j = Dbl.nan)
        ∧ (∀ a j, (after.axis a).spaceDirection j = Dbl.nan)
        ∧ after.measurementFrame = nrrdFramed.measurementFrame
        ∧ after.measurementFrame 0 0 = Dbl.fin 1
        ∧ AIR_EXISTS (after.measurementFrame 0 0) = true :=
  ⟨_, nrrdSpaceSet_unknown nrrdFramed, rfl, rfl, fun _ => rfl, fun _ => rfl,
    fun _ _ => rfl, rfl, by decide, by decide⟩

/-- C26: for a non-null object and a space value other than `nrrdSpaceUnknown`:
if the value is a valid label, `nrrdSpaceSet` returns 0 and the object after
the call is the one before with `space` set to the value and `spaceDim` set to
`nrrdSpaceDimension` of it, so that I3 holds; if the value is not a valid
label, it returns 1 and the object is the one before.  On the null pointer it
returns 1. -/
theorem spaceSet_label_spec (n : Nrrd DM SM) (space : Int)
    (hs : space ≠ nrrdSpaceUnknown) :
    (airEnumValCheck nrrdSpace space = 0 →
        ∃ (sd : Nat) (after : Nrrd DM SM), nrrdSpaceDimension space = some sd
          ∧ nrrdSpaceSet (some n) space = some (0, some after)
          ∧ after = { n with space := space, spaceDim := sd }
          ∧ nrrdSpaceDimension after.space = some after.spaceDim)
      ∧ (airEnumValCheck nrrdSpace space ≠ 0 →
          nrrdSpaceSet (some n) space = some (1, some n))
      ∧ nrrdSpaceSet (none : Option (Nrrd DM SM)) space = some (1, none) := by
  have hs2 : ¬ nrrdSpaceUnknown = space := fun h => hs h.symm
  refine ⟨?_, ?_, rfl⟩
  · intro hv
    have hsd : ∃ sd, nrrdSpaceDimension space = some sd := by
      rcases nrrdSpaceDimension_valid hv with h | h
      · exact ⟨3, h⟩
      · exact ⟨4, h⟩
    obtain ⟨sd, hsd⟩ := hsd
    refine ⟨sd, { n with space := space, spaceDim := sd }, hsd, ?_, rfl, hsd⟩
    unfold nrrdSpaceSet
    dsimp only
    rw [if_neg hs2, if_neg (not_not.mpr hv), hsd]
    rfl
  · intro hv
    unfold nrrdSpaceSet
    dsimp only
    rw [if_neg hs2, if_pos hv]

/-- C26, at concrete inputs: the plain example takes the label
right-anterior-superior, and refuses the value 13. -/
theorem spaceSet_label_spec_witness :
    (∃ (sd : Nat) (after : Nrrd 16 8),
        nrrdSpaceDimension nrrdSpaceRightAnteriorSuperior = some sd
          ∧ nrrdSpaceSet (some nrrdPlain) nrrdSpaceRightAnteriorSuperior = some (0, some after)
          ∧ after = { nrrdPlain with space := nrrdSpaceRightAnteriorSuperior, spaceDim := sd }
          ∧ nrrdSpaceDimension after.space = some after.spaceDim)
      ∧ nrrdSpaceSet (some nrrdPlain) 13 = some (1, some nrrdPlain) :=
  ⟨(spaceSet_label_spec nrrdPlain nrrdSpaceRightAnteriorSuperior (by decide)).1 (by decide),
   (spaceSet_label_spec nrrdPlain 13 (by decide)).2.1 (by decide)⟩

/-- C27: for a non-null object with 0 < spaceDim <= NRRD_SPACE_DIM_MAX and any
vector v, `nrrdSpaceOriginSet` returns 0, and `nrrdSpaceOriginGet` on the
object after the call returns spaceDim and leaves in the caller's vector v[i]
for i < spaceDim and NaN from spaceDim on.  With spaceDim 0,
`nrrdSpaceOriginSet` returns 1 and the object is the one before;
`nrrdSpaceOriginGet` returns 0 for a null object and for a null vector. -/
theorem spaceOrigin_set_get (n : Nrrd DM SM) (v out : Fin SM → Dbl) :
    (0 < n.spaceDim → n.spaceDim ≤ SM →
        ∃ (after : Nrrd DM SM) (out2 : Fin SM → Dbl),
          nrrdSpaceOriginSet (some n) (some v) = some (0, some after)
            ∧ nrrdSpaceOriginGet (some after) (some out) = some (n.spaceDim, some out2)
            ∧ (∀ i : Fin SM, i.val < n.spaceDim → out2 i = v i)
            ∧ (∀ i : Fin SM, n.spaceDim ≤ i.val → out2 i = Dbl.nan))
      ∧ (n.spaceDim = 0 → ∀ vec, nrrdSpaceOriginSet (some n) vec = some (1, some n))
      ∧ (∀ vec, nrrdSpaceOriginGet (none : Option (Nrrd DM SM)) vec = some (0, vec))
      ∧ nrrdSpaceOriginGet (some n) none = some (0, none) := by
  refine ⟨?_, ?_, ?_, rfl⟩
  · intro h0 hS
    refine ⟨_, _, nrrdSpaceOriginSet_ok n v h0 hS, nrrdSpaceOriginGet_ok _ out hS, ?_, ?_⟩
    · intro i hi
      dsimp only
      rw [if_pos hi, if_pos hi]
    · intro i hi
      dsimp only
      rw [if_neg (by omega)]
  · intro h0 vec
    cases vec with
    | none => rfl
    | some w =>
      unfold nrrdSpaceOriginSet
      dsimp only
      rw [if_pos (by omega)]
  · intro vec
    cases vec <;> rfl

/-- C27, at concrete inputs: setting the origin of the oriented example
(spaceDim 3) to the vector 1, 2, 3, 4, ... and reading it back. -/
theorem spaceOrigin_set_get_witness :
    (∃ (after : Nrrd 16 8) (out2 : Fin 8 → Dbl),
        nrrdSpaceOriginSet (some nrrdOriented) (some exampleVector) = some (0, some after)
          ∧ nrrdSpaceOriginGet (some after) (some fun _ => Dbl.fin 0)
              = some (nrrdOriented.spaceDim, some out2)
          ∧ (∀ i : Fin 8, i.val < nrrdOriented.spaceDim → out2 i = exampleVector i)
          ∧ (∀ i : Fin 8, nrrdOriented.spaceDim ≤ i.val → out2 i = Dbl.nan))
      ∧ (∀ vec, nrrdSpaceOriginSet (some nrrdPlain) vec = some (1, some nrrdPlain)) :=
  ⟨(spaceOrigin_set_get nrrdOriented exampleVector (fun _ => Dbl.fin 0)).1
      (by decide) (by decide),
   (spaceOrigin_set_get nrrdPlain exampleVector exampleVector).2.1 rfl⟩

/-- C28, as stated, fails: the oriented example (spaceDim 3, origin 0, 0, 0,
NaN, ...) satisfies the statement on the origin, `nrrdSpaceDimensionSet` with
spaceDim 2 succeeds on it, and afterwards coefficient 2 of the origin is still
0; likewise `nrrdSpaceSet` with a three-dimensional label on the example with
spaceDim 4 leaves coefficient 3. -/
theorem originTail_shrink_counterexample :
    OriginTailNaN nrrdOriented
      ∧ (∃ after : Nrrd 16 8, nrrdSpaceDimensionSet (some nrrdOriented) 2 = (0, some after)
          ∧ after.spaceDim = 2 ∧ after.spaceOrigin 2 = Dbl.fin 0 ∧ ¬ OriginTailNaN after)
      ∧ OriginTailNaN nrrdOrientedTime
      ∧ (∃ after : Nrrd 16 8,
          nrrdSpaceSet (some nrrdOrientedTime) nrrdSpaceRightAnteriorSuperior
              = some (0, some after)
          ∧ after.spaceDim = 3 ∧ after.spaceOrigin 3 = Dbl.fin 0 ∧ ¬ OriginTailNaN after) := by
  refine ⟨by decide, ⟨_, rfl, rfl, by decide, by decide⟩, by decide, ⟨_, rfl, rfl, by decide, by decide⟩⟩

/-- C28, amended: for an object whose origin coefficients from spaceDim on are
NaN, the same holds after `nrrdSpaceSet` with `nrrdSpaceUnknown`, after a
successful `nrrdSpaceOriginSet`, and after `nrrdSpaceSet` with a valid label or
`nrrdSpaceDimensionSet` with a spaceDim within NRRD_SPACE_DIM_MAX provided the
new spaceDim is not smaller than the current one; these last two leave
`spaceOrigin` as it was. -/
theorem originTail_preserved (n : Nrrd DM SM) (h : OriginTailNaN n) :
    (∃ after, nrrdSpaceSet (some n) nrrdSpaceUnknown = some (0, some after)
        ∧ OriginTailNaN after)
      ∧ (∀ v, 0 < n.spaceDim → n.spaceDim ≤ SM →
          ∃ after, nrrdSpaceOriginSet (some n) (some v) = some (0, some after)
            ∧ OriginTailNaN after)
      ∧ (∀ space, space ≠ nrrdSpaceUnknown → airEnumValCheck nrrdSpace space = 0 →
          ∃ after, nrrdSpaceSet (some n) space = some (0, some after)
            ∧ after.spaceOrigin = n.spaceOrigin
            ∧ (n.spaceDim ≤ after.spaceDim → OriginTailNaN after))
      ∧ (∀ spaceDim, spaceDim ≤ SM →
          ∃ after, nrrdSpaceDimensionSet (some n) spaceDim = (0, some after)
            ∧ after.spaceOrigin = n.spaceOrigin
            ∧ (n.spaceDim ≤ spaceDim → OriginTailNaN after)) := by
  refine ⟨⟨_, nrrdSpaceSet_unknown n, fun _ _ => rfl⟩, ?_, ?_, ?_⟩
  · intro v h0 hS
    refine ⟨_, nrrdSpaceOriginSet_ok n v h0 hS, ?_⟩
    intro j hj
    have hj2 : n.spaceDim ≤ j.val := hj
    show (if j.val < n.spaceDim then v j else Dbl.nan) = Dbl.nan
    rw [if_neg (by omega)]
  · intro space hs hv
    have hs2 : ¬ nrrdSpaceUnknown = space := fun h => hs h.symm
    have hsd : ∃ sd, nrrdSpaceDimension space = some sd := by
      rcases nrrdSpaceDimension_valid hv with h | h
      · exact ⟨3, h⟩
      · exact ⟨4, h⟩
    obtain ⟨sd, hsd⟩ := hsd
    refine ⟨{ n with space := space, spaceDim := sd }, ?_, rfl, ?_⟩
    · unfold nrrdSpaceSet
      dsimp only
      rw [if_neg hs2, if_neg (not_not.mpr hv), hsd]
      rfl
    · intro hle j hj
      exact h j (le_trans hle hj)
  · intro sd hS
    refine ⟨{ n with space := nrrdSpaceUnknown, spaceDim := sd }, ?_, rfl, ?_⟩
    · unfold nrrdSpaceDimensionSet
      dsimp only
      rw [if_neg (not_not.mpr hS)]
    · intro hle j hj
      exact h j (le_trans hle hj)

/-- C28, amended, at the oriented example: the statement on the origin
survives `nrrdSpaceDimensionSet` with spaceDim 5. -/
theorem originTail_preserved_witness :
    OriginTailNaN nrrdOriented
      ∧ ∃ after : Nrrd 16 8, nrrdSpaceDimensionSet (some nrrdOriented) 5 = (0, some after)
          ∧ after.spaceOrigin = nrrdOriented.spaceOrigin
          ∧ (nrrdOriented.spaceDim ≤ 5 → OriginTailNaN after) :=
  ⟨by decide, (originTail_preserved nrrdOriented (by decide)).2.2.2 5 (by decide)⟩

end SetterClaims

/-! ## The sanity self-test -/

section SanityLemmas

theorem ite_some_eq_none {c : Prop} [Decidable c] {e : SanityErr} {r : Option SanityErr} :
    (if c then some e else r) = none ↔ ¬ c ∧ r = none := by
  by_cases h : c
  · simp [h]
  · simp [h]

theorem ite_one_eq_zero {c : Prop} [Decidable c] {r : Int} :
    (if c then 1 else r) = 0 ↔ ¬ c ∧ r = 0 := by
  by_cases h : c
  · simp [h]
  · simp [h]

theorem checkEnums_eq_zero (b : Build) :
    _nrrdCheckEnums b = 0 ↔
      (b.nrrdFormatTypeLast = b.NRRD_FORMAT_TYPE_MAX + 1
        ∧ nrrdTypeLast = b.NRRD_TYPE_MAX + 1
        ∧ b.nrrdEncodingTypeLast = b.NRRD_ENCODING_TYPE_MAX + 1
        ∧ nrrdCenterLast = b.NRRD_CENTER_MAX + 1
        ∧ b.nrrdAxisInfoLast = b.NRRD_AXIS_INFO_MAX + 1
        ∧ (nrrdField_last : Int) = b.NRRD_FIELD_MAX + 1
        ∧ b.nrrdHasNonExistLast = b.NRRD_HAS_NON_EXIST_MAX + 1
        ∧ b.nrrdBoundaryLast = b.NRRD_BOUNDARY_MAX + 1
        ∧ b.nrrdMeasureLast = b.NRRD_MEASURE_MAX + 1
        ∧ b.nrrdUnaryOpLast = b.NRRD_UNARY_OP_MAX + 1
        ∧ b.nrrdBinaryOpLast = b.NRRD_BINARY_OP_MAX + 1
        ∧ b.nrrdTernaryOpLast = b.NRRD_TERNARY_OP_MAX + 1) := by
  unfold _nrrdCheckEnums
  simp only [ite_one_eq_zero]
  constructor
  · intro h
    refine ⟨?_, ?_, ?_, ?_, ?_, ?_, ?_, ?_, ?_, ?_, ?_, ?_⟩ <;> omega
  · intro h
    refine ⟨?_, ?_, ?_, ?_, ?_, ?_, ?_, ?_, ?_, ?_, ?_, ?_, trivial⟩ <;> omega

theorem foldl_max_spec (f : Int → Nat) :
    ∀ (l : List Int) (a : Nat),
      a ≤ l.foldl (fun m t => if m > f t then m else f t) a
        ∧ (∀ t ∈ l, f t ≤ l.foldl (fun m t => if m > f t then m else f t) a)
        ∧ (l.foldl (fun m t => if m > f t then m else f t) a = a
            ∨ ∃ t ∈ l, f t = l.foldl (fun m t => if m > f t then m else f t) a) := by
  intro l
  induction l with
  | nil => intro a; exact ⟨le_refl a, fun t ht => (by cases ht), Or.inl rfl⟩
  | cons x t ih =>
    intro a
    rw [List.foldl_cons]
    obtain ⟨h1, h2, h3⟩ := ih (if a > f x then a else f x)
    have ha : a ≤ (if a > f x then a else f x) := by split_ifs <;> omega
    have hx : f x ≤ (if a > f x then a else f x) := by split_ifs <;> omega
    refine ⟨le_trans ha h1, ?_, ?_⟩
    · intro u hu
      rcases List.mem_cons.mp hu with h | h
      · rw [h]; exact le_trans hx h1
      · exact h2 u h
    · rcases h3 with h | ⟨u, hu, h⟩
      · by_cases hc : a > f x
        · rw [if_pos hc] at h
          exact Or.inl (by rw [if_pos hc]; exact h)
        · rw [if_neg hc] at h
          exact Or.inr ⟨x, List.mem_cons_self _ _, by rw [if_neg hc]; exact h.symm⟩
      · exact Or.inr ⟨u, List.mem_cons_of_mem _ hu, h⟩

theorem sanityTypeLoop_eq : sanityTypeLoop = numericTypes := by decide

theorem sanityMaxSize_eq (b : Build) (m : Nat) : sanityMaxSize b = m ↔ IsMaxWidth b m := by
  unfold sanityMaxSize IsMaxWidth
  rw [sanityTypeLoop_eq]
  obtain ⟨_, h2, h3⟩ := foldl_max_spec b.nrrdTypeSize numericTypes 0
  constructor
  · intro h
    rw [h] at h2 h3
    refine ⟨h2, ?_⟩
    rcases h3 with h0 | h0
    · refine ⟨nrrdTypeChar, by decide, ?_⟩
      have := h2 nrrdTypeChar (by decide)
      omega
    · exact h0
  · rintro ⟨hle, t, ht, hm⟩
    have hge := h2 t ht
    rcases h3 with h0 | ⟨u, hu, h0⟩
    · omega
    · have := hle u hu
      omega

theorem sanityChecks_eq_none (DM : Nat) (b : Build) :
    sanityChecks DM b = none ↔ SanityChecked DM b := by
  unfold sanityChecks SanityChecked SanityListed
  simp only [ite_some_eq_none]
  constructor
  · rintro ⟨h1, h2, h3, h4, h5, h6, h7, h8, h9, h10, h11, h12, h13, h14, h15, h16, h17, _⟩
    have hl := not_not.mp h11
    have hu := not_not.mp h13
    have hlw := not_not.mp h12
    have huw := not_not.mp h14
    rw [hl] at hlw
    rw [hu] at huw
    exact ⟨⟨not_not.mp h1, not_not.mp h2, not_not.mp h3,
        (not_not.mp h4).imp Eq.symm not_not.mp, not_not.mp h5, not_not.mp h8,
        ⟨(sanityMaxSize_eq b _).mp (not_not.mp h9), (sanityMaxSize_eq b _).mp (not_not.mp h10)⟩,
        ⟨hl, hlw.symm, hu, huw⟩, (checkEnums_eq_zero b).mp (not_not.mp h15), not_not.mp h16,
        h17⟩,
      not_not.mp h6, not_not.mp h7⟩
  · rintro ⟨⟨h1, h2, h3, h4, h5, h8, ⟨h9, h10⟩, ⟨hl, hlw, hu, huw⟩, h15, h16, h17⟩, h6, h7⟩
    refine ⟨not_not.mpr h1, not_not.mpr h2, not_not.mpr h3,
      not_not.mpr (h4.imp Eq.symm not_not.mpr), not_not.mpr h5, not_not.mpr h6,
      not_not.mpr h7, not_not.mpr h8, not_not.mpr ((sanityMaxSize_eq b _).mpr h9),
      not_not.mpr ((sanityMaxSize_eq b _).mpr h10), not_not.mpr hl, ?_, not_not.mpr hu, ?_,
      not_not.mpr ((checkEnums_eq_zero b).mpr h15), not_not.mpr h16, h17, trivial⟩
    · rw [hl]
      exact not_not.mpr hlw.symm
    · rw [hu]
      exact not_not.mpr huw

theorem nrrdSanity_latched (DM : Nat) (b : Build) (st : SanityState)
    (h : st._nrrdSanity ≠ 0) : nrrdSanity DM b st = (1, st) := by
  unfold nrrdSanity
  rw [if_pos h]

theorem nrrdSanity_pass (DM : Nat) (b : Build) (st : SanityState)
    (h : st._nrrdSanity = 0) (hc : sanityChecks DM b = none) :
    nrrdSanity DM b st = (1, { _nrrdSanity := 1, runs := st.runs + 1 }) := by
  unfold nrrdSanity
  rw [if_neg (not_not.mpr h), hc]

theorem nrrdSanity_rejected (DM : Nat) (b : Build) (st : SanityState)
    (h : st._nrrdSanity = 0) (hc : sanityChecks DM b ≠ none) :
    nrrdSanity DM b st = (0, { st with runs := st.runs + 1 }) := by
  unfold nrrdSanity
  rw [if_neg (not_not.mpr h)]
  cases hs : sanityChecks DM b with
  | none => exact absurd hs hc
  | some e => rfl

end SanityLemmas

section SanityClaims

theorem nrrdSanity_first_eq_one (DM : Nat) (b : Build) (st : SanityState)
    (h : st._nrrdSanity = 0) :
    (nrrdSanity DM b st).1 = 1 ↔ sanityChecks DM b = none := by
  by_cases hc : sanityChecks DM b = none
  · rw [nrrdSanity_pass DM b st h hc]
    exact ⟨fun _ => hc, fun _ => rfl⟩
  · rw [nrrdSanity_rejected DM b st h hc]
    constructor
    · intro h1
      exact absurd (show (0 : Int) = 1 from h1) (by decide)
    · intro h1
      exact absurd h1 hc

theorem nrrdSanity_first_eq_zero (DM : Nat) (b : Build) (st : SanityState)
    (h : st._nrrdSanity = 0) :
    (nrrdSanity DM b st).1 = 0 ↔ sanityChecks DM b ≠ none := by
  by_cases hc : sanityChecks DM b = none
  · rw [nrrdSanity_pass DM b st h hc]
    constructor
    · intro h1
      exact absurd (show (1 : Int) = 0 from h1) (by decide)
    · intro h1
      exact absurd hc h1
  · rw [nrrdSanity_rejected DM b st h hc]
    exact ⟨fun _ => hc, fun _ => rfl⟩

theorem sanityCalls_latched (DM : Nat) (b : Build) :
    ∀ (k : Nat) (st : SanityState), st._nrrdSanity ≠ 0 → sanityCalls DM b k st = st := by
  intro k
  induction k with
  | zero => intro st _; rfl
  | succ k ih =>
    intro st h
    rw [sanityCalls, nrrdSanity_latched DM b st h]
    exact ih st h

theorem sanityCalls_rejected (DM : Nat) (b : Build) (hc : sanityChecks DM b ≠ none) :
    ∀ (k : Nat) (st : SanityState), st._nrrdSanity = 0 →
      sanityCalls DM b k st = { st with runs := st.runs + k } := by
  intro k
  induction k with
  | zero => intro st _; rfl
  | succ k ih =>
    intro st h
    rw [sanityCalls, nrrdSanity_rejected DM b st h hc]
    show sanityCalls DM b k { st with runs := st.runs + 1 } = _
    rw [ih { st with runs := st.runs + 1 } h]
    show SanityState.mk st._nrrdSanity (st.runs + 1 + k) = SanityState.mk st._nrrdSanity (st.runs + (k + 1))
    congr 1
    omega

/-- C29, as stated, fails: on the conforming build with `nrrdStateMeasureType`
set to 0 every listed condition holds, and the first call of `nrrdSanity`
returns 0. -/
theorem sanity_listed_counterexample :
    SanityListed 16 buildBadMeasureType
      ∧ sanityInit._nrrdSanity = 0
      ∧ (nrrdSanity 16 buildBadMeasureType sanityInit).1 = 0 := by
  decide

/-- C29, amended: with the latch clear, `nrrdSanity` returns 1 exactly when the
listed conditions hold and, besides, `nrrdStateMeasureType` and
`nrrdStateMeasureHistoType` are valid types; it returns 0 exactly when one of
these conditions fails. -/
theorem sanity_first_call (DM : Nat) (b : Build) (st : SanityState)
    (h : st._nrrdSanity = 0) :
    ((nrrdSanity DM b st).1 = 1 ↔ SanityChecked DM b)
      ∧ ((nrrdSanity DM b st).1 = 0 ↔ ¬ SanityChecked DM b) := by
  rw [nrrdSanity_first_eq_one DM b st h, nrrdSanity_first_eq_zero DM b st h,
    ← sanityChecks_eq_none DM b]
  exact ⟨Iff.rfl, Iff.rfl⟩

/-- C29, amended, at the example builds: the first call returns 1 on the
conforming build and 0 on the build with the invalid measure type. -/
theorem sanity_first_call_witness :
    (nrrdSanity 16 conformingBuild sanityInit).1 = 1
      ∧ (nrrdSanity 16 buildBadMeasureType sanityInit).1 = 0 :=
  ⟨(sanity_first_call 16 conformingBuild sanityInit rfl).1.mpr (by decide),
   (sanity_first_call 16 buildBadMeasureType sanityInit rfl).2.mpr (by decide)⟩

/-- C30, as stated, fails: on the build with the invalid measure type, the
first call returns 0 and leaves the latch clear, and the second call returns 0
after making the tests again, so that they have run twice. -/
theorem sanity_failure_rerun_counterexample :
    (nrrdSanity 16 buildBadMeasureType sanityInit).1 = 0
      ∧ (nrrdSanity 16 buildBadMeasureType sanityInit).2._nrrdSanity = 0
      ∧ (nrrdSanity 16 buildBadMeasureType sanityInit).2.runs = 1
      ∧ (nrrdSanity 16 buildBadMeasureType
          (nrrdSanity 16 buildBadMeasureType sanityInit).2).1 = 0
      ∧ (nrrdSanity 16 buildBadMeasureType
          (nrrdSanity 16 buildBadMeasureType sanityInit).2).2.runs = 2 := by
  decide

/-- C30, amended: `nrrdSanity` caches a passing result only.  Starting with the
latch clear: if the first call returns 1, then after any number k+1 of calls
the tests have run once and the next call returns 1 without running them; if
the first call returns 0, the latch stays clear, the call after any number k
of calls returns 0 again and the tests have then run k+1 times.  On a build
where all conditions tested hold, two successive calls return 1 and the tests
run once. -/
theorem sanity_latch (DM : Nat) (b : Build) (st : SanityState)
    (h : st._nrrdSanity = 0) :
    ((nrrdSanity DM b st).1 = 1 → ∀ k,
        nrrdSanity DM b (sanityCalls DM b (k + 1) st)
          = (1, { _nrrdSanity := 1, runs := st.runs + 1 }))
      ∧ ((nrrdSanity DM b st).1 = 0 → ∀ k,
          nrrdSanity DM b (sanityCalls DM b k st)
            = (0, { _nrrdSanity := 0, runs := st.runs + k + 1 }))
      ∧ (SanityChecked DM b →
          (nrrdSanity DM b st).1 = 1
            ∧ nrrdSanity DM b (nrrdSanity DM b st).2
                = (1, { _nrrdSanity := 1, runs := st.runs + 1 })) := by
  refine ⟨?_, ?_, ?_⟩
  · intro h1 k
    have hc := (nrrdSanity_first_eq_one DM b st h).mp h1
    have h10 : (1 : Int) ≠ 0 := by decide
    rw [sanityCalls, nrrdSanity_pass DM b st h hc]
    show nrrdSanity DM b (sanityCalls DM b k { _nrrdSanity := 1, runs := st.runs + 1 }) = _
    rw [sanityCalls_latched DM b k { _nrrdSanity := 1, runs := st.runs + 1 } h10]
    exact nrrdSanity_latched DM b { _nrrdSanity := 1, runs := st.runs + 1 } h10
  · intro h0 k
    have hc := (nrrdSanity_first_eq_zero DM b st h).mp h0
    rw [sanityCalls_rejected DM b hc k st h,
      nrrdSanity_rejected DM b { st with runs := st.runs + k } h hc]
    show (0, SanityState.mk st._nrrdSanity (st.runs + k + 1)) = _
    rw [h]
  · intro hall
    have hc := (sanityChecks_eq_none DM b).mpr hall
    have h10 : (1 : Int) ≠ 0 := by decide
    rw [nrrdSanity_pass DM b st h hc]
    exact ⟨rfl, nrrdSanity_latched DM b { _nrrdSanity := 1, runs := st.runs + 1 } h10⟩

/-- C30, amended, at the conforming build: the second and the fourth call return
1 and leave the count of runs at 1. -/
theorem sanity_latch_witness :
    nrrdSanity 16 conformingBuild (sanityCalls 16 conformingBuild 1 sanityInit)
        = (1, { _nrrdSanity := 1, runs := 1 })
      ∧ nrrdSanity 16 conformingBuild (sanityCalls 16 conformingBuild 3 sanityInit)
        = (1, { _nrrdSanity := 1, runs := 1 })
      ∧ nrrdSanity 16 buildBadMeasureType (sanityCalls 16 buildBadMeasureType 2 sanityInit)
        = (0, { _nrrdSanity := 0, runs := 3 }) :=
  ⟨(sanity_latch 16 conformingBuild sanityInit rfl).1 (by decide) 0,
   (sanity_latch 16 conformingBuild sanityInit rfl).1 (by decide) 2,
   (sanity_latch 16 buildBadMeasureType sanityInit rfl).2.1 (by decide) 2⟩

end SanityClaims

/-! ## Clearing the orientation, and splitting the sizes -/

section SplitLemmas

variable {DM SM : Nat}

theorem foldl_mulmod (m : Nat) :
    ∀ (l : List Nat) (acc : Nat), acc < m →
      l.foldl (fun a x => (a * x) % m) acc = (acc * l.prod) % m := by
  intro l
  induction l with
  | nil =>
    intro acc h
    rw [List.foldl_nil, List.prod_nil, Nat.mul_one, Nat.mod_eq_of_lt h]
  | cons x t ih =>
    intro acc h
    have hm : 0 < m := Nat.lt_of_le_of_lt (Nat.zero_le _) h
    rw [List.foldl_cons, ih _ (Nat.mod_lt _ hm), List.prod_cons, Nat.mod_mul_mod, Nat.mul_assoc]

theorem splitLoop_range' (w : Nat) (size : List Nat) (k : Nat) :
    ∀ (s acc : Nat), s + k ≤ size.length →
      splitLoop w size (List.range' s k) acc =
        some (((size.drop s).take k).foldl (fun a x => (a * x) % 2 ^ w) acc) := by
  induction k with
  | zero => intro s acc _; rfl
  | succ k ih =>
    intro s acc hs
    have hlt : s < size.length := by omega
    rw [List.range'_succ, splitLoop, List.getElem?_eq_getElem hlt, Option.some_bind,
      ih (s + 1) _ (by omega), List.drop_eq_getElem_cons hlt, List.take_succ_cons,
      List.foldl_cons]

theorem declaredSizes_length (n : Nrrd DM SM) : (declaredSizes n).length = n.dim := by
  unfold declaredSizes
  rw [List.length_map, List.length_range]

theorem prod_pos_of_ne_zero : ∀ l : List Nat, (∀ s ∈ l, s ≠ 0) → 0 < l.prod := by
  intro l
  induction l with
  | nil => intro _; exact Nat.one_pos
  | cons x t ih =>
    intro h
    rw [List.prod_cons]
    exact Nat.mul_pos (Nat.pos_of_ne_zero (h x (List.mem_cons_self _ _)))
      (ih fun s hs => h s (List.mem_cons_of_mem _ hs))

theorem splitSizes_eq (w : Nat) (hw : 0 < w) (n : Nrrd DM SM) (hdim : n.dim ≤ DM)
    (split : Nat) (hs : split ≤ n.dim) :
    _nrrdSplitSizes w n split =
      some (((declaredSizes n).take split).prod % 2 ^ w,
        ((declaredSizes n).drop split).prod % 2 ^ w) := by
  have hone : 1 < 2 ^ w := Nat.one_lt_two_pow (Nat.pos_iff_ne_zero.mp hw)
  have hlen := declaredSizes_length n
  have htake : List.take (n.dim - split) (List.drop split (declaredSizes n))
      = List.drop split (declaredSizes n) :=
    List.take_of_length_le (by rw [List.length_drop]; omega)
  unfold _nrrdSplitSizes
  rw [nrrdAxisInfoGet_nva_size n hdim, Option.some_bind, List.range_eq_range',
    splitLoop_range' w _ split 0 1 (by omega), Option.some_bind,
    splitLoop_range' w _ (n.dim - split) split 1 (by omega), Option.map_some',
    foldl_mulmod _ _ 1 hone, foldl_mulmod _ _ 1 hone, Nat.one_mul, Nat.one_mul, List.drop_zero,
    htake]

end SplitLemmas

section SplitClaims

variable {DM SM : Nat}

/-- C36: for an object with dim within the axis array and a split position
`split <= dim`, `_nrrdSplitSizes` returns, leaving in `pieceSize` the product
of the sizes of axes `0 .. split-1` and in `pieceNum` the product of the sizes
of axes `split .. dim-1`, each modulo `2^w`.  In `size_t` arithmetic
`pieceSize * pieceNum` is the product of all declared sizes; when the sizes
are valid (`_nrrdSizeCheck` passes) nothing wraps, the equality is exact, and
the product is the value of `nrrdElementNumber`.  `split = 0` gives
`pieceSize = 1` and `split = dim` gives `pieceNum = 1`. -/
theorem splitSizes_spec (w : Nat) (hw : 0 < w) (n : Nrrd DM SM) (hdim : n.dim ≤ DM)
    (split : Nat) (hs : split ≤ n.dim) :
    ∃ pieceSize pieceNum : Nat,
      _nrrdSplitSizes w n split = some (pieceSize, pieceNum)
        ∧ pieceSize = ((declaredSizes n).take split).prod % 2 ^ w
        ∧ pieceNum = ((declaredSizes n).drop split).prod % 2 ^ w
        ∧ (pieceSize * pieceNum) % 2 ^ w = (declaredSizes n).prod % 2 ^ w
        ∧ (_nrrdSizeCheck w (declaredSizes n) = Res.pass →
            pieceSize = ((declaredSizes n).take split).prod
              ∧ pieceNum = ((declaredSizes n).drop split).prod
              ∧ pieceSize * pieceNum = (declaredSizes n).prod
              ∧ nrrdElementNumber w (some n) = some (pieceSize * pieceNum))
        ∧ (split = 0 → pieceSize = 1)
        ∧ (split = n.dim → pieceNum = 1) := by
  have hone : 1 < 2 ^ w := Nat.one_lt_two_pow (Nat.pos_iff_ne_zero.mp hw)
  have hlen := declaredSizes_length n
  have hmul := List.prod_take_mul_prod_drop (declaredSizes n) split
  refine ⟨_, _, splitSizes_eq w hw n hdim split hs, rfl, rfl, ?_, ?_, ?_, ?_⟩
  · rw [← Nat.mul_mod, hmul]
  · intro hp
    have hp2 : sizeCheckLoop w (declaredSizes n) 1 0 = Res.pass := hp
    obtain ⟨hall, hprod⟩ := (sizeCheckLoop_eq_pass w (declaredSizes n) 1 0).mp hp2
    have hlt : (declaredSizes n).prod < 2 ^ w := by
      by_cases hnil : declaredSizes n = []
      · rw [hnil, List.prod_nil]
        exact hone
      · have := hprod hnil
        omega
    have ht : 0 < ((declaredSizes n).take split).prod :=
      prod_pos_of_ne_zero _ fun s hs => hall s (List.mem_of_mem_take hs)
    have hd : 0 < ((declaredSizes n).drop split).prod :=
      prod_pos_of_ne_zero _ fun s hs => hall s (List.mem_of_mem_drop hs)
    have ht2 : ((declaredSizes n).take split).prod ≤ (declaredSizes n).prod := by
      rw [← hmul]
      exact Nat.le_mul_of_pos_right _ hd
    have hd2 : ((declaredSizes n).drop split).prod ≤ (declaredSizes n).prod := by
      rw [← hmul]
      exact Nat.le_mul_of_pos_left _ ht
    have e1 := Nat.mod_eq_of_lt (lt_of_le_of_lt ht2 hlt)
    have e2 := Nat.mod_eq_of_lt (lt_of_le_of_lt hd2 hlt)
    refine ⟨e1, e2, ?_, ?_⟩
    · rw [e1, e2, hmul]
    · unfold nrrdElementNumber
      simp only [nrrdAxisInfoGet_nva_size n hdim]
      have hp3 : _nrrdSizeCheck w (declaredSizes n) = Res.pass := hp
      simp only [hp3]
      rw [foldl_mod_eq_prod w (declaredSizes n) 1 0 hp2, e1, e2, hmul, Nat.one_mul]
  · intro h0
    rw [h0, List.take_zero, List.prod_nil, Nat.mod_eq_of_lt hone]
  · intro hd
    rw [hd, List.drop_of_length_le (by omega), List.prod_nil, Nat.mod_eq_of_lt hone]

/-- C36, at the plain example (sizes 2, 3, 4) with `split = 1`: `pieceSize` is 2
and `pieceNum` is 12. -/
theorem splitSizes_spec_witness :
    ∃ pieceSize pieceNum : Nat,
      _nrrdSplitSizes 64 nrrdPlain 1 = some (pieceSize, pieceNum)
        ∧ pieceSize = ((declaredSizes nrrdPlain).take 1).prod % 2 ^ 64
        ∧ pieceNum = ((declaredSizes nrrdPlain).drop 1).prod % 2 ^ 64
        ∧ (pieceSize * pieceNum) % 2 ^ 64 = (declaredSizes nrrdPlain).prod % 2 ^ 64
        ∧ (_nrrdSizeCheck 64 (declaredSizes nrrdPlain) = Res.pass →
            pieceSize = ((declaredSizes nrrdPlain).take 1).prod
              ∧ pieceNum = ((declaredSizes nrrdPlain).drop 1).prod
              ∧ pieceSize * pieceNum = (declaredSizes nrrdPlain).prod
              ∧ nrrdElementNumber 64 (some nrrdPlain) = some (pieceSize * pieceNum))
        ∧ ((1 : Nat) = 0 → pieceSize = 1)
        ∧ (1 = nrrdPlain.dim → pieceNum = 1) :=
  splitSizes_spec 64 (by decide) nrrdPlain (by decide) 1 (by decide)

end SplitClaims

section ClearClaims

variable {DM SM : Nat}

theorem spaceInfo_cleared_pass (nrrd : Nrrd DM SM) (hs : nrrd.space = 0)
    (hsd : nrrd.spaceDim = 0) (hu : ∀ j : Fin SM, airStrlen (nrrd.spaceUnits j) = 0)
    (ho : ∀ j : Fin SM, AIR_EXISTS (nrrd.spaceOrigin j) = false)
    (hdir : ∀ (a : Fin DM) (j : Fin SM), AIR_EXISTS ((nrrd.axis a).spaceDirection j) = false) :
    _nrrdFieldCheckSpaceInfo nrrd = Res.pass := by
  have h1 : ¬ spaceInfoAnyUnits nrrd = true := by
    rw [spaceInfoAnyUnits_iff]
    rintro ⟨dd, h⟩
    exact h (hu dd)
  have h2 : ¬ spaceInfoAnyOrigin nrrd = true := by
    rw [spaceInfoAnyOrigin_iff]
    rintro ⟨dd, h⟩
    rw [ho dd] at h
    cases h
  have h3 : ¬ spaceInfoAnyDirection nrrd = true := by
    rw [spaceInfoAnyDirection_iff]
    rintro ⟨ii, dd, h⟩
    rw [hdir ii dd] at h
    cases h
  rw [spaceInfo_zero nrrd hsd, if_neg (not_not.mpr (Or.inl hs)), if_neg (not_not.mpr hs),
    if_neg h1, if_neg h2, if_neg h3]

/-- C33: for every non-null object, whatever its fields, `nrrdSpaceSet` with
`nrrdSpaceUnknown` returns 0 and the consistency checker returns 0 on the
object after the call. -/
theorem spaceSet_unknown_then_check (n : Nrrd DM SM) :
    ∃ after : Nrrd DM SM,
      nrrdSpaceSet (some n) nrrdSpaceUnknown = some (0, some after)
        ∧ (_nrrdFieldCheckSpaceInfo after).code = some 0 := by
  refine ⟨_, nrrdSpaceSet_unknown n, ?_⟩
  rw [Res.code_eq_zero]
  exact spaceInfo_cleared_pass _ rfl rfl (fun _ => rfl) (fun _ => rfl) (fun _ _ => rfl)

end ClearClaims

/-! ## The order of the tests of the consistency checker -/

section FirstViolation

variable {DM SM : Nat}

theorem Res.andThen_eq_fail {r k : Res} {e : NrrdErr} :
    Res.andThen r k = Res.fail e ↔ r = Res.fail e ∨ (r = Res.pass ∧ k = Res.fail e) := by
  cases r with
  | pass =>
    rw [Res.andThen_pass]
    constructor
    · intro h; exact Or.inr ⟨rfl, h⟩
    · rintro (h | ⟨_, h⟩)
      · cases h
      · exact h
  | fail e2 =>
    constructor
    · intro h; exact Or.inl h
    · rintro (h | ⟨h, _⟩)
      · exact h
      · cases h
  | stuck =>
    constructor
    · intro h; cases h
    · rintro (h | ⟨h, _⟩) <;> cases h

theorem Res.read_eq_fail {α : Type} {o : Option α} {k : α → Res} {e : NrrdErr}
    (h : Res.read o k = Res.fail e) : ∃ x, o = some x ∧ k x = Res.fail e := by
  cases o with
  | none => cases h
  | some x => exact ⟨x, rfl, h⟩

theorem forEach_fail_mem {l : List Nat} {body : Nat → Res} {e : NrrdErr} :
    forEach l body = Res.fail e → ∃ i ∈ l, body i = Res.fail e := by
  induction l with
  | nil => intro h; cases h
  | cons x t ih =>
    intro h
    rw [forEach, Res.andThen_eq_fail] at h
    rcases h with h | ⟨_, h⟩
    · exact ⟨x, List.mem_cons_self _ _, h⟩
    · obtain ⟨i, hi, hb⟩ := ih h
      exact ⟨i, List.mem_cons_of_mem _ hi, hb⟩

theorem spaceInfoLabel_fail (nrrd : Nrrd DM SM) {e : NrrdErr}
    (h : spaceInfoLabel nrrd = Res.fail e) : e = NrrdErr.spaceDimMismatch := by
  unfold spaceInfoLabel at h
  by_cases hs : nrrd.space ≠ 0
  · rw [if_pos hs] at h
    obtain ⟨sd, _, hk⟩ := Res.read_eq_fail h
    by_cases hc : sd ≠ nrrd.spaceDim
    · rw [if_pos hc] at hk
      injection hk with hk
      exact hk.symm
    · rw [if_neg hc] at hk
      cases hk
  · rw [if_neg hs] at h
    cases h

theorem exist_body_fail {v : Option Dbl} {b : Bool} {e1 e : NrrdErr}
    (h : (Res.read v fun x =>
      if xor b (AIR_EXISTS x) = true then Res.fail e1 else Res.pass) = Res.fail e) :
    e = e1 := by
  obtain ⟨x, _, hk⟩ := Res.read_eq_fail h
  by_cases hc : xor b (AIR_EXISTS x) = true
  · rw [if_pos hc] at hk
    injection hk with hk
    exact hk.symm
  · rw [if_neg hc] at hk
    cases hk

theorem spaceInfoOrigin_fail (nrrd : Nrrd DM SM) {e : NrrdErr}
    (h : spaceInfoOrigin nrrd = Res.fail e) : ∃ ii, e = NrrdErr.originExistence ii := by
  unfold spaceInfoOrigin at h
  obtain ⟨o0, _, hk⟩ := Res.read_eq_fail h
  obtain ⟨ii, _, hb⟩ := forEach_fail_mem hk
  exact ⟨ii, exist_body_fail hb⟩

theorem spaceInfoFrame_fail (nrrd : Nrrd DM SM) {e : NrrdErr}
    (h : spaceInfoFrame nrrd = Res.fail e) : ∃ dd ii, e = NrrdErr.frameExistence dd ii := by
  unfold spaceInfoFrame at h
  obtain ⟨row0, _, hk⟩ := Res.read_eq_fail h
  obtain ⟨m00, _, hk2⟩ := Res.read_eq_fail hk
  obtain ⟨dd, _, hb⟩ := forEach_fail_mem hk2
  obtain ⟨ii, _, hb2⟩ := forEach_fail_mem hb
  obtain ⟨row, _, hb3⟩ := Res.read_eq_fail hb2
  exact ⟨dd, ii, exist_body_fail hb3⟩

theorem spaceInfo_fail_cases (nrrd : Nrrd DM SM) {e : NrrdErr}
    (h : _nrrdFieldCheckSpaceInfo nrrd = Res.fail e) :
    e = NrrdErr.spaceInvalid ∨ e = NrrdErr.spaceDimRange ∨ e = NrrdErr.spaceNoDim
      ∨ e = NrrdErr.spaceUnitsNoDim ∨ e = NrrdErr.spaceOriginNoDim
      ∨ e = NrrdErr.spaceDirectionsNoDim
      ∨ ((nrrd.space = 0 ∨ airEnumValCheck nrrdSpace nrrd.space = 0)
          ∧ 0 < nrrd.spaceDim ∧ nrrd.spaceDim ≤ SM
          ∧ (spaceInfoLabel nrrd = Res.fail e
              ∨ (spaceInfoLabel nrrd = Res.pass
                  ∧ (spaceInfoOrigin nrrd = Res.fail e
                      ∨ (spaceInfoOrigin nrrd = Res.pass
                          ∧ (spaceInfoFrame nrrd = Res.fail e
                              ∨ (spaceInfoFrame nrrd = Res.pass
                                  ∧ spaceInfoDirections nrrd = Res.fail e))))))) := by
  by_cases hv : nrrd.space = 0 ∨ airEnumValCheck nrrdSpace nrrd.space = 0
  · by_cases hS : nrrd.spaceDim ≤ SM
    · by_cases h0 : nrrd.spaceDim = 0
      · rw [spaceInfo_zero nrrd h0, if_neg (not_not.mpr hv)] at h
        by_cases c1 : nrrd.space ≠ 0
        · rw [if_pos c1] at h
          injection h with h
          exact Or.inr (Or.inr (Or.inl h.symm))
        · rw [if_neg c1] at h
          by_cases c2 : spaceInfoAnyUnits nrrd = true
          · rw [if_pos c2] at h
            injection h with h
            exact Or.inr (Or.inr (Or.inr (Or.inl h.symm)))
          · rw [if_neg c2] at h
            by_cases c3 : spaceInfoAnyOrigin nrrd = true
            · rw [if_pos c3] at h
              injection h with h
              exact Or.inr (Or.inr (Or.inr (Or.inr (Or.inl h.symm))))
            · rw [if_neg c3] at h
              by_cases c4 : spaceInfoAnyDirection nrrd = true
              · rw [if_pos c4] at h
                injection h with h
                exact Or.inr (Or.inr (Or.inr (Or.inr (Or.inr (Or.inl h.symm)))))
              · rw [if_neg c4] at h
                cases h
      · have hp : 0 < nrrd.spaceDim := Nat.pos_of_ne_zero h0
        rw [spaceInfo_pos nrrd hp hS hv, Res.andThen_eq_fail, Res.andThen_eq_fail,
          Res.andThen_eq_fail] at h
        exact Or.inr (Or.inr (Or.inr (Or.inr (Or.inr (Or.inr ⟨hv, hp, hS, h⟩)))))
    · unfold _nrrdFieldCheckSpaceInfo at h
      rw [if_neg (not_not.mpr hv), if_pos hS] at h
      injection h with h
      exact Or.inr (Or.inl h.symm)
  · unfold _nrrdFieldCheckSpaceInfo at h
    rw [if_pos hv] at h
    injection h with h
    exact Or.inl h.symm

theorem spaceInfoAxis_fail (nrrd : Nrrd DM SM) (i : Fin DM) (h0 : 0 < nrrd.spaceDim)
    (hS : nrrd.spaceDim ≤ SM) {e : NrrdErr} (h : spaceInfoAxis nrrd i.val = Res.fail e) :
    (∃ k, e = NrrdErr.directionExistence i.val k ∧ 1 ≤ k ∧ k < nrrd.spaceDim
        ∧ (∃ hk : k < SM, AIR_EXISTS ((nrrd.axis i).spaceDirection ⟨k, hk⟩)
            ≠ AIR_EXISTS ((nrrd.axis i).spaceDirection ⟨0, Nat.lt_of_lt_of_le h0 hS⟩))
        ∧ ∀ j : Fin SM, 1 ≤ j.val → j.val < k →
            AIR_EXISTS ((nrrd.axis i).spaceDirection j)
              = AIR_EXISTS ((nrrd.axis i).spaceDirection ⟨0, Nat.lt_of_lt_of_le h0 hS⟩))
      ∨ (e = NrrdErr.directionExclusive i.val
          ∧ (∀ k : Fin SM, k.val < nrrd.spaceDim →
              AIR_EXISTS ((nrrd.axis i).spaceDirection k)
                = AIR_EXISTS ((nrrd.axis i).spaceDirection ⟨0, Nat.lt_of_lt_of_le h0 hS⟩))
          ∧ AIR_EXISTS ((nrrd.axis i).spaceDirection ⟨0, Nat.lt_of_lt_of_le h0 hS⟩) = true
          ∧ (AIR_EXISTS (nrrd.axis i).min = true ∨ AIR_EXISTS (nrrd.axis i).max = true
              ∨ AIR_EXISTS (nrrd.axis i).spacing = true
              ∨ airStrlen (nrrd.axis i).units ≠ 0)) := by
  have hSM : 0 < SM := Nat.lt_of_lt_of_le h0 hS
  rw [spaceInfoAxis_eq nrrd i hSM, Res.andThen_eq_fail] at h
  rcases h with h | ⟨hloop, htail⟩
  · left
    rw [forEach_range'_eq_fail] at h
    obtain ⟨k, hk1, hk2, hb, hprev⟩ := h
    have hk3 : k < nrrd.spaceDim := by omega
    have hkS : k < SM := by omega
    rw [existStep _ _ _ hkS] at hb
    by_cases hc : AIR_EXISTS ((nrrd.axis i).spaceDirection ⟨k, hkS⟩)
        = AIR_EXISTS ((nrrd.axis i).spaceDirection ⟨0, hSM⟩)
    · rw [if_pos hc] at hb
      cases hb
    · rw [if_neg hc] at hb
      injection hb with hb
      refine ⟨k, hb.symm, hk1, hk3, ⟨hkS, hc⟩, ?_⟩
      intro j hj1 hj2
      have hpj := hprev j.val hj1 hj2
      rw [existStep _ _ _ j.isLt] at hpj
      by_cases hcj : AIR_EXISTS ((nrrd.axis i).spaceDirection ⟨j.val, j.isLt⟩)
          = AIR_EXISTS ((nrrd.axis i).spaceDirection ⟨0, hSM⟩)
      · exact hcj
      · rw [if_neg hcj] at hpj
        cases hpj
  · right
    have hall := (existLoop_eq_pass (nrrd.axis i).spaceDirection
      (AIR_EXISTS ((nrrd.axis i).spaceDirection ⟨0, hSM⟩))
      (fun ii => NrrdErr.directionExistence i.val ii)
      (List.range' 1 (nrrd.spaceDim - 1)) (fun ii hii => by
        have := mem_range'_one hii
        omega)).mp hloop
    by_cases hd0 : AIR_EXISTS ((nrrd.axis i).spaceDirection ⟨0, hSM⟩) = true
    · rw [if_pos hd0] at htail
      by_cases hsc : AIR_EXISTS (nrrd.axis i).min = true ∨ AIR_EXISTS (nrrd.axis i).max = true
          ∨ AIR_EXISTS (nrrd.axis i).spacing = true ∨ airStrlen (nrrd.axis i).units ≠ 0
      · rw [if_pos hsc] at htail
        injection htail with htail
        refine ⟨htail.symm, ?_, hd0, hsc⟩
        intro k hk
        by_cases hk0 : k.val = 0
        · have : k = ⟨0, hSM⟩ := Fin.ext hk0
          rw [this]
        · refine hall k ?_
          rw [List.mem_range'_1]
          omega
      · rw [if_neg hsc] at htail
        cases htail
    · rw [if_neg hd0] at htail
      cases htail

theorem spaceInfoAxis_fail_lt (nrrd : Nrrd DM SM) {i : Nat} {e : NrrdErr}
    (h : spaceInfoAxis nrrd i = Res.fail e) : i < DM := by
  by_contra hc
  unfold spaceInfoAxis at h
  rw [rd_ge nrrd.axis (Nat.not_lt.mp hc)] at h
  cases h

theorem vecConsistent_iff_zero (sd : Nat) (v : Fin SM → Dbl) (hz : 0 < SM) (h0 : 0 < sd) :
    VecConsistent sd v ↔
      ∀ i : Fin SM, i.val < sd → AIR_EXISTS (v i) = AIR_EXISTS (v ⟨0, hz⟩) := by
  constructor
  · intro h i hi
    exact h i ⟨0, hz⟩ hi h0
  · intro h i j hi hj
    rw [h i hi, h j hj]

theorem frameBlockConsistent_iff (nrrd : Nrrd DM SM) (hz : 0 < SM) :
    FrameBlockConsistent nrrd ↔
      ∀ dd ii : Fin SM, dd.val < nrrd.spaceDim → ii.val < nrrd.spaceDim →
        AIR_EXISTS (nrrd.measurementFrame dd ii)
          = AIR_EXISTS (nrrd.measurementFrame ⟨0, hz⟩ ⟨0, hz⟩) := by
  constructor
  · intro h dd ii hdd hii
    exact h dd ii ⟨0, hz⟩ hdd hii rfl
  · intro h dd ii z hdd hii hzz
    have : z = ⟨0, hz⟩ := Fin.ext hzz
    rw [this]
    exact h dd ii hdd hii

theorem hasDirection_iff (ax : NrrdAxisInfo SM) (hz : 0 < SM) :
    HasDirection ax ↔ AIR_EXISTS (ax.spaceDirection ⟨0, hz⟩) = true := by
  constructor
  · rintro ⟨z, hz0, h⟩
    have : z = ⟨0, hz⟩ := Fin.ext hz0
    rw [← this]
    exact h
  · intro h
    exact ⟨⟨0, hz⟩, rfl, h⟩

theorem scalars_unset_iff (ax : NrrdAxisInfo SM) :
    ¬ (AIR_EXISTS ax.min = true ∨ AIR_EXISTS ax.max = true
        ∨ AIR_EXISTS ax.spacing = true ∨ airStrlen ax.units ≠ 0)
    ↔ (AIR_EXISTS ax.min = false ∧ AIR_EXISTS ax.max = false
        ∧ AIR_EXISTS ax.spacing = false ∧ airStrlen ax.units = 0) := by
  cases AIR_EXISTS ax.min <;> cases AIR_EXISTS ax.max <;> cases AIR_EXISTS ax.spacing <;>
    simp

/-- One axis passes the test of lines 612-630 exactly when it satisfies I4 and
I5. -/
theorem spaceInfoAxis_pass_iff (nrrd : Nrrd DM SM) (dd : Fin DM)
    (h0 : 0 < nrrd.spaceDim) (hS : nrrd.spaceDim ≤ SM) :
    spaceInfoAxis nrrd dd.val = Res.pass ↔
      AxisSpaceConsistent nrrd.spaceDim (nrrd.axis dd) := by
  have hz : 0 < SM := Nat.lt_of_lt_of_le h0 hS
  rw [spaceInfoAxis_eq_pass nrrd dd h0 hS]
  unfold AxisSpaceConsistent
  rw [vecConsistent_iff_zero _ _ hz h0, hasDirection_iff _ hz, scalars_unset_iff]

/-- The header tests pass exactly when the header is consistent. -/
theorem spaceInfo_header_iff (nrrd : Nrrd DM SM) :
    SpaceHeaderConsistent nrrd ↔
      (nrrd.space = 0 ∨ airEnumValCheck nrrdSpace nrrd.space = 0)
        ∧ 0 < nrrd.spaceDim ∧ nrrd.spaceDim ≤ SM
        ∧ spaceInfoLabel nrrd = Res.pass ∧ spaceInfoOrigin nrrd = Res.pass
        ∧ spaceInfoFrame nrrd = Res.pass := by
  unfold SpaceHeaderConsistent
  constructor
  · rintro ⟨hv, h0, hS, hl, ho, hf⟩
    have hz : 0 < SM := Nat.lt_of_lt_of_le h0 hS
    exact ⟨hv, h0, hS, (spaceInfoLabel_eq_pass nrrd).mpr hl,
      (spaceInfoOrigin_eq_pass nrrd h0 hS).mpr ((vecConsistent_iff_zero _ _ hz h0).mp ho),
      (spaceInfoFrame_eq_pass nrrd h0 hS).mpr ((frameBlockConsistent_iff nrrd hz).mp hf)⟩
  · rintro ⟨hv, h0, hS, hl, ho, hf⟩
    have hz : 0 < SM := Nat.lt_of_lt_of_le h0 hS
    exact ⟨hv, h0, hS, (spaceInfoLabel_eq_pass nrrd).mp hl,
      (vecConsistent_iff_zero _ _ hz h0).mpr ((spaceInfoOrigin_eq_pass nrrd h0 hS).mp ho),
      (frameBlockConsistent_iff nrrd hz).mpr ((spaceInfoFrame_eq_pass nrrd h0 hS).mp hf)⟩

/-- The checker fails with a message of the axis loop exactly when the header
is consistent and the loop fails with that message. -/
theorem spaceInfo_fail_axis_iff (nrrd : Nrrd DM SM) (e : NrrdErr)
    (he : (∃ d ii, e = NrrdErr.directionExistence d ii) ∨ ∃ d, e = NrrdErr.directionExclusive d) :
    _nrrdFieldCheckSpaceInfo nrrd = Res.fail e ↔
      SpaceHeaderConsistent nrrd ∧ spaceInfoDirections nrrd = Res.fail e := by
  rw [spaceInfo_header_iff]
  constructor
  · intro h
    rcases spaceInfo_fail_cases nrrd h with hx | hx | hx | hx | hx | hx | hx
    · subst hx; rcases he with ⟨_, _, h2⟩ | ⟨_, h2⟩ <;> cases h2
    · subst hx; rcases he with ⟨_, _, h2⟩ | ⟨_, h2⟩ <;> cases h2
    · subst hx; rcases he with ⟨_, _, h2⟩ | ⟨_, h2⟩ <;> cases h2
    · subst hx; rcases he with ⟨_, _, h2⟩ | ⟨_, h2⟩ <;> cases h2
    · subst hx; rcases he with ⟨_, _, h2⟩ | ⟨_, h2⟩ <;> cases h2
    · subst hx; rcases he with ⟨_, _, h2⟩ | ⟨_, h2⟩ <;> cases h2
    · obtain ⟨hv, hp, hS, hchain⟩ := hx
      rcases hchain with hl | ⟨hl, hchain⟩
      · have := spaceInfoLabel_fail nrrd hl
        subst this; rcases he with ⟨_, _, h2⟩ | ⟨_, h2⟩ <;> cases h2
      rcases hchain with ho | ⟨ho, hchain⟩
      · obtain ⟨i1, hi1⟩ := spaceInfoOrigin_fail nrrd ho
        subst hi1; rcases he with ⟨_, _, h2⟩ | ⟨_, h2⟩ <;> cases h2
      rcases hchain with hf | ⟨hf, hdirs⟩
      · obtain ⟨i1, i2, hi1⟩ := spaceInfoFrame_fail nrrd hf
        subst hi1; rcases he with ⟨_, _, h2⟩ | ⟨_, h2⟩ <;> cases h2
      exact ⟨⟨hv, hp, hS, hl, ho, hf⟩, hdirs⟩
  · rintro ⟨⟨hv, hp, hS, hl, ho, hf⟩, hdirs⟩
    rw [spaceInfo_pos nrrd hp hS hv, hl, ho, hf, hdirs]
    rfl

/-- The axis loop fails with a message exactly when some declared axis
produces it and every earlier axis satisfies I4 and I5. -/
theorem spaceInfoDirections_eq_fail (nrrd : Nrrd DM SM) (e : NrrdErr)
    (h0 : 0 < nrrd.spaceDim) (hS : nrrd.spaceDim ≤ SM) :
    spaceInfoDirections nrrd = Res.fail e ↔
      ∃ i : Fin DM, i.val < nrrd.dim ∧ spaceInfoAxis nrrd i.val = Res.fail e
        ∧ ∀ j : Fin DM, j.val < i.val → AxisSpaceConsistent nrrd.spaceDim (nrrd.axis j) := by
  unfold spaceInfoDirections
  rw [List.range_eq_range', forEach_range'_eq_fail]
  constructor
  · rintro ⟨i, _, hi, hax, hprev⟩
    have hiDM : i < DM := spaceInfoAxis_fail_lt nrrd hax
    refine ⟨⟨i, hiDM⟩, by simpa using hi, hax, fun j hj => ?_⟩
    exact (spaceInfoAxis_pass_iff nrrd j h0 hS).mp (hprev j.val (Nat.zero_le _) hj)
  · rintro ⟨i, hi, hax, hprev⟩
    refine ⟨i.val, Nat.zero_le _, by simpa using hi, hax, fun j _ hj => ?_⟩
    exact (spaceInfoAxis_pass_iff nrrd ⟨j, Nat.lt_trans hj i.isLt⟩ h0 hS).mpr
      (hprev ⟨j, Nat.lt_trans hj i.isLt⟩ hj)

/-- One axis produces the message of an inconsistent direction exactly at the
first coefficient that differs in existence from coefficient 0. -/
theorem spaceInfoAxis_eq_existence (nrrd : Nrrd DM SM) (i : Fin DM) (d ii : Nat)
    (h0 : 0 < nrrd.spaceDim) (hS : nrrd.spaceDim ≤ SM) :
    spaceInfoAxis nrrd i.val = Res.fail (NrrdErr.directionExistence d ii) ↔
      d = i.val ∧ FirstDisagreement nrrd.spaceDim (nrrd.axis i).spaceDirection ii := by
  have hz : 0 < SM := Nat.lt_of_lt_of_le h0 hS
  unfold FirstDisagreement
  constructor
  · intro h
    rcases spaceInfoAxis_fail nrrd i h0 hS h with ⟨k, hk, hk1, hk2, ⟨hkS, hne⟩, hprev⟩ | ⟨hk, _⟩
    · injection hk with hd hkk
      subst hkk
      refine ⟨hd, hk1, hk2, ?_, hkS, hz, hne⟩
      rw [vecConsistent_iff_zero _ _ hz (by omega)]
      intro j hj
      by_cases hj0 : j.val = 0
      · have : j = ⟨0, hz⟩ := Fin.ext hj0
        rw [this]
      · exact hprev j (by omega) hj
    · cases hk
  · rintro ⟨hd, hk1, hk2, hcons, hkS, _, hne⟩
    subst hd
    rw [vecConsistent_iff_zero _ _ hz (by omega)] at hcons
    rw [spaceInfoAxis_eq nrrd i hz, Res.andThen_eq_fail]
    left
    rw [forEach_range'_eq_fail]
    refine ⟨ii, hk1, by omega, ?_, ?_⟩
    · rw [existStep _ _ _ hkS, if_neg hne]
    · intro j hj1 hj2
      rw [existStep _ _ _ (show j < SM by omega), if_pos (hcons ⟨j, by omega⟩ hj2)]

/-- One axis produces the message of the mutual exclusion exactly when its
direction is consistent and existent and one of `min`, `max`, `spacing`,
`units` is set. -/
theorem spaceInfoAxis_eq_exclusive (nrrd : Nrrd DM SM) (i : Fin DM) (d : Nat)
    (h0 : 0 < nrrd.spaceDim) (hS : nrrd.spaceDim ≤ SM) :
    spaceInfoAxis nrrd i.val = Res.fail (NrrdErr.directionExclusive d) ↔
      d = i.val ∧ VecConsistent nrrd.spaceDim (nrrd.axis i).spaceDirection
        ∧ HasDirection (nrrd.axis i)
        ∧ (AIR_EXISTS (nrrd.axis i).min = true ∨ AIR_EXISTS (nrrd.axis i).max = true
            ∨ AIR_EXISTS (nrrd.axis i).spacing = true
            ∨ airStrlen (nrrd.axis i).units ≠ 0) := by
  have hz : 0 < SM := Nat.lt_of_lt_of_le h0 hS
  rw [vecConsistent_iff_zero _ _ hz h0, hasDirection_iff _ hz]
  constructor
  · intro h
    rcases spaceInfoAxis_fail nrrd i h0 hS h with ⟨k, hk, _⟩ | ⟨hk, hk1, hk2, hk3⟩
    · cases hk
    · injection hk with hd
      exact ⟨hd, hk1, hk2, hk3⟩
  · rintro ⟨hd, hcons, hdir, hset⟩
    subst hd
    rw [spaceInfoAxis_eq nrrd i hz, Res.andThen_eq_fail]
    right
    refine ⟨?_, ?_⟩
    · rw [existLoop_eq_pass _ _ _ _ fun ii hii => by
        have := mem_range'_one hii
        omega]
      intro k hk
      exact hcons k (mem_range'_one hk).2
    · rw [if_pos hdir, if_pos hset]

/-- C32: the consistency checker fails with the message of an inconsistent
direction vector on axis `d` at coefficient `ii` exactly when the label is unset
or recognised, `spaceDim` is positive, in range and the one of the label,
`spaceOrigin` and the leading block of `measurementFrame` are not partially
existent, `d` is a declared axis, every axis below `d` has a consistent
direction vector and none next to min, max, spacing or units, and `ii` is the
first coefficient of the direction of axis `d` that differs in existence from
coefficient 0.  It fails with the message of the mutual exclusion on axis `d`
exactly when the same holds for the header and the earlier axes, and the
direction vector of axis `d` is consistent, exists, and stands next to a min,
max, spacing or units: on one axis the inconsistency is reported first. -/
theorem spaceInfo_first_violation (nrrd : Nrrd DM SM) (d ii : Nat) :
    (_nrrdFieldCheckSpaceInfo nrrd = Res.fail (NrrdErr.directionExistence d ii) ↔
      SpaceHeaderConsistent nrrd ∧ d < nrrd.dim
        ∧ ∃ hd : d < DM,
            (∀ j : Fin DM, j.val < d → AxisSpaceConsistent nrrd.spaceDim (nrrd.axis j))
            ∧ FirstDisagreement nrrd.spaceDim (nrrd.axis ⟨d, hd⟩).spaceDirection ii)
    ∧ (_nrrdFieldCheckSpaceInfo nrrd = Res.fail (NrrdErr.directionExclusive d) ↔
      SpaceHeaderConsistent nrrd ∧ d < nrrd.dim
        ∧ ∃ hd : d < DM,
            (∀ j : Fin DM, j.val < d → AxisSpaceConsistent nrrd.spaceDim (nrrd.axis j))
            ∧ VecConsistent nrrd.spaceDim (nrrd.axis ⟨d, hd⟩).spaceDirection
            ∧ HasDirection (nrrd.axis ⟨d, hd⟩)
            ∧ (AIR_EXISTS (nrrd.axis ⟨d, hd⟩).min = true
                ∨ AIR_EXISTS (nrrd.axis ⟨d, hd⟩).max = true
                ∨ AIR_EXISTS (nrrd.axis ⟨d, hd⟩).spacing = true
                ∨ airStrlen (nrrd.axis ⟨d, hd⟩).units ≠ 0)) := by
  constructor
  · rw [spaceInfo_fail_axis_iff nrrd _ (Or.inl ⟨d, ii, rfl⟩)]
    constructor
    · rintro ⟨hh, hdirs⟩
      have h0 := hh.2.1
      have hS := hh.2.2.1
      obtain ⟨i, hi, hax, hprev⟩ := (spaceInfoDirections_eq_fail nrrd _ h0 hS).mp hdirs
      obtain ⟨hd, hfd⟩ := (spaceInfoAxis_eq_existence nrrd i d ii h0 hS).mp hax
      subst hd
      exact ⟨hh, hi, i.isLt, hprev, hfd⟩
    · rintro ⟨hh, hdim, hd, hprev, hfd⟩
      have h0 := hh.2.1
      have hS := hh.2.2.1
      refine ⟨hh, (spaceInfoDirections_eq_fail nrrd _ h0 hS).mpr ⟨⟨d, hd⟩, hdim, ?_, hprev⟩⟩
      exact (spaceInfoAxis_eq_existence nrrd ⟨d, hd⟩ d ii h0 hS).mpr ⟨rfl, hfd⟩
  · rw [spaceInfo_fail_axis_iff nrrd _ (Or.inr ⟨d, rfl⟩)]
    constructor
    · rintro ⟨hh, hdirs⟩
      have h0 := hh.2.1
      have hS := hh.2.2.1
      obtain ⟨i, hi, hax, hprev⟩ := (spaceInfoDirections_eq_fail nrrd _ h0 hS).mp hdirs
      obtain ⟨hd, hrest⟩ := (spaceInfoAxis_eq_exclusive nrrd i d h0 hS).mp hax
      subst hd
      exact ⟨hh, hi, i.isLt, hprev, hrest⟩
    · rintro ⟨hh, hdim, hd, hprev, hrest⟩
      have h0 := hh.2.1
      have hS := hh.2.2.1
      refine ⟨hh, (spaceInfoDirections_eq_fail nrrd _ h0 hS).mpr ⟨⟨d, hd⟩, hdim, ?_, hprev⟩⟩
      exact (spaceInfoAxis_eq_exclusive nrrd ⟨d, hd⟩ d h0 hS).mpr ⟨rfl, hrest⟩

set_option maxRecDepth 100000 in
/-- C32, at concrete objects: the oriented example with coefficient 2 of the
direction of axis 1 unset fails on axis 1 at coefficient 2, and the one with a
min on axis 1 fails on axis 1 with the exclusion; in both the frame is
consistent, axis 1 is declared and axis 0 satisfies I4 and I5.  With the
row-wise frame in addition, the frame is not consistent and the checker reports
coefficient `[1][0]` of the frame, not the direction of axis 1. -/
theorem spaceInfo_first_violation_witness :
    (_nrrdFieldCheckSpaceInfo nrrdPartialDirection = Res.fail (NrrdErr.directionExistence 1 2)
        ∧ FrameBlockConsistent nrrdPartialDirection
        ∧ 1 < nrrdPartialDirection.dim
        ∧ ∃ hd : 1 < 16,
            (∀ j : Fin 16, j.val < 1 → AxisSpaceConsistent 3 (nrrdPartialDirection.axis j))
            ∧ FirstDisagreement 3 (nrrdPartialDirection.axis ⟨1, hd⟩).spaceDirection 2)
      ∧ (_nrrdFieldCheckSpaceInfo nrrdOrientedWithMin = Res.fail (NrrdErr.directionExclusive 1)
        ∧ FrameBlockConsistent nrrdOrientedWithMin
        ∧ 1 < nrrdOrientedWithMin.dim
        ∧ ∃ hd : 1 < 16,
            (∀ j : Fin 16, j.val < 1 → AxisSpaceConsistent 3 (nrrdOrientedWithMin.axis j))
            ∧ VecConsistent 3 (nrrdOrientedWithMin.axis ⟨1, hd⟩).spaceDirection)
      ∧ (¬ FrameBlockConsistent nrrdRowFramePartialDirection
        ∧ _nrrdFieldCheckSpaceInfo nrrdRowFramePartialDirection
            = Res.fail (NrrdErr.frameExistence 1 0)
        ∧ _nrrdFieldCheckSpaceInfo nrrdRowFramePartialDirection
            ≠ Res.fail (NrrdErr.directionExistence 1 2)) :=
  have h1 : _nrrdFieldCheckSpaceInfo nrrdPartialDirection
      = Res.fail (NrrdErr.directionExistence 1 2) := by decide
  have h2 : _nrrdFieldCheckSpaceInfo nrrdOrientedWithMin
      = Res.fail (NrrdErr.directionExclusive 1) := by decide
  have h3 : ¬ FrameBlockConsistent nrrdRowFramePartialDirection := by decide
  have h4 : _nrrdFieldCheckSpaceInfo nrrdRowFramePartialDirection
      = Res.fail (NrrdErr.frameExistence 1 0) := by decide
  have r1 := (spaceInfo_first_violation nrrdPartialDirection 1 2).1.mp h1
  have r2 := (spaceInfo_first_violation nrrdOrientedWithMin 1 0).2.mp h2
  ⟨⟨h1, r1.1.2.2.2.2.2, r1.2.1, r1.2.2⟩,
    ⟨h2, r2.1.2.2.2.2.2, r2.2.1,
      r2.2.2.elim fun hd h => ⟨hd, h.1, h.2.1⟩⟩,
    ⟨h3, h4, fun h =>
      h3 ((spaceInfo_first_violation nrrdRowFramePartialDirection 1 2).1.mp h).1.2.2.2.2.2⟩⟩

end FirstViolation

section OriginNaN

/-- C34 (the code at a failing input): axes 0 and 1 are requested, both have
size 5 and a min, max and spacing that are NaN or finite, and the call returns
`nrrdOriginStatusOkay`; yet axis 1 has no existent min, and the coordinate
written for it is NaN. -/
theorem originCalculate_okay_nan_coordinate :
    (∀ a : Fin 16, a.val < 2 →
        1 ≤ (nrrdSecondNoMin.axis a).size
          ∧ airIsInf_d (nrrdSecondNoMin.axis a).min = 0
          ∧ airIsInf_d (nrrdSecondNoMin.axis a).max = 0
          ∧ airIsInf_d (nrrdSecondNoMin.axis a).spacing = 0)
      ∧ AIR_EXISTS (nrrdSecondNoMin.axis 1).min = false
      ∧ ∃ out : List Dbl,
          nrrdOriginCalculate 64 (some nrrdSecondNoMin) [0, 1] nrrdCenterCell true
              = some (nrrdOriginStatus.Okay, some out)
            ∧ out[1]? = some Dbl.nan
            ∧ (out[1]?.map AIR_EXISTS) = some false := by
  exact ⟨by decide, by decide, [Dbl.fin 1, Dbl.nan], originCalculate_secondNoMin, rfl, rfl⟩

end OriginNaN

/-! ## The aggregate check: order of the validators -/

section AggregateLemmas

variable {DM SM : Nat}

theorem forEach_range'_ne_stuck_seq (body : Nat → Res) (n : Nat) :
    ∀ s : Nat,
      (∀ i, s ≤ i → i < s + n → (∀ j, s ≤ j → j < i → body j = Res.pass) →
        body i ≠ Res.stuck) →
      forEach (List.range' s n) body ≠ Res.stuck := by
  induction n with
  | zero => intro s _; exact Res.pass_ne_stuck
  | succ n ih =>
    intro s h
    rw [List.range'_succ, forEach]
    have hs : body s ≠ Res.stuck := h s (le_refl s) (by omega) (fun j h1 h2 => by omega)
    by_cases hp : body s = Res.pass
    · rw [hp, Res.andThen_pass]
      refine ih (s + 1) fun i hi1 hi2 hprev => h i (by omega) (by omega) fun j hj1 hj2 => ?_
      by_cases hjs : j = s
      · rw [hjs]; exact hp
      · exact hprev j (by omega) hj2
    · cases hb : body s with
      | pass => exact absurd hb hp
      | fail e => exact Res.fail_ne_stuck e
      | stuck => exact absurd hb hs

theorem fieldCheck_ne_stuck (T : Tables) (w : Nat) (n : Nrrd DM SM) (hd : n.dim ≤ DM)
    (fi : Nat) (hfi : fi < 33) : _nrrdFieldCheck T w fi n ≠ Res.stuck := by
  have h_space : _nrrdFieldCheckSpaceInfo n ≠ Res.stuck := spaceInfo_ne_stuck n hd
  have h_type : _nrrdFieldCheck_type n ≠ Res.stuck := by
    unfold _nrrdFieldCheck_type
    split_ifs <;> first | exact Res.fail_ne_stuck _ | exact Res.pass_ne_stuck
  have h_block : _nrrdFieldCheck_block_size n ≠ Res.stuck := by
    unfold _nrrdFieldCheck_block_size
    split_ifs <;> first | exact Res.fail_ne_stuck _ | exact Res.pass_ne_stuck
  have h_dim : _nrrdFieldCheck_dimension n ≠ Res.stuck := by
    unfold _nrrdFieldCheck_dimension
    split_ifs <;> first | exact Res.fail_ne_stuck _ | exact Res.pass_ne_stuck
  have h_sizes : _nrrdFieldCheck_sizes w n ≠ Res.stuck := by
    unfold _nrrdFieldCheck_sizes
    rw [nrrdAxisInfoGet_nva_size n hd, Res.read_some]
    exact sizeCheckLoop_ne_stuck w _ 1 0
  have h_spacings : _nrrdFieldCheck_spacings n ≠ Res.stuck := by
    unfold _nrrdFieldCheck_spacings
    refine Res.andThen_ne_stuck (forAxisInfo_ne_stuck n _ _ hd fun a => ?_) h_space
    dsimp only
    split_ifs <;> first | exact Res.fail_ne_stuck _ | exact Res.pass_ne_stuck
  have h_thick : _nrrdFieldCheck_thicknesses n ≠ Res.stuck := by
    unfold _nrrdFieldCheck_thicknesses
    refine forAxisInfo_ne_stuck n _ _ hd fun a => ?_
    dsimp only
    split_ifs <;> first | exact Res.fail_ne_stuck _ | exact Res.pass_ne_stuck
  have h_mins : _nrrdFieldCheck_axis_mins n ≠ Res.stuck := by
    unfold _nrrdFieldCheck_axis_mins
    refine Res.andThen_ne_stuck (forAxisInfo_ne_stuck n _ _ hd fun a => ?_) h_space
    dsimp only
    split_ifs <;> first | exact Res.fail_ne_stuck _ | exact Res.pass_ne_stuck
  have h_maxs : _nrrdFieldCheck_axis_maxs n ≠ Res.stuck := by
    unfold _nrrdFieldCheck_axis_maxs
    refine Res.andThen_ne_stuck (forAxisInfo_ne_stuck n _ _ hd fun a => ?_) h_space
    dsimp only
    split_ifs <;> first | exact Res.fail_ne_stuck _ | exact Res.pass_ne_stuck
  have h_centers : _nrrdFieldCheck_centers n ≠ Res.stuck := by
    unfold _nrrdFieldCheck_centers
    refine forAxisInfo_ne_stuck n _ _ hd fun a => ?_
    dsimp only
    split_ifs <;> first | exact Res.fail_ne_stuck _ | exact Res.pass_ne_stuck
  have h_kinds : _nrrdFieldCheck_kinds T n ≠ Res.stuck := by
    rw [kinds_eq T n hd]
    refine forEach_ne_stuck ?_
    intro i hi
    have hi2 : i < DM := by have := List.mem_range'_1.mp hi; omega
    rw [dif_pos hi2]
    exact kindsAxis_ne_stuck T i _
  have h_oldmin : _nrrdFieldCheck_old_min n ≠ Res.stuck := by
    unfold _nrrdFieldCheck_old_min
    split_ifs <;> first | exact Res.fail_ne_stuck _ | exact Res.pass_ne_stuck
  have h_oldmax : _nrrdFieldCheck_old_max n ≠ Res.stuck := by
    unfold _nrrdFieldCheck_old_max
    split_ifs <;> first | exact Res.fail_ne_stuck _ | exact Res.pass_ne_stuck
  interval_cases fi
  all_goals first
    | exact Res.pass_ne_stuck
    | exact h_space
    | exact h_type
    | exact h_block
    | exact h_dim
    | exact h_sizes
    | exact h_spacings
    | exact h_thick
    | exact h_mins
    | exact h_maxs
    | exact h_centers
    | exact h_kinds
    | exact h_oldmin
    | exact h_oldmax

theorem fieldCheck_early_ne_stuck (T : Tables) (w : Nat) (n : Nrrd DM SM)
    (fi : Nat) (hfi : fi ≤ 6) : _nrrdFieldCheck T w fi n ≠ Res.stuck := by
  have h_type : _nrrdFieldCheck_type n ≠ Res.stuck := by
    unfold _nrrdFieldCheck_type
    split_ifs <;> first | exact Res.fail_ne_stuck _ | exact Res.pass_ne_stuck
  have h_block : _nrrdFieldCheck_block_size n ≠ Res.stuck := by
    unfold _nrrdFieldCheck_block_size
    split_ifs <;> first | exact Res.fail_ne_stuck _ | exact Res.pass_ne_stuck
  have h_dim : _nrrdFieldCheck_dimension n ≠ Res.stuck := by
    unfold _nrrdFieldCheck_dimension
    split_ifs <;> first | exact Res.fail_ne_stuck _ | exact Res.pass_ne_stuck
  interval_cases fi
  all_goals first
    | exact Res.pass_ne_stuck
    | exact h_type
    | exact h_block
    | exact h_dim

theorem checkField_ne_stuck (T : Tables) (w : Nat) (n : Nrrd DM SM) (fi : Nat)
    (h : _nrrdFieldCheck T w fi n ≠ Res.stuck) : checkField T w n fi ≠ Res.stuck := by
  unfold checkField
  cases hc : _nrrdFieldCheck T w fi n with
  | pass => exact Res.pass_ne_stuck
  | fail e => exact Res.fail_ne_stuck _
  | stuck => exact absurd hc h

theorem dimension_of_prefix (T : Tables) (w : Nat) (n : Nrrd DM SM) (fi : Nat) (h6 : 6 < fi)
    (hprev : ∀ fj, nrrdField_unknown < fj → fj < fi → checkField T w n fj = Res.pass) :
    1 ≤ n.dim ∧ n.dim ≤ DM := by
  have h := (checkField_eq_pass T w n 6).mp (hprev 6 (by decide) h6)
  have h2 : _nrrdFieldCheck_dimension n = Res.pass := h
  unfold _nrrdFieldCheck_dimension at h2
  by_contra hc
  rw [if_pos hc] at h2
  cases h2

theorem aggregate_ne_stuck (T : Tables) (w : Nat) (nrrd : Option (Nrrd DM SM))
    (checkData : Bool) : _nrrdCheck T w nrrd checkData ≠ Res.stuck := by
  cases nrrd with
  | none => exact Res.fail_ne_stuck _
  | some n =>
    unfold _nrrdCheck
    dsimp only
    split_ifs
    · exact Res.fail_ne_stuck _
    · refine forEach_range'_ne_stuck_seq _ _ _ fun fi h1 h2 hprev => ?_
      have hlt : fi < 33 := by
        have : nrrdField_unknown + 1 + (nrrdField_last - (nrrdField_unknown + 1)) = 33 := by
          decide
        omega
      refine checkField_ne_stuck T w n fi ?_
      by_cases h6 : fi ≤ 6
      · exact fieldCheck_early_ne_stuck T w n fi h6
      · have hd := dimension_of_prefix T w n fi (by omega) fun fj hj1 hj2 =>
          hprev fj (by have : nrrdField_unknown + 1 ≤ fj := hj1; exact this) hj2
        exact fieldCheck_ne_stuck T w n hd.2 fi hlt

theorem mapOpt_congr {α β : Type} (f g : α → Option β) :
    ∀ l : List α, (∀ x ∈ l, f x = g x) → mapOpt f l = mapOpt g l := by
  intro l
  induction l with
  | nil => intro _; rfl
  | cons x t ih =>
    intro h
    rw [mapOpt, mapOpt, h x (List.mem_cons_self _ _),
      ih fun y hy => h y (List.mem_cons_of_mem _ hy)]

theorem rd_declared (n : Nrrd DM SM) (ax : Fin DM → NrrdAxisInfo SM)
    (hax : ∀ a : Fin DM, a.val < n.dim → ax a = n.axis a) {ai : Nat} (h : ai < n.dim) :
    rd ax ai = rd n.axis ai := by
  by_cases hlt : ai < DM
  · rw [rd_lt ax hlt, rd_lt n.axis hlt, hax ⟨ai, hlt⟩ h]
  · rw [rd_ge ax (Nat.not_lt.mp hlt), rd_ge n.axis (Nat.not_lt.mp hlt)]

theorem forAxisInfo_declared {α : Type} (n : Nrrd DM SM) (ax : Fin DM → NrrdAxisInfo SM)
    (hax : ∀ a : Fin DM, a.val < n.dim → ax a = n.axis a) (info : NrrdAxisInfo SM → α)
    (body : Nat → α → Res) :
    forAxisInfo { n with axis := ax } info body = forAxisInfo n info body := by
  unfold forAxisInfo
  refine forEach_congr ?_
  intro i hi
  have h := rd_declared n ax hax (List.mem_range.mp hi)
  show Res.read ((rd ax i).map info) (body i) = _
  rw [h]

theorem fieldCheck_declared (T : Tables) (w : Nat) (n : Nrrd DM SM)
    (ax : Fin DM → NrrdAxisInfo SM)
    (hax : ∀ a : Fin DM, a.val < n.dim → ax a = n.axis a) (hsd : n.spaceDim ≠ 0)
    (fi : Nat) (hfi : fi < 33) :
    _nrrdFieldCheck T w fi { n with axis := ax } = _nrrdFieldCheck T w fi n := by
  have h_space : _nrrdFieldCheckSpaceInfo { n with axis := ax } = _nrrdFieldCheckSpaceInfo n :=
    spaceInfo_declared_only n (Nat.pos_of_ne_zero hsd) ax fun dd hdd =>
      ⟨(n.axis dd).spaceDirection, by rw [hax dd hdd], fun _ _ => rfl⟩
  have h_sizes : _nrrdFieldCheck_sizes w { n with axis := ax } = _nrrdFieldCheck_sizes w n := by
    unfold _nrrdFieldCheck_sizes nrrdAxisInfoGet_nva
    have : mapOpt (fun ai => (rd ax ai).map NrrdAxisInfo.size) (List.range n.dim)
        = mapOpt (fun ai => (rd n.axis ai).map NrrdAxisInfo.size) (List.range n.dim) :=
      mapOpt_congr _ _ _ fun i hi => by
        show (rd ax i).map NrrdAxisInfo.size = _
        rw [rd_declared n ax hax (List.mem_range.mp hi)]
    exact congrArg (fun o => Res.read o fun size => _nrrdSizeCheck w size) this
  have h_spacings : _nrrdFieldCheck_spacings { n with axis := ax }
      = _nrrdFieldCheck_spacings n := by
    unfold _nrrdFieldCheck_spacings
    rw [forAxisInfo_declared n ax hax, h_space]
  have h_thick : _nrrdFieldCheck_thicknesses { n with axis := ax }
      = _nrrdFieldCheck_thicknesses n := by
    unfold _nrrdFieldCheck_thicknesses
    rw [forAxisInfo_declared n ax hax]
  have h_mins : _nrrdFieldCheck_axis_mins { n with axis := ax }
      = _nrrdFieldCheck_axis_mins n := by
    unfold _nrrdFieldCheck_axis_mins
    rw [forAxisInfo_declared n ax hax, h_space]
  have h_maxs : _nrrdFieldCheck_axis_maxs { n with axis := ax }
      = _nrrdFieldCheck_axis_maxs n := by
    unfold _nrrdFieldCheck_axis_maxs
    rw [forAxisInfo_declared n ax hax, h_space]
  have h_centers : _nrrdFieldCheck_centers { n with axis := ax }
      = _nrrdFieldCheck_centers n := by
    unfold _nrrdFieldCheck_centers
    rw [forAxisInfo_declared n ax hax]
  have h_kinds : _nrrdFieldCheck_kinds T { n with axis := ax }
      = _nrrdFieldCheck_kinds T n := by
    unfold _nrrdFieldCheck_kinds forAxisInfo
    refine forEach_congr ?_
    intro i hi
    have h := rd_declared n ax hax (List.mem_range.mp hi)
    show Res.read ((rd ax i).map NrrdAxisInfo.kind) (fun v =>
        if ¬ (nrrdKindUnknown = v ∨ airEnumValCheck T.nrrdKind v = 0)
        then Res.fail (NrrdErr.kind i)
        else
          Res.read (rd ax i) fun a =>
            if T.nrrdKindSize v ≠ 0 ∧ T.nrrdKindSize v ≠ a.size
            then Res.fail (NrrdErr.kindSize i) else Res.pass) = _
    rw [h]
  have h_type : _nrrdFieldCheck_type { n with axis := ax } = _nrrdFieldCheck_type n := rfl
  have h_block : _nrrdFieldCheck_block_size { n with axis := ax }
      = _nrrdFieldCheck_block_size n := rfl
  have h_dim : _nrrdFieldCheck_dimension { n with axis := ax }
      = _nrrdFieldCheck_dimension n := rfl
  have h_oldmin : _nrrdFieldCheck_old_min { n with axis := ax }
      = _nrrdFieldCheck_old_min n := rfl
  have h_oldmax : _nrrdFieldCheck_old_max { n with axis := ax }
      = _nrrdFieldCheck_old_max n := rfl
  have h_noop : _nrrdFieldCheck_noop { n with axis := ax } = _nrrdFieldCheck_noop n := rfl
  have h_labels : _nrrdFieldCheck_labels { n with axis := ax } = _nrrdFieldCheck_labels n := rfl
  have h_keyvalue : _nrrdFieldCheck_keyvalue { n with axis := ax }
      = _nrrdFieldCheck_keyvalue n := rfl
  exact match fi, hfi with
    | 0, _ => h_noop
    | 1, _ => h_noop
    | 2, _ => h_noop
    | 3, _ => h_noop
    | 4, _ => h_type
    | 5, _ => h_block
    | 6, _ => h_dim
    | 7, _ => h_space
    | 8, _ => h_space
    | 9, _ => h_sizes
    | 10, _ => h_spacings
    | 11, _ => h_thick
    | 12, _ => h_mins
    | 13, _ => h_maxs
    | 14, _ => h_space
    | 15, _ => h_centers
    | 16, _ => h_kinds
    | 17, _ => h_labels
    | 18, _ => h_space
    | 19, _ => h_noop
    | 20, _ => h_noop
    | 21, _ => h_oldmin
    | 22, _ => h_oldmax
    | 23, _ => h_noop
    | 24, _ => h_noop
    | 25, _ => h_noop
    | 26, _ => h_noop
    | 27, _ => h_keyvalue
    | 28, _ => h_noop
    | 29, _ => h_space
    | 30, _ => h_space
    | 31, _ => h_space
    | 32, _ => h_noop
    | k + 33, h => absurd h (by omega)

theorem aggregate_declared (T : Tables) (w : Nat) (n : Nrrd DM SM)
    (ax : Fin DM → NrrdAxisInfo SM)
    (hax : ∀ a : Fin DM, a.val < n.dim → ax a = n.axis a) (hsd : n.spaceDim ≠ 0)
    (checkData : Bool) :
    _nrrdCheck T w (some { n with axis := ax }) checkData = _nrrdCheck T w (some n) checkData := by
  unfold _nrrdCheck
  dsimp only
  have hloop : forEach
      (List.range' (nrrdField_unknown + 1) (nrrdField_last - (nrrdField_unknown + 1)))
      (checkField T w { n with axis := ax })
      = forEach
      (List.range' (nrrdField_unknown + 1) (nrrdField_last - (nrrdField_unknown + 1)))
      (checkField T w n) := by
    refine forEach_congr ?_
    intro fi hfi
    have h := mem_fieldRange.mp hfi
    unfold checkField
    rw [fieldCheck_declared T w n ax hax hsd fi h.2]
  rw [hloop]

end AggregateLemmas

section AggregateClaims

variable {DM SM : Nat}

/-- The aggregate check always returns, with 0 or 1. -/
theorem nrrdCheck_returns (T : Tables) (w : Nat) (biff : List NrrdErr)
    (nrrd : Option (Nrrd DM SM)) :
    (nrrdCheck T w biff nrrd).1.code = some 0 ∨ (nrrdCheck T w biff nrrd).1.code = some 1 := by
  have hns := aggregate_ne_stuck T w nrrd true
  have h1 : (nrrdCheck T w biff nrrd).1 = _nrrdCheck T w nrrd true := by
    unfold nrrdCheck
    cases hc : _nrrdCheck T w nrrd true <;> rfl
  rw [h1]
  exact Res.code_total hns

set_option maxRecDepth 100000 in
/-- C35, as stated, fails: the plain example (dim 3, spaceDim 0) passes the
aggregate check; the object that differs from it only in axis slot 15, which
is not a declared axis, passes the dimension validator and then fails in the
space validator, so that validator has read an axis slot with index at least
dim. -/
theorem nrrdCheck_undeclared_slot_counterexample :
    (_nrrdCheck exampleTables 64 (some nrrdPlain) true).code = some 0
      ∧ nrrdPlain = { nrrdStrayDirection with axis := nrrdPlain.axis }
      ∧ (∀ a : Fin 16, a.val < nrrdStrayDirection.dim →
          nrrdStrayDirection.axis a = nrrdPlain.axis a)
      ∧ nrrdStrayDirection.dim ≤ 15
      ∧ _nrrdFieldCheck_dimension nrrdStrayDirection = Res.pass
      ∧ _nrrdFieldCheck_space nrrdStrayDirection = Res.fail NrrdErr.spaceDirectionsNoDim
      ∧ _nrrdCheck exampleTables 64 (some nrrdStrayDirection) true
          = Res.fail (NrrdErr.field 7) := by
  refine ⟨by decide, rfl, ?_, by decide, by decide, by decide, by decide⟩
  intro a ha
  have ha3 : a.val < 3 := ha
  refine setAxis_axis_ne nrrdPlain 15 _ ?_
  intro h
  rw [h] at ha3
  exact absurd ha3 (by decide)

/-- C35, amended: in the dispatch table the dimension validator (position 6)
comes before the validators that loop over the declared axes or call the
consistency checker; whenever one of these runs, every earlier validator has
passed, so `1 <= dim <= NRRD_DIM_MAX` and the validator stays inside the
arrays; the aggregate check as a whole always returns.  With `spaceDim` other
than 0 only declared axes are read: the outcome is the same for any object
that differs only in axis slots at index `>= dim`.  (With `spaceDim = 0` the
consistency checker reads the directions of all `NRRD_DIM_MAX` slots.) -/
theorem nrrdCheck_dimension_first (T : Tables) (w : Nat) (n : Nrrd DM SM)
    (checkData : Bool) :
    (_nrrdFieldCheck T w 6 n = _nrrdFieldCheck_dimension n
        ∧ _nrrdFieldCheck T w 7 n = _nrrdFieldCheck_space n
        ∧ _nrrdFieldCheck T w 8 n = _nrrdFieldCheck_space_dimension n
        ∧ _nrrdFieldCheck T w 9 n = _nrrdFieldCheck_sizes w n
        ∧ _nrrdFieldCheck T w 10 n = _nrrdFieldCheck_spacings n
        ∧ _nrrdFieldCheck T w 11 n = _nrrdFieldCheck_thicknesses n
        ∧ _nrrdFieldCheck T w 12 n = _nrrdFieldCheck_axis_mins n
        ∧ _nrrdFieldCheck T w 13 n = _nrrdFieldCheck_axis_maxs n
        ∧ _nrrdFieldCheck T w 14 n = _nrrdFieldCheck_space_directions n
        ∧ _nrrdFieldCheck T w 15 n = _nrrdFieldCheck_centers n
        ∧ _nrrdFieldCheck T w 16 n = _nrrdFieldCheck_kinds T n
        ∧ _nrrdFieldCheck T w 18 n = _nrrdFieldCheck_units n
        ∧ _nrrdFieldCheck T w 29 n = _nrrdFieldCheck_space_units n
        ∧ _nrrdFieldCheck T w 30 n = _nrrdFieldCheck_space_origin n
        ∧ _nrrdFieldCheck T w 31 n = _nrrdFieldCheck_measurement_frame n)
      ∧ (∀ fi, 6 < fi → fi < nrrdField_last →
          (∀ fj, nrrdField_unknown < fj → fj < fi → checkField T w n fj = Res.pass) →
          1 ≤ n.dim ∧ n.dim ≤ DM ∧ _nrrdFieldCheck T w fi n ≠ Res.stuck)
      ∧ _nrrdCheck T w (some n) checkData ≠ Res.stuck
      ∧ (n.spaceDim ≠ 0 → ∀ ax : Fin DM → NrrdAxisInfo SM,
          (∀ a : Fin DM, a.val < n.dim → ax a = n.axis a) →
          _nrrdCheck T w (some { n with axis := ax }) checkData
            = _nrrdCheck T w (some n) checkData) := by
  refine ⟨⟨rfl, rfl, rfl, rfl, rfl, rfl, rfl, rfl, rfl, rfl, rfl, rfl, rfl, rfl, rfl⟩, ?_,
    aggregate_ne_stuck T w (some n) checkData, ?_⟩
  · intro fi h6 hlast hprev
    have hd := dimension_of_prefix T w n fi h6 hprev
    exact ⟨hd.1, hd.2, fieldCheck_ne_stuck T w n hd.2 fi hlast⟩
  · intro hsd ax hax
    exact aggregate_declared T w n ax hax hsd checkData

set_option maxRecDepth 100000 in
/-- C35, amended, at the oriented example: the sizes validator (position 9)
runs after positions 1 to 8 have passed, with dim in range. -/
theorem nrrdCheck_dimension_first_witness :
    1 ≤ nrrdOriented.dim ∧ nrrdOriented.dim ≤ 16
      ∧ _nrrdFieldCheck exampleTables 64 9 nrrdOriented ≠ Res.stuck :=
  (nrrdCheck_dimension_first exampleTables 64 nrrdOriented true).2.1 9 (by decide) (by decide)
    (fun fj h1 h2 => by
      have h3 : fj < 9 := h2
      have h4 : 0 < fj := h1
      interval_cases fj <;> decide)

end AggregateClaims

end Teem
